import Mathlib

/-!
# OCILIB typed array manager: a shallow embedding of array.c and timestamp.c

The C code is translated to pure functions over an explicit program state.
Pointers are natural numbers (0 is the null pointer).  Objects of different C
types live in separate components of the state (a typed heap): a pointer to a
block never aliases an OCI_Array record.  Calls into collaborators that are not
part of the translated files (the allocator, the list helper, the native
descriptor allocator, element constructors of other kinds) are resolved by an
explicit oracle argument and recorded in an event log.

The handle ownership graph of ocilib_core.hpp (HandleHolder and SmartHandle) is
declared in the header without its member functions; its operations are modelled
as functions on a forest of control blocks with a reference per holder and a log
of the native handles passed to the free function.

Wrapper structs are kept as separate objects by start address.  The slot offset of
array.c line 82 wraps in unsigned int arithmetic, and for arrays whose slots then
overlap the timestamp path of ArrayInitialize is translated a second time, over a
wrapper block that is a range of bytes.

The callbacks of callback.c that the native client calls (the bind callbacks, the
change notification callback and the high availability event callback) are
translated over states of their own: the binds and statements by address, the
subscriptions by address, and the calls of user handlers as lists.
-/

namespace Ocilib

/-- Addresses; the null pointer is 0. -/
abbrev Ptr := Nat

/-- The C null pointer. -/
def NULL : Ptr := 0

/-- Modelled from the spec: the "none" handle kind / unknown value of the public header. -/
def OCI_UNKNOWN : Nat := 0

/-- Modelled from the spec: element kind tag "numeric" (value of the public header; only
distinctness of the kind tags is used). -/
def OCI_CDT_NUMERIC : Nat := 1
/-- Modelled from the spec: element kind tag "datetime". -/
def OCI_CDT_DATETIME : Nat := 3
/-- Modelled from the spec: kind tag of text buffers, which are not library objects. -/
def OCI_CDT_TEXT : Nat := 4
/-- Modelled from the spec: element kind tag "LOB". -/
def OCI_CDT_LOB : Nat := 7
/-- Modelled from the spec: element kind tag "file". -/
def OCI_CDT_FILE : Nat := 8
/-- Modelled from the spec: element kind tag "timestamp". -/
def OCI_CDT_TIMESTAMP : Nat := 9
/-- Modelled from the spec: element kind tag "interval". -/
def OCI_CDT_INTERVAL : Nat := 10
/-- Modelled from the spec: kind tag of raw buffers, which are not library objects. -/
def OCI_CDT_RAW : Nat := 11
/-- Modelled from the spec: element kind tag "object". -/
def OCI_CDT_OBJECT : Nat := 12
/-- Modelled from the spec: element kind tag "collection". -/
def OCI_CDT_COLLECTION : Nat := 13
/-- Modelled from the spec: element kind tag "reference". -/
def OCI_CDT_REF : Nat := 14
/-- Modelled from the spec: kind tag of booleans, which are not library objects. -/
def OCI_CDT_BOOLEAN : Nat := 15
/-- Modelled from the spec: numeric sub kind of the native number value type. -/
def OCI_NUM_NUMBER : Nat := 128

/-- Modelled from the spec: state tag of an individually heap-allocated wrapper. -/
def OCI_OBJECT_ALLOCATED : Nat := 1
/-- Modelled from the spec: state tag of a library-fetched wrapper. -/
def OCI_OBJECT_FETCHED_CLEAN : Nat := 2
/-- Modelled from the spec: state tag of a fetched wrapper that was modified. -/
def OCI_OBJECT_FETCHED_DIRTY : Nat := 3
/-- Modelled from the spec: state tag "array-allocated". -/
def OCI_OBJECT_ALLOCATED_ARRAY : Nat := 4

/-- Width of the C type unsigned int. -/
def UINT_RANGE : Nat := 2 ^ 32

/-- Declarations used by array.c and timestamp.c whose definitions are in headers that are
not part of the translated files; they are parameters of the embedding. -/
structure Config where
  /-- The test applied to (elem_type, elem_subtype) that decides whether the elements are
  library objects, for which an object index is kept. -/
  IS_OCILIB_OBJECT : Nat → Nat → Bool
  /-- Size in bytes of the native date value. -/
  sizeof_OCIDate : Nat
  /-- Size in bytes of the native number value. -/
  sizeof_OCINumber : Nat
  /-- Size in bytes of a native timestamp descriptor pointer. -/
  sizeof_OCIDateTime_ptr : Nat
  /-- Size in bytes of the timestamp wrapper struct. -/
  sizeof_OCI_Timestamp : Nat
  /-- Map from (element kind, sub kind) to the native descriptor kind. -/
  ExternalSubTypeToHandleType : Nat → Nat → Nat
  /-- The table TimestampTypeValues of accepted timestamp sub kinds. -/
  TimestampTypeValues : List Nat

/-- The test IS_OCI_NUMBER(type, subtype) of array.c line 88. -/
def IS_OCI_NUMBER (type subtype : Nat) : Bool :=
  type == OCI_CDT_NUMERIC && subtype == OCI_NUM_NUMBER

/-- Record OCI_Array: the fields assigned in ArrayCreate. -/
structure OCI_Array where
  con : Ptr
  err : Ptr
  env : Ptr
  elem_type : Nat
  elem_subtype : Nat
  elem_size : Nat
  nb_elem : Nat
  struct_size : Nat
  handle_type : Nat
  tab_obj : Ptr
  mem_handle : Ptr
  mem_struct : Ptr
deriving DecidableEq, Repr

/-- A zero-filled OCI_Array record, as returned by the list helper. -/
def OCI_Array.zero : OCI_Array :=
  { con := 0, err := 0, env := 0, elem_type := 0, elem_subtype := 0, elem_size := 0,
    nb_elem := 0, struct_size := 0, handle_type := 0, tab_obj := 0, mem_handle := 0,
    mem_struct := 0 }

/-- Wrapper struct OCI_Timestamp; its first two fields are the common prefix OCI_Datatype
through which array.c accesses a wrapper of any kind. -/
structure OCI_Timestamp where
  handle : Ptr
  hstate : Nat
  con : Ptr
  err : Ptr
  env : Ptr
  type : Nat
deriving DecidableEq, Repr

/-- A zero-filled wrapper. -/
def OCI_Timestamp.zero : OCI_Timestamp :=
  { handle := 0, hstate := 0, con := 0, err := 0, env := 0, type := 0 }

/-- Observable events: allocator calls, collaborator calls and the element accesses that
array.c makes on its blocks. -/
inductive Event where
  /-- MemoryAlloc returned the block p. -/
  | alloc (p : Ptr)
  /-- MemoryFree released the non-null block p. -/
  | free (p : Ptr)
  /-- MemoryAllocDescriptor was called for a descriptor of the given kind. -/
  | descAlloc (type : Nat) (ok : Bool)
  /-- MemoryFreeDescriptor was called on the handle h. -/
  | descFree (h : Ptr) (type : Nat)
  /-- MemoryAllocDescriptorArray was called on the handle block. -/
  | descAllocArray (block : Ptr) (type : Nat) (nb : Nat) (ok : Bool)
  /-- MemoryFreeDescriptorArray was called on the handle block. -/
  | descFreeArray (block : Ptr) (type : Nat) (nb : Nat)
  /-- FreeObjectFromType was called on obj. -/
  | elemFree (obj : Ptr) (type : Nat)
  /-- An element constructor outside the translated files was called. -/
  | elemInit (type : Nat) (data : Ptr) (handle : Ptr) (ok : Bool)
  /-- Read of element i of the pointer block b. -/
  | read (b : Ptr) (i : Nat)
  /-- Write of element i of the pointer block b. -/
  | write (b : Ptr) (i : Nat)
  /-- Read of a field of the wrapper struct at address p. -/
  | objRead (p : Ptr)
  /-- Write of a field of the wrapper struct at address p. -/
  | objWrite (p : Ptr)
deriving DecidableEq, Repr

/-- Undefined behaviour that the embedding makes explicit. -/
inductive Fault where
  /-- A null pointer was dereferenced. -/
  | nullDeref
  /-- A record was accessed after it had been freed. -/
  | useAfterFree
deriving DecidableEq, Repr

/-- Program state. -/
structure State where
  /-- The process-wide list Env.arrs: the data pointers of its items, in list order. -/
  arrs : List Ptr
  /-- The OCI_Array records that are currently allocated. -/
  arrayAt : Ptr → Option OCI_Array
  /-- The blocks handed out by MemoryAlloc and not freed since. -/
  live : List Ptr
  /-- Contents of a block viewed as an array of pointers: slots b i is ((void **) b)[i]. -/
  slots : Ptr → Nat → Ptr
  /-- Contents of wrapper structs, by start address.  Wrappers are separate objects here,
  which is what the source has as long as the wrappers in use occupy disjoint ranges of
  bytes; wrapper slots that overlap are covered by ByteState. -/
  objAt : Ptr → OCI_Timestamp
  /-- Field err of a connection. -/
  con_err : Ptr → Ptr
  /-- Field env of a connection. -/
  con_env : Ptr → Ptr
  /-- Global Env.err. -/
  Env_err : Ptr
  /-- Global Env.env. -/
  Env_env : Ptr
  /-- Whether the runtime client supports timestamps (the test made by the
  timestamp-enabled entry check). -/
  timestamp_enabled : Bool
  /-- The events so far, oldest first. -/
  log : List Event

/-- Pointwise update of a function. -/
def upd {α : Type} (f : Nat → α) (a : Nat) (v : α) : Nat → α :=
  fun x => if x = a then v else f x

/-- Appends one event to the log. -/
def State.emit (st : State) (e : Event) : State :=
  { st with log := st.log ++ [e] }

/-! ## Collaborators outside the translated files -/

/-- Modelled from the spec: the allocator behind the macros ALLOC_DATA and ALLOC_BUFFER.  The
environment either refuses the request (none) or proposes an address; an address that is
null or already in use counts as a refusal.  On success the block is zero-filled. -/
def MemoryAlloc (choice : Option Ptr) (st : State) : Ptr × State :=
  match choice with
  | none => (NULL, st)
  | some p =>
    if p ≠ NULL ∧ p ∉ st.live then
      (p, { st with live := p :: st.live
                    slots := upd st.slots p (fun _ => NULL)
                    objAt := upd st.objAt p OCI_Timestamp.zero
                    log := st.log ++ [Event.alloc p] })
    else (NULL, st)

/-- Modelled from the spec: the release routine behind the macro FREE; releasing the null
pointer does nothing. -/
def MemoryFree (p : Ptr) (st : State) : State :=
  if p = NULL then st
  else { st with live := st.live.erase p, log := st.log ++ [Event.free p] }

/-- Modelled from the spec: the macro ALLOC_BUFFER(type, ptr, size, count), which allocates
only when the call status is still good and the pointer is null, and then sets the status
to whether the allocation succeeded.  Returns the new status and pointer. -/
def ALLOC_BUFFER (choice : Option Ptr) (STATUS : Bool) (ptr : Ptr) (st : State) :
    Bool × Ptr × State :=
  if STATUS && ptr == NULL then
    let res := MemoryAlloc choice st
    (res.1 != NULL, res.1, res.2)
  else (STATUS, ptr, st)

/-- Modelled from the spec: ListAppend(Env.arrs, size) of the list helper: allocates a
zero-filled record and registers it at the end of the process-wide list; returns null, with
the list unchanged, when the allocation fails. -/
def ListAppend (choice : Option Ptr) (st : State) : Ptr × State :=
  let res := MemoryAlloc choice st
  if res.1 = NULL then (NULL, st)
  else (res.1, { res.2 with arrs := res.2.arrs ++ [res.1]
                            arrayAt := upd res.2.arrayAt res.1 (some OCI_Array.zero) })

/-- Modelled from the spec: ListFind(list, proc, key) of the list helper: the data pointer
of the first item for which the callback answers true, or null. -/
def ListFind (proc : State → Ptr → Ptr → Except Fault Bool) (key : Ptr) (st : State) :
    List Ptr → Except Fault Ptr
  | [] => .ok NULL
  | p :: ps =>
    match proc st p key with
    | .error e => .error e
    | .ok true => .ok p
    | .ok false => ListFind proc key st ps

/-- Modelled from the spec: ListRemove(Env.arrs, data) of the list helper: unlinks the
first item whose data pointer is data; the result says whether there was one. -/
def ListRemove (data : Ptr) (st : State) : Bool × State :=
  if data ∈ st.arrs then (true, { st with arrs := st.arrs.erase data })
  else (false, st)

/-- Modelled from the spec: releasing the memory of an OCI_Array record with the macro
FREE: the block is released and the record is gone. -/
def FREE_arr (arr : Ptr) (st : State) : State :=
  if arr = NULL then st
  else { MemoryFree arr st with arrayAt := upd st.arrayAt arr none }

/-- Modelled from the spec: the collaborator that allocates nb native descriptors of one
kind into the handle block; none is a failure, some f writes descriptor f i to slot i. -/
def MemoryAllocDescriptorArray (choice : Option (Nat → Ptr)) (block : Ptr) (type nb : Nat)
    (st : State) : Bool × State :=
  match choice with
  | none => (false, st.emit (Event.descAllocArray block type nb false))
  | some f =>
    (true, { st with slots := upd st.slots block
                                (fun i => if i < nb then f i else st.slots block i)
                     log := st.log ++ [Event.descAllocArray block type nb true] })

/-- Modelled from the spec: the collaborator that frees the native descriptors held in the
handle block. -/
def MemoryFreeDescriptorArray (block : Ptr) (type nb : Nat) (st : State) : State :=
  st.emit (Event.descFreeArray block type nb)

/-- Modelled from the spec: the collaborator that allocates one native descriptor; none is a
failure, some h is the new descriptor. -/
def MemoryAllocDescriptor (choice : Option Ptr) (type : Nat) (st : State) :
    Bool × Option Ptr × State :=
  match choice with
  | none => (false, none, st.emit (Event.descAlloc type false))
  | some h => (true, some h, st.emit (Event.descAlloc type true))

/-- Modelled from the spec: the collaborator that frees one native descriptor. -/
def MemoryFreeDescriptor (h : Ptr) (type : Nat) (st : State) : State :=
  st.emit (Event.descFree h type)

/-! ## timestamp.c -/

/-- Modelled from the spec: the entry checks of TimestampFree (the macros
OCI_CALL_CHECK_PTR, OCI_CALL_CHECK_TIMESTAMP_ENABLED and OCI_CALL_CHECK_OBJECT_FETCHED): the
pointer is not null, timestamps are supported, and the wrapper is not a clean library-fetched
one. -/
def TimestampFree.entryChecks (tmsp : Ptr) (st : State) : Bool :=
  tmsp != NULL && st.timestamp_enabled && (st.objAt tmsp).hstate != OCI_OBJECT_FETCHED_CLEAN

/-- TimestampFree (timestamp.c 138-167). -/
def TimestampFree (cfg : Config) (tmsp : Ptr) (st : State) : Bool × State :=
  if TimestampFree.entryChecks tmsp st then
    let w := st.objAt tmsp
    let st1 :=
      if OCI_OBJECT_ALLOCATED = w.hstate then
        MemoryFreeDescriptor w.handle (cfg.ExternalSubTypeToHandleType OCI_CDT_TIMESTAMP w.type) st
      else st
    let st2 :=
      if OCI_OBJECT_ALLOCATED_ARRAY ≠ w.hstate then MemoryFree tmsp st1 else st1
    (true, st2)
  else (false, st)

/-- Environment choices consumed by one call of TimestampInit. -/
structure TimestampOracle where
  /-- Outcome of allocating the wrapper, when it is allocated. -/
  wrapper : Option Ptr
  /-- Outcome of allocating the native descriptor, when it is allocated. -/
  descriptor : Option Ptr

/-- The statements of TimestampInit that run when the wrapper is available
(timestamp.c 50-83); the result is the call status. -/
def TimestampInit.fill (cfg : Config) (o : TimestampOracle) (con tmsp buffer : Ptr)
    (type : Nat) (st : State) : Bool × State :=
  let w := st.objAt tmsp
  let w := { w with con := con, handle := buffer, type := type }
  -- get the right error handle
  let w := if con ≠ NULL then { w with err := st.con_err con, env := st.con_env con }
           else { w with err := st.Env_err, env := st.Env_env }
  -- allocate buffer if needed
  if w.handle = NULL ∨ OCI_OBJECT_ALLOCATED_ARRAY = w.hstate then
    if OCI_OBJECT_ALLOCATED_ARRAY ≠ w.hstate then
      let d := MemoryAllocDescriptor o.descriptor
                 (cfg.ExternalSubTypeToHandleType OCI_CDT_TIMESTAMP type) st
      let w := match d.2.1 with
               | some h => { w with handle := h }
               | none => w
      let w := { w with hstate := OCI_OBJECT_ALLOCATED }
      (d.1, { d.2.2 with objAt := upd d.2.2.objAt tmsp w })
    else (true, { st with objAt := upd st.objAt tmsp w })
  else
    (true, { st with objAt := upd st.objAt tmsp { w with hstate := OCI_OBJECT_FETCHED_CLEAN } })

/-- TimestampInit (timestamp.c 35-101); array.c calls it as TimestampInitialize. -/
def TimestampInit (cfg : Config) (o : TimestampOracle) (con tmsp buffer : Ptr) (type : Nat)
    (st : State) : Ptr × State :=
  -- OCI_ALLOCATE_DATA(OCI_IPC_TIMESTAMP, tmsp, 1)
  let a := ALLOC_BUFFER o.wrapper true tmsp st
  let tmsp := a.2.1
  let r : Bool × State :=
    if a.1 then TimestampInit.fill cfg o con tmsp buffer type a.2.2 else (false, a.2.2)
  -- check for failure
  if !r.1 && tmsp != NULL then (NULL, (TimestampFree cfg tmsp r.2).2)
  else (tmsp, r.2)

/-- Modelled from the spec: FreeObjectFromType(obj, type), the kind-specific element free.
For timestamps it is TimestampFree; the free routines of the other kinds are outside the
translated files and only the call is recorded (they do not free wrapper struct memory of
an array element). -/
def FreeObjectFromType (cfg : Config) (obj : Ptr) (type : Nat) (st : State) : Bool × State :=
  let st1 := st.emit (Event.elemFree obj type)
  if type = OCI_CDT_TIMESTAMP then TimestampFree cfg obj st1
  else (obj != NULL, st1)

/-- Modelled from the spec: an element constructor of a kind other than timestamp
(NumberInitialize, DateInitialize, LobInitialize, FileInitialize, IntervalInitialize,
ObjectInitialize, CollectionInitialize, ReferenceInitialize), called on a wrapper that lies
in the array: on success it stitches the wrapper to its native handle and returns the
wrapper, on failure it returns null. -/
def ElemInitialize (ok : Bool) (type : Nat) (data handle : Ptr) (st : State) : Ptr × State :=
  let st1 := st.emit (Event.elemInit type data handle ok)
  if ok then
    (data, { st1 with objAt := upd st1.objAt data { st1.objAt data with handle := handle } })
  else (NULL, st1)

/-! ## array.c -/

/-- Environment choices consumed by one call of ArrayCreate. -/
structure Oracle where
  /-- Outcome of the allocation made by ListAppend. -/
  arr : Option Ptr
  /-- Outcome of allocating the object index. -/
  tab_obj : Option Ptr
  /-- Outcome of allocating the native handle block. -/
  mem_handle : Option Ptr
  /-- Outcome of allocating the wrapper struct block. -/
  mem_struct : Option Ptr
  /-- Outcome of allocating the native descriptors. -/
  descriptors : Option (Nat → Ptr)
  /-- Whether the constructor of element i succeeds (kinds other than timestamp). -/
  ctor : Nat → Bool
  /-- Choices for the call of TimestampInit on element i. -/
  tmsp : Nat → TimestampOracle

/-- Read of ((void **) b)[i]. -/
def readSlot (b : Ptr) (i : Nat) (st : State) : Except Fault (Ptr × State) :=
  if b = NULL then .error .nullDeref
  else .ok (st.slots b i, st.emit (Event.read b i))

/-- Write of ((void **) b)[i] = v. -/
def writeSlot (b : Ptr) (i : Nat) (v : Ptr) (st : State) : Except Fault State :=
  if b = NULL then .error .nullDeref
  else .ok { st with slots := upd st.slots b (upd (st.slots b) i v)
                     log := st.log ++ [Event.write b i] }

/-- Write of ((OCI_Datatype *) data)->hstate = v. -/
def writeHstate (data : Ptr) (v : Nat) (st : State) : Except Fault State :=
  if data = NULL then .error .nullDeref
  else .ok { st with objAt := upd st.objAt data { st.objAt data with hstate := v }
                     log := st.log ++ [Event.objWrite data] }

/-- Read of ((type *) obj)->handle. -/
def readHandle (obj : Ptr) (st : State) : Except Fault (Ptr × State) :=
  if obj = NULL then .error .nullDeref
  else .ok ((st.objAt obj).handle, st.emit (Event.objRead obj))

/-- ArrayFindAny (array.c 46-53). -/
def ArrayFindAny (st : State) (arr : Ptr) (handles : Ptr) : Except Fault Bool :=
  if arr = NULL then .ok false
  else match st.arrayAt arr with
    | none => .error .useAfterFree
    | some r => .ok (r.tab_obj == handles || r.mem_struct == handles)

/-- ArrayFindObjects (array.c 59-67). -/
def ArrayFindObjects (st : State) (arr : Ptr) (handles : Ptr) : Except Fault Bool :=
  if arr = NULL then .ok false
  else match st.arrayAt arr with
    | none => .error .useAfterFree
    | some r => .ok (r.tab_obj == handles)

/-- The macro ARRAY_INIT(type, func) (array.c 37-39), applied to the result of the
constructor call func. -/
def ARRAY_INIT (r : OCI_Array) (i : Nat) (func : Ptr × State) : Except Fault State :=
  -- arr->tab_obj[i] = func;
  match writeSlot r.tab_obj i func.1 func.2 with
  | .error e => .error e
  | .ok st1 =>
    -- ((void **)(arr->mem_handle))[i] = ((type *) arr->tab_obj[i])->handle;
    match readSlot r.tab_obj i st1 with
    | .error e => .error e
    | .ok (obj, st2) =>
      match readHandle obj st2 with
      | .error e => .error e
      | .ok (h, st3) => writeSlot r.mem_handle i h st3

/-- The switch on arr->elem_type in the loop body of ArrayInitialize (array.c 101-175). -/
def ArrayInitialize.dispatch (cfg : Config) (o : Oracle) (_typinf : Ptr) (r : OCI_Array)
    (i : Nat) (data handle : Ptr) (st : State) : Except Fault State :=
  if r.elem_type = OCI_CDT_NUMERIC then
    if OCI_NUM_NUMBER = r.elem_subtype then
      let c := ElemInitialize (o.ctor i) OCI_CDT_NUMERIC data handle st
      writeSlot r.tab_obj i c.1 c.2
    else .ok st
  else if r.elem_type = OCI_CDT_DATETIME then
    let c := ElemInitialize (o.ctor i) OCI_CDT_DATETIME data handle st
    writeSlot r.tab_obj i c.1 c.2
  else if r.elem_type = OCI_CDT_LOB then
    ARRAY_INIT r i (ElemInitialize (o.ctor i) OCI_CDT_LOB data handle st)
  else if r.elem_type = OCI_CDT_FILE then
    ARRAY_INIT r i (ElemInitialize (o.ctor i) OCI_CDT_FILE data handle st)
  else if r.elem_type = OCI_CDT_TIMESTAMP then
    ARRAY_INIT r i (TimestampInit cfg (o.tmsp i) r.con data handle r.elem_subtype st)
  else if r.elem_type = OCI_CDT_INTERVAL then
    ARRAY_INIT r i (ElemInitialize (o.ctor i) OCI_CDT_INTERVAL data handle st)
  else if r.elem_type = OCI_CDT_OBJECT then
    ARRAY_INIT r i (ElemInitialize (o.ctor i) OCI_CDT_OBJECT data handle st)
  else if r.elem_type = OCI_CDT_COLLECTION then
    ARRAY_INIT r i (ElemInitialize (o.ctor i) OCI_CDT_COLLECTION data handle st)
  else if r.elem_type = OCI_CDT_REF then
    ARRAY_INIT r i (ElemInitialize (o.ctor i) OCI_CDT_REF data handle st)
  else .ok st

/-- The address of the wrapper slot i, computed in unsigned int arithmetic as in
array.c line 82: mem_struct + (struct_size * i). -/
def ArrayInitialize.data (r : OCI_Array) (i : Nat) : Ptr :=
  r.mem_struct + (r.struct_size * i) % UINT_RANGE

/-- The native handle location of element i (array.c 84-95). -/
def ArrayInitialize.handle (cfg : Config) (r : OCI_Array) (i : Nat) (st : State) :
    Except Fault (Ptr × State) :=
  if OCI_CDT_DATETIME = r.elem_type then
    .ok (r.mem_handle + i * cfg.sizeof_OCIDate, st)
  else if IS_OCI_NUMBER r.elem_type r.elem_subtype then
    .ok (r.mem_handle + i * cfg.sizeof_OCINumber, st)
  else readSlot r.mem_handle i st

/-- One iteration of the loop of ArrayInitialize (array.c 80-176). -/
def ArrayInitialize.body (cfg : Config) (o : Oracle) (typinf : Ptr) (r : OCI_Array)
    (i : Nat) (st : State) : Except Fault State :=
  let data := ArrayInitialize.data r i
  match ArrayInitialize.handle cfg r i st with
  | .error e => .error e
  | .ok (handle, st1) =>
    -- arr->tab_obj[i] = data;
    match writeSlot r.tab_obj i data st1 with
    | .error e => .error e
    | .ok st2 =>
      -- ((OCI_Datatype *) data)->hstate = OCI_OBJECT_ALLOCATED_ARRAY;
      match writeHstate data OCI_OBJECT_ALLOCATED_ARRAY st2 with
      | .error e => .error e
      | .ok st3 => ArrayInitialize.dispatch cfg o typinf r i data handle st3

/-- The loop of ArrayInitialize: k more iterations starting at index i. -/
def ArrayInitialize.loop (cfg : Config) (o : Oracle) (typinf : Ptr) (r : OCI_Array) :
    Nat → Nat → State → Except Fault State
  | _, 0, st => .ok st
  | i, k + 1, st =>
    match ArrayInitialize.body cfg o typinf r i st with
    | .error e => .error e
    | .ok st1 => ArrayInitialize.loop cfg o typinf r (i + 1) k st1

/-- ArrayInitialize (array.c 73-179).  The fields of the record are read once: nothing in
the loop writes to the record itself. -/
def ArrayInitialize (cfg : Config) (o : Oracle) (arr : Ptr) (typinf : Ptr) (st : State) :
    Except Fault (Bool × State) :=
  if arr = NULL then .error .nullDeref
  else match st.arrayAt arr with
    | none => .error .useAfterFree
    | some r =>
      match ArrayInitialize.loop cfg o typinf r 0 r.nb_elem st with
      | .error e => .error e
      | .ok st1 => .ok (true, st1)

/-- The loop of ArrayDispose (array.c 196-199): k more iterations starting at index i. -/
def ArrayDispose.loop (cfg : Config) (r : OCI_Array) : Nat → Nat → State → Except Fault State
  | _, 0, st => .ok st
  | i, k + 1, st =>
    match readSlot r.tab_obj i st with
    | .error e => .error e
    | .ok (obj, st1) =>
      ArrayDispose.loop cfg r (i + 1) k (FreeObjectFromType cfg obj r.elem_type st1).2

/-- ArrayDispose (array.c 185-216).  The fields of the record are read once; the macro FREE
sets each freed field to null at the end. -/
def ArrayDispose (cfg : Config) (arr : Ptr) (st : State) : Except Fault (Bool × State) :=
  -- CHECK(NULL == arr, FALSE)
  if arr = NULL then .ok (false, st)
  else match st.arrayAt arr with
    | none => .error .useAfterFree
    | some r =>
      match (if cfg.IS_OCILIB_OBJECT r.elem_type r.elem_subtype then
               ArrayDispose.loop cfg r 0 r.nb_elem st
             else .ok st) with
      | .error e => .error e
      | .ok st1 =>
        let st2 :=
          if OCI_UNKNOWN ≠ r.handle_type then
            MemoryFreeDescriptorArray r.mem_handle r.handle_type r.nb_elem st1
          else st1
        let st3 := MemoryFree r.mem_handle st2
        let st4 := MemoryFree r.mem_struct st3
        let st5 := MemoryFree r.tab_obj st4
        -- the macro FREE also sets the freed field to null
        let r1 : OCI_Array := { r with mem_handle := NULL, mem_struct := NULL, tab_obj := NULL }
        .ok (true, { st5 with arrayAt := upd st5.arrayAt arr (some r1) })

/-- The buffer allocations of ArrayCreate (array.c 257-265) for the record r0; the result
is the call status, the record with the three block pointers, and the state. -/
def ArrayCreate.buffers (cfg : Config) (o : Oracle) (r0 : OCI_Array) (st : State) :
    Bool × OCI_Array × State :=
  let t := if cfg.IS_OCILIB_OBJECT r0.elem_type r0.elem_subtype then
             ALLOC_BUFFER o.tab_obj true r0.tab_obj st
           else (true, r0.tab_obj, st)
  let h := ALLOC_BUFFER o.mem_handle t.1 r0.mem_handle t.2.2
  let s := ALLOC_BUFFER o.mem_struct h.1 r0.mem_struct h.2.2
  (s.1, { r0 with tab_obj := t.2.1, mem_handle := h.2.1, mem_struct := s.2.1 }, s.2.2)

/-- The descriptor allocation and the initialisation of ArrayCreate (array.c 267-280) for
the record r stored at arr; the result is the call status. -/
def ArrayCreate.finish (cfg : Config) (o : Oracle) (arr : Ptr) (nb_elem handle_type : Nat)
    (typinf : Ptr) (STATUS : Bool) (r : OCI_Array) (st : State) : Except Fault (Bool × State) :=
  let d := if STATUS && handle_type != 0 then
             MemoryAllocDescriptorArray o.descriptors r.mem_handle handle_type nb_elem st
           else (STATUS, st)
  if d.1 && r.tab_obj != NULL && r.mem_handle != NULL then
    ArrayInitialize cfg o arr typinf d.2
  else .ok (d.1, d.2)

/-- The statements of ArrayCreate that run when the record was obtained (array.c 247-280);
the result is the call status. -/
def ArrayCreate.fill (cfg : Config) (o : Oracle) (arr : Ptr)
    (con nb_elem elem_type elem_subtype elem_size struct_size handle_type : Nat)
    (typinf : Ptr) (st : State) : Except Fault (Bool × State) :=
  match st.arrayAt arr with
  | none => .error .useAfterFree
  | some z =>
    let r0 : OCI_Array :=
      { z with con := con
               err := if con ≠ NULL then st.con_err con else st.Env_err
               env := if con ≠ NULL then st.con_env con else st.Env_env
               elem_type := elem_type
               elem_subtype := elem_subtype
               elem_size := elem_size
               nb_elem := nb_elem
               struct_size := struct_size
               handle_type := handle_type }
    let b := ArrayCreate.buffers cfg o r0 st
    let st1 : State := { b.2.2 with arrayAt := upd b.2.2.arrayAt arr (some b.2.1) }
    ArrayCreate.finish cfg o arr nb_elem handle_type typinf b.1 b.2.1 st1

/-- ArrayCreate (array.c 222-292). -/
def ArrayCreate (cfg : Config) (o : Oracle)
    (con nb_elem elem_type elem_subtype elem_size struct_size handle_type : Nat)
    (typinf : Ptr) (st : State) : Except Fault (Ptr × State) :=
  -- arr = ListAppend(Env.arrs, sizeof(*arr)); STATUS = (NULL != arr);
  let a := ListAppend o.arr st
  let arr := a.1
  match (if arr != NULL then
           ArrayCreate.fill cfg o arr con nb_elem elem_type elem_subtype elem_size struct_size
             handle_type typinf a.2
         else .ok (false, a.2)) with
  | .error e => .error e
  | .ok (STATUS, st1) =>
    -- check for failure
    if !STATUS then
      match ArrayDispose cfg arr st1 with
      | .error e => .error e
      | .ok (_, st2) => .ok (NULL, FREE_arr arr st2)
    else .ok (arr, st1)

/-- ArrayFreeFromHandles (array.c 298-314). -/
def ArrayFreeFromHandles (cfg : Config) (handles : Ptr) (st : State) :
    Except Fault (Bool × State) :=
  match ListFind ArrayFindAny handles st st.arrs with
  | .error e => .error e
  | .ok arr =>
    if arr ≠ NULL then
      let rm := ListRemove arr st
      match ArrayDispose cfg arr rm.2 with
      | .error e => .error e
      | .ok (_, st2) => .ok (rm.1, FREE_arr arr st2)
    else .ok (false, st)

/-! ## timestamp.c: the array entry points -/

/-- TimestampArrayCreate (timestamp.c 173-210).  The entry checks (timestamps supported,
sub kind in the table TimestampTypeValues) come from macros outside the translated files;
when one fails the call returns null. -/
def TimestampArrayCreate (cfg : Config) (o : Oracle) (con : Ptr) (type nbelem : Nat)
    (st : State) : Except Fault (Ptr × State) :=
  if !st.timestamp_enabled then .ok (NULL, st)
  else if type ∉ cfg.TimestampTypeValues then .ok (NULL, st)
  else
    match ArrayCreate cfg o con nbelem OCI_CDT_TIMESTAMP type cfg.sizeof_OCIDateTime_ptr
        cfg.sizeof_OCI_Timestamp (cfg.ExternalSubTypeToHandleType OCI_CDT_TIMESTAMP type)
        NULL st with
    | .error e => .error e
    | .ok (arr, st1) =>
      if arr ≠ NULL then
        match st1.arrayAt arr with
        | none => .error .useAfterFree
        | some r => .ok (r.tab_obj, st1)
      else .ok (NULL, st1)

/-- TimestampArrayFree (timestamp.c 216-227).  The pointer check comes from a macro outside
the translated files; on a null pointer the call returns FALSE. -/
def TimestampArrayFree (cfg : Config) (tmsps : Ptr) (st : State) :
    Except Fault (Bool × State) :=
  if tmsps = NULL then .ok (false, st)
  else ArrayFreeFromHandles cfg tmsps st

/-! ## Concrete instances used to evaluate the embedding -/

/-- A configuration with the sizes of a 64-bit build; text, raw and boolean buffers and
numeric values other than the native number are not library objects. -/
def demoConfig : Config :=
  { IS_OCILIB_OBJECT := fun t s =>
      IS_OCI_NUMBER t s ||
        (t != OCI_CDT_NUMERIC && t != OCI_CDT_TEXT && t != OCI_CDT_RAW && t != OCI_CDT_BOOLEAN)
    sizeof_OCIDate := 8
    sizeof_OCINumber := 22
    sizeof_OCIDateTime_ptr := 8
    sizeof_OCI_Timestamp := 48
    ExternalSubTypeToHandleType := fun _ s => 67 + s
    TimestampTypeValues := [1, 2, 3] }

/-- The state of a freshly initialised library: nothing allocated, nothing registered. -/
def emptyState : State :=
  { arrs := [], arrayAt := fun _ => none, live := [], slots := fun _ _ => 0,
    objAt := fun _ => OCI_Timestamp.zero, con_err := fun _ => 0, con_env := fun _ => 0,
    Env_err := 0, Env_env := 0, timestamp_enabled := true, log := [] }

/-- An oracle under which every request succeeds: the record at a, the blocks at t, h
and s, descriptors 1000 + i. -/
def goodOracle (a t h s : Ptr) : Oracle :=
  { arr := some a, tab_obj := some t, mem_handle := some h, mem_struct := some s,
    descriptors := some (fun i => 1000 + i), ctor := fun _ => true,
    tmsp := fun _ => { wrapper := none, descriptor := none } }

/-- The state of a successful or failed call, or the given default after a fault. -/
def stateOf {α : Type} (x : Except Fault (α × State)) (d : State) : State :=
  match x with
  | .ok (_, s) => s
  | .error _ => d

/-- The value returned by a call, if it returned. -/
def valueOf {α : Type} (x : Except Fault (α × State)) : Option α :=
  match x with
  | .ok (v, _) => some v
  | .error _ => none

/-- The state right after a successful creation of a timestamp array of two elements in a
fresh library: the record at 10, the blocks at 20, 30 and 40. -/
def demoState : State :=
  stateOf (ArrayCreate demoConfig (goodOracle 10 20 30 40) 0 2 OCI_CDT_TIMESTAMP 1 8 48 68 0
    emptyState) emptyState

/-- An oracle for an array of a kind without object index and without native descriptors:
the record at a, the blocks at h and s. -/
def plainOracle (a h s : Ptr) : Oracle :=
  { arr := some a, tab_obj := none, mem_handle := some h, mem_struct := some s,
    descriptors := none, ctor := fun _ => true,
    tmsp := fun _ => { wrapper := none, descriptor := none } }

/-- The state after the successful creation of a text array of two elements in a fresh
library: the record at 10, the blocks at 30 and 40, no object index. -/
def textState1 : State :=
  stateOf (ArrayCreate demoConfig (plainOracle 10 30 40) 0 2 OCI_CDT_TEXT 0 16 16 0 0
    emptyState) emptyState

/-- The state after the successful creation of a second text array of two elements: records
at 10 and 50, blocks at 30, 40 and 70, 80; neither array has an object index. -/
def textState : State :=
  stateOf (ArrayCreate demoConfig (plainOracle 50 70 80) 0 2 OCI_CDT_TEXT 0 16 16 0 0
    textState1) emptyState

/-- The state after the successful creation of an array of two plain integers (a numeric
kind that is not the native number) in a fresh library: no object index either. -/
def intState : State :=
  stateOf (ArrayCreate demoConfig (plainOracle 10 30 40) 0 2 OCI_CDT_NUMERIC 8 4 4 0 0
    emptyState) emptyState

/-- The state after the successful creation of a timestamp array without elements in a fresh
library: the record at 10, the blocks at 20, 30 and 40. -/
def zeroState : State :=
  stateOf (ArrayCreate demoConfig (goodOracle 10 20 30 40) 0 0 OCI_CDT_TIMESTAMP 1 8 48 68 0
    emptyState) emptyState

/-- The events that a call added to the log of the state it started from. -/
def newEvents (before after : State) : List Event :=
  after.log.drop before.log.length

/-- The state after a failed creation of a timestamp array of two elements in a fresh
library: the record was obtained at 10 and the object index at 20, then the allocation of
the handle block was refused. -/
def failedState : State :=
  stateOf (ArrayCreate demoConfig { goodOracle 10 20 30 40 with mem_handle := none } 0 2
    OCI_CDT_TIMESTAMP 1 8 48 68 0 emptyState) emptyState

/-- The state after the successful creation of a timestamp array of three elements whose
wrapper size is 2 ^ 31 bytes: the record at 10, the blocks at 20, 30 and 40. -/
def wideState : State :=
  stateOf (ArrayCreate demoConfig (goodOracle 10 20 30 40) 0 3 OCI_CDT_TIMESTAMP 1 8 (2 ^ 31)
    68 0 emptyState) emptyState

/-- An oracle under which every allocation succeeds (the record at 10, the blocks at 20, 30
and 40) and the constructor of every element fails. -/
def failingCtors : Oracle :=
  { goodOracle 10 20 30 40 with ctor := fun _ => false }

/-- The state after the creation, reported as successful, of a date array of two elements in
a fresh library while the constructor of every element fails: the record at 10, the blocks
at 20, 30 and 40. -/
def dateState : State :=
  stateOf (ArrayCreate demoConfig failingCtors 0 2 OCI_CDT_DATETIME 0 8 16 0 0 emptyState)
    emptyState

/-- Every registered record is an allocated block that holds a record, and the object index
of that record is null or an allocated block. -/
def RegistryLive (st : State) : Prop :=
  ∀ q ∈ st.arrs, q ∈ st.live ∧
    ∃ rq, st.arrayAt q = some rq ∧ (rq.tab_obj = NULL ∨ rq.tab_obj ∈ st.live)

/-- The three blocks of the record are allocated and the object index is not the handle
block (they are distinct allocations). -/
def OCI_Array.wired (r : OCI_Array) : Prop :=
  r.tab_obj ≠ NULL ∧ r.mem_handle ≠ NULL ∧ r.mem_struct ≠ NULL ∧ r.tab_obj ≠ r.mem_handle

/-- Every element constructor that ArrayInitialize calls for the record returns the wrapper it
was given: the elements are timestamps, whose constructor is TimestampInit, or the oracle
lets the constructor of every element succeed. -/
def Oracle.ctorsReturnWrapper (o : Oracle) (r : OCI_Array) : Prop :=
  r.elem_type = OCI_CDT_TIMESTAMP ∨ ∀ i, i < r.nb_elem → o.ctor i = true

/-- The part of the state that the loop of ArrayInitialize leaves alone. -/
def SameFrame (st st' : State) : Prop :=
  st'.arrs = st.arrs ∧ st'.arrayAt = st.arrayAt ∧ st'.live = st.live ∧
  st'.timestamp_enabled = st.timestamp_enabled

/-- Wrappers tagged array-allocated in st are still so tagged in st'. -/
def KeepsArrayTag (st st' : State) : Prop :=
  ∀ a, (st.objAt a).hstate = OCI_OBJECT_ALLOCATED_ARRAY →
    (st'.objAt a).hstate = OCI_OBJECT_ALLOCATED_ARRAY

/-- What an element constructor that returns its wrapper data does to the state. -/
def CtorPost (data : Ptr) (st : State) (func : Ptr × State) : Prop :=
  func.1 = data ∧ SameFrame st func.2 ∧ func.2.slots = st.slots ∧ KeepsArrayTag st func.2

/-- What one iteration of the loop of ArrayInitialize at index i establishes and keeps: the
entry i of the object index is data, the other entries are kept. -/
def StepPost (r : OCI_Array) (i : Nat) (data : Ptr) (st st' : State) : Prop :=
  SameFrame st st' ∧ st'.slots r.tab_obj i = data ∧
  (∀ j, j ≠ i → st'.slots r.tab_obj j = st.slots r.tab_obj j) ∧ KeepsArrayTag st st'

/-- The record that ArrayCreate fills in (array.c 247-265) in state st for the three block
pointers t, h and s. -/
def ArrayCreate.record (st : State)
    (con nb_elem elem_type elem_subtype elem_size struct_size handle_type : Nat)
    (t h s : Ptr) : OCI_Array :=
  { con := con
    err := if con ≠ NULL then st.con_err con else st.Env_err
    env := if con ≠ NULL then st.con_env con else st.Env_env
    elem_type := elem_type
    elem_subtype := elem_subtype
    elem_size := elem_size
    nb_elem := nb_elem
    struct_size := struct_size
    handle_type := handle_type
    tab_obj := t
    mem_handle := h
    mem_struct := s }

/-- The block released by the event, if the event is a release by MemoryFree. -/
def Event.freed : Event → Option Ptr
  | .free p => some p
  | _ => none

/-- Whether the event is a call of FreeObjectFromType. -/
def Event.isElemFree : Event → Bool
  | .elemFree _ _ => true
  | _ => false

/-- Whether the event is an access to an element of a block or to a wrapper. -/
def Event.isAccess : Event → Bool
  | .read _ _ => true
  | .write _ _ => true
  | .objRead _ => true
  | .objWrite _ => true
  | _ => false

/-- The blocks released by MemoryFree in a list of events, in order. -/
def freedBlocks (l : List Event) : List Ptr := l.filterMap Event.freed

/-- The number of calls of FreeObjectFromType in a list of events. -/
def elemFreeCalls (l : List Event) : Nat := l.countP Event.isElemFree

/-- The events of the loop of ArrayDispose over k elements from index i when no element free
releases anything: a read of the object index entry and the element free call, per element. -/
def ArrayDispose.loopEvents (r : OCI_Array) (entry : Nat → Ptr) : Nat → Nat → List Event
  | _, 0 => []
  | i, k + 1 =>
    Event.read r.tab_obj i :: Event.elemFree (entry i) r.elem_type ::
      ArrayDispose.loopEvents r entry (i + 1) k

/-- The events of ArrayDispose after its loop: the descriptor free when the record has a
handle kind, then the releases of the blocks that are not null. -/
def ArrayDispose.tailEvents (r : OCI_Array) : List Event :=
  (if OCI_UNKNOWN ≠ r.handle_type then
    [Event.descFreeArray r.mem_handle r.handle_type r.nb_elem] else []) ++
  (if r.mem_handle = NULL then [] else [Event.free r.mem_handle]) ++
  (if r.mem_struct = NULL then [] else [Event.free r.mem_struct]) ++
  (if r.tab_obj = NULL then [] else [Event.free r.tab_obj])

/-- A fresh library plus one timestamp that was allocated on its own: the wrapper at 7, tagged
OCI_OBJECT_ALLOCATED, with the native descriptor 9. -/
def loneTimestamp : State :=
  { emptyState with
    live := [7]
    objAt := upd emptyState.objAt 7
      { OCI_Timestamp.zero with hstate := OCI_OBJECT_ALLOCATED, handle := 9 } }

/-- Whether the event is a call of the descriptor array allocator or of the descriptor array
free. -/
def Event.isArrayDescCall : Event → Bool
  | .descAllocArray _ _ _ _ => true
  | .descFreeArray _ _ _ => true
  | _ => false

/-- The state after the disposal of the timestamp array of demoState. -/
def disposedState : State :=
  stateOf (ArrayDispose demoConfig 10 demoState) emptyState

/-- The log of st' extends the log of st by events none of which is a descriptor array
call. -/
def NoArrayDescCall (st st' : State) : Prop :=
  ∃ evs, st'.log = st.log ++ evs ∧ ∀ e ∈ evs, e.isArrayDescCall = false

/-! ## The handle ownership graph (ocilib_core.hpp) -/

/-- Modelled from the spec: an ordered collection of live control blocks (class SmartHandle,
ocilib_core.hpp 277-311: the class is declared there, its member functions are defined in no
file of the translated sources).  A block has its native handle (_handle), the list of the
holders registered with it (_holders, holders are named by numbers) and the ordered
collection of its child blocks (_children); rest is the remainder of the collection the block
is in.  The weak parent reference (_parent) of a block is the block in whose children it
occurs.  A control block is named by its native handle. -/
inductive SmartHandles where
  | nil : SmartHandles
  | cons (handle : Nat) (holders : List Nat) (children : SmartHandles) (rest : SmartHandles) :
      SmartHandles
deriving DecidableEq, Repr

/-- The native handles of the blocks of the collection and of all their descendants, a block
before its children. -/
def SmartHandles.handles : SmartHandles → List Nat
  | .nil => []
  | .cons h _ ch rest => h :: (ch.handles ++ rest.handles)

/-- The holders registered with the blocks of the collection and with their descendants. -/
def SmartHandles.holders : SmartHandles → List Nat
  | .nil => []
  | .cons _ hs ch rest => hs ++ (ch.holders ++ rest.holders)

/-- The list _holders of the live block b; empty when there is no such block. -/
def SmartHandles.holdersAt : SmartHandles → Nat → List Nat
  | .nil, _ => []
  | .cons h hs ch rest, b => if h = b then hs else ch.holdersAt b ++ rest.holdersAt b

/-- The ancestors of the live block b, outermost first, followed by b itself; empty when
there is no such block. -/
def SmartHandles.path : SmartHandles → Nat → List Nat
  | .nil, _ => []
  | .cons h _ ch rest, b =>
    if h = b then [h] else if b ∈ ch.handles then h :: ch.path b else rest.path b

/-- Modelled from the spec: SmartHandle::Acquire(holder) on the block b (declared at
ocilib_core.hpp 284, not defined in the translated sources): the holder is registered with
the block, which increments its holder count. -/
def SmartHandle.Acquire : SmartHandles → Nat → Nat → SmartHandles
  | .nil, _, _ => .nil
  | .cons h hs ch rest, b, holder =>
    if h = b then .cons h (hs ++ [holder]) ch rest
    else .cons h hs (SmartHandle.Acquire ch b holder) (SmartHandle.Acquire rest b holder)

/-- Modelled from the spec: SmartHandle::Release(holder) on the block b (declared at
ocilib_core.hpp 285, with the destructor at 282 and DetachFromHolders, DetachFromParent at
297-298; none is defined in the translated sources).  Detaching a holder that is not
registered is a no-op, and so is a release request on a block that is not live.  Otherwise
the holder is detached; if the holder count is still positive nothing else happens; if it
reaches zero the block invokes the free function on its native handle, releases all its
children recursively, leaves the child list of its parent and is destroyed.  The result is
the remaining collection, the native handles passed to the free function in order, and the
holders that were still attached to a destroyed block and are detached from it. -/
def SmartHandle.Release : SmartHandles → Nat → Nat → SmartHandles × List Nat × List Nat
  | .nil, _, _ => (.nil, [], [])
  | .cons h hs ch rest, b, holder =>
    if h = b then
      if holder ∈ hs then
        if hs.filter (fun y => y != holder) = [] then (rest, h :: ch.handles, ch.holders)
        else (.cons h (hs.filter (fun y => y != holder)) ch rest, [], [])
      else (.cons h hs ch rest, [], [])
    else
      let rc := SmartHandle.Release ch b holder
      let rr := SmartHandle.Release rest b holder
      (.cons h hs rc.1 rr.1, rc.2.1 ++ rr.2.1, rc.2.2 ++ rr.2.2)

/-- Modelled from the spec: the state of the handle ownership graph: the live control
blocks, the reference _smartHandle of every holder (class HandleHolder, ocilib_core.hpp
247-316; none is the null reference), and the native handles passed to the free function so
far, oldest first. -/
structure HandleGraph where
  /-- The live control blocks: the roots with their descendants. -/
  blocks : SmartHandles
  /-- The control block that each holder references. -/
  smartHandle : Nat → Option Nat
  /-- The native handles passed to the free function, oldest first. -/
  freed : List Nat

/-- Modelled from the spec: HandleHolder::Release() of the holder x (declared at
ocilib_core.hpp 273, not defined in the translated sources): the holder is detached from its
control block, which is released when its holder count reaches zero; every holder of a
destroyed block loses its reference.  On a holder without control block it is a no-op. -/
def HandleHolder.Release (s : HandleGraph) (x : Nat) : HandleGraph :=
  match s.smartHandle x with
  | none => s
  | some b =>
    let r := SmartHandle.Release s.blocks b x
    { blocks := r.1
      smartHandle := fun y => if y = x ∨ y ∈ r.2.2 then none else s.smartHandle y
      freed := s.freed ++ r.2.1 }

/-- Modelled from the spec: HandleHolder::Acquire(other) of the holder x (declared at
ocilib_core.hpp 272, not defined in the translated sources): x comes to share the control
block of the holder other and is registered with it.  A holder that is reassigned leaves its
previous control block first; when x already shares the control block of other there is
nothing to do. -/
def HandleHolder.Acquire (s : HandleGraph) (x other : Nat) : HandleGraph :=
  if s.smartHandle x = s.smartHandle other then s
  else
    let s1 := HandleHolder.Release s x
    match s1.smartHandle other with
    | none => s1
    | some b =>
      { s1 with
        blocks := SmartHandle.Acquire s1.blocks b x
        smartHandle := fun y => if y = x then some b else s1.smartHandle y }

/-- A holder operation: Acquire(other) or Release() called on the holder x. -/
inductive HolderOp where
  | acquire (x other : Nat)
  | release (x : Nat)
deriving DecidableEq, Repr

/-- The holder on which the operation is called. -/
def HolderOp.holder : HolderOp → Nat
  | .acquire x _ => x
  | .release x => x

/-- The effect of one holder operation. -/
def HandleGraph.step (s : HandleGraph) : HolderOp → HandleGraph
  | .acquire x other => HandleHolder.Acquire s x other
  | .release x => HandleHolder.Release s x

/-- The effect of a sequence of holder operations, first operation first. -/
def HandleGraph.run (s : HandleGraph) (ops : List HolderOp) : HandleGraph :=
  ops.foldl HandleGraph.step s

/-- Modelled from the spec: the invariants of the data model (spec section 3) for the handle
ownership graph: a native handle is owned by one control block and a released handle is not
live; a holder references the block b exactly when it is registered with the live block b;
a live block has at least one holder. -/
def HandleGraph.Consistent (s : HandleGraph) : Prop :=
  (s.blocks.handles ++ s.freed).Nodup ∧
  (∀ x b, s.smartHandle x = some b ↔ x ∈ s.blocks.holdersAt b) ∧
  (∀ b, b ∈ s.blocks.handles → s.blocks.holdersAt b ≠ [])

/-- An ownership graph with the root block 7 (holder 1), its child 8 (holders 2 and 3), the
child 9 of 8 (holder 4), and a second root 5 (holder 6); nothing has been freed yet. -/
def demoGraph : HandleGraph :=
  { blocks := .cons 7 [1] (.cons 8 [2, 3] (.cons 9 [4] .nil .nil) .nil) (.cons 5 [6] .nil .nil)
    smartHandle := fun y =>
      if y = 1 then some 7 else if y = 2 ∨ y = 3 then some 8 else if y = 4 then some 9
      else if y = 6 then some 5 else none
    freed := [] }

/-! ## callback.c: the bind callbacks -/

/-- The return codes of the native client library that callback.c returns (their numeric
values come from a header outside the translated files and play no role). -/
inductive OCI_Code where
  | OCI_SUCCESS : OCI_Code
  | OCI_ERROR : OCI_Code
  | OCI_CONTINUE : OCI_Code
deriving DecidableEq, Repr

/-- Undefined behaviour of the bind callbacks that the embedding makes explicit. -/
inductive BindFault where
  /-- A null pointer was dereferenced. -/
  | nullDeref
  /-- An element beyond the end of the resultset array was accessed. -/
  | outOfBounds
deriving DecidableEq, Repr

/-- Constants and type widths that callback.c takes from headers outside the translated
files. -/
structure CallbackConfig where
  /-- The number of bits of the unsigned field dynidx of a statement. -/
  dynidx_bits : Nat
  /-- The piece code OCI_ONE_PIECE. -/
  OCI_ONE_PIECE : Nat
  /-- The status flag OCI_STMT_EXECUTED. -/
  OCI_STMT_EXECUTED : Nat

/-- Element kind of a cursor column (callback.c 182). -/
def OCI_CDT_CURSOR : Nat := 6

/-- Record OCI_Bind: the fields that callback.c uses (buffer_inds, buffer_count and
buffer_handle are the fields inds, count and handle of the member buffer). -/
structure OCI_Bind where
  stmt : Ptr
  buffer_inds : Ptr
  buffer_count : Nat
  buffer_handle : Ptr
  dynpos : Nat
deriving DecidableEq, Repr

/-- Record OCI_Statement: the fields that callback.c uses. -/
structure OCI_Statement where
  status : Nat
  nb_iters : Nat
  nb_rs : Nat
  cur_rs : Nat
  rsts : Ptr
  dynidx : Nat
deriving DecidableEq, Repr

/-- Record OCI_Define: the fields that callback.c uses (col_datatype and col_bufsize are
fields of the member col, the others of the member buf). -/
structure OCI_Define where
  col_datatype : Nat
  col_bufsize : Nat
  buf_data : Ptr
  buf_lens : Ptr
  buf_inds : Ptr
  buf_sizelen : Nat
deriving DecidableEq, Repr

/-- Record OCI_Resultset: the fields that callback.c uses; defs is the address of the array
of defines. -/
structure OCI_Resultset where
  row_count : Nat
  defs : Ptr
deriving DecidableEq, Repr

/-- The variables of the native client that the output parameters of a bind callback point
to (bufpp, alenp, piecep, indp, rcodep). -/
structure BindOut where
  bufpp : Ptr
  alenp : Nat
  piecep : Nat
  indp : Ptr
  rcodep : Ptr
deriving DecidableEq, Repr

/-- Program state of the bind callbacks, a typed heap: binds, statements, indicator arrays,
resultset arrays with their number of entries, resultsets, arrays of defines, data buffers
viewed as arrays of pointers, and the output variables of the native client. -/
structure BindState where
  /-- The OCI_Bind records, by address. -/
  binds : Ptr → OCI_Bind
  /-- The OCI_Statement records, by address. -/
  stmts : Ptr → OCI_Statement
  /-- The indicator arrays: inds b i is ((sb2 *) b)[i]. -/
  inds : Ptr → Nat → Int
  /-- The number of entries of the resultset array allocated at an address. -/
  rstsLen : Ptr → Nat
  /-- The resultset arrays: rstsAt a i is a[i]. -/
  rstsAt : Ptr → Nat → Ptr
  /-- The OCI_Resultset records, by address. -/
  rsAt : Ptr → OCI_Resultset
  /-- The arrays of defines: defAt d i is d[i]. -/
  defAt : Ptr → Nat → OCI_Define
  /-- The data buffers viewed as arrays of pointers: dataAt d i is d[i]. -/
  dataAt : Ptr → Nat → Ptr
  /-- The output variables. -/
  out : BindOut

/-- The loop of CallbackInBind (callback.c 73-76): k more iterations that store -1 through
the running pointer, which points to element i of the indicator array. -/
def CallbackInBind.loop (inds : Ptr) : Nat → Nat → BindState → Except BindFault BindState
  | _, 0, st => .ok st
  | i, k + 1, st =>
    if inds = NULL then .error .nullDeref
    else
      CallbackInBind.loop inds (i + 1) k
        { st with inds := upd st.inds inds (upd (st.inds inds) i (-1)) }

/-- The statement bnd->dynpos = bnd->stmt->dynidx++ (callback.c 83); the counter is an unsigned
integer and wraps. -/
def CallbackInBind.setup (cfg : CallbackConfig) (ictxp : Ptr) (st : BindState) :
    Except BindFault BindState :=
  let bnd := st.binds ictxp
  if bnd.stmt = NULL then .error .nullDeref
  else
    let s := st.stmts bnd.stmt
    let bnd1 : OCI_Bind := { bnd with dynpos := s.dynidx }
    let s1 : OCI_Statement := { s with dynidx := (s.dynidx + 1) % 2 ^ cfg.dynidx_bits }
    .ok { st with binds := upd st.binds ictxp bnd1, stmts := upd st.stmts bnd.stmt s1 }

/-- CallbackInBind (callback.c 42-94); the parameter bindp is not used, and the output
parameters are the variables of the state. -/
def CallbackInBind (cfg : CallbackConfig) (ictxp : Ptr) (iter _index : Nat) (st : BindState) :
    Except BindFault (OCI_Code × BindState) :=
  -- CHECK(NULL == bnd, OCI_ERROR)
  if ictxp = NULL then .ok (.OCI_ERROR, st)
  else
    let bnd := st.binds ictxp
    -- CHECK(iter >= bnd->buffer.count, OCI_ERROR)
    if iter ≥ bnd.buffer_count then .ok (.OCI_ERROR, st)
    else
      match CallbackInBind.loop bnd.buffer_inds 0 bnd.buffer_count st with
      | .error e => .error e
      | .ok st1 =>
        match (if 0 = iter then CallbackInBind.setup cfg ictxp st1 else .ok st1) with
        | .error e => .error e
        | .ok st2 =>
          -- *bufpp = 0; *alenp = 0; *indp = bnd->buffer.inds; *piecep = OCI_ONE_PIECE;
          let out1 : BindOut :=
            { st2.out with
              bufpp := 0, alenp := 0, indp := bnd.buffer_inds, piecep := cfg.OCI_ONE_PIECE }
          .ok (.OCI_CONTINUE, { st2 with out := out1 })

/-- The calls of CallbackInBind at iteration 0 for the binds of the list, in order. -/
def CallbackInBind.each (cfg : CallbackConfig) : List Ptr → BindState →
    Except BindFault BindState
  | [], st => .ok st
  | b :: bs, st =>
    match CallbackInBind cfg b 0 0 st with
    | .error e => .error e
    | .ok (_, st1) => CallbackInBind.each cfg bs st1

/-- Environment choices consumed by one call of CallbackOutBind. -/
structure OutBindOracle where
  /-- Outcome of allocating the resultset array. -/
  rsts : Option Ptr
  /-- Outcome of reading the attribute OCI_ATTR_ROWS_RETURNED; none is a failure. -/
  rows : Option Nat
  /-- Result of ResultsetCreate; null is a failure. -/
  resultset : Ptr

/-- Read of a[i] in a resultset array. -/
def readRsts (a : Ptr) (i : Nat) (st : BindState) : Except BindFault Ptr :=
  if a = NULL then .error .nullDeref
  else if st.rstsLen a ≤ i then .error .outOfBounds
  else .ok (st.rstsAt a i)

/-- Write of a[i] = v in a resultset array. -/
def writeRsts (a : Ptr) (i : Nat) (v : Ptr) (st : BindState) : Except BindFault BindState :=
  if a = NULL then .error .nullDeref
  else if st.rstsLen a ≤ i then .error .outOfBounds
  else .ok { st with rstsAt := upd st.rstsAt a (upd (st.rstsAt a) i v) }

/-- The statements of CallbackOutBind that run on the first row of an iteration (callback.c
141-163) for the statement at s; the result is the call status.  Modelled from the spec: the
macro ALLOC_DATA allocates a zero-filled array when the pointer is null and the status is
good, ATTRIB_GET reads an attribute when the status is good, and ResultsetCreate returns a
resultset or null; all three are outside the translated files. -/
def CallbackOutBind.create (o : OutBindOracle) (s : Ptr) (iter : Nat) (st : BindState) :
    Except BindFault (Bool × BindState) :=
  let stm := st.stmts s
  -- bnd->stmt->nb_rs = bnd->stmt->nb_iters; bnd->stmt->cur_rs = 0;
  let stm1 := { stm with nb_rs := stm.nb_iters, cur_rs := 0 }
  let st1 : BindState := { st with stmts := upd st.stmts s stm1 }
  -- ALLOC_DATA(OCI_IPC_RESULTSET_ARRAY, bnd->stmt->rsts, bnd->stmt->nb_rs)
  let a : Bool × BindState :=
    if stm1.rsts = NULL then
      match o.rsts with
      | none => (false, st1)
      | some p =>
        if p = NULL then (false, st1)
        else
          let stm2 : OCI_Statement := { stm1 with rsts := p }
          (true, { st1 with stmts := upd st1.stmts s stm2
                            rstsLen := upd st1.rstsLen p stm1.nb_rs
                            rstsAt := upd st1.rstsAt p (fun _ => NULL) })
    else (true, st1)
  if a.1 then
    -- if (STATUS && !bnd->stmt->rsts[iter])
    match readRsts (a.2.stmts s).rsts iter a.2 with
    | .error e => .error e
    | .ok cur =>
      if cur = NULL then
        match o.rows with
        | none => .ok (false, a.2)
        | some rows =>
          -- bnd->stmt->rsts[iter] = ResultsetCreate(bnd->stmt, rows);
          match writeRsts (a.2.stmts s).rsts iter o.resultset a.2 with
          | .error e => .error e
          | .ok st2 =>
            if o.resultset ≠ NULL then
              -- bnd->stmt->rsts[iter]->row_count = rows;
              let rs1 : OCI_Resultset := { st2.rsAt o.resultset with row_count := rows }
              .ok (true, { st2 with rsAt := upd st2.rsAt o.resultset rs1 })
            else .ok (true, st2)
      else .ok (true, a.2)
  else .ok (false, a.2)

/-- The statements of CallbackOutBind after the creation of the resultset (callback.c
166-204), for the bind at octxp and the call status STATUS.  The byte offsets of lines
193-199 are products in the 32-bit unsigned type ub4 and wrap. -/
def CallbackOutBind.finish (cfg : CallbackConfig) (octxp : Ptr) (iter index : Nat)
    (STATUS : Bool) (st : BindState) : Except BindFault (OCI_Code × BindState) :=
  let bnd := st.binds octxp
  -- CHECK(NULL == bnd->stmt->rsts, OCI_ERROR)
  if (st.stmts bnd.stmt).rsts = NULL then .ok (.OCI_ERROR, st)
  else
    -- rs = bnd->stmt->rsts[iter];
    match readRsts (st.stmts bnd.stmt).rsts iter st with
    | .error e => .error e
    | .ok rs =>
      -- CHECK(NULL == rs, OCI_ERROR)
      if rs = NULL then .ok (.OCI_ERROR, st)
      else if STATUS then
        let d := st.defAt (st.rsAt rs).defs bnd.dynpos
        let buf :=
          if d.col_datatype = OCI_CDT_CURSOR ∨ d.col_datatype = OCI_CDT_TIMESTAMP ∨
              d.col_datatype = OCI_CDT_INTERVAL ∨ d.col_datatype = OCI_CDT_LOB ∨
              d.col_datatype = OCI_CDT_FILE then
            st.dataAt d.buf_data index
          else d.buf_data + (d.col_bufsize * index) % UINT_RANGE
        let out1 : BindOut :=
          { bufpp := buf, alenp := d.buf_lens + (d.buf_sizelen * index) % UINT_RANGE,
            indp := d.buf_inds + (2 * index) % UINT_RANGE, piecep := cfg.OCI_ONE_PIECE,
            rcodep := NULL }
        .ok (.OCI_CONTINUE, { st with out := out1 })
      else .ok (.OCI_ERROR, st)

/-- The statement bnd->stmt->status |= OCI_STMT_EXECUTED (callback.c 135) for the statement
at s. -/
def CallbackOutBind.executed (cfg : CallbackConfig) (s : Ptr) (st : BindState) : BindState :=
  let stm1 : OCI_Statement :=
    { st.stmts s with status := Nat.lor (st.stmts s).status cfg.OCI_STMT_EXECUTED }
  { st with stmts := upd st.stmts s stm1 }

/-- CallbackOutBind (callback.c 100-205); the parameter bindp is not used, and the output
parameters are the variables of the state. -/
def CallbackOutBind (cfg : CallbackConfig) (o : OutBindOracle) (octxp : Ptr) (iter index : Nat)
    (st : BindState) : Except BindFault (OCI_Code × BindState) :=
  -- CHECK(NULL == bnd, OCI_ERROR)
  if octxp = NULL then .ok (.OCI_ERROR, st)
  else
    let bnd := st.binds octxp
    -- CHECK(iter >= bnd->buffer.count, OCI_ERROR)
    if iter ≥ bnd.buffer_count then .ok (.OCI_ERROR, st)
    else if bnd.stmt = NULL then .error .nullDeref
    else
      -- bnd->stmt->status |= OCI_STMT_EXECUTED;
      let st1 := CallbackOutBind.executed cfg bnd.stmt st
      match (if 0 = index then CallbackOutBind.create o bnd.stmt iter st1
             else .ok (true, st1)) with
      | .error e => .error e
      | .ok (STATUS, st2) => CallbackOutBind.finish cfg octxp iter index STATUS st2

/-- The state after a call of a bind callback, or the given default after a fault. -/
def bindStateOf {α : Type} (x : Except BindFault (α × BindState)) (d : BindState) : BindState :=
  match x with
  | .ok (_, s) => s
  | .error _ => d

/-- The state after a sequence of calls of a bind callback, or the given default after a
fault. -/
def bindStateAfter (x : Except BindFault BindState) (d : BindState) : BindState :=
  match x with
  | .ok s => s
  | .error _ => d

/-- The code returned by a call of a bind callback, if it returned. -/
def bindCodeOf {α : Type} (x : Except BindFault (α × BindState)) : Option α :=
  match x with
  | .ok (v, _) => some v
  | .error _ => none

/-- A configuration with a 16-bit statement counter. -/
def demoCallbackConfig : CallbackConfig :=
  { dynidx_bits := 16, OCI_ONE_PIECE := 0, OCI_STMT_EXECUTED := 16 }

/-- A statement at 6 prepared for three iterations, without resultset array and with the
counter dynidx at 0, and two binds of it at 5 and at 8, each with three indicators (arrays
at 70 and at 80, all indicators 0). -/
def demoBinds : BindState :=
  { binds := fun b =>
      if b = 5 then { stmt := 6, buffer_inds := 70, buffer_count := 3, buffer_handle := 71,
                      dynpos := 0 }
      else if b = 8 then { stmt := 6, buffer_inds := 80, buffer_count := 3, buffer_handle := 81,
                           dynpos := 0 }
      else { stmt := 0, buffer_inds := 0, buffer_count := 0, buffer_handle := 0, dynpos := 0 }
    stmts := fun _ =>
      { status := 0, nb_iters := 3, nb_rs := 0, cur_rs := 0, rsts := 0, dynidx := 0 }
    inds := fun _ _ => 0
    rstsLen := fun _ => 0
    rstsAt := fun _ _ => 0
    rsAt := fun _ => { row_count := 0, defs := 0 }
    defAt := fun _ _ =>
      { col_datatype := 0, col_bufsize := 0, buf_data := 0, buf_lens := 0, buf_inds := 0,
        buf_sizelen := 0 }
    dataAt := fun _ _ => 0
    out := { bufpp := 1, alenp := 1, piecep := 1, indp := 1, rcodep := 1 } }

/-- The state demoBinds with the counter dynidx of the statement at its largest 16-bit
value. -/
def lastIndexBinds : BindState :=
  { demoBinds with
    stmts := fun _ =>
      { status := 0, nb_iters := 3, nb_rs := 0, cur_rs := 0, rsts := 0, dynidx := 65535 } }

/-- The state demoBinds with the statement prepared for one iteration only. -/
def shortBinds : BindState :=
  { demoBinds with
    stmts := fun _ =>
      { status := 0, nb_iters := 1, nb_rs := 0, cur_rs := 0, rsts := 0, dynidx := 0 } }


/-! ## callback.c: change notifications -/

/-- Notification kinds of the native client (callback.c 279-294). -/
def OCI_EVENT_STARTUP : Nat := 1
/-- See OCI_EVENT_STARTUP. -/
def OCI_EVENT_SHUTDOWN : Nat := 2
/-- See OCI_EVENT_STARTUP. -/
def OCI_EVENT_SHUTDOWN_ANY : Nat := 3
/-- See OCI_EVENT_STARTUP. -/
def OCI_EVENT_DEREG : Nat := 5
/-- See OCI_EVENT_STARTUP. -/
def OCI_EVENT_OBJCHANGE : Nat := 6

/-- Flags of a subscription type: what the subscription registered for (callback.c 283, 296,
364). -/
def OCI_CNT_OBJECTS : Nat := 1
/-- See OCI_CNT_OBJECTS. -/
def OCI_CNT_ROWS : Nat := 2
/-- See OCI_CNT_OBJECTS. -/
def OCI_CNT_DATABASES : Nat := 4

/-- Operation flags removed from the operation code of a table (callback.c 359-360). -/
def OCI_OPCODE_ALLROWS : Nat := 1
/-- See OCI_OPCODE_ALLROWS. -/
def OCI_OPCODE_ALLOPS : Nat := 0

/-- The content of a string buffer. -/
abbrev OText := List Nat

/-- Record OCI_Event: the fields that callback.c uses; a string buffer is none while it is
not allocated. -/
structure OCI_Event where
  type : Nat
  op : Nat
  dbname : Option OText
  objname : Option OText
  rowid : Option OText
deriving DecidableEq, Repr

/-- Record OCI_Subscription: the fields that callback.c uses. -/
structure OCI_Subscription where
  type : Nat
  event : OCI_Event
deriving DecidableEq, Repr

/-- A row change descriptor as the native client delivers it. -/
structure RowChange where
  rowid : OText
  opflags : Nat
deriving DecidableEq, Repr

/-- A table change descriptor as the native client delivers it; rows is none when the table
has no collection of row changes. -/
structure TableChange where
  name : OText
  opflags : Nat
  rows : Option (List RowChange)
deriving DecidableEq, Repr

/-- A change notification descriptor as the native client delivers it; tables is none when
there is no collection of table changes. -/
structure ChangeDescriptor where
  dbname : OText
  nfytype : Nat
  tables : Option (List TableChange)
deriving DecidableEq, Repr

/-- Program state of the notification callback: the subscriptions by address, and the calls
of subscription handlers so far, oldest first, each with the subscription and the content of
its event at the call. -/
structure NotifyState where
  subs : Ptr → OCI_Subscription
  calls : List (Ptr × OCI_Event)

/-- The statement if (buffer) buffer[0] = 0 on a string buffer (callback.c 336-344, 386-389). -/
def clearText (b : Option OText) : Option OText :=
  b.map (fun _ => [])

/-- Modelled from the spec: EventReset, defined outside the translated files: the kind and
the operation of the event become OCI_UNKNOWN and the strings that are allocated become
empty. -/
def EventReset (e : OCI_Event) : OCI_Event :=
  { type := OCI_UNKNOWN, op := OCI_UNKNOWN, dbname := clearText e.dbname,
    objname := clearText e.objname, rowid := clearText e.rowid }

/-- The call sub->handler(&sub->event). -/
def NotifyState.handler (st : NotifyState) (sub : Ptr) : NotifyState :=
  { st with calls := st.calls ++ [(sub, (st.subs sub).event)] }

/-- Assignment to sub->event. -/
def NotifyState.setEvent (st : NotifyState) (sub : Ptr) (e : OCI_Event) : NotifyState :=
  { st with subs := upd st.subs sub { st.subs sub with event := e } }

/-- The event of a subscription after the statements that read one row change (callback.c
384-405): partial reset of the event, then rowid and operation code of the row. -/
def CallbackNotifyChanges.rowEvent (r : RowChange) (e : OCI_Event) : OCI_Event :=
  let e1 : OCI_Event := { e with rowid := clearText e.rowid }
  { e1 with rowid := some r.rowid, op := r.opflags }

/-- The loop over the row changes of a table (callback.c 382-408).  Modelled from the spec:
the collection calls of the native client, StringGetAttribute and the macro ATTRIB_GET are
outside the translated files; they deliver the content of the descriptor. -/
def CallbackNotifyChanges.rows (sub : Ptr) : List RowChange → NotifyState → NotifyState
  | [], st => st
  | r :: rs, st =>
    let e := CallbackNotifyChanges.rowEvent r (st.subs sub).event
    CallbackNotifyChanges.rows sub rs ((st.setEvent sub e).handler sub)

/-- The event of a subscription after the statements that read one table change (callback.c
334-360): partial reset of the event, then table name and table modification type without
the flags ALLROWS and ALLOPS. -/
def CallbackNotifyChanges.tableEvent (t : TableChange) (e : OCI_Event) : OCI_Event :=
  let e1 : OCI_Event := { e with objname := clearText e.objname, rowid := clearText e.rowid }
  let op1 := Nat.land t.opflags (UINT_RANGE - 1 - OCI_OPCODE_ALLROWS)
  let op2 := Nat.land op1 (UINT_RANGE - 1 - OCI_OPCODE_ALLOPS)
  { e1 with objname := some t.name, op := op2 }

/-- One iteration of the loop over the changed tables (callback.c 332-415). -/
def CallbackNotifyChanges.table (sub : Ptr) (t : TableChange) (st : NotifyState) :
    NotifyState :=
  let st1 := st.setEvent sub (CallbackNotifyChanges.tableEvent t (st.subs sub).event)
  -- if requested, get row details; the first component is nb_rows
  let r : Nat × NotifyState :=
    if Nat.land (st1.subs sub).type OCI_CNT_ROWS ≠ 0 then
      match t.rows with
      | none => (0, st1)
      | some rs => (rs.length, CallbackNotifyChanges.rows sub rs st1)
    else (0, st1)
  if 0 = r.1 then r.2.handler sub else r.2

/-- The loop over the changed tables (callback.c 330-416). -/
def CallbackNotifyChanges.tables (sub : Ptr) : List TableChange → NotifyState → NotifyState
  | [], st => st
  | t :: ts, st =>
    CallbackNotifyChanges.tables sub ts (CallbackNotifyChanges.table sub t st)

/-- The switch on the notification kind (callback.c 277-306): the kind that the event
receives, if any. -/
def CallbackNotifyChanges.accept (subType type : Nat) (e : OCI_Event) : OCI_Event :=
  if type = OCI_EVENT_STARTUP ∨ type = OCI_EVENT_SHUTDOWN ∨ type = OCI_EVENT_SHUTDOWN_ANY then
    if Nat.land subType OCI_CNT_DATABASES ≠ 0 then { e with type := type } else e
  else if type = OCI_EVENT_DEREG then { e with type := type }
  else if type = OCI_EVENT_OBJCHANGE then
    if Nat.land subType OCI_CNT_OBJECTS ≠ 0 then { e with type := type } else e
  else e

/-- CallbackNotifyChanges (callback.c 240-434), compiled for a client that supports
notifications; the parameters subscrhp, payload, paylen and mode are not used.  Modelled from
the spec: the macros ATTRIB_GET and EXEC, StringGetAttribute and the collection calls of the
native client are outside the translated files; every read succeeds and delivers the content
of the descriptor desc, and the handler of the subscription is recorded as a call. -/
def CallbackNotifyChanges (oci_ctx : Ptr) (desc : ChangeDescriptor) (st : NotifyState) :
    OCI_Code × NotifyState :=
  -- CHECK(NULL == sub, OCI_SUCCESS)
  if oci_ctx = NULL then (.OCI_SUCCESS, st)
  else
    let sub := st.subs oci_ctx
    -- EventReset(&sub->event); get database that generated the notification
    let e1 : OCI_Event := { EventReset sub.event with dbname := some desc.dbname }
    -- get notification type; switch(type)
    let e2 := CallbackNotifyChanges.accept sub.type desc.nfytype e1
    let st1 := st.setEvent oci_ctx e2
    if OCI_EVENT_OBJCHANGE = e2.type then
      match desc.tables with
      | none => (.OCI_SUCCESS, st1)
      | some ts => (.OCI_SUCCESS, CallbackNotifyChanges.tables oci_ctx ts st1)
    else if e2.type > 0 then (.OCI_SUCCESS, st1.handler oci_ctx)
    else (.OCI_SUCCESS, st1)

/-- The calls of subscription handlers that a call added. -/
def newCalls (before after : NotifyState) : List (Ptr × OCI_Event) :=
  after.calls.drop before.calls.length

/-- The number r of reported rows of a changed table, in the words of the claim on the
number of handler calls: 0 when the subscription did not request row details or the table
has no row collection, else the number of rows of the collection. -/
def reportedRows (subType : Nat) (t : TableChange) : Nat :=
  if Nat.land subType OCI_CNT_ROWS ≠ 0 then
    match t.rows with
    | none => 0
    | some rs => rs.length
  else 0

/-- A state in which every subscription (the proofs use the one at 9) registered for object
changes with row details and has an event without allocated strings; no handler was called
yet. -/
def demoNotify : NotifyState :=
  { subs := fun _ =>
      { type := 3, event := { type := 0, op := 0, dbname := none, objname := none,
                              rowid := none } }
    calls := [] }

/-- An object change notification that reports three tables: one with two changed rows, one
without row collection, one with an empty row collection. -/
def demoChange : ChangeDescriptor :=
  { dbname := [1]
    nfytype := OCI_EVENT_OBJCHANGE
    tables := some
      [ { name := [2], opflags := 4,
          rows := some [{ rowid := [20], opflags := 4 }, { rowid := [21], opflags := 4 }] },
        { name := [3], opflags := 3, rows := none },
        { name := [4], opflags := 8, rows := some [] } ] }

/-- A notification that the registration of the subscription ended. -/
def demoDereg : ChangeDescriptor :=
  { dbname := [1], nfytype := OCI_EVENT_DEREG, tables := none }


/-! ## callback.c: high availability events -/

/-- The timestamp kind of the wrapper that ProcHAEventInvoke builds (callback.c 478). -/
def OCI_TIMESTAMP : Nat := 1

/-- Record HAEventParams: the server handle, the timestamp descriptor, the source and the
status of one event (callback.c 515-537). -/
structure HAEventParams where
  srvhp : Ptr
  dthp : Ptr
  source : Nat
  event : Nat
deriving DecidableEq, Repr

/-- One call of the handler Env.ha_handler with its four arguments. -/
structure HACall where
  con : Ptr
  source : Nat
  event : Nat
  tmsp : Ptr
deriving DecidableEq, Repr

/-- ProcHAEventInvoke (callback.c 468-488).  The field svr of a connection is read through
con_svr.  The result lists the calls of the handler, each with the program state at the
call, and gives the final state. -/
def ProcHAEventInvoke (cfg : Config) (o : TimestampOracle) (con_svr : Ptr → Ptr) (con : Ptr)
    (ha_params : HAEventParams) (st : State) : List (HACall × State) × State :=
  -- OCI_Timestamp *tmsp = NULL
  let r : Ptr × List (HACall × State) × State :=
    if con ≠ NULL ∧ con_svr con = ha_params.srvhp then
      let t := TimestampInit cfg o NULL NULL ha_params.dthp OCI_TIMESTAMP st
      let call : HACall :=
        { con := con, source := ha_params.source, event := ha_params.event, tmsp := t.1 }
      (t.1, [(call, t.2)], t.2)
    else (NULL, [], st)
  if r.1 ≠ NULL then
    let w := r.2.2.objAt r.1
    let st1 : State :=
      { r.2.2 with objAt := upd r.2.2.objAt r.1 { w with hstate := OCI_OBJECT_FETCHED_DIRTY } }
    (r.2.1, (TimestampFree cfg r.1 st1).2)
  else (r.2.1, r.2.2)

/-- An event of the server 5 that carries the timestamp descriptor 9. -/
def demoHAEvent : HAEventParams :=
  { srvhp := 5, dthp := 9, source := 0, event := 1 }

/-! ## The wrapper block as bytes

The state of the embedding above keeps each wrapper as one object at its start address, which
is what the source does as long as the wrappers in use occupy disjoint ranges of bytes.  The
slot offset of array.c line 82 wraps in unsigned int arithmetic, and a wrapped slot can lie
across two other slots.  The definitions of this section translate the timestamp path of
ArrayInitialize over a wrapper block that is a range of bytes, so that such slots are
represented as the source has them. -/

/-- Store of the value v in the n bytes at address a, least significant byte first; a value
that does not fit is truncated, as a conversion to the unsigned type of that size is. -/
def storeBytes (mem : Nat → Nat) (a n v : Nat) : Nat → Nat :=
  fun x => if a ≤ x ∧ x < a + n then v / 256 ^ (x - a) % 256 else mem x

/-- Load of the value of the n bytes at address a, least significant byte first. -/
def loadBytes (mem : Nat → Nat) (a : Nat) : Nat → Nat
  | 0 => 0
  | n + 1 => mem a + 256 * loadBytes mem (a + 1) n

/-- Program state with the wrapper memory as bytes.  Modelled from the spec: the layout of
struct OCI_Timestamp, which is declared in a header outside the translated files, is the one
of a little-endian build with 8-byte pointers and 4-byte unsigned int, fields in the order of
the record OCI_Timestamp above: handle at byte 0, hstate at byte 8, con at byte 16, err at
byte 24, env at byte 32 and type at byte 40 of the 48 bytes; the prefix OCI_Datatype has
handle and hstate at the same places. -/
structure ByteState where
  /-- Everything but the contents of the wrappers, as in State; the component objAt is not
  used. -/
  base : State
  /-- The memory that holds the wrappers, by byte address. -/
  bytes : Nat → Nat

/-- TimestampFree (timestamp.c 138-167) on a wrapper given as bytes; the entry checks are
those of TimestampFree.entryChecks. -/
def Bytes.TimestampFree (cfg : Config) (tmsp : Ptr) (st : ByteState) : Bool × ByteState :=
  let hstate := loadBytes st.bytes (tmsp + 8) 4
  if tmsp != NULL && st.base.timestamp_enabled && hstate != OCI_OBJECT_FETCHED_CLEAN then
    let b1 :=
      if OCI_OBJECT_ALLOCATED = hstate then
        MemoryFreeDescriptor (loadBytes st.bytes tmsp 8)
          (cfg.ExternalSubTypeToHandleType OCI_CDT_TIMESTAMP (loadBytes st.bytes (tmsp + 40) 4))
          st.base
      else st.base
    let b2 := if OCI_OBJECT_ALLOCATED_ARRAY ≠ hstate then MemoryFree tmsp b1 else b1
    (true, { st with base := b2 })
  else (false, st)

/-- The statements of TimestampInit that run when the wrapper is available
(timestamp.c 50-83), on a wrapper given as bytes; the result is the call status. -/
def Bytes.TimestampInit.fill (cfg : Config) (o : TimestampOracle) (con tmsp buffer : Ptr)
    (type : Nat) (st : ByteState) : Bool × ByteState :=
  -- tmsp->con = con; tmsp->handle = buffer; tmsp->type = type;
  let m := storeBytes st.bytes (tmsp + 16) 8 con
  let m := storeBytes m tmsp 8 buffer
  let m := storeBytes m (tmsp + 40) 4 type
  -- get the right error handle
  let err := if con ≠ NULL then st.base.con_err con else st.base.Env_err
  let env := if con ≠ NULL then st.base.con_env con else st.base.Env_env
  let m := storeBytes m (tmsp + 24) 8 err
  let m := storeBytes m (tmsp + 32) 8 env
  -- allocate buffer if needed
  if loadBytes m tmsp 8 = NULL ∨ OCI_OBJECT_ALLOCATED_ARRAY = loadBytes m (tmsp + 8) 4 then
    if OCI_OBJECT_ALLOCATED_ARRAY ≠ loadBytes m (tmsp + 8) 4 then
      let d := MemoryAllocDescriptor o.descriptor
                 (cfg.ExternalSubTypeToHandleType OCI_CDT_TIMESTAMP type) st.base
      let m1 := match d.2.1 with
                | some h => storeBytes m tmsp 8 h
                | none => m
      (d.1, { base := d.2.2, bytes := storeBytes m1 (tmsp + 8) 4 OCI_OBJECT_ALLOCATED })
    else (true, { st with bytes := m })
  else (true, { st with bytes := storeBytes m (tmsp + 8) 4 OCI_OBJECT_FETCHED_CLEAN })

/-- TimestampInit (timestamp.c 35-101) on wrappers given as bytes; a wrapper that the call
allocates is a zero-filled block of the size of the struct. -/
def Bytes.TimestampInit (cfg : Config) (o : TimestampOracle) (con tmsp buffer : Ptr)
    (type : Nat) (st : ByteState) : Ptr × ByteState :=
  -- OCI_ALLOCATE_DATA(OCI_IPC_TIMESTAMP, tmsp, 1)
  let a := ALLOC_BUFFER o.wrapper true tmsp st.base
  let w := a.2.1
  let m : Nat → Nat :=
    if tmsp = NULL ∧ a.1 = true then
      fun x => if w ≤ x ∧ x < w + cfg.sizeof_OCI_Timestamp then 0 else st.bytes x
    else st.bytes
  let st1 : ByteState := { base := a.2.2, bytes := m }
  let r : Bool × ByteState :=
    if a.1 then Bytes.TimestampInit.fill cfg o con w buffer type st1 else (false, st1)
  -- check for failure
  if !r.1 && w != NULL then (NULL, (Bytes.TimestampFree cfg w r.2).2)
  else (w, r.2)

/-- The macro ARRAY_INIT(type, func) (array.c 37-39) for a constructor that works on bytes. -/
def Bytes.ARRAY_INIT (r : OCI_Array) (i : Nat) (func : Ptr × ByteState) :
    Except Fault ByteState :=
  -- arr->tab_obj[i] = func;
  match writeSlot r.tab_obj i func.1 func.2.base with
  | .error e => .error e
  | .ok b1 =>
    -- ((void **)(arr->mem_handle))[i] = ((type *) arr->tab_obj[i])->handle;
    match readSlot r.tab_obj i b1 with
    | .error e => .error e
    | .ok (obj, b2) =>
      if obj = NULL then .error .nullDeref
      else
        match writeSlot r.mem_handle i (loadBytes func.2.bytes obj 8)
            (b2.emit (Event.objRead obj)) with
        | .error e => .error e
        | .ok b3 => .ok { base := b3, bytes := func.2.bytes }

/-- One iteration of the loop of ArrayInitialize (array.c 80-176) for a record whose element
kind is timestamp, on wrappers given as bytes. -/
def Bytes.ArrayInitialize.body (cfg : Config) (o : Oracle) (_typinf : Ptr) (r : OCI_Array)
    (i : Nat) (st : ByteState) : Except Fault ByteState :=
  let data := ArrayInitialize.data r i
  match ArrayInitialize.handle cfg r i st.base with
  | .error e => .error e
  | .ok (handle, b1) =>
    -- arr->tab_obj[i] = data;
    match writeSlot r.tab_obj i data b1 with
    | .error e => .error e
    | .ok b2 =>
      -- ((OCI_Datatype *) data)->hstate = OCI_OBJECT_ALLOCATED_ARRAY;
      if data = NULL then .error .nullDeref
      else
        let st3 : ByteState :=
          { base := b2.emit (Event.objWrite data)
            bytes := storeBytes st.bytes (data + 8) 4 OCI_OBJECT_ALLOCATED_ARRAY }
        -- case OCI_CDT_TIMESTAMP
        Bytes.ARRAY_INIT r i
          (Bytes.TimestampInit cfg (o.tmsp i) r.con data handle r.elem_subtype st3)

/-- The loop of ArrayInitialize on wrappers given as bytes: k more iterations starting at
index i. -/
def Bytes.ArrayInitialize.loop (cfg : Config) (o : Oracle) (typinf : Ptr) (r : OCI_Array) :
    Nat → Nat → ByteState → Except Fault ByteState
  | _, 0, st => .ok st
  | i, k + 1, st =>
    match Bytes.ArrayInitialize.body cfg o typinf r i st with
    | .error e => .error e
    | .ok st1 => Bytes.ArrayInitialize.loop cfg o typinf r (i + 1) k st1

/-- ArrayInitialize (array.c 73-179) on wrappers given as bytes.  The result is none for a
record whose element kind is not timestamp: the wrappers of the other kinds are declared and
constructed outside the translated files. -/
def Bytes.ArrayInitialize (cfg : Config) (o : Oracle) (arr : Ptr) (typinf : Ptr)
    (st : ByteState) : Option (Except Fault (Bool × ByteState)) :=
  if arr = NULL then some (.error .nullDeref)
  else match st.base.arrayAt arr with
    | none => some (.error .useAfterFree)
    | some r =>
      if r.elem_type = OCI_CDT_TIMESTAMP then
        match Bytes.ArrayInitialize.loop cfg o typinf r 0 r.nb_elem st with
        | .error e => some (.error e)
        | .ok st1 => some (.ok (true, st1))
      else none

/-- Wrapper slots of struct_size bytes for nb_elem wrappers of W bytes are disjoint ranges of
bytes: a wrapper has at least one byte, the struct size is not smaller than a wrapper, and no
slot offset of array.c line 82 wraps. -/
def slotsApart (W struct_size nb_elem : Nat) : Prop :=
  0 < W ∧ W ≤ struct_size ∧ struct_size * nb_elem ≤ UINT_RANGE

/-- The size of a wrapper of the element kind: for timestamps the size of the struct
OCI_Timestamp; the wrapper structs of the other kinds are declared outside the translated
files, and their size is taken to be the struct size that the caller of ArrayCreate
passes. -/
def wrapperSize (cfg : Config) (elem_type struct_size : Nat) : Nat :=
  if elem_type = OCI_CDT_TIMESTAMP then cfg.sizeof_OCI_Timestamp else struct_size

/-- A library without arrays in which every connection has the error handle 600 and the
environment handle 700, and entry i of the block at 2 ^ 34 is the native descriptor
1000 + i. -/
def hugeBase : State :=
  { emptyState with
    slots := fun b i => if b = 2 ^ 34 then 1000 + i else 0
    con_err := fun _ => 600
    con_env := fun _ => 700 }

/-- The record of a timestamp array of 89478487 elements with wrappers of 48 bytes, for the
connection 500: the object index at 2 ^ 33, the handle block at 2 ^ 34 and the wrapper block
at 2 ^ 36. -/
def hugeRecord : OCI_Array :=
  ArrayCreate.record hugeBase 500 89478487 OCI_CDT_TIMESTAMP 1 8 48 68 (2 ^ 33) (2 ^ 34)
    (2 ^ 36)

/-- The state in which ArrayCreate calls ArrayInitialize for hugeRecord, registered at 10:
the blocks are allocated, the wrapper block is zero-filled and the handle block holds the
native descriptors. -/
def hugeState : ByteState :=
  { base :=
      { hugeBase with
        arrs := [10]
        arrayAt := upd hugeBase.arrayAt 10 (some hugeRecord)
        live := [2 ^ 36, 2 ^ 34, 2 ^ 33, 10] }
    bytes := fun _ => 0 }

/-- A timestamp array like hugeRecord with two elements only, in the same blocks. -/
def smallByteState : ByteState :=
  { hugeState with
    base :=
      { hugeState.base with
        arrayAt := upd hugeBase.arrayAt 10 (some { hugeRecord with nb_elem := 2 }) } }

/-- The state after a call of ArrayInitialize on wrappers given as bytes, or the given
default when the call did not return. -/
def Bytes.stateOf (x : Option (Except Fault (Bool × ByteState))) (d : ByteState) : ByteState :=
  match x with
  | some (.ok (_, s)) => s
  | _ => d

/-! ## Basic facts about the collaborators -/

@[simp] theorem upd_same {α : Type} (f : Nat → α) (a : Nat) (v : α) : upd f a v a = v := by
  simp [upd]

@[simp] theorem upd_other {α : Type} (f : Nat → α) (a b : Nat) (v : α) (h : b ≠ a) :
    upd f a v b = f b := by
  simp [upd, h]

theorem upd_upd {α : Type} (f : Nat → α) (a : Nat) (v w : α) :
    upd (upd f a v) a w = upd f a w := by
  funext x
  by_cases h : x = a <;> simp [upd, h]

@[simp] theorem emit_arrs (st : State) (e : Event) : (st.emit e).arrs = st.arrs := rfl
@[simp] theorem emit_arrayAt (st : State) (e : Event) : (st.emit e).arrayAt = st.arrayAt := rfl
@[simp] theorem emit_live (st : State) (e : Event) : (st.emit e).live = st.live := rfl
@[simp] theorem emit_slots (st : State) (e : Event) : (st.emit e).slots = st.slots := rfl
@[simp] theorem emit_objAt (st : State) (e : Event) : (st.emit e).objAt = st.objAt := rfl
@[simp] theorem emit_log (st : State) (e : Event) : (st.emit e).log = st.log ++ [e] := rfl
@[simp] theorem emit_timestamp_enabled (st : State) (e : Event) :
    (st.emit e).timestamp_enabled = st.timestamp_enabled := rfl

@[simp] theorem MemoryFree_arrs (p : Ptr) (st : State) : (MemoryFree p st).arrs = st.arrs := by
  unfold MemoryFree; split <;> rfl

@[simp] theorem MemoryFree_arrayAt (p : Ptr) (st : State) :
    (MemoryFree p st).arrayAt = st.arrayAt := by
  unfold MemoryFree; split <;> rfl

@[simp] theorem MemoryFree_slots (p : Ptr) (st : State) :
    (MemoryFree p st).slots = st.slots := by
  unfold MemoryFree; split <;> rfl

@[simp] theorem MemoryFree_objAt (p : Ptr) (st : State) :
    (MemoryFree p st).objAt = st.objAt := by
  unfold MemoryFree; split <;> rfl

theorem MemoryFree_log (p : Ptr) (st : State) :
    (MemoryFree p st).log = st.log ++ (if p = NULL then [] else [Event.free p]) := by
  unfold MemoryFree; split <;> simp

@[simp] theorem TimestampFree_arrs (cfg : Config) (p : Ptr) (st : State) :
    (TimestampFree cfg p st).2.arrs = st.arrs := by
  unfold TimestampFree MemoryFreeDescriptor
  split
  · dsimp only
    split <;> split <;> simp
  · rfl

@[simp] theorem TimestampFree_arrayAt (cfg : Config) (p : Ptr) (st : State) :
    (TimestampFree cfg p st).2.arrayAt = st.arrayAt := by
  unfold TimestampFree MemoryFreeDescriptor
  split
  · dsimp only
    split <;> split <;> simp
  · rfl

@[simp] theorem FreeObjectFromType_arrs (cfg : Config) (obj : Ptr) (t : Nat) (st : State) :
    (FreeObjectFromType cfg obj t st).2.arrs = st.arrs := by
  unfold FreeObjectFromType
  dsimp only
  split <;> simp

@[simp] theorem FreeObjectFromType_arrayAt (cfg : Config) (obj : Ptr) (t : Nat) (st : State) :
    (FreeObjectFromType cfg obj t st).2.arrayAt = st.arrayAt := by
  unfold FreeObjectFromType
  dsimp only
  split <;> simp

theorem ArrayDispose_loop_frame (cfg : Config) (r : OCI_Array) (k : Nat) :
    ∀ (i : Nat) (st st' : State), ArrayDispose.loop cfg r i k st = .ok st' →
      st'.arrs = st.arrs ∧ st'.arrayAt = st.arrayAt := by
  induction k with
  | zero =>
    intro i st st' h
    simp [ArrayDispose.loop] at h
    subst h
    exact ⟨rfl, rfl⟩
  | succ k ih =>
    intro i st st' h
    unfold ArrayDispose.loop at h
    unfold readSlot at h
    split at h
    · simp at h
    · rename_i obj st1 heq
      split at heq
      · simp at heq
      · simp only [Except.ok.injEq, Prod.mk.injEq] at heq
        obtain ⟨-, rfl⟩ := heq
        have := ih _ _ _ h
        simpa using this

theorem ArrayDispose_null_eq (cfg : Config) (st : State) :
    ArrayDispose cfg NULL st = .ok (false, st) := by
  simp [ArrayDispose]

/-- What a returning call of ArrayDispose on a non-null array does to the registry and to
the records: the registry is untouched and only the record of the array changes. -/
theorem ArrayDispose_frame (cfg : Config) (arr : Ptr) (st st' : State) (b : Bool)
    (h : ArrayDispose cfg arr st = .ok (b, st')) (hn : arr ≠ NULL) :
    st'.arrs = st.arrs ∧ ∃ r, st.arrayAt arr = some r ∧ st'.arrayAt = upd st.arrayAt arr
      (some { r with mem_handle := NULL, mem_struct := NULL, tab_obj := NULL }) := by
  unfold ArrayDispose at h
  rw [if_neg hn] at h
  split at h
  · simp at h
  · rename_i r hr
    split at h
    · simp at h
    · rename_i st1 hloop
      simp only [Except.ok.injEq, Prod.mk.injEq] at h
      obtain ⟨-, rfl⟩ := h
      have hf : st1.arrs = st.arrs ∧ st1.arrayAt = st.arrayAt := by
        split at hloop
        · exact ArrayDispose_loop_frame cfg r _ _ _ _ hloop
        · simp only [Except.ok.injEq] at hloop
          subst hloop
          exact ⟨rfl, rfl⟩
      refine ⟨?_, ⟨r, hr, ?_⟩⟩
      · simp only [MemoryFree_arrs]
        split <;> simp [MemoryFreeDescriptorArray, hf.1]
      · simp only [MemoryFree_arrayAt]
        split <;> simp [MemoryFreeDescriptorArray, hf.2]

/-! ## The list helper -/

theorem ListFind_result (proc : State → Ptr → Ptr → Except Fault Bool) (key : Ptr) (st : State)
    (l : List Ptr) (p : Ptr) (h : ListFind proc key st l = .ok p) :
    (p = NULL ∧ ∀ q ∈ l, proc st q key = .ok false) ∨
      (p ∈ l ∧ proc st p key = .ok true) := by
  induction l with
  | nil =>
    simp only [ListFind, Except.ok.injEq] at h
    exact Or.inl ⟨h.symm, by simp⟩
  | cons a l ih =>
    unfold ListFind at h
    split at h
    · simp at h
    · rename_i ha
      simp only [Except.ok.injEq] at h
      subst h
      exact Or.inr ⟨by simp, ha⟩
    · rename_i ha
      rcases ih h with ⟨hp, hall⟩ | ⟨hm, hp⟩
      · refine Or.inl ⟨hp, ?_⟩
        intro q hq
        rcases List.mem_cons.mp hq with rfl | hq
        · exact ha
        · exact hall q hq
      · exact Or.inr ⟨List.mem_cons_of_mem _ hm, hp⟩

theorem ListFind_none (proc : State → Ptr → Ptr → Except Fault Bool) (key : Ptr) (st : State)
    (l : List Ptr) (h : ∀ q ∈ l, proc st q key = .ok false) :
    ListFind proc key st l = .ok NULL := by
  induction l with
  | nil => rfl
  | cons a l ih =>
    unfold ListFind
    rw [h a (by simp)]
    exact ih (fun q hq => h q (List.mem_cons_of_mem _ hq))

theorem ArrayFindAny_true (st : State) (arr handles : Ptr)
    (h : ArrayFindAny st arr handles = .ok true) :
    arr ≠ NULL ∧ ∃ r, st.arrayAt arr = some r ∧ (r.tab_obj = handles ∨ r.mem_struct = handles) := by
  unfold ArrayFindAny at h
  split at h
  · simp at h
  · rename_i hn
    refine ⟨hn, ?_⟩
    split at h
    · simp at h
    · rename_i r hr
      refine ⟨r, hr, ?_⟩
      simpa using h

theorem ArrayFindAny_false (st : State) (arr handles : Ptr) (r : OCI_Array)
    (hr : st.arrayAt arr = some r) (h1 : r.tab_obj ≠ handles) (h2 : r.mem_struct ≠ handles) :
    ArrayFindAny st arr handles = .ok false := by
  unfold ArrayFindAny
  split
  · rfl
  · rw [hr]
    simp [h1, h2]

theorem ArrayFindObjects_true (st : State) (arr handles : Ptr)
    (h : ArrayFindObjects st arr handles = .ok true) :
    arr ≠ NULL ∧ ∃ r, st.arrayAt arr = some r ∧ r.tab_obj = handles := by
  unfold ArrayFindObjects at h
  split at h
  · simp at h
  · rename_i hn
    refine ⟨hn, ?_⟩
    split at h
    · simp at h
    · rename_i r hr
      refine ⟨r, hr, ?_⟩
      simpa using h

@[simp] theorem FREE_arr_arrs (arr : Ptr) (st : State) : (FREE_arr arr st).arrs = st.arrs := by
  unfold FREE_arr
  split
  · rfl
  · simp

theorem FREE_arr_arrayAt (arr : Ptr) (st : State) (hn : arr ≠ NULL) :
    (FREE_arr arr st).arrayAt = upd st.arrayAt arr none := by
  unfold FREE_arr
  rw [if_neg hn]

/-- The effect of a returning call of ArrayFreeFromHandles: either nothing was found and the
state is unchanged, or the first match was unlinked and its record released. -/
theorem ArrayFreeFromHandles_cases (cfg : Config) (handles : Ptr) (st st' : State) (b : Bool)
    (h : ArrayFreeFromHandles cfg handles st = .ok (b, st')) :
    (b = false ∧ st' = st ∧ ListFind ArrayFindAny handles st st.arrs = .ok NULL) ∨
      ∃ p r, ListFind ArrayFindAny handles st st.arrs = .ok p ∧ p ≠ NULL ∧ p ∈ st.arrs ∧
        st.arrayAt p = some r ∧ (r.tab_obj = handles ∨ r.mem_struct = handles) ∧ b = true ∧
        st'.arrs = st.arrs.erase p ∧ st'.arrayAt = upd st.arrayAt p none := by
  unfold ArrayFreeFromHandles at h
  split at h
  · simp at h
  · rename_i arr hfind
    split at h
    · rename_i hn
      dsimp only at h
      split at h
      · simp at h
      · rename_i bd st2 hd
        simp only [Except.ok.injEq, Prod.mk.injEq] at h
        obtain ⟨hb, rfl⟩ := h
        right
        rcases ListFind_result _ _ _ _ _ hfind with ⟨h0, -⟩ | ⟨hmem, htrue⟩
        · exact absurd h0 hn
        · obtain ⟨-, r, hr, hmatch⟩ := ArrayFindAny_true _ _ _ htrue
          have hrm : ListRemove arr st = (true, { st with arrs := st.arrs.erase arr }) := by
            unfold ListRemove
            rw [if_pos hmem]
          rw [hrm] at hd hb
          obtain ⟨harrs, r', -, hat⟩ := ArrayDispose_frame cfg arr _ _ _ hd hn
          refine ⟨arr, r, hfind, hn, hmem, hr, hmatch, hb.symm, ?_, ?_⟩
          · simpa using harrs
          · rw [FREE_arr_arrayAt _ _ hn, hat, upd_upd]
    · rename_i hn
      simp only [Except.ok.injEq, Prod.mk.injEq] at h
      obtain ⟨rfl, rfl⟩ := h
      have : arr = NULL := by simpa using hn
      subst this
      exact Or.inl ⟨rfl, rfl, hfind⟩

/-! ## ArrayFreeFromHandles and ArrayDispose on a null array -/

/-- C8: ArrayDispose on a null array returns FALSE and leaves the whole state, event log
included, as it was: no element free, no descriptor free, no memory free; the record store
is not consulted (reading a field of the null record would be a fault). -/
theorem C8_ArrayDispose_null (cfg : Config) (st : State) :
    ArrayDispose cfg NULL st = .ok (false, st) := by
  simp [ArrayDispose]

/-- C4: when every registered record is allocated and neither its tab_obj nor its mem_struct
is the pointer handles, ArrayFreeFromHandles(handles) returns FALSE and the state (registry,
records, blocks, event log) is unchanged. -/
theorem C4_ArrayFreeFromHandles_no_match (cfg : Config) (handles : Ptr) (st : State)
    (h : ∀ p ∈ st.arrs, ∃ r, st.arrayAt p = some r ∧ r.tab_obj ≠ handles ∧
      r.mem_struct ≠ handles) :
    ArrayFreeFromHandles cfg handles st = .ok (false, st) := by
  have hfind : ListFind ArrayFindAny handles st st.arrs = .ok NULL := by
    apply ListFind_none
    intro q hq
    obtain ⟨r, hr, h1, h2⟩ := h q hq
    exact ArrayFindAny_false st q handles r hr h1 h2
  unfold ArrayFreeFromHandles
  rw [hfind]
  simp

/-- C4, witness: no block of the one registered timestamp array is the pointer 99. -/
theorem C4_witness :
    ArrayFreeFromHandles demoConfig 99 demoState = .ok (false, demoState) :=
  C4_ArrayFreeFromHandles_no_match demoConfig 99 demoState (by
    intro p hp
    have hp10 : p = 10 := by
      have : demoState.arrs = [10] := by decide
      rw [this] at hp
      simpa using hp
    subst hp10
    exact ⟨_, rfl, by decide, by decide⟩)

/-- C2, counterexample: in the state after creating one timestamp array (record 10, object
index 20, wrapper block 40), ArrayFreeFromHandles(40) unlinks and releases the array
although its tab_obj is 20, not 40. -/
theorem C2_counterexample :
    10 ∈ demoState.arrs ∧
    (demoState.arrayAt 10).map (fun r => r.tab_obj) = some 20 ∧
    valueOf (ArrayFreeFromHandles demoConfig 40 demoState) = some true ∧
    10 ∉ (stateOf (ArrayFreeFromHandles demoConfig 40 demoState) demoState).arrs ∧
    (stateOf (ArrayFreeFromHandles demoConfig 40 demoState) demoState).arrayAt 10 = none ∧
    Event.free 10 ∈ (stateOf (ArrayFreeFromHandles demoConfig 40 demoState) demoState).log := by
  decide

/-- C2, amended: ArrayFreeFromHandles(handles) locates the array by block identity through
ArrayFindAny: whenever it returns, either it found nothing, returned FALSE and changed
nothing, or it returned TRUE after unlinking and releasing exactly one registered array, the
first one whose tab_obj or mem_struct is identical to handles. -/
theorem C2_ArrayFreeFromHandles_match (cfg : Config) (handles : Ptr) (st st' : State)
    (b : Bool) (h : ArrayFreeFromHandles cfg handles st = .ok (b, st')) :
    (b = false ∧ st' = st) ∨
      ∃ p r, ListFind ArrayFindAny handles st st.arrs = .ok p ∧ p ∈ st.arrs ∧
        st.arrayAt p = some r ∧ (r.tab_obj = handles ∨ r.mem_struct = handles) ∧ b = true ∧
        st'.arrs = st.arrs.erase p ∧ st'.arrayAt = upd st.arrayAt p none := by
  rcases ArrayFreeFromHandles_cases cfg handles st st' b h with ⟨hb, hs, -⟩ | ⟨p, r, h1, -, h3, h4, h5, h6, h7, h8⟩
  · exact Or.inl ⟨hb, hs⟩
  · exact Or.inr ⟨p, r, h1, h3, h4, h5, h6, h7, h8⟩

/-- C2, witness: the call ArrayFreeFromHandles(40) on the state with one timestamp array. -/
theorem C2_witness :
    ArrayFreeFromHandles demoConfig 40 demoState =
        .ok (true, stateOf (ArrayFreeFromHandles demoConfig 40 demoState) demoState) ∧
      ((true = false ∧ stateOf (ArrayFreeFromHandles demoConfig 40 demoState) demoState
          = demoState) ∨
        ∃ p r, ListFind ArrayFindAny 40 demoState demoState.arrs = .ok p ∧ p ∈ demoState.arrs ∧
          demoState.arrayAt p = some r ∧ (r.tab_obj = 40 ∨ r.mem_struct = 40) ∧ true = true ∧
          (stateOf (ArrayFreeFromHandles demoConfig 40 demoState) demoState).arrs =
            demoState.arrs.erase p ∧
          (stateOf (ArrayFreeFromHandles demoConfig 40 demoState) demoState).arrayAt =
            upd demoState.arrayAt p none) :=
  ⟨rfl, C2_ArrayFreeFromHandles_match demoConfig 40 demoState _ true rfl⟩

/-- C3, counterexample: with two text arrays registered (records 10 and 50, both with a null
tab_obj), ArrayFreeFromHandles(tab_obj of array 50) returns TRUE but releases array 10:
array 50 is still registered and a lookup by its wrapper block 80 still returns it. -/
theorem C3_counterexample :
    textState.arrs = [10, 50] ∧
    (textState.arrayAt 50).map (fun r => r.tab_obj) = some NULL ∧
    valueOf (ArrayFreeFromHandles demoConfig NULL textState) = some true ∧
    50 ∈ (stateOf (ArrayFreeFromHandles demoConfig NULL textState) textState).arrs ∧
    ListFind ArrayFindAny 80
      (stateOf (ArrayFreeFromHandles demoConfig NULL textState) textState)
      (stateOf (ArrayFreeFromHandles demoConfig NULL textState) textState).arrs = .ok 50 :=
  ⟨by decide, by decide, by decide, by decide, rfl⟩

/-- C3, amended: let arr be registered once, and let no other registered array have a
tab_obj or mem_struct equal to arr.tab_obj (as is the case when arr.tab_obj is not null).
After ArrayFreeFromHandles(arr.tab_obj) returns TRUE, arr is not in the registry and its
record is gone, no lookup with ArrayFindAny or ArrayFindObjects by any pointer returns arr,
and every other registered array is still registered with its record unchanged. -/
theorem C3_ArrayFreeFromHandles_removes (cfg : Config) (st st' : State) (p : Ptr)
    (r : OCI_Array) (hnd : st.arrs.Nodup) (hp : p ∈ st.arrs) (hr : st.arrayAt p = some r)
    (honly : ∀ q ∈ st.arrs, q ≠ p → ∀ rq, st.arrayAt q = some rq →
      rq.tab_obj ≠ r.tab_obj ∧ rq.mem_struct ≠ r.tab_obj)
    (h : ArrayFreeFromHandles cfg r.tab_obj st = .ok (true, st')) :
    p ∉ st'.arrs ∧ st'.arrayAt p = none ∧
      (∀ key, ListFind ArrayFindAny key st' st'.arrs ≠ .ok p) ∧
      (∀ key, ListFind ArrayFindObjects key st' st'.arrs ≠ .ok p) ∧
      ∀ q ∈ st.arrs, q ≠ p → q ∈ st'.arrs ∧ st'.arrayAt q = st.arrayAt q := by
  rcases ArrayFreeFromHandles_cases cfg _ st st' true h with
    ⟨hb, -, -⟩ | ⟨p', r', -, hn, hmem, hr', hmatch, -, harrs, hat⟩
  · exact absurd hb (by decide)
  · have hpp : p' = p := by
      by_contra hne
      obtain ⟨h1, h2⟩ := honly p' hmem hne r' hr'
      rcases hmatch with hm | hm
      · exact h1 hm
      · exact h2 hm
    subst hpp
    have hnot : p' ∉ st'.arrs := by
      rw [harrs]
      intro hin
      exact ((List.Nodup.mem_erase_iff hnd).mp hin).1 rfl
    refine ⟨hnot, ?_, ?_, ?_, ?_⟩
    · rw [hat]
      simp
    · intro key hfind
      rcases ListFind_result _ _ _ _ _ hfind with ⟨h0, -⟩ | ⟨hin, -⟩
      · exact hn h0
      · exact hnot hin
    · intro key hfind
      rcases ListFind_result _ _ _ _ _ hfind with ⟨h0, -⟩ | ⟨hin, -⟩
      · exact hn h0
      · exact hnot hin
    · intro q hq hne
      refine ⟨?_, ?_⟩
      · rw [harrs]
        exact (List.mem_erase_of_ne hne).mpr hq
      · rw [hat]
        simp [hne]

/-- C3, witness: TimestampArrayFree on the object index 20 of the registered timestamp array
is ArrayFreeFromHandles(20), which returns TRUE. -/
theorem C3_witness :
    TimestampArrayFree demoConfig 20 demoState = ArrayFreeFromHandles demoConfig 20 demoState ∧
    ArrayFreeFromHandles demoConfig 20 demoState =
        .ok (true, stateOf (ArrayFreeFromHandles demoConfig 20 demoState) demoState) ∧
      (10 ∉ (stateOf (ArrayFreeFromHandles demoConfig 20 demoState) demoState).arrs ∧
        (stateOf (ArrayFreeFromHandles demoConfig 20 demoState) demoState).arrayAt 10 = none ∧
        (∀ key, ListFind ArrayFindAny key
          (stateOf (ArrayFreeFromHandles demoConfig 20 demoState) demoState)
          (stateOf (ArrayFreeFromHandles demoConfig 20 demoState) demoState).arrs ≠ .ok 10) ∧
        (∀ key, ListFind ArrayFindObjects key
          (stateOf (ArrayFreeFromHandles demoConfig 20 demoState) demoState)
          (stateOf (ArrayFreeFromHandles demoConfig 20 demoState) demoState).arrs ≠ .ok 10) ∧
        ∀ q ∈ demoState.arrs, q ≠ 10 →
          q ∈ (stateOf (ArrayFreeFromHandles demoConfig 20 demoState) demoState).arrs ∧
          (stateOf (ArrayFreeFromHandles demoConfig 20 demoState) demoState).arrayAt q =
            demoState.arrayAt q) :=
  ⟨rfl, rfl, C3_ArrayFreeFromHandles_removes demoConfig demoState _ 10
    { con := 0, err := 0, env := 0, elem_type := 9, elem_subtype := 1, elem_size := 8,
      nb_elem := 2, struct_size := 48, handle_type := 68, tab_obj := 20, mem_handle := 30,
      mem_struct := 40 }
    (by decide) (by decide) (by decide)
    (by
      intro q hq hne
      have : demoState.arrs = [10] := by decide
      rw [this] at hq
      exact absurd (by simpa using hq) hne)
    rfl⟩

/-! ## ArrayInitialize -/

theorem writeSlot_ok (b : Ptr) (i : Nat) (v : Ptr) (st : State) (hb : b ≠ NULL) :
    writeSlot b i v st = .ok { st with slots := upd st.slots b (upd (st.slots b) i v)
                                       log := st.log ++ [Event.write b i] } := by
  unfold writeSlot; rw [if_neg hb]

theorem readSlot_ok (b : Ptr) (i : Nat) (st : State) (hb : b ≠ NULL) :
    readSlot b i st = .ok (st.slots b i, st.emit (Event.read b i)) := by
  unfold readSlot; rw [if_neg hb]

theorem writeHstate_ok (d : Ptr) (v : Nat) (st : State) (hd : d ≠ NULL) :
    writeHstate d v st = .ok { st with objAt := upd st.objAt d { st.objAt d with hstate := v }
                                       log := st.log ++ [Event.objWrite d] } := by
  unfold writeHstate; rw [if_neg hd]

theorem readHandle_ok (obj : Ptr) (st : State) (h : obj ≠ NULL) :
    readHandle obj st = .ok ((st.objAt obj).handle, st.emit (Event.objRead obj)) := by
  unfold readHandle; rw [if_neg h]

/-- TimestampInit on a wrapper that is not null and tagged array-allocated: nothing is
allocated, the fields are set, the tag stays, and the wrapper itself is returned. -/
theorem TimestampInit_array (cfg : Config) (o : TimestampOracle) (con tmsp buffer : Ptr)
    (type : Nat) (st : State) (hn : tmsp ≠ NULL)
    (hs : (st.objAt tmsp).hstate = OCI_OBJECT_ALLOCATED_ARRAY) :
    TimestampInit cfg o con tmsp buffer type st =
      (tmsp, { st with objAt := upd st.objAt tmsp
                                  { st.objAt tmsp with
                                    con := con
                                    handle := buffer
                                    type := type
                                    err := if con ≠ NULL then st.con_err con else st.Env_err
                                    env := if con ≠ NULL then st.con_env con else st.Env_env } }) := by
  have hn' : (tmsp == NULL) = false := by simpa using hn
  unfold TimestampInit ALLOC_BUFFER TimestampInit.fill
  simp only [hn', Bool.and_false, Bool.false_eq_true, if_false, if_true]
  by_cases hc : con = NULL
  · simp [hc, hs, hn]
  · simp [hc, hs, hn]

/-- The macro ARRAY_INIT on a constructor result that is not null. -/
theorem ARRAY_INIT_ok (r : OCI_Array) (i : Nat) (func : Ptr × State) (hw : r.wired)
    (hf : func.1 ≠ NULL) :
    ∃ st', ARRAY_INIT r i func = .ok st' ∧
      st'.arrs = func.2.arrs ∧ st'.arrayAt = func.2.arrayAt ∧ st'.live = func.2.live ∧
      st'.timestamp_enabled = func.2.timestamp_enabled ∧ st'.objAt = func.2.objAt ∧
      st'.slots r.tab_obj i = func.1 ∧
      (∀ j, j ≠ i → st'.slots r.tab_obj j = func.2.slots r.tab_obj j) ∧
      st'.slots r.mem_handle i = (func.2.objAt func.1).handle ∧
      (∀ j, j ≠ i → st'.slots r.mem_handle j = func.2.slots r.mem_handle j) := by
  obtain ⟨ht, hh, -, hne⟩ := hw
  unfold ARRAY_INIT
  rw [writeSlot_ok _ _ _ _ ht]
  dsimp only
  rw [readSlot_ok _ _ _ ht]
  dsimp only
  have hrd : upd func.2.slots r.tab_obj (upd (func.2.slots r.tab_obj) i func.1) r.tab_obj i
      = func.1 := by simp
  rw [hrd, readHandle_ok _ _ hf]
  dsimp only
  rw [writeSlot_ok _ _ _ _ hh]
  refine ⟨_, rfl, rfl, rfl, rfl, rfl, rfl, ?_, ?_, ?_, ?_⟩
  · simp [State.emit, upd, hne]
  · intro j hj
    simp [State.emit, upd, hne, hj]
  · simp [State.emit, upd]
  · intro j hj
    simp [State.emit, upd, hj, Ne.symm hne]

theorem ElemInitialize_post (t : Nat) (data handle : Ptr) (st : State) :
    CtorPost data st (ElemInitialize true t data handle st) := by
  unfold ElemInitialize CtorPost SameFrame KeepsArrayTag
  refine ⟨rfl, ⟨rfl, rfl, rfl, rfl⟩, rfl, ?_⟩
  intro a ha
  by_cases h : a = data
  · subst h
    simpa [upd] using ha
  · simpa [upd, h] using ha

theorem TimestampInit_post (cfg : Config) (o : TimestampOracle) (con data handle : Ptr)
    (type : Nat) (st : State) (hn : data ≠ NULL)
    (hs : (st.objAt data).hstate = OCI_OBJECT_ALLOCATED_ARRAY) :
    CtorPost data st (TimestampInit cfg o con data handle type st) := by
  rw [TimestampInit_array cfg o con data handle type st hn hs]
  unfold CtorPost SameFrame KeepsArrayTag
  refine ⟨rfl, ⟨rfl, rfl, rfl, rfl⟩, rfl, ?_⟩
  intro a ha
  by_cases h : a = data
  · subst h
    simpa [upd] using ha
  · simpa [upd, h] using ha

theorem assign_post (r : OCI_Array) (i : Nat) (data : Ptr) (st : State) (func : Ptr × State)
    (hw : r.wired) (hc : CtorPost data st func) :
    ∃ st', writeSlot r.tab_obj i func.1 func.2 = .ok st' ∧ StepPost r i data st st' := by
  obtain ⟨h1, ⟨ha, hb, hl, ht⟩, hsl, hk⟩ := hc
  rw [writeSlot_ok _ _ _ _ hw.1]
  refine ⟨_, rfl, ⟨ha, hb, hl, ht⟩, ?_, ?_, hk⟩
  · simp [upd, h1]
  · intro j hj
    simp [upd, hj, hsl]

theorem ARRAY_INIT_post (r : OCI_Array) (i : Nat) (data : Ptr) (st : State)
    (func : Ptr × State) (hw : r.wired) (hd : data ≠ NULL) (hc : CtorPost data st func) :
    ∃ st', ARRAY_INIT r i func = .ok st' ∧ StepPost r i data st st' := by
  obtain ⟨h1, ⟨ha, hb, hl, ht⟩, hsl, hk⟩ := hc
  have hf : func.1 ≠ NULL := by rw [h1]; exact hd
  obtain ⟨st', hst', a1, a2, a3, a4, a5, a6, a7, -, -⟩ := ARRAY_INIT_ok r i func hw hf
  refine ⟨st', hst', ⟨a1.trans ha, a2.trans hb, a3.trans hl, a4.trans ht⟩, a6.trans h1, ?_, ?_⟩
  · intro j hj
    rw [a7 j hj, hsl]
  · intro a h
    rw [a5]
    exact hk a h

/-- The switch of ArrayInitialize, when the constructor returns its wrapper. -/
theorem ArrayInitialize_dispatch_ok (cfg : Config) (o : Oracle) (typinf : Ptr) (r : OCI_Array)
    (i : Nat) (data handle : Ptr) (st : State) (hw : r.wired) (hd : data ≠ NULL)
    (hs : (st.objAt data).hstate = OCI_OBJECT_ALLOCATED_ARRAY)
    (hslot : st.slots r.tab_obj i = data)
    (hc : r.elem_type = OCI_CDT_TIMESTAMP ∨ o.ctor i = true) :
    ∃ st', ArrayInitialize.dispatch cfg o typinf r i data handle st = .ok st' ∧
      StepPost r i data st st' := by
  have hrefl : StepPost r i data st st :=
    ⟨⟨rfl, rfl, rfl, rfl⟩, hslot, fun _ _ => rfl, fun _ h => h⟩
  have hctor : r.elem_type ≠ OCI_CDT_TIMESTAMP → o.ctor i = true := by
    intro hne
    rcases hc with h | h
    · exact absurd h hne
    · exact h
  unfold ArrayInitialize.dispatch
  split
  · rename_i hk
    have hct := hctor (by rw [hk]; decide)
    split
    · rw [hct]
      exact assign_post r i data st _ hw (ElemInitialize_post _ _ _ _)
    · exact ⟨st, rfl, hrefl⟩
  · split
    · rename_i hk
      have hct := hctor (by rw [hk]; decide)
      rw [hct]
      exact assign_post r i data st _ hw (ElemInitialize_post _ _ _ _)
    · split
      · rename_i hk
        have hct := hctor (by rw [hk]; decide)
        rw [hct]
        exact ARRAY_INIT_post r i data st _ hw hd (ElemInitialize_post _ _ _ _)
      · split
        · rename_i hk
          have hct := hctor (by rw [hk]; decide)
          rw [hct]
          exact ARRAY_INIT_post r i data st _ hw hd (ElemInitialize_post _ _ _ _)
        · split
          · exact ARRAY_INIT_post r i data st _ hw hd (TimestampInit_post _ _ _ _ _ _ _ hd hs)
          · split
            · rename_i hk
              have hct := hctor (by rw [hk]; decide)
              rw [hct]
              exact ARRAY_INIT_post r i data st _ hw hd (ElemInitialize_post _ _ _ _)
            · split
              · rename_i hk
                have hct := hctor (by rw [hk]; decide)
                rw [hct]
                exact ARRAY_INIT_post r i data st _ hw hd (ElemInitialize_post _ _ _ _)
              · split
                · rename_i hk
                  have hct := hctor (by rw [hk]; decide)
                  rw [hct]
                  exact ARRAY_INIT_post r i data st _ hw hd (ElemInitialize_post _ _ _ _)
                · split
                  · rename_i hk
                    have hct := hctor (by rw [hk]; decide)
                    rw [hct]
                    exact ARRAY_INIT_post r i data st _ hw hd (ElemInitialize_post _ _ _ _)
                  · exact ⟨st, rfl, hrefl⟩

theorem ArrayInitialize_data_ne_null (r : OCI_Array) (i : Nat) (h : r.mem_struct ≠ NULL) :
    ArrayInitialize.data r i ≠ NULL := by
  intro h0
  apply h
  unfold ArrayInitialize.data NULL at h0
  exact Nat.eq_zero_of_add_eq_zero_right h0

/-- Wrapper slots that are apart are consecutive ranges: the wrapper of an element ends
before the slot of every later element begins. -/
theorem slotsApart_data (r : OCI_Array) (W : Nat)
    (h : slotsApart W r.struct_size r.nb_elem) (i j : Nat) (hij : i < j)
    (hj : j < r.nb_elem) :
    ArrayInitialize.data r i + W ≤ ArrayInitialize.data r j := by
  obtain ⟨h0, h1, h2⟩ := h
  have hj1 : r.struct_size * (j + 1) ≤ r.struct_size * r.nb_elem :=
    Nat.mul_le_mul_left _ hj
  have hi1 : r.struct_size * (i + 1) ≤ r.struct_size * j := Nat.mul_le_mul_left _ hij
  rw [Nat.mul_succ] at hj1 hi1
  have hjlt : r.struct_size * j < UINT_RANGE := by omega
  have hilt : r.struct_size * i < UINT_RANGE := by omega
  have hle : r.struct_size * i + W ≤ r.struct_size * j := by omega
  unfold ArrayInitialize.data
  rw [Nat.mod_eq_of_lt hjlt, Nat.mod_eq_of_lt hilt, Nat.add_assoc]
  exact Nat.add_le_add_left hle r.mem_struct

theorem ArrayInitialize_handle_ok (cfg : Config) (r : OCI_Array) (i : Nat) (st : State)
    (hh : r.mem_handle ≠ NULL) :
    ∃ h st1, ArrayInitialize.handle cfg r i st = .ok (h, st1) ∧ SameFrame st st1 ∧
      st1.slots = st.slots ∧ st1.objAt = st.objAt := by
  unfold ArrayInitialize.handle
  split
  · exact ⟨_, _, rfl, ⟨rfl, rfl, rfl, rfl⟩, rfl, rfl⟩
  · split
    · exact ⟨_, _, rfl, ⟨rfl, rfl, rfl, rfl⟩, rfl, rfl⟩
    · rw [readSlot_ok _ _ _ hh]
      exact ⟨_, _, rfl, ⟨rfl, rfl, rfl, rfl⟩, rfl, rfl⟩

/-- One iteration of the loop of ArrayInitialize, when the constructor returns its wrapper. -/
theorem ArrayInitialize_body_ok (cfg : Config) (o : Oracle) (typinf : Ptr) (r : OCI_Array)
    (i : Nat) (st : State) (hw : r.wired)
    (hc : r.elem_type = OCI_CDT_TIMESTAMP ∨ o.ctor i = true) :
    ∃ st', ArrayInitialize.body cfg o typinf r i st = .ok st' ∧
      StepPost r i (ArrayInitialize.data r i) st st' ∧
      (st'.objAt (ArrayInitialize.data r i)).hstate = OCI_OBJECT_ALLOCATED_ARRAY := by
  have hd : ArrayInitialize.data r i ≠ NULL := ArrayInitialize_data_ne_null r i hw.2.2.1
  obtain ⟨h, st1, hh, ⟨f1, f2, f3, f4⟩, hsl, hob⟩ :=
    ArrayInitialize_handle_ok cfg r i st hw.2.1
  unfold ArrayInitialize.body
  dsimp only
  rw [hh]
  dsimp only
  rw [writeSlot_ok _ _ _ _ hw.1]
  dsimp only
  rw [writeHstate_ok _ _ _ hd]
  dsimp only
  obtain ⟨st', hst', ⟨g1, g2, g3, g4⟩, hslot, hothers, hkeep⟩ :=
    ArrayInitialize_dispatch_ok cfg o typinf r i (ArrayInitialize.data r i) h
      { st1 with
        slots := upd st1.slots r.tab_obj (upd (st1.slots r.tab_obj) i (ArrayInitialize.data r i))
        objAt := upd st1.objAt (ArrayInitialize.data r i)
          { st1.objAt (ArrayInitialize.data r i) with hstate := OCI_OBJECT_ALLOCATED_ARRAY }
        log := st1.log ++ [Event.write r.tab_obj i] ++
          [Event.objWrite (ArrayInitialize.data r i)] }
      hw hd (by simp [upd]) (by simp [upd]) hc
  refine ⟨st', hst', ⟨⟨?_, ?_, ?_, ?_⟩, hslot, ?_, ?_⟩, ?_⟩
  · rw [g1]; exact f1
  · rw [g2]; exact f2
  · rw [g3]; exact f3
  · rw [g4]; exact f4
  · intro j hj
    rw [hothers j hj]
    simp [upd, hj, hsl]
  · intro a ha
    apply hkeep
    by_cases hda : a = ArrayInitialize.data r i
    · subst hda
      simp [upd]
    · simp only [upd, hda, if_false]
      rw [hob]
      exact ha
  · apply hkeep
    simp [upd]

/-- The loop of ArrayInitialize from index i for k iterations, when every constructor
returns its wrapper: it returns, and every entry of the object index in the range is the
slot address, whose wrapper is tagged array-allocated. -/
theorem ArrayInitialize_loop_ok (cfg : Config) (o : Oracle) (typinf : Ptr) (r : OCI_Array)
    (hw : r.wired) (k : Nat) :
    ∀ (i : Nat) (st : State),
      (r.elem_type = OCI_CDT_TIMESTAMP ∨ ∀ j, i ≤ j → j < i + k → o.ctor j = true) →
      ∃ st', ArrayInitialize.loop cfg o typinf r i k st = .ok st' ∧ SameFrame st st' ∧
        (∀ j, i ≤ j → j < i + k →
          st'.slots r.tab_obj j = ArrayInitialize.data r j ∧
          (st'.objAt (ArrayInitialize.data r j)).hstate = OCI_OBJECT_ALLOCATED_ARRAY) ∧
        (∀ j, j < i → st'.slots r.tab_obj j = st.slots r.tab_obj j) ∧
        KeepsArrayTag st st' := by
  induction k with
  | zero =>
    intro i st _
    refine ⟨st, rfl, ⟨rfl, rfl, rfl, rfl⟩, ?_, fun _ _ => rfl, fun _ h => h⟩
    intro j h1 h2
    omega
  | succ k ih =>
    intro i st hc
    have hci : r.elem_type = OCI_CDT_TIMESTAMP ∨ o.ctor i = true := by
      rcases hc with h | h
      · exact Or.inl h
      · exact Or.inr (h i (Nat.le_refl i) (by omega))
    obtain ⟨st1, hb, ⟨⟨f1, f2, f3, f4⟩, hslot, hothers, hkeep⟩, htag⟩ :=
      ArrayInitialize_body_ok cfg o typinf r i st hw hci
    have hc' : r.elem_type = OCI_CDT_TIMESTAMP ∨
        ∀ j, i + 1 ≤ j → j < i + 1 + k → o.ctor j = true := by
      rcases hc with h | h
      · exact Or.inl h
      · exact Or.inr (fun j h1 h2 => h j (by omega) (by omega))
    obtain ⟨st', hl, ⟨g1, g2, g3, g4⟩, hrange, hbelow, hkeep'⟩ := ih (i + 1) st1 hc'
    unfold ArrayInitialize.loop
    rw [hb]
    dsimp only
    refine ⟨st', hl, ⟨g1.trans f1, g2.trans f2, g3.trans f3, g4.trans f4⟩, ?_, ?_, ?_⟩
    · intro j h1 h2
      by_cases hji : j = i
      · subst hji
        refine ⟨?_, hkeep' _ htag⟩
        rw [hbelow j (by omega)]
        exact hslot
      · exact hrange j (by omega) (by omega)
    · intro j hj
      rw [hbelow j (by omega)]
      exact hothers j (by omega)
    · intro a ha
      exact hkeep' a (hkeep a ha)

/-- ArrayInitialize returns TRUE when the blocks are allocated and every constructor returns
its wrapper; every entry i below nb_elem of the object index is then the slot address
computed at array.c line 82, and the wrapper there is tagged array-allocated. -/
theorem ArrayInitialize_ok (cfg : Config) (o : Oracle) (arr typinf : Ptr) (st : State)
    (r : OCI_Array) (hn : arr ≠ NULL) (hr : st.arrayAt arr = some r) (hw : r.wired)
    (hc : o.ctorsReturnWrapper r) :
    ∃ st', ArrayInitialize cfg o arr typinf st = .ok (true, st') ∧ SameFrame st st' ∧
      ∀ i, i < r.nb_elem →
        st'.slots r.tab_obj i = ArrayInitialize.data r i ∧
        (st'.objAt (ArrayInitialize.data r i)).hstate = OCI_OBJECT_ALLOCATED_ARRAY := by
  have hc' : r.elem_type = OCI_CDT_TIMESTAMP ∨
      ∀ j, 0 ≤ j → j < 0 + r.nb_elem → o.ctor j = true := by
    rcases hc with h | h
    · exact Or.inl h
    · exact Or.inr (fun j _ h2 => h j (by omega))
  obtain ⟨st', hl, hf, hrange, -, -⟩ :=
    ArrayInitialize_loop_ok cfg o typinf r hw r.nb_elem 0 st hc'
  unfold ArrayInitialize
  rw [if_neg hn, hr]
  dsimp only
  rw [hl]
  exact ⟨st', rfl, hf, fun i hi => hrange i (Nat.zero_le i) (by omega)⟩

/-! ## The registry is not touched by initialisation -/

@[simp] theorem MemoryAlloc_arrs (c : Option Ptr) (st : State) :
    (MemoryAlloc c st).2.arrs = st.arrs := by
  unfold MemoryAlloc
  split
  · rfl
  · split <;> rfl

@[simp] theorem MemoryAlloc_arrayAt (c : Option Ptr) (st : State) :
    (MemoryAlloc c st).2.arrayAt = st.arrayAt := by
  unfold MemoryAlloc
  split
  · rfl
  · split <;> rfl

@[simp] theorem ALLOC_BUFFER_arrs (c : Option Ptr) (s : Bool) (p : Ptr) (st : State) :
    (ALLOC_BUFFER c s p st).2.2.arrs = st.arrs := by
  unfold ALLOC_BUFFER
  split
  · exact MemoryAlloc_arrs c st
  · rfl

@[simp] theorem ALLOC_BUFFER_arrayAt (c : Option Ptr) (s : Bool) (p : Ptr) (st : State) :
    (ALLOC_BUFFER c s p st).2.2.arrayAt = st.arrayAt := by
  unfold ALLOC_BUFFER
  split
  · exact MemoryAlloc_arrayAt c st
  · rfl

@[simp] theorem MemoryAllocDescriptor_arrs (c : Option Ptr) (t : Nat) (st : State) :
    (MemoryAllocDescriptor c t st).2.2.arrs = st.arrs := by
  unfold MemoryAllocDescriptor
  split <;> rfl

@[simp] theorem MemoryAllocDescriptor_arrayAt (c : Option Ptr) (t : Nat) (st : State) :
    (MemoryAllocDescriptor c t st).2.2.arrayAt = st.arrayAt := by
  unfold MemoryAllocDescriptor
  split <;> rfl

@[simp] theorem TimestampInit_fill_arrs (cfg : Config) (o : TimestampOracle)
    (con tmsp buffer : Ptr) (type : Nat) (st : State) :
    (TimestampInit.fill cfg o con tmsp buffer type st).2.arrs = st.arrs := by
  unfold TimestampInit.fill
  dsimp only
  split_ifs <;> simp

@[simp] theorem TimestampInit_fill_arrayAt (cfg : Config) (o : TimestampOracle)
    (con tmsp buffer : Ptr) (type : Nat) (st : State) :
    (TimestampInit.fill cfg o con tmsp buffer type st).2.arrayAt = st.arrayAt := by
  unfold TimestampInit.fill
  dsimp only
  split_ifs <;> simp

@[simp] theorem TimestampInit_arrs (cfg : Config) (o : TimestampOracle) (con tmsp buffer : Ptr)
    (type : Nat) (st : State) :
    (TimestampInit cfg o con tmsp buffer type st).2.arrs = st.arrs := by
  unfold TimestampInit
  dsimp only
  split_ifs <;> simp

@[simp] theorem TimestampInit_arrayAt (cfg : Config) (o : TimestampOracle)
    (con tmsp buffer : Ptr) (type : Nat) (st : State) :
    (TimestampInit cfg o con tmsp buffer type st).2.arrayAt = st.arrayAt := by
  unfold TimestampInit
  dsimp only
  split_ifs <;> simp

@[simp] theorem ElemInitialize_arrs (ok : Bool) (t : Nat) (data handle : Ptr) (st : State) :
    (ElemInitialize ok t data handle st).2.arrs = st.arrs := by
  unfold ElemInitialize
  dsimp only
  split <;> rfl

@[simp] theorem ElemInitialize_arrayAt (ok : Bool) (t : Nat) (data handle : Ptr) (st : State) :
    (ElemInitialize ok t data handle st).2.arrayAt = st.arrayAt := by
  unfold ElemInitialize
  dsimp only
  split <;> rfl

/-- The registry and the records are the same in both states. -/
theorem writeSlot_frame (b : Ptr) (i : Nat) (v : Ptr) (st st' : State)
    (h : writeSlot b i v st = .ok st') : st'.arrs = st.arrs ∧ st'.arrayAt = st.arrayAt := by
  unfold writeSlot at h
  split at h
  · simp at h
  · simp only [Except.ok.injEq] at h
    subst h
    exact ⟨rfl, rfl⟩

theorem readSlot_frame (b : Ptr) (i : Nat) (v : Ptr) (st st' : State)
    (h : readSlot b i st = .ok (v, st')) : st'.arrs = st.arrs ∧ st'.arrayAt = st.arrayAt := by
  unfold readSlot at h
  split at h
  · simp at h
  · simp only [Except.ok.injEq, Prod.mk.injEq] at h
    obtain ⟨-, rfl⟩ := h
    exact ⟨rfl, rfl⟩

theorem writeHstate_frame (d : Ptr) (v : Nat) (st st' : State)
    (h : writeHstate d v st = .ok st') : st'.arrs = st.arrs ∧ st'.arrayAt = st.arrayAt := by
  unfold writeHstate at h
  split at h
  · simp at h
  · simp only [Except.ok.injEq] at h
    subst h
    exact ⟨rfl, rfl⟩

theorem readHandle_frame (obj : Ptr) (v : Ptr) (st st' : State)
    (h : readHandle obj st = .ok (v, st')) : st'.arrs = st.arrs ∧ st'.arrayAt = st.arrayAt := by
  unfold readHandle at h
  split at h
  · simp at h
  · simp only [Except.ok.injEq, Prod.mk.injEq] at h
    obtain ⟨-, rfl⟩ := h
    exact ⟨rfl, rfl⟩

theorem ARRAY_INIT_frame (r : OCI_Array) (i : Nat) (func : Ptr × State) (st' : State)
    (h : ARRAY_INIT r i func = .ok st') :
    st'.arrs = func.2.arrs ∧ st'.arrayAt = func.2.arrayAt := by
  unfold ARRAY_INIT at h
  split at h
  · simp at h
  · rename_i st1 h1
    split at h
    · simp at h
    · rename_i obj st2 h2
      split at h
      · simp at h
      · rename_i hd st3 h3
        have f1 := writeSlot_frame _ _ _ _ _ h1
        have f2 := readSlot_frame _ _ _ _ _ h2
        have f3 := readHandle_frame _ _ _ _ h3
        have f4 := writeSlot_frame _ _ _ _ _ h
        exact ⟨f4.1.trans (f3.1.trans (f2.1.trans f1.1)),
          f4.2.trans (f3.2.trans (f2.2.trans f1.2))⟩

theorem ArrayInitialize_dispatch_frame (cfg : Config) (o : Oracle) (typinf : Ptr)
    (r : OCI_Array) (i : Nat) (data handle : Ptr) (st st' : State)
    (h : ArrayInitialize.dispatch cfg o typinf r i data handle st = .ok st') :
    st'.arrs = st.arrs ∧ st'.arrayAt = st.arrayAt := by
  have hrefl : ∀ s : State, Except.ok (ε := Fault) st = .ok s →
      s.arrs = st.arrs ∧ s.arrayAt = st.arrayAt := by
    intro s hs
    simp only [Except.ok.injEq] at hs
    subst hs
    exact ⟨rfl, rfl⟩
  have hassign : ∀ (t : Nat) (s : State),
      writeSlot r.tab_obj i (ElemInitialize (o.ctor i) t data handle st).1
        (ElemInitialize (o.ctor i) t data handle st).2 = .ok s →
      s.arrs = st.arrs ∧ s.arrayAt = st.arrayAt := by
    intro t s hs
    have f := writeSlot_frame _ _ _ _ _ hs
    simpa using f
  have hinit : ∀ (t : Nat) (s : State),
      ARRAY_INIT r i (ElemInitialize (o.ctor i) t data handle st) = .ok s →
      s.arrs = st.arrs ∧ s.arrayAt = st.arrayAt := by
    intro t s hs
    have f := ARRAY_INIT_frame _ _ _ _ hs
    simpa using f
  unfold ArrayInitialize.dispatch at h
  split_ifs at h
  · exact hassign _ _ h
  · exact hrefl _ h
  · exact hassign _ _ h
  · exact hinit _ _ h
  · exact hinit _ _ h
  · have f := ARRAY_INIT_frame _ _ _ _ h
    simpa using f
  · exact hinit _ _ h
  · exact hinit _ _ h
  · exact hinit _ _ h
  · exact hinit _ _ h
  · exact hrefl _ h

theorem ArrayInitialize_handle_frame (cfg : Config) (r : OCI_Array) (i : Nat) (v : Ptr)
    (st st' : State) (h : ArrayInitialize.handle cfg r i st = .ok (v, st')) :
    st'.arrs = st.arrs ∧ st'.arrayAt = st.arrayAt := by
  unfold ArrayInitialize.handle at h
  split_ifs at h
  · simp only [Except.ok.injEq, Prod.mk.injEq] at h
    obtain ⟨-, rfl⟩ := h
    exact ⟨rfl, rfl⟩
  · simp only [Except.ok.injEq, Prod.mk.injEq] at h
    obtain ⟨-, rfl⟩ := h
    exact ⟨rfl, rfl⟩
  · exact readSlot_frame _ _ _ _ _ h

theorem ArrayInitialize_body_frame (cfg : Config) (o : Oracle) (typinf : Ptr) (r : OCI_Array)
    (i : Nat) (st st' : State) (h : ArrayInitialize.body cfg o typinf r i st = .ok st') :
    st'.arrs = st.arrs ∧ st'.arrayAt = st.arrayAt := by
  unfold ArrayInitialize.body at h
  dsimp only at h
  split at h
  · simp at h
  · rename_i hd st1 h1
    split at h
    · simp at h
    · rename_i st2 h2
      split at h
      · simp at h
      · rename_i st3 h3
        have f1 := ArrayInitialize_handle_frame _ _ _ _ _ _ h1
        have f2 := writeSlot_frame _ _ _ _ _ h2
        have f3 := writeHstate_frame _ _ _ _ h3
        have f4 := ArrayInitialize_dispatch_frame _ _ _ _ _ _ _ _ _ h
        exact ⟨f4.1.trans (f3.1.trans (f2.1.trans f1.1)),
          f4.2.trans (f3.2.trans (f2.2.trans f1.2))⟩

theorem ArrayInitialize_loop_frame (cfg : Config) (o : Oracle) (typinf : Ptr) (r : OCI_Array)
    (k : Nat) :
    ∀ (i : Nat) (st st' : State), ArrayInitialize.loop cfg o typinf r i k st = .ok st' →
      st'.arrs = st.arrs ∧ st'.arrayAt = st.arrayAt := by
  induction k with
  | zero =>
    intro i st st' h
    simp only [ArrayInitialize.loop, Except.ok.injEq] at h
    subst h
    exact ⟨rfl, rfl⟩
  | succ k ih =>
    intro i st st' h
    unfold ArrayInitialize.loop at h
    split at h
    · simp at h
    · rename_i st1 h1
      have f1 := ArrayInitialize_body_frame _ _ _ _ _ _ _ h1
      have f2 := ih _ _ _ h
      exact ⟨f2.1.trans f1.1, f2.2.trans f1.2⟩

/-- Whenever ArrayInitialize returns, it returns TRUE and has left the registry and the
records as they were. -/
theorem ArrayInitialize_frame (cfg : Config) (o : Oracle) (arr typinf : Ptr) (st st' : State)
    (b : Bool) (h : ArrayInitialize cfg o arr typinf st = .ok (b, st')) :
    b = true ∧ st'.arrs = st.arrs ∧ st'.arrayAt = st.arrayAt := by
  unfold ArrayInitialize at h
  split at h
  · simp at h
  · split at h
    · simp at h
    · split at h
      · simp at h
      · rename_i st1 h1
        simp only [Except.ok.injEq, Prod.mk.injEq] at h
        obtain ⟨rfl, rfl⟩ := h
        exact ⟨rfl, ArrayInitialize_loop_frame _ _ _ _ _ _ _ _ h1⟩

/-! ## ArrayCreate -/

/-- The two outcomes of the macro ALLOC_BUFFER on a null pointer: nothing happens and the
status is bad, or a block that was not in use is handed out. -/
theorem ALLOC_BUFFER_null_cases (c : Option Ptr) (b : Bool) (st : State) :
    ALLOC_BUFFER c b NULL st = (false, NULL, st) ∨
      (b = true ∧ ∃ p, p ≠ NULL ∧ p ∉ st.live ∧
        ALLOC_BUFFER c b NULL st = (true, p, (MemoryAlloc (some p) st).2) ∧
        (MemoryAlloc (some p) st).2.live = p :: st.live) := by
  unfold ALLOC_BUFFER
  cases b with
  | false => left; simp
  | true =>
    cases c with
    | none => left; simp [MemoryAlloc]
    | some p =>
      by_cases hp : p ≠ NULL ∧ p ∉ st.live
      · right
        refine ⟨rfl, p, hp.1, hp.2, ?_, ?_⟩
        · simp [MemoryAlloc, hp]
        · simp [MemoryAlloc, hp]
      · left
        simp [MemoryAlloc, hp]

theorem MemoryAlloc_some_live_subset (p : Ptr) (st : State) (q : Ptr)
    (h : q ∈ st.live) : q ∈ (MemoryAlloc (some p) st).2.live := by
  unfold MemoryAlloc
  dsimp only
  split
  · simp [h]
  · exact h

@[simp] theorem MemoryAllocDescriptorArray_arrs (c : Option (Nat → Ptr)) (b : Ptr)
    (t nb : Nat) (st : State) : (MemoryAllocDescriptorArray c b t nb st).2.arrs = st.arrs := by
  unfold MemoryAllocDescriptorArray
  split <;> rfl

@[simp] theorem MemoryAllocDescriptorArray_arrayAt (c : Option (Nat → Ptr)) (b : Ptr)
    (t nb : Nat) (st : State) :
    (MemoryAllocDescriptorArray c b t nb st).2.arrayAt = st.arrayAt := by
  unfold MemoryAllocDescriptorArray
  split <;> rfl

@[simp] theorem ArrayCreate_buffers_arrs (cfg : Config) (o : Oracle) (r0 : OCI_Array)
    (st : State) : (ArrayCreate.buffers cfg o r0 st).2.2.arrs = st.arrs := by
  unfold ArrayCreate.buffers
  dsimp only
  split <;> simp

@[simp] theorem ArrayCreate_buffers_arrayAt (cfg : Config) (o : Oracle) (r0 : OCI_Array)
    (st : State) : (ArrayCreate.buffers cfg o r0 st).2.2.arrayAt = st.arrayAt := by
  unfold ArrayCreate.buffers
  dsimp only
  split <;> simp

/-- When the buffer allocations of ArrayCreate end with a good status, the handle block and
the wrapper block are allocated, the object index is allocated exactly for library object
kinds, and the blocks are distinct and were not in use before. -/
theorem ArrayCreate_buffers_success (cfg : Config) (o : Oracle) (r0 : OCI_Array) (st : State)
    (h1 : r0.tab_obj = NULL) (h2 : r0.mem_handle = NULL) (h3 : r0.mem_struct = NULL)
    (hs : (ArrayCreate.buffers cfg o r0 st).1 = true) :
    ∃ t hd s st2,
      ArrayCreate.buffers cfg o r0 st =
        (true, { r0 with tab_obj := t, mem_handle := hd, mem_struct := s }, st2) ∧
      hd ≠ NULL ∧ hd ∉ st.live ∧ s ≠ NULL ∧ s ∉ st.live ∧ s ≠ hd ∧
      (cfg.IS_OCILIB_OBJECT r0.elem_type r0.elem_subtype = true →
        t ≠ NULL ∧ t ∉ st.live ∧ t ≠ hd ∧ t ≠ s) ∧
      (cfg.IS_OCILIB_OBJECT r0.elem_type r0.elem_subtype = false → t = NULL) := by
  unfold ArrayCreate.buffers at hs ⊢
  dsimp only at hs ⊢
  rw [h1, h2, h3] at hs ⊢
  by_cases hobj : cfg.IS_OCILIB_OBJECT r0.elem_type r0.elem_subtype = true
  · rw [if_pos hobj] at hs ⊢
    rcases ALLOC_BUFFER_null_cases o.tab_obj true st with hT | ⟨-, t, ht0, htl, hT, hTl⟩
    · rw [hT] at hs
      dsimp only at hs
      simp [ALLOC_BUFFER] at hs
    · rw [hT] at hs ⊢
      dsimp only at hs ⊢
      rcases ALLOC_BUFFER_null_cases o.mem_handle true (MemoryAlloc (some t) st).2 with
        hH | ⟨-, hd, hd0, hdl, hH, hHl⟩
      · rw [hH] at hs
        dsimp only at hs
        simp [ALLOC_BUFFER] at hs
      · rw [hH] at hs ⊢
        dsimp only at hs ⊢
        rcases ALLOC_BUFFER_null_cases o.mem_struct true
            (MemoryAlloc (some hd) (MemoryAlloc (some t) st).2).2 with
          hS | ⟨-, s, hs0, hsl, hS, -⟩
        · rw [hS] at hs
          simp at hs
        · rw [hS]
          rw [hHl, hTl] at hsl
          rw [hTl] at hdl
          simp only [List.mem_cons, not_or] at hsl hdl
          refine ⟨t, hd, s, _, rfl, hd0, hdl.2, hs0, hsl.2.2, hsl.1, ?_, ?_⟩
          · intro _
            exact ⟨ht0, htl, Ne.symm hdl.1, Ne.symm hsl.2.1⟩
          · intro hf
            rw [hf] at hobj
            exact absurd hobj (by decide)
  · rw [if_neg hobj] at hs ⊢
    dsimp only at hs ⊢
    rcases ALLOC_BUFFER_null_cases o.mem_handle true st with hH | ⟨-, hd, hd0, hdl, hH, hHl⟩
    · rw [hH] at hs
      dsimp only at hs
      simp [ALLOC_BUFFER] at hs
    · rw [hH] at hs ⊢
      dsimp only at hs ⊢
      rcases ALLOC_BUFFER_null_cases o.mem_struct true (MemoryAlloc (some hd) st).2 with
        hS | ⟨-, s, hs0, hsl, hS, -⟩
      · rw [hS] at hs
        simp at hs
      · rw [hS]
        rw [hHl] at hsl
        simp only [List.mem_cons, not_or] at hsl
        refine ⟨NULL, hd, s, _, rfl, hd0, hdl, hs0, hsl.2, hsl.1, ?_, ?_⟩
        · intro hp
          exact absurd hp hobj
        · intro _
          rfl

theorem ArrayCreate_finish_success (cfg : Config) (o : Oracle) (arr : Ptr) (K ht : Nat)
    (typinf : Ptr) (r : OCI_Array) (st st' : State) (b : Bool) (hn : arr ≠ NULL)
    (hr : st.arrayAt arr = some r)
    (h : ArrayCreate.finish cfg o arr K ht typinf b r st = .ok (true, st')) :
    b = true ∧ st'.arrs = st.arrs ∧ st'.arrayAt = st.arrayAt ∧
      (r.wired → o.ctorsReturnWrapper r → ∀ i, i < r.nb_elem →
        st'.slots r.tab_obj i = ArrayInitialize.data r i ∧
        (st'.objAt (ArrayInitialize.data r i)).hstate = OCI_OBJECT_ALLOCATED_ARRAY) := by
  unfold ArrayCreate.finish at h
  dsimp only at h
  have hb : b = true := by
    cases b with
    | true => rfl
    | false => simp at h
  subst hb
  refine ⟨rfl, ?_⟩
  simp only [Bool.true_and] at h
  generalize hd : (if (ht != 0) = true then
      MemoryAllocDescriptorArray o.descriptors r.mem_handle ht K st else (true, st)) = d at h
  have hd1 : d.2.arrs = st.arrs := by
    rw [← hd]
    split <;> simp
  have hd2 : d.2.arrayAt = st.arrayAt := by
    rw [← hd]
    split <;> simp
  split at h
  · rename_i hcond
    obtain ⟨-, f1, f2⟩ := ArrayInitialize_frame _ _ _ _ _ _ _ h
    refine ⟨f1.trans hd1, f2.trans hd2, ?_⟩
    intro hw hc
    obtain ⟨st'', hst'', -, hall⟩ :=
      ArrayInitialize_ok cfg o arr typinf d.2 r hn (by rw [hd2]; exact hr) hw hc
    rw [h] at hst''
    simp only [Except.ok.injEq, Prod.mk.injEq, true_and] at hst''
    subst hst''
    exact hall
  · rename_i hcond
    simp only [Except.ok.injEq, Prod.mk.injEq] at h
    obtain ⟨hd1', rfl⟩ := h
    refine ⟨hd1, hd2, ?_⟩
    intro hw _
    exfalso
    apply hcond
    have ht : (r.tab_obj != NULL) = true := by simpa using hw.1
    have hh : (r.mem_handle != NULL) = true := by simpa using hw.2.1
    rw [hd1', ht, hh]
    rfl

/-- The two outcomes of ListAppend: nothing happens and null is returned, or a zero-filled
record at an address that was not in use is registered at the end of the list. -/
theorem ListAppend_cases (c : Option Ptr) (st : State) :
    ListAppend c st = (NULL, st) ∨
      ∃ p stA, ListAppend c st = (p, stA) ∧ p ≠ NULL ∧ p ∉ st.live ∧
        stA.arrs = st.arrs ++ [p] ∧ stA.arrayAt = upd st.arrayAt p (some OCI_Array.zero) ∧
        stA.live = p :: st.live ∧ stA.con_err = st.con_err ∧ stA.con_env = st.con_env ∧
        stA.Env_err = st.Env_err ∧ stA.Env_env = st.Env_env := by
  unfold ListAppend
  cases c with
  | none => left; simp [MemoryAlloc]
  | some p =>
    by_cases hp : p ≠ NULL ∧ p ∉ st.live
    · right
      have hm : MemoryAlloc (some p) st =
          (p, { st with live := p :: st.live
                        slots := upd st.slots p (fun _ => NULL)
                        objAt := upd st.objAt p OCI_Timestamp.zero
                        log := st.log ++ [Event.alloc p] }) := by
        simp [MemoryAlloc, hp]
      rw [hm]
      dsimp only
      rw [if_neg hp.1]
      exact ⟨p, _, rfl, hp.1, hp.2, rfl, rfl, rfl, rfl, rfl, rfl, rfl⟩
    · left
      have hm : MemoryAlloc (some p) st = (NULL, st) := by
        simp [MemoryAlloc, hp]
      rw [hm]
      simp

/-- What a successful ArrayCreate has done: the record is registered last, at an address that
was not in use; its handle block and wrapper block are fresh distinct blocks; its object
index is a fresh block for a library object kind and null otherwise; and when the
constructors return their wrappers, every entry of the object index is the slot address,
whose wrapper is tagged array-allocated. -/
theorem ArrayCreate_success (cfg : Config) (o : Oracle) (con K et es sz ss ht : Nat)
    (typinf : Ptr) (st st' : State) (p : Ptr)
    (h : ArrayCreate cfg o con K et es sz ss ht typinf st = .ok (p, st')) (hp : p ≠ NULL) :
    ∃ t hd s r, r = ArrayCreate.record st con K et es sz ss ht t hd s ∧
      p ∉ st.live ∧ st'.arrs = st.arrs ++ [p] ∧ st'.arrayAt = upd st.arrayAt p (some r) ∧
      hd ≠ NULL ∧ hd ∉ st.live ∧ hd ≠ p ∧ s ≠ NULL ∧ s ∉ st.live ∧ s ≠ p ∧ s ≠ hd ∧
      (cfg.IS_OCILIB_OBJECT et es = true →
        t ≠ NULL ∧ t ∉ st.live ∧ t ≠ p ∧ t ≠ hd ∧ t ≠ s) ∧
      (cfg.IS_OCILIB_OBJECT et es = false → t = NULL) ∧
      (cfg.IS_OCILIB_OBJECT et es = true → o.ctorsReturnWrapper r → ∀ i, i < K →
        st'.slots t i = ArrayInitialize.data r i ∧
        (st'.objAt (ArrayInitialize.data r i)).hstate = OCI_OBJECT_ALLOCATED_ARRAY) := by
  unfold ArrayCreate at h
  dsimp only at h
  rcases ListAppend_cases o.arr st with hL | ⟨q, stA, hL, hq0, hql, hA1, hA2, hA3, hA4, hA5, hA6, hA7⟩
  · rw [hL] at h
    simp [ArrayDispose_null_eq, FREE_arr] at h
    exact absurd h.1.symm hp
  · rw [hL] at h
    dsimp only at h
    have hq0' : (q != NULL) = true := by simpa using hq0
    rw [hq0', if_pos rfl] at h
    split at h
    · simp at h
    · rename_i STATUS st1 hfill
      cases STATUS with
      | false =>
        simp only [Bool.not_false, if_true] at h
        split at h
        · simp at h
        · simp only [Except.ok.injEq, Prod.mk.injEq] at h
          exact absurd h.1.symm hp
      | true =>
        simp only [Bool.not_true, Bool.false_eq_true, if_false, Except.ok.injEq,
          Prod.mk.injEq] at h
        obtain ⟨rfl, rfl⟩ := h
        unfold ArrayCreate.fill at hfill
        have hz : stA.arrayAt q = some OCI_Array.zero := by rw [hA2]; simp
        rw [hz] at hfill
        dsimp only at hfill
        obtain ⟨hb, f1, f2, f3⟩ := ArrayCreate_finish_success _ _ _ _ _ _ _ _ _ _ hq0
          (by simp) hfill
        obtain ⟨t, hd, s, st2, hbuf, hd0, hdl, hs0, hsl, hsd, hobj, hnobj⟩ :=
          ArrayCreate_buffers_success cfg o _ stA rfl rfl rfl hb
        rw [hA3] at hdl hsl hobj
        simp only [List.mem_cons, not_or] at hdl hsl hobj
        have hst2a : st2.arrs = stA.arrs := by
          have := ArrayCreate_buffers_arrs cfg o
            { OCI_Array.zero with
              con := con
              err := if con ≠ NULL then stA.con_err con else stA.Env_err
              env := if con ≠ NULL then stA.con_env con else stA.Env_env
              elem_type := et
              elem_subtype := es
              elem_size := sz
              nb_elem := K
              struct_size := ss
              handle_type := ht } stA
          rw [hbuf] at this
          exact this
        have hst2b : st2.arrayAt = stA.arrayAt := by
          have := ArrayCreate_buffers_arrayAt cfg o
            { OCI_Array.zero with
              con := con
              err := if con ≠ NULL then stA.con_err con else stA.Env_err
              env := if con ≠ NULL then stA.con_env con else stA.Env_env
              elem_type := et
              elem_subtype := es
              elem_size := sz
              nb_elem := K
              struct_size := ss
              handle_type := ht } stA
          rw [hbuf] at this
          exact this
        rw [hbuf] at f1 f2 f3
        dsimp only at f1 f2 f3
        have hrec : ({ OCI_Array.zero with
              con := con
              err := if con ≠ NULL then stA.con_err con else stA.Env_err
              env := if con ≠ NULL then stA.con_env con else stA.Env_env
              elem_type := et
              elem_subtype := es
              elem_size := sz
              nb_elem := K
              struct_size := ss
              handle_type := ht
              tab_obj := t
              mem_handle := hd
              mem_struct := s } : OCI_Array) =
            ArrayCreate.record st con K et es sz ss ht t hd s := by
          unfold ArrayCreate.record
          rw [hA4, hA5, hA6, hA7]
        refine ⟨t, hd, s, _, rfl, hql, ?_, ?_, hd0, hdl.2, hdl.1, hs0, hsl.2, hsl.1, hsd,
          ?_, hnobj, ?_⟩
        · rw [f1, hst2a, hA1]
        · rw [f2, hst2b, hA2, upd_upd, ← hrec]
        · intro ho
          obtain ⟨a1, a2, a3, a4⟩ := hobj ho
          exact ⟨a1, a2.2, a2.1, a3, a4⟩
        · intro ho hc i hi
          obtain ⟨a1, -, a3, -⟩ := hobj ho
          rw [← hrec] at hc ⊢
          exact f3 ⟨a1, hd0, hs0, a3⟩ hc i hi

/-! ## Round trip: creation, then lookup by the object index -/

theorem ListFind_append_skip (proc : State → Ptr → Ptr → Except Fault Bool) (key : Ptr)
    (st : State) (l1 l2 : List Ptr) (h : ∀ q ∈ l1, proc st q key = .ok false) :
    ListFind proc key st (l1 ++ l2) = ListFind proc key st l2 := by
  induction l1 with
  | nil => rfl
  | cons a l ih =>
    rw [List.cons_append, ListFind, h a (List.mem_cons_self _ _)]
    exact ih (fun q hq => h q (List.mem_cons_of_mem _ hq))

theorem ArrayFindObjects_self (st : State) (p : Ptr) (r : OCI_Array) (hp : p ≠ NULL)
    (hr : st.arrayAt p = some r) : ArrayFindObjects st p r.tab_obj = .ok true := by
  unfold ArrayFindObjects
  rw [if_neg hp, hr]
  simp

theorem ArrayFindObjects_other (st : State) (q key : Ptr) (rq : OCI_Array)
    (hr : st.arrayAt q = some rq) (hne : rq.tab_obj ≠ key) :
    ArrayFindObjects st q key = .ok false := by
  unfold ArrayFindObjects
  split
  · rfl
  · rw [hr]
    simp [hne]

/-- C1, counterexample: the second text array (record 50) was created successfully and its
tab_obj is null, like that of the first text array (record 10); the lookup of the registry
by that pointer with ArrayFindObjects returns record 10, not the record that was created. -/
theorem C1_counterexample :
    valueOf (ArrayCreate demoConfig (plainOracle 50 70 80) 0 2 OCI_CDT_TEXT 0 16 16 0 0
      textState1) = some 50 ∧
    (textState.arrayAt 50).map (fun r => r.tab_obj) = some NULL ∧
    ListFind ArrayFindObjects NULL textState textState.arrs = .ok 10 :=
  ⟨by decide, by decide, rfl⟩

/-- C1, amended: in a registry whose records and object indexes are allocated blocks, for
every array that ArrayCreate created successfully, ArrayFindObjects applied to the array and
its tab_obj returns true; and when the element kind is a library object kind (the kinds for
which an object index is allocated), the lookup of the registry by that pointer with
ArrayFindObjects returns the record that was created. -/
theorem C1_ArrayCreate_then_find (cfg : Config) (o : Oracle) (con K et es sz ss ht : Nat)
    (typinf : Ptr) (st st' : State) (p : Ptr) (hinv : RegistryLive st)
    (h : ArrayCreate cfg o con K et es sz ss ht typinf st = .ok (p, st')) (hp : p ≠ NULL) :
    ∃ r, st'.arrayAt p = some r ∧ ArrayFindObjects st' p r.tab_obj = .ok true ∧
      (cfg.IS_OCILIB_OBJECT et es = true →
        r.tab_obj ≠ NULL ∧ ListFind ArrayFindObjects r.tab_obj st' st'.arrs = .ok p) := by
  obtain ⟨t, hd, s, r, hrdef, hpl, harrs, hat, -, -, -, -, -, -, -, hobj, -, -⟩ :=
    ArrayCreate_success cfg o con K et es sz ss ht typinf st st' p h hp
  have hr : st'.arrayAt p = some r := by rw [hat]; simp
  have htab : r.tab_obj = t := by rw [hrdef]; rfl
  refine ⟨r, hr, ArrayFindObjects_self st' p r hp hr, ?_⟩
  intro ho
  obtain ⟨ht0, htl, -, -, -⟩ := hobj ho
  refine ⟨by rw [htab]; exact ht0, ?_⟩
  rw [harrs, ListFind_append_skip]
  · rw [ListFind, ArrayFindObjects_self st' p r hp hr]
  · intro q hq
    obtain ⟨hqlive, rq, hrq, hcase⟩ := hinv q hq
    have hqp : q ≠ p := by
      intro heq
      rw [heq] at hqlive
      exact hpl hqlive
    have hrq' : st'.arrayAt q = some rq := by
      rw [hat]
      simp [hqp, hrq]
    apply ArrayFindObjects_other st' q r.tab_obj rq hrq'
    rw [htab]
    rcases hcase with h0 | hl
    · rw [h0]
      exact Ne.symm ht0
    · intro heq
      rw [heq] at hl
      exact htl hl

theorem RegistryLive_demoState : RegistryLive demoState := by
  intro q hq
  have h10 : q = 10 := by
    have : demoState.arrs = [10] := by decide
    rw [this] at hq
    simpa using hq
  subst h10
  exact ⟨by decide, _, rfl, Or.inr (by decide)⟩

/-- C1, witness: a second timestamp array, of three elements, created after the first one;
TimestampArrayCreate hands out its object index 60. -/
theorem C1_witness :
    valueOf (TimestampArrayCreate demoConfig (goodOracle 50 60 70 80) 0 1 3 demoState)
      = some 60 ∧
    ArrayCreate demoConfig (goodOracle 50 60 70 80) 0 3 OCI_CDT_TIMESTAMP 1 8 48 68 0 demoState
      = .ok (50, stateOf (ArrayCreate demoConfig (goodOracle 50 60 70 80) 0 3
          OCI_CDT_TIMESTAMP 1 8 48 68 0 demoState) emptyState) ∧
    ∃ r, (stateOf (ArrayCreate demoConfig (goodOracle 50 60 70 80) 0 3
          OCI_CDT_TIMESTAMP 1 8 48 68 0 demoState) emptyState).arrayAt 50 = some r ∧
      ArrayFindObjects (stateOf (ArrayCreate demoConfig (goodOracle 50 60 70 80) 0 3
          OCI_CDT_TIMESTAMP 1 8 48 68 0 demoState) emptyState) 50 r.tab_obj = .ok true ∧
      (demoConfig.IS_OCILIB_OBJECT OCI_CDT_TIMESTAMP 1 = true →
        r.tab_obj ≠ NULL ∧
        ListFind ArrayFindObjects r.tab_obj
          (stateOf (ArrayCreate demoConfig (goodOracle 50 60 70 80) 0 3
            OCI_CDT_TIMESTAMP 1 8 48 68 0 demoState) emptyState)
          (stateOf (ArrayCreate demoConfig (goodOracle 50 60 70 80) 0 3
            OCI_CDT_TIMESTAMP 1 8 48 68 0 demoState) emptyState).arrs = .ok 50) :=
  ⟨by decide, rfl,
    C1_ArrayCreate_then_find demoConfig (goodOracle 50 60 70 80) 0 3 OCI_CDT_TIMESTAMP 1 8
    48 68 0 demoState _ 50 RegistryLive_demoState rfl (by decide)⟩

/-! ## ArrayDispose: what it frees -/

theorem freedBlocks_append (l1 l2 : List Event) :
    freedBlocks (l1 ++ l2) = freedBlocks l1 ++ freedBlocks l2 := by
  simp [freedBlocks, List.filterMap_append]

theorem elemFreeCalls_append (l1 l2 : List Event) :
    elemFreeCalls (l1 ++ l2) = elemFreeCalls l1 + elemFreeCalls l2 := by
  simp [elemFreeCalls, List.countP_append]

theorem loopEvents_elemFreeCalls (r : OCI_Array) (entry : Nat → Ptr) (k : Nat) :
    ∀ i, elemFreeCalls (ArrayDispose.loopEvents r entry i k) = k := by
  induction k with
  | zero => intro i; rfl
  | succ k ih =>
    intro i
    have := ih (i + 1)
    simp only [elemFreeCalls] at this ⊢
    simp [ArrayDispose.loopEvents, Event.isElemFree, this]

theorem loopEvents_freedBlocks (r : OCI_Array) (entry : Nat → Ptr) (k : Nat) :
    ∀ i, freedBlocks (ArrayDispose.loopEvents r entry i k) = [] := by
  induction k with
  | zero => intro i; rfl
  | succ k ih =>
    intro i
    have := ih (i + 1)
    simp only [freedBlocks] at this ⊢
    simp [ArrayDispose.loopEvents, Event.freed, this]

theorem tailEvents_elemFreeCalls (r : OCI_Array) :
    elemFreeCalls (ArrayDispose.tailEvents r) = 0 := by
  unfold ArrayDispose.tailEvents elemFreeCalls
  split_ifs <;> simp [Event.isElemFree]

theorem tailEvents_freedBlocks (r : OCI_Array) :
    freedBlocks (ArrayDispose.tailEvents r) =
      (if r.mem_handle = NULL then [] else [r.mem_handle]) ++
      (if r.mem_struct = NULL then [] else [r.mem_struct]) ++
      (if r.tab_obj = NULL then [] else [r.tab_obj]) := by
  unfold ArrayDispose.tailEvents freedBlocks
  split_ifs <;> simp [Event.freed]

/-- FreeObjectFromType releases nothing when the element is not a timestamp, is null, or is
a wrapper tagged array-allocated: the call is the only event. -/
theorem FreeObjectFromType_quiet (cfg : Config) (obj : Ptr) (t : Nat) (st : State)
    (h : t = OCI_CDT_TIMESTAMP →
      obj = NULL ∨ (st.objAt obj).hstate = OCI_OBJECT_ALLOCATED_ARRAY) :
    (FreeObjectFromType cfg obj t st).2 = st.emit (Event.elemFree obj t) := by
  unfold FreeObjectFromType
  dsimp only
  split
  · rename_i ht
    unfold TimestampFree TimestampFree.entryChecks
    rcases h ht with h0 | hs
    · simp [h0]
    · split
      · simp [hs, OCI_OBJECT_ALLOCATED, OCI_OBJECT_ALLOCATED_ARRAY]
      · rfl
  · rfl

/-- The loop of ArrayDispose when no element free releases anything. -/
theorem ArrayDispose_loop_quiet (cfg : Config) (r : OCI_Array) (k : Nat) :
    ∀ (i : Nat) (st : State), (k = 0 ∨ r.tab_obj ≠ NULL) →
      (∀ j, i ≤ j → j < i + k → r.elem_type = OCI_CDT_TIMESTAMP →
        st.slots r.tab_obj j = NULL ∨
        (st.objAt (st.slots r.tab_obj j)).hstate = OCI_OBJECT_ALLOCATED_ARRAY) →
      ∃ st', ArrayDispose.loop cfg r i k st = .ok st' ∧
        st'.log = st.log ++ ArrayDispose.loopEvents r (st.slots r.tab_obj) i k ∧
        st'.arrs = st.arrs ∧ st'.arrayAt = st.arrayAt ∧ st'.live = st.live ∧
        st'.slots = st.slots ∧ st'.objAt = st.objAt := by
  induction k with
  | zero =>
    intro i st _ _
    exact ⟨st, rfl, by simp [ArrayDispose.loopEvents], rfl, rfl, rfl, rfl, rfl⟩
  | succ k ih =>
    intro i st ht hq
    have ht' : r.tab_obj ≠ NULL := by
      rcases ht with h | h
      · omega
      · exact h
    unfold ArrayDispose.loop
    rw [readSlot_ok _ _ _ ht']
    dsimp only
    rw [FreeObjectFromType_quiet cfg _ _ _ (by
      intro hts
      simpa using hq i (Nat.le_refl i) (by omega) hts)]
    obtain ⟨st', hl, hlog, h1, h2, h3, h4, h5⟩ :=
      ih (i + 1) ((st.emit (Event.read r.tab_obj i)).emit
        (Event.elemFree (st.slots r.tab_obj i) r.elem_type)) (Or.inr ht')
        (by
          intro j hj1 hj2 hts
          simpa using hq j (by omega) (by omega) hts)
    refine ⟨st', hl, ?_, h1, h2, h3, h4, h5⟩
    rw [hlog]
    simp [ArrayDispose.loopEvents]

/-- ArrayDispose on an allocated record when no element free releases anything: it returns
TRUE, and its events are those of the loop (for a library object kind) followed by the
descriptor free and the releases of the blocks. -/
theorem ArrayDispose_quiet (cfg : Config) (arr : Ptr) (st : State) (r : OCI_Array)
    (hn : arr ≠ NULL) (hr : st.arrayAt arr = some r)
    (ht : cfg.IS_OCILIB_OBJECT r.elem_type r.elem_subtype = true →
      (r.nb_elem = 0 ∨ r.tab_obj ≠ NULL) ∧
      ∀ j, j < r.nb_elem → r.elem_type = OCI_CDT_TIMESTAMP →
        st.slots r.tab_obj j = NULL ∨
        (st.objAt (st.slots r.tab_obj j)).hstate = OCI_OBJECT_ALLOCATED_ARRAY) :
    ∃ st', ArrayDispose cfg arr st = .ok (true, st') ∧
      st'.log = st.log ++
        (if cfg.IS_OCILIB_OBJECT r.elem_type r.elem_subtype = true then
          ArrayDispose.loopEvents r (st.slots r.tab_obj) 0 r.nb_elem else []) ++
        ArrayDispose.tailEvents r := by
  unfold ArrayDispose
  rw [if_neg hn, hr]
  dsimp only
  by_cases hobj : cfg.IS_OCILIB_OBJECT r.elem_type r.elem_subtype = true
  · obtain ⟨h1, h2⟩ := ht hobj
    obtain ⟨st1, hl, hlog, -⟩ := ArrayDispose_loop_quiet cfg r r.nb_elem 0 st h1
      (fun j _ hj hts => h2 j (by omega) hts)
    rw [if_pos hobj, hl]
    dsimp only
    refine ⟨_, rfl, ?_⟩
    simp only [MemoryFree_log, if_pos hobj]
    unfold ArrayDispose.tailEvents MemoryFreeDescriptorArray
    split_ifs <;> simp [hlog]
  · rw [if_neg hobj]
    dsimp only
    refine ⟨_, rfl, ?_⟩
    simp only [MemoryFree_log, if_neg hobj]
    unfold ArrayDispose.tailEvents MemoryFreeDescriptorArray
    split_ifs <;> simp

/-- C5, counterexample: a text array and an array of plain integers, both created
successfully with two elements, have no object index; ArrayDispose releases two blocks for
each of them, not three. -/
theorem C5_counterexample :
    (valueOf (ArrayCreate demoConfig (plainOracle 10 30 40) 0 2 OCI_CDT_TEXT 0 16 16 0 0
      emptyState) = some 10 ∧
     valueOf (ArrayDispose demoConfig 10 textState1) = some true ∧
     freedBlocks (newEvents textState1
       (stateOf (ArrayDispose demoConfig 10 textState1) emptyState)) = [30, 40]) ∧
    (valueOf (ArrayCreate demoConfig (plainOracle 10 30 40) 0 2 OCI_CDT_NUMERIC 8 4 4 0 0
      emptyState) = some 10 ∧
     valueOf (ArrayDispose demoConfig 10 intState) = some true ∧
     freedBlocks (newEvents intState
       (stateOf (ArrayDispose demoConfig 10 intState) emptyState)) = [30, 40]) := by
  decide

/-- C5, amended: for every array that ArrayCreate created successfully with nb_elem = K, the
wrapper slots of a library object kind being disjoint ranges of bytes (the struct size is not
smaller than a wrapper and struct_size * K does not exceed the range of unsigned int),
ArrayDispose returns TRUE and releases exactly the backing blocks that were allocated for
the array, each once: for a library object kind it calls FreeObjectFromType exactly K times
and releases the three distinct blocks mem_handle, mem_struct and tab_obj; for any other
kind, which has no object index, it calls FreeObjectFromType zero times and releases the two
distinct blocks mem_handle and mem_struct. -/
theorem C5_ArrayDispose_after_create (cfg : Config) (o : Oracle) (con K et es sz ss ht : Nat)
    (typinf : Ptr) (st st' : State) (p : Ptr)
    (hap : cfg.IS_OCILIB_OBJECT et es = true → slotsApart (wrapperSize cfg et ss) ss K)
    (h : ArrayCreate cfg o con K et es sz ss ht typinf st = .ok (p, st')) (hp : p ≠ NULL) :
    ∃ r st'' evs, st'.arrayAt p = some r ∧ r.nb_elem = K ∧
      ArrayDispose cfg p st' = .ok (true, st'') ∧ st''.log = st'.log ++ evs ∧
      r.mem_handle ≠ NULL ∧ r.mem_struct ≠ NULL ∧ r.mem_struct ≠ r.mem_handle ∧
      (cfg.IS_OCILIB_OBJECT et es = true →
        r.tab_obj ≠ NULL ∧ r.tab_obj ≠ r.mem_handle ∧ r.tab_obj ≠ r.mem_struct ∧
        (∀ i j, i < j → j < K →
          ArrayInitialize.data r i + wrapperSize cfg et ss ≤ ArrayInitialize.data r j) ∧
        elemFreeCalls evs = K ∧ freedBlocks evs = [r.mem_handle, r.mem_struct, r.tab_obj]) ∧
      (cfg.IS_OCILIB_OBJECT et es = false →
        r.tab_obj = NULL ∧
        elemFreeCalls evs = 0 ∧ freedBlocks evs = [r.mem_handle, r.mem_struct]) := by
  obtain ⟨t, hd, s, r, hrdef, -, -, hat, hd0, -, -, hs0, -, -, hsd, hobj, hnobj, hinit⟩ :=
    ArrayCreate_success cfg o con K et es sz ss ht typinf st st' p h hp
  have hr : st'.arrayAt p = some r := by rw [hat]; simp
  have e1 : r.nb_elem = K := by rw [hrdef]; rfl
  have e2 : r.elem_type = et := by rw [hrdef]; rfl
  have e3 : r.elem_subtype = es := by rw [hrdef]; rfl
  have e4 : r.tab_obj = t := by rw [hrdef]; rfl
  have e5 : r.mem_handle = hd := by rw [hrdef]; rfl
  have e6 : r.mem_struct = s := by rw [hrdef]; rfl
  have e7 : r.struct_size = ss := by rw [hrdef]; rfl
  obtain ⟨st'', hdisp, hlog⟩ := ArrayDispose_quiet cfg p st' r hp hr (by
    rw [e2, e3]
    intro ho
    obtain ⟨ht0, -⟩ := hobj ho
    refine ⟨Or.inr (by rw [e4]; exact ht0), ?_⟩
    intro j hj hts
    right
    have := hinit ho (Or.inl (e2.trans hts)) j (by rw [← e1]; exact hj)
    rw [e4, this.1]
    exact this.2)
  rw [List.append_assoc] at hlog
  refine ⟨r, st'', _, hr, e1, hdisp, hlog, by rw [e5]; exact hd0, by rw [e6]; exact hs0,
    by rw [e5, e6]; exact hsd, ?_, ?_⟩
  · intro ho
    obtain ⟨ht0, -, -, hth, hts⟩ := hobj ho
    have ho' : cfg.IS_OCILIB_OBJECT r.elem_type r.elem_subtype = true := by rw [e2, e3]; exact ho
    have n1 : r.tab_obj ≠ NULL := by rw [e4]; exact ht0
    have n2 : r.mem_handle ≠ NULL := by rw [e5]; exact hd0
    have n3 : r.mem_struct ≠ NULL := by rw [e6]; exact hs0
    refine ⟨n1, by rw [e4, e5]; exact hth, by rw [e4, e6]; exact hts, ?_, ?_, ?_⟩
    · intro i j hij hj
      exact slotsApart_data r _ (by rw [e7, e1]; exact hap ho) i j hij (by rw [e1]; exact hj)
    · rw [if_pos ho', elemFreeCalls_append, loopEvents_elemFreeCalls, tailEvents_elemFreeCalls, e1]
      rfl
    · rw [if_pos ho', freedBlocks_append, loopEvents_freedBlocks, tailEvents_freedBlocks,
        if_neg n1, if_neg n2, if_neg n3]
      rfl
  · intro ho
    have ho' : ¬ cfg.IS_OCILIB_OBJECT r.elem_type r.elem_subtype = true := by
      rw [e2, e3, ho]
      decide
    have n1 : r.tab_obj = NULL := by rw [e4]; exact hnobj ho
    have n2 : r.mem_handle ≠ NULL := by rw [e5]; exact hd0
    have n3 : r.mem_struct ≠ NULL := by rw [e6]; exact hs0
    refine ⟨n1, ?_, ?_⟩
    · rw [if_neg ho', elemFreeCalls_append, tailEvents_elemFreeCalls]
      rfl
    · rw [if_neg ho', freedBlocks_append, tailEvents_freedBlocks, if_pos n1, if_neg n2,
        if_neg n3]
      rfl

/-- C5, witness: the timestamp array of two elements created in a fresh library, whose two
wrappers of 48 bytes lie in slots of 48 bytes. -/
theorem C5_witness :
    slotsApart (wrapperSize demoConfig OCI_CDT_TIMESTAMP 48) 48 2 ∧
    ArrayCreate demoConfig (goodOracle 10 20 30 40) 0 2 OCI_CDT_TIMESTAMP 1 8 48 68 0 emptyState
      = .ok (10, demoState) ∧
    ∃ r st'' evs, demoState.arrayAt 10 = some r ∧ r.nb_elem = 2 ∧
      ArrayDispose demoConfig 10 demoState = .ok (true, st'') ∧
      st''.log = demoState.log ++ evs ∧
      r.mem_handle ≠ NULL ∧ r.mem_struct ≠ NULL ∧ r.mem_struct ≠ r.mem_handle ∧
      (demoConfig.IS_OCILIB_OBJECT OCI_CDT_TIMESTAMP 1 = true →
        r.tab_obj ≠ NULL ∧ r.tab_obj ≠ r.mem_handle ∧ r.tab_obj ≠ r.mem_struct ∧
        (∀ i j, i < j → j < 2 →
          ArrayInitialize.data r i + wrapperSize demoConfig OCI_CDT_TIMESTAMP 48
            ≤ ArrayInitialize.data r j) ∧
        elemFreeCalls evs = 2 ∧ freedBlocks evs = [r.mem_handle, r.mem_struct, r.tab_obj]) ∧
      (demoConfig.IS_OCILIB_OBJECT OCI_CDT_TIMESTAMP 1 = false →
        r.tab_obj = NULL ∧
        elemFreeCalls evs = 0 ∧ freedBlocks evs = [r.mem_handle, r.mem_struct]) :=
  ⟨⟨by decide, by decide, by decide⟩, rfl,
    C5_ArrayDispose_after_create demoConfig (goodOracle 10 20 30 40) 0 2
      OCI_CDT_TIMESTAMP 1 8 48 68 0 emptyState demoState 10
      (fun _ => ⟨by decide, by decide, by decide⟩) rfl (by decide)⟩

/-! ## Failure paths of ArrayCreate -/

/-- C6, evaluation at the failing input: in a fresh library, creating a timestamp array of
one element while the allocation of the object index is refused does not return null: the
cleanup call of ArrayDispose reads element 0 of the null object index, a null dereference.
For contrast, when the allocation of the handle block, of the wrapper block or of the native
descriptors is refused instead, ArrayCreate returns null and no block is left allocated. -/
theorem C6_ArrayCreate_tab_obj_failure :
    ArrayCreate demoConfig { goodOracle 10 20 30 40 with tab_obj := none } 0 1
        OCI_CDT_TIMESTAMP 1 8 48 68 0 emptyState = .error Fault.nullDeref ∧
    (valueOf (ArrayCreate demoConfig { goodOracle 10 20 30 40 with mem_handle := none } 0 2
        OCI_CDT_TIMESTAMP 1 8 48 68 0 emptyState) = some NULL ∧
      freedBlocks failedState.log = [20, 10] ∧ failedState.live = []) ∧
    (valueOf (ArrayCreate demoConfig { goodOracle 10 20 30 40 with mem_struct := none } 0 2
        OCI_CDT_TIMESTAMP 1 8 48 68 0 emptyState) = some NULL ∧
      (stateOf (ArrayCreate demoConfig { goodOracle 10 20 30 40 with mem_struct := none } 0 2
        OCI_CDT_TIMESTAMP 1 8 48 68 0 emptyState) emptyState).live = []) ∧
    (valueOf (ArrayCreate demoConfig { goodOracle 10 20 30 40 with descriptors := none } 0 2
        OCI_CDT_TIMESTAMP 1 8 48 68 0 emptyState) = some NULL ∧
      (stateOf (ArrayCreate demoConfig { goodOracle 10 20 30 40 with descriptors := none } 0 2
        OCI_CDT_TIMESTAMP 1 8 48 68 0 emptyState) emptyState).live = []) :=
  ⟨rfl, by decide, by decide, by decide⟩

/-- C7, evaluation at the failing input: in a fresh library, creating a timestamp array of
two elements while the allocation of the handle block is refused returns null, but the
registry, empty before the call, now holds the pointer 10 of the record that was released;
the next lookup of the registry reads that released record. -/
theorem C7_failed_ArrayCreate_stays_registered :
    emptyState.arrs = [] ∧
    valueOf (ArrayCreate demoConfig { goodOracle 10 20 30 40 with mem_handle := none } 0 2
        OCI_CDT_TIMESTAMP 1 8 48 68 0 emptyState) = some NULL ∧
    failedState.arrs = [10] ∧ failedState.arrayAt 10 = none ∧ 10 ∉ failedState.live ∧
    Event.free 10 ∈ failedState.log ∧
    ArrayFreeFromHandles demoConfig 99 failedState = .error Fault.useAfterFree :=
  ⟨by decide, by decide, by decide, by decide, by decide, by decide, rfl⟩

/-! ## Arrays without elements -/

theorem tailEvents_no_access (r : OCI_Array) :
    ∀ e ∈ ArrayDispose.tailEvents r, e.isAccess = false := by
  unfold ArrayDispose.tailEvents
  intro e he
  split_ifs at he <;> simp at he <;> rcases he with h | h | h | h <;> simp_all [Event.isAccess]

/-- C9: for an allocated record with nb_elem = 0, ArrayInitialize returns TRUE and leaves the
state, event log included, exactly as it was (no element of a block is read or written, no
constructor is called); ArrayDispose returns TRUE and its only events are the descriptor
free and the releases of the blocks: no call of the element free routine and no access to
an element of tab_obj or of any other block. -/
theorem C9_zero_elements (cfg : Config) (o : Oracle) (arr typinf : Ptr) (st : State)
    (r : OCI_Array) (hn : arr ≠ NULL) (hr : st.arrayAt arr = some r) (h0 : r.nb_elem = 0) :
    ArrayInitialize cfg o arr typinf st = .ok (true, st) ∧
    ∃ st', ArrayDispose cfg arr st = .ok (true, st') ∧
      st'.log = st.log ++ ArrayDispose.tailEvents r ∧
      elemFreeCalls (ArrayDispose.tailEvents r) = 0 ∧
      ∀ e ∈ ArrayDispose.tailEvents r, e.isAccess = false := by
  refine ⟨?_, ?_⟩
  · unfold ArrayInitialize
    rw [if_neg hn, hr]
    dsimp only
    rw [h0]
    rfl
  · obtain ⟨st', hd, hlog⟩ := ArrayDispose_quiet cfg arr st r hn hr (by
      intro _
      refine ⟨Or.inl h0, ?_⟩
      intro j hj
      omega)
    refine ⟨st', hd, ?_, tailEvents_elemFreeCalls r, tailEvents_no_access r⟩
    rw [hlog, h0]
    split <;> simp [ArrayDispose.loopEvents]

/-- C9, witness: the timestamp array without elements created in a fresh library; its
creation made no access to an element of a block either. -/
theorem C9_witness :
    (∀ e ∈ newEvents emptyState zeroState, e.isAccess = false) ∧
    ArrayInitialize demoConfig (goodOracle 10 20 30 40) 10 0 zeroState = .ok (true, zeroState) ∧
    ∃ st', ArrayDispose demoConfig 10 zeroState = .ok (true, st') ∧
      st'.log = zeroState.log ++ ArrayDispose.tailEvents
        (ArrayCreate.record emptyState 0 0 OCI_CDT_TIMESTAMP 1 8 48 68 20 30 40) ∧
      elemFreeCalls (ArrayDispose.tailEvents
        (ArrayCreate.record emptyState 0 0 OCI_CDT_TIMESTAMP 1 8 48 68 20 30 40)) = 0 ∧
      ∀ e ∈ ArrayDispose.tailEvents
        (ArrayCreate.record emptyState 0 0 OCI_CDT_TIMESTAMP 1 8 48 68 20 30 40),
        e.isAccess = false :=
  ⟨by decide, C9_zero_elements demoConfig (goodOracle 10 20 30 40) 10 0 zeroState
    (ArrayCreate.record emptyState 0 0 OCI_CDT_TIMESTAMP 1 8 48 68 20 30 40)
    (by decide) (by decide) rfl⟩

/-! ## The object index after initialisation -/

/-- C10, counterexample: (a) on a date array whose element constructors fail,
ArrayInitialize returns TRUE and entry 0 of the object index (block 20) is null, not the
address 40 of wrapper slot 0; (b) on a timestamp array whose wrappers are 2 ^ 31 bytes wide,
ArrayInitialize returns TRUE and entry 2 of the object index is 40, the address of slot 0,
because the offset 2 * 2 ^ 31 is computed in unsigned int arithmetic. -/
theorem C10_counterexample :
    (valueOf (ArrayInitialize demoConfig failingCtors 10 0 dateState) = some true ∧
     (dateState.arrayAt 10).map (fun r => (r.tab_obj, r.mem_struct, r.struct_size)) =
       some (20, 40, 16) ∧
     (stateOf (ArrayInitialize demoConfig failingCtors 10 0 dateState) emptyState).slots 20 0
       = NULL) ∧
    (valueOf (ArrayInitialize demoConfig (goodOracle 10 20 30 40) 10 0 wideState) = some true ∧
     (wideState.arrayAt 10).map (fun r => (r.tab_obj, r.mem_struct, r.struct_size)) =
       some (20, 40, 2 ^ 31) ∧
     (stateOf (ArrayInitialize demoConfig (goodOracle 10 20 30 40) 10 0 wideState)
       emptyState).slots 20 2 = 40 ∧
     40 ≠ 40 + 2 * 2 ^ 31) := by
  decide

/-- C10, amended: on an allocated record whose three blocks are allocated (and whose object
index is not its handle block), when every element constructor returns the wrapper it was
given (as TimestampInit does for every element of a timestamp array), ArrayInitialize returns
TRUE and afterwards, for every index i < nb_elem whose byte offset struct_size * i fits in an
unsigned int, tab_obj[i] is mem_struct + i * struct_size. -/
theorem C10_ArrayInitialize_tab_obj (cfg : Config) (o : Oracle) (arr typinf : Ptr) (st : State)
    (r : OCI_Array) (hn : arr ≠ NULL) (hr : st.arrayAt arr = some r) (hw : r.wired)
    (hc : o.ctorsReturnWrapper r) :
    ∃ st', ArrayInitialize cfg o arr typinf st = .ok (true, st') ∧
      ∀ i, i < r.nb_elem → r.struct_size * i < UINT_RANGE →
        st'.slots r.tab_obj i = r.mem_struct + i * r.struct_size := by
  obtain ⟨st', hst', -, hall⟩ := ArrayInitialize_ok cfg o arr typinf st r hn hr hw hc
  refine ⟨st', hst', ?_⟩
  intro i hi hlt
  rw [(hall i hi).1]
  unfold ArrayInitialize.data
  rw [Nat.mod_eq_of_lt hlt, Nat.mul_comm]

/-- C10, witness: the timestamp array of two elements with wrappers of 48 bytes. -/
theorem C10_witness :
    ∃ st', ArrayInitialize demoConfig (goodOracle 10 20 30 40) 10 0 demoState = .ok (true, st') ∧
      ∀ i, i < 2 → 48 * i < UINT_RANGE → st'.slots 20 i = 40 + i * 48 :=
  C10_ArrayInitialize_tab_obj demoConfig (goodOracle 10 20 30 40) 10 0 demoState
    (ArrayCreate.record emptyState 0 2 OCI_CDT_TIMESTAMP 1 8 48 68 20 30 40)
    (by decide) (by decide) (by unfold OCI_Array.wired; decide) (Or.inl rfl)

/-! ## The failure paths in general -/

theorem ArrayDispose_loop_null_tab_obj (cfg : Config) (r : OCI_Array) (i k : Nat) (st : State)
    (ht : r.tab_obj = NULL) :
    ArrayDispose.loop cfg r i (k + 1) st = .error Fault.nullDeref := by
  unfold ArrayDispose.loop readSlot
  rw [if_pos ht]

/-- ArrayDispose on an allocated record of a library object kind with at least one element
and a null object index dereferences the null pointer. -/
theorem ArrayDispose_null_tab_obj (cfg : Config) (arr : Ptr) (st : State) (r : OCI_Array)
    (hn : arr ≠ NULL) (hr : st.arrayAt arr = some r)
    (hobj : cfg.IS_OCILIB_OBJECT r.elem_type r.elem_subtype = true) (hk : 0 < r.nb_elem)
    (ht : r.tab_obj = NULL) :
    ArrayDispose cfg arr st = .error Fault.nullDeref := by
  unfold ArrayDispose
  rw [if_neg hn, hr]
  dsimp only
  rw [if_pos hobj]
  obtain ⟨k, hk'⟩ : ∃ k, r.nb_elem = k + 1 := ⟨r.nb_elem - 1, by omega⟩
  rw [hk', ArrayDispose_loop_null_tab_obj cfg r 0 k st ht]

/-- Whenever ListAppend hands out a record, the element kind is a library object kind, there
is at least one element and the allocation of the object index is refused, ArrayCreate does
not return: its cleanup dereferences the null object index. -/
theorem ArrayCreate_tab_obj_refused (cfg : Config) (o : Oracle) (con K et es sz ss ht : Nat)
    (typinf : Ptr) (st : State) (p : Ptr) (ha : o.arr = some p) (hp : p ≠ NULL)
    (hpl : p ∉ st.live) (hobj : cfg.IS_OCILIB_OBJECT et es = true) (hK : 0 < K)
    (htab : o.tab_obj = none) :
    ArrayCreate cfg o con K et es sz ss ht typinf st = .error Fault.nullDeref := by
  have hm : MemoryAlloc (some p) st =
      (p, { st with live := p :: st.live
                    slots := upd st.slots p (fun _ => NULL)
                    objAt := upd st.objAt p OCI_Timestamp.zero
                    log := st.log ++ [Event.alloc p] }) := by
    simp [MemoryAlloc, hp, hpl]
  have hp' : (p != NULL) = true := by simpa using hp
  unfold ArrayCreate ListAppend
  rw [ha, hm]
  dsimp only
  rw [if_neg hp]
  dsimp only
  rw [hp', if_pos rfl]
  unfold ArrayCreate.fill
  simp only [upd_same]
  have hbuf : ∀ (r0 : OCI_Array) (s : State), r0.tab_obj = NULL → r0.mem_handle = NULL →
      r0.mem_struct = NULL → cfg.IS_OCILIB_OBJECT r0.elem_type r0.elem_subtype = true →
      ArrayCreate.buffers cfg o r0 s =
        (false, { r0 with tab_obj := NULL, mem_handle := NULL, mem_struct := NULL }, s) := by
    intro r0 s h1 h2 h3 h4
    unfold ArrayCreate.buffers
    simp [h1, h2, h3, h4, htab, ALLOC_BUFFER, MemoryAlloc]
  rw [hbuf _ _ rfl rfl rfl hobj]
  unfold ArrayCreate.finish
  simp only [Bool.false_and, Bool.false_eq_true, if_false, Bool.not_false, if_true]
  rw [ArrayDispose_null_tab_obj cfg p _ _ hp (upd_same _ _ _) hobj hK rfl]

theorem ArrayCreate_finish_frame (cfg : Config) (o : Oracle) (arr : Ptr) (K ht : Nat)
    (typinf : Ptr) (r : OCI_Array) (st st' : State) (b b' : Bool)
    (h : ArrayCreate.finish cfg o arr K ht typinf b r st = .ok (b', st')) :
    st'.arrs = st.arrs ∧ st'.arrayAt = st.arrayAt := by
  unfold ArrayCreate.finish at h
  dsimp only at h
  generalize hd : (if (b && ht != 0) = true then
      MemoryAllocDescriptorArray o.descriptors r.mem_handle ht K st else (b, st)) = d at h
  have hd1 : d.2.arrs = st.arrs := by
    rw [← hd]
    split <;> simp
  have hd2 : d.2.arrayAt = st.arrayAt := by
    rw [← hd]
    split <;> simp
  split at h
  · obtain ⟨-, f1, f2⟩ := ArrayInitialize_frame _ _ _ _ _ _ _ h
    exact ⟨f1.trans hd1, f2.trans hd2⟩
  · simp only [Except.ok.injEq, Prod.mk.injEq] at h
    obtain ⟨-, rfl⟩ := h
    exact ⟨hd1, hd2⟩

/-- Whenever ListAppend hands out a record and ArrayCreate then returns null, the registry
has one more item than before, and that item points to the record that was released. -/
theorem ArrayCreate_failure_registered (cfg : Config) (o : Oracle)
    (con K et es sz ss ht : Nat) (typinf : Ptr) (st st' : State) (p : Ptr)
    (ha : o.arr = some p) (hp : p ≠ NULL) (hpl : p ∉ st.live)
    (h : ArrayCreate cfg o con K et es sz ss ht typinf st = .ok (NULL, st')) :
    st'.arrs = st.arrs ++ [p] ∧ st'.arrayAt p = none := by
  have hm : MemoryAlloc (some p) st =
      (p, { st with live := p :: st.live
                    slots := upd st.slots p (fun _ => NULL)
                    objAt := upd st.objAt p OCI_Timestamp.zero
                    log := st.log ++ [Event.alloc p] }) := by
    simp [MemoryAlloc, hp, hpl]
  have hp' : (p != NULL) = true := by simpa using hp
  unfold ArrayCreate ListAppend at h
  rw [ha, hm] at h
  dsimp only at h
  rw [if_neg hp] at h
  dsimp only at h
  rw [hp', if_pos rfl] at h
  split at h
  · simp at h
  · rename_i STATUS st1 hfill
    unfold ArrayCreate.fill at hfill
    simp only [upd_same] at hfill
    obtain ⟨f1, f2⟩ := ArrayCreate_finish_frame _ _ _ _ _ _ _ _ _ _ _ hfill
    simp only [ArrayCreate_buffers_arrs] at f1
    cases STATUS with
    | true =>
      simp only [Bool.not_true, Bool.false_eq_true, if_false, Except.ok.injEq,
        Prod.mk.injEq] at h
      exact absurd h.1 hp
    | false =>
      simp only [Bool.not_false, if_true] at h
      split at h
      · simp at h
      · rename_i bd st2 hdisp
        simp only [Except.ok.injEq, Prod.mk.injEq, true_and] at h
        subst h
        obtain ⟨g1, -⟩ := ArrayDispose_frame cfg p st1 st2 bd hdisp hp
        refine ⟨?_, ?_⟩
        · rw [FREE_arr_arrs, g1, f1]
        · rw [FREE_arr_arrayAt _ _ hp]
          simp

/-! ## The wrapper block as bytes -/

/-- The bytes of a stored value, read back from byte j on. -/
theorem loadBytes_storeBytes_part (mem : Nat → Nat) (a N v : Nat) (n : Nat) :
    ∀ j, j + n ≤ N →
      loadBytes (storeBytes mem a N v) (a + j) n = v / 256 ^ j % 256 ^ n := by
  induction n with
  | zero =>
    intro j _
    simp [loadBytes, Nat.mod_one]
  | succ n ih =>
    intro j hj
    have h1 : storeBytes mem a N v (a + j) = v / 256 ^ j % 256 := by
      unfold storeBytes
      rw [if_pos ⟨by omega, by omega⟩]
      congr 3
      omega
    have h2 := ih (j + 1) (by omega)
    rw [← Nat.add_assoc] at h2
    unfold loadBytes
    rw [h1, h2, pow_succ' 256 n, Nat.mod_mul, Nat.div_div_eq_div_mul, ← pow_succ]

/-- A value that fits is read back as it was stored. -/
theorem loadBytes_storeBytes_same (mem : Nat → Nat) (a n v : Nat) (hv : v < 256 ^ n) :
    loadBytes (storeBytes mem a n v) a n = v := by
  have h := loadBytes_storeBytes_part mem a n v n 0 (by omega)
  simp only [Nat.add_zero, pow_zero, Nat.div_one] at h
  rw [h, Nat.mod_eq_of_lt hv]

/-- A store does not change what is loaded from a disjoint range. -/
theorem loadBytes_storeBytes_apart (mem : Nat → Nat) (b k v : Nat) (n : Nat) :
    ∀ a, a + n ≤ b ∨ b + k ≤ a →
      loadBytes (storeBytes mem b k v) a n = loadBytes mem a n := by
  induction n with
  | zero => intro a _; rfl
  | succ n ih =>
    intro a h
    have h1 : storeBytes mem b k v a = mem a := by
      unfold storeBytes
      rw [if_neg (by omega)]
    unfold loadBytes
    rw [h1, ih (a + 1) (by omega)]

/-- One iteration of the loop of ArrayInitialize on a timestamp array whose blocks are
allocated, on wrappers given as bytes: it returns; the bytes are those of the six stores of
the iteration, in order of execution; entry i of the object index is the slot address; the
handle block and everything else the iteration reads stay as they were. -/
theorem Bytes_ArrayInitialize_body_ok (cfg : Config) (o : Oracle) (typinf : Ptr)
    (r : OCI_Array) (i : Nat) (st : ByteState) (hw : r.wired)
    (hk : r.elem_type = OCI_CDT_TIMESTAMP) :
    ∃ st', Bytes.ArrayInitialize.body cfg o typinf r i st = .ok st' ∧
      st'.bytes =
        storeBytes (storeBytes (storeBytes (storeBytes (storeBytes (storeBytes st.bytes
          (ArrayInitialize.data r i + 8) 4 OCI_OBJECT_ALLOCATED_ARRAY)
          (ArrayInitialize.data r i + 16) 8 r.con)
          (ArrayInitialize.data r i) 8 (st.base.slots r.mem_handle i))
          (ArrayInitialize.data r i + 40) 4 r.elem_subtype)
          (ArrayInitialize.data r i + 24) 8
            (if r.con ≠ NULL then st.base.con_err r.con else st.base.Env_err))
          (ArrayInitialize.data r i + 32) 8
            (if r.con ≠ NULL then st.base.con_env r.con else st.base.Env_env) ∧
      st'.base.slots r.tab_obj i = ArrayInitialize.data r i ∧
      (∀ j, j ≠ i → st'.base.slots r.tab_obj j = st.base.slots r.tab_obj j) ∧
      st'.base.slots r.mem_handle i = st.base.slots r.mem_handle i % 256 ^ 8 ∧
      (∀ j, j ≠ i → st'.base.slots r.mem_handle j = st.base.slots r.mem_handle j) ∧
      st'.base.arrayAt = st.base.arrayAt ∧ st'.base.con_err = st.base.con_err ∧
      st'.base.con_env = st.base.con_env ∧ st'.base.Env_err = st.base.Env_err ∧
      st'.base.Env_env = st.base.Env_env := by
  have hd : ArrayInitialize.data r i ≠ NULL := ArrayInitialize_data_ne_null r i hw.2.2.1
  generalize hdd : ArrayInitialize.data r i = d at hd ⊢
  have hh : ArrayInitialize.handle cfg r i st.base =
      .ok (st.base.slots r.mem_handle i, st.base.emit (Event.read r.mem_handle i)) := by
    unfold ArrayInitialize.handle
    rw [if_neg (by rw [hk]; decide),
      if_neg (by rw [hk]; simp [IS_OCI_NUMBER, OCI_CDT_TIMESTAMP, OCI_CDT_NUMERIC]),
      readSlot_ok _ _ _ hw.2.1]
  -- the tag of the slot is read back as it was stored, whatever the other stores are
  have htag : ∀ (m : Nat → Nat) (v1 v2 v3 v4 v5 : Nat),
      loadBytes (storeBytes (storeBytes (storeBytes (storeBytes (storeBytes (storeBytes m
        (d + 8) 4 OCI_OBJECT_ALLOCATED_ARRAY) (d + 16) 8 v1) d 8 v2) (d + 40) 4 v3)
        (d + 24) 8 v4) (d + 32) 8 v5) (d + 8) 4 = OCI_OBJECT_ALLOCATED_ARRAY := by
    intro m v1 v2 v3 v4 v5
    rw [loadBytes_storeBytes_apart _ _ _ _ _ _ (by omega),
      loadBytes_storeBytes_apart _ _ _ _ _ _ (by omega),
      loadBytes_storeBytes_apart _ _ _ _ _ _ (by omega),
      loadBytes_storeBytes_apart _ _ _ _ _ _ (by omega),
      loadBytes_storeBytes_apart _ _ _ _ _ _ (by omega),
      loadBytes_storeBytes_same _ _ _ _ (by decide)]
  have hhandle : ∀ (m : Nat → Nat) (v2 v3 v4 v5 : Nat),
      loadBytes (storeBytes (storeBytes (storeBytes (storeBytes m d 8 v2) (d + 40) 4 v3)
        (d + 24) 8 v4) (d + 32) 8 v5) d 8 = v2 % 256 ^ 8 := by
    intro m v2 v3 v4 v5
    rw [loadBytes_storeBytes_apart _ _ _ _ _ _ (by omega),
      loadBytes_storeBytes_apart _ _ _ _ _ _ (by omega),
      loadBytes_storeBytes_apart _ _ _ _ _ _ (by omega)]
    have h := loadBytes_storeBytes_part m d 8 v2 8 0 (by omega)
    simpa using h
  have hinit : Bytes.TimestampInit cfg (o.tmsp i) r.con d (st.base.slots r.mem_handle i)
      r.elem_subtype
      { base := ({ st.base.emit (Event.read r.mem_handle i) with
                    slots := upd (st.base.emit (Event.read r.mem_handle i)).slots r.tab_obj
                      (upd ((st.base.emit (Event.read r.mem_handle i)).slots r.tab_obj) i d)
                    log := (st.base.emit (Event.read r.mem_handle i)).log ++
                      [Event.write r.tab_obj i] } : State).emit (Event.objWrite d)
        bytes := storeBytes st.bytes (d + 8) 4 OCI_OBJECT_ALLOCATED_ARRAY } =
      (d, { base := ({ st.base.emit (Event.read r.mem_handle i) with
                    slots := upd (st.base.emit (Event.read r.mem_handle i)).slots r.tab_obj
                      (upd ((st.base.emit (Event.read r.mem_handle i)).slots r.tab_obj) i d)
                    log := (st.base.emit (Event.read r.mem_handle i)).log ++
                      [Event.write r.tab_obj i] } : State).emit (Event.objWrite d)
            bytes := storeBytes (storeBytes (storeBytes (storeBytes (storeBytes (storeBytes
              st.bytes (d + 8) 4 OCI_OBJECT_ALLOCATED_ARRAY) (d + 16) 8 r.con) d 8
              (st.base.slots r.mem_handle i)) (d + 40) 4 r.elem_subtype) (d + 24) 8
              (if r.con ≠ NULL then st.base.con_err r.con else st.base.Env_err)) (d + 32) 8
              (if r.con ≠ NULL then st.base.con_env r.con else st.base.Env_env) }) := by
    have hd' : (d == NULL) = false := by simpa using hd
    unfold Bytes.TimestampInit ALLOC_BUFFER
    simp only [hd', Bool.and_false, Bool.false_eq_true, if_false, hd, false_and, if_true]
    unfold Bytes.TimestampInit.fill
    simp only [htag, or_true, if_true, ne_eq, not_true_eq_false, if_false, Bool.not_true,
      Bool.false_and, Bool.false_eq_true, emit_slots]
    rfl
  unfold Bytes.ArrayInitialize.body
  dsimp only
  rw [hdd, hh]
  dsimp only
  rw [writeSlot_ok _ _ _ _ hw.1]
  dsimp only
  rw [if_neg hd, hinit]
  unfold Bytes.ARRAY_INIT
  dsimp only
  rw [writeSlot_ok _ _ _ _ hw.1]
  dsimp only
  rw [readSlot_ok _ _ _ hw.1]
  dsimp only
  simp only [upd_same, emit_slots]
  rw [if_neg hd, writeSlot_ok _ _ _ _ hw.2.1]
  dsimp only
  refine ⟨_, rfl, rfl, ?_, ?_, ?_, ?_, rfl, rfl, rfl, rfl, rfl⟩
  · simp [upd, hw.2.2.2, Ne.symm hw.2.2.2]
  · intro j hj
    simp [upd, hw.2.2.2, Ne.symm hw.2.2.2, hj]
  · simp only [emit_slots, upd_same]
    exact hhandle _ _ _ _ _
  · intro j hj
    simp [upd, hw.2.2.2, Ne.symm hw.2.2.2, hj]

/-- The loop of ArrayInitialize on a timestamp array whose blocks are allocated, on wrappers
given as bytes, from index i for k iterations: it returns; the entries of the object index
in the range are the slot addresses and the others are untouched; an entry of the handle
block that fits in a pointer is as it was. -/
theorem Bytes_ArrayInitialize_loop_ok (cfg : Config) (o : Oracle) (typinf : Ptr)
    (r : OCI_Array) (hw : r.wired) (hk : r.elem_type = OCI_CDT_TIMESTAMP) (k : Nat) :
    ∀ (i : Nat) (st : ByteState),
      ∃ st', Bytes.ArrayInitialize.loop cfg o typinf r i k st = .ok st' ∧
        (∀ j, i ≤ j → j < i + k → st'.base.slots r.tab_obj j = ArrayInitialize.data r j) ∧
        (∀ j, j < i ∨ i + k ≤ j → st'.base.slots r.tab_obj j = st.base.slots r.tab_obj j) ∧
        (∀ j, st.base.slots r.mem_handle j < 256 ^ 8 →
          st'.base.slots r.mem_handle j = st.base.slots r.mem_handle j) ∧
        st'.base.arrayAt = st.base.arrayAt ∧ st'.base.con_err = st.base.con_err ∧
        st'.base.con_env = st.base.con_env ∧ st'.base.Env_err = st.base.Env_err ∧
        st'.base.Env_env = st.base.Env_env := by
  induction k with
  | zero =>
    intro i st
    refine ⟨st, rfl, ?_, fun _ _ => rfl, fun _ _ => rfl, rfl, rfl, rfl, rfl, rfl⟩
    intro j h1 h2
    omega
  | succ k ih =>
    intro i st
    obtain ⟨st1, hb, -, b2, b3, b4, b5, b6, b7, b8, b9, b10⟩ :=
      Bytes_ArrayInitialize_body_ok cfg o typinf r i st hw hk
    obtain ⟨st', hl, l1, l2, l3, l4, l5, l6, l7, l8⟩ := ih (i + 1) st1
    unfold Bytes.ArrayInitialize.loop
    rw [hb]
    dsimp only
    refine ⟨st', hl, ?_, ?_, ?_, l4.trans b6, l5.trans b7, l6.trans b8, l7.trans b9,
      l8.trans b10⟩
    · intro j h1 h2
      by_cases hji : j = i
      · subst hji
        rw [l2 j (Or.inl (by omega))]
        exact b2
      · exact l1 j (by omega) (by omega)
    · intro j hj
      rw [l2 j (by omega)]
      exact b3 j (by omega)
    · intro j hj
      have h1 : st1.base.slots r.mem_handle j = st.base.slots r.mem_handle j := by
        by_cases hji : j = i
        · subst hji
          rw [b4, Nat.mod_eq_of_lt hj]
        · exact b5 j hji
      rw [l3 j (by rw [h1]; exact hj), h1]

/-- The loop of ArrayInitialize for one more iteration is the loop followed by the iteration
of the next index. -/
theorem Bytes_ArrayInitialize_loop_succ (cfg : Config) (o : Oracle) (typinf : Ptr)
    (r : OCI_Array) (k : Nat) :
    ∀ (i : Nat) (st : ByteState),
      Bytes.ArrayInitialize.loop cfg o typinf r i (k + 1) st =
        match Bytes.ArrayInitialize.loop cfg o typinf r i k st with
        | .error e => .error e
        | .ok s => Bytes.ArrayInitialize.body cfg o typinf r (i + k) s := by
  induction k with
  | zero =>
    intro i st
    simp only [Bytes.ArrayInitialize.loop, Nat.add_zero]
    cases Bytes.ArrayInitialize.body cfg o typinf r i st <;> rfl
  | succ k ih =>
    intro i st
    rw [Bytes.ArrayInitialize.loop]
    conv_rhs => rw [Bytes.ArrayInitialize.loop]
    cases hb : Bytes.ArrayInitialize.body cfg o typinf r i st with
    | error e => rfl
    | ok st1 =>
      dsimp only
      rw [ih (i + 1) st1]
      have : i + 1 + k = i + (k + 1) := by omega
      rw [this]


/-- ArrayInitialize on the timestamp array of 89478487 wrappers of 48 bytes returns TRUE.
The offset 48 * 89478486 of the last element wraps to 32, so that this element is constructed
across the wrappers 0 and 1: entry 1 of the object index is the slot at offset 48, whose
handle field (bytes 48 to 55) then holds the connection 500 that the last element stored as
its field con, while entry 1 of the handle block is the descriptor 1001, and whose state tag
(bytes 56 to 59) holds the low bytes of the error handle 600 that the last element stored as
its field err. -/
theorem Bytes_ArrayInitialize_hugeState (o : Oracle) :
    ∃ st', Bytes.ArrayInitialize demoConfig o 10 0 hugeState = some (.ok (true, st')) ∧
      st'.base.slots hugeRecord.tab_obj 1 = hugeRecord.mem_struct + 48 ∧
      st'.base.slots hugeRecord.mem_handle 1 = 1001 ∧
      loadBytes st'.bytes (hugeRecord.mem_struct + 48) 8 = 500 ∧
      loadBytes st'.bytes (hugeRecord.mem_struct + 48 + 8) 4 = 600 := by
  have hw : hugeRecord.wired := ⟨by decide, by decide, by decide, by decide⟩
  have hk : hugeRecord.elem_type = OCI_CDT_TIMESTAMP := rfl
  obtain ⟨s1, h1, t1, -, m1, -, e1, e2, -, -⟩ :=
    Bytes_ArrayInitialize_loop_ok demoConfig o 0 hugeRecord hw hk 89478486 0 hugeState
  obtain ⟨s2, h2, hbytes, -, t2, -, m2, -⟩ :=
    Bytes_ArrayInitialize_body_ok demoConfig o 0 hugeRecord (0 + 89478486) s1 hw hk
  have hdata : ArrayInitialize.data hugeRecord (0 + 89478486) = 2 ^ 36 + 32 := by decide
  have hcon : hugeRecord.con = 500 := rfl
  have hms : hugeRecord.mem_struct = 2 ^ 36 := rfl
  have hrun : Bytes.ArrayInitialize demoConfig o 10 0 hugeState = some (.ok (true, s2)) := by
    have harr : hugeState.base.arrayAt 10 = some hugeRecord := rfl
    have hn : hugeRecord.nb_elem = 89478486 + 1 := rfl
    have hs := Bytes_ArrayInitialize_loop_succ demoConfig o 0 hugeRecord 89478486 0 hugeState
    rw [h1] at hs
    dsimp only at hs
    rw [h2] at hs
    unfold Bytes.ArrayInitialize
    rw [if_neg (by decide), harr]
    dsimp only
    rw [if_pos hk]
    rw [hn]
    rw [hs]
  refine ⟨s2, hrun, ?_, ?_, ?_, ?_⟩
  · rw [t2 1 (by decide), t1 1 (by decide) (by decide)]
    rfl
  · rw [m2 1 (by decide), m1 1 (by decide)]
    rfl
  · rw [hbytes, hdata, hcon, hms]
    rw [loadBytes_storeBytes_apart _ _ _ _ _ _ (by decide),
      loadBytes_storeBytes_apart _ _ _ _ _ _ (by decide),
      loadBytes_storeBytes_apart _ _ _ _ _ _ (by decide),
      loadBytes_storeBytes_apart _ _ _ _ _ _ (by decide),
      loadBytes_storeBytes_same _ _ _ _ (by decide)]
  · rw [hbytes, hdata, hcon, hms, e1]
    rw [loadBytes_storeBytes_apart _ _ _ _ _ _ (by decide)]
    have hc : hugeState.base.con_err 500 = 600 := rfl
    rw [if_pos (by decide), hc]
    have h := loadBytes_storeBytes_part
      (storeBytes (storeBytes (storeBytes (storeBytes s1.bytes (2 ^ 36 + 32 + 8) 4
        OCI_OBJECT_ALLOCATED_ARRAY) (2 ^ 36 + 32 + 16) 8 500) (2 ^ 36 + 32) 8
        (s1.base.slots hugeRecord.mem_handle (0 + 89478486))) (2 ^ 36 + 32 + 40) 4
        hugeRecord.elem_subtype)
      (2 ^ 36 + 32 + 24) 8 600 4 0 (by decide)
    have ha : 2 ^ 36 + 48 + 8 = 2 ^ 36 + 32 + 24 + 0 := by decide
    rw [ha, h]
    decide

/-- On a small array the byte-level embedding agrees with the embedding over separate
wrappers: with two wrappers of 48 bytes both state tags are OCI_OBJECT_ALLOCATED_ARRAY and
both handle fields are the entries of the handle block. -/
theorem Bytes_ArrayInitialize_small :
    (loadBytes (Bytes.stateOf (Bytes.ArrayInitialize demoConfig
        (goodOracle 10 (2 ^ 33) (2 ^ 34) (2 ^ 36)) 10 0 smallByteState) smallByteState).bytes
      (2 ^ 36 + 8) 4,
     loadBytes (Bytes.stateOf (Bytes.ArrayInitialize demoConfig
        (goodOracle 10 (2 ^ 33) (2 ^ 34) (2 ^ 36)) 10 0 smallByteState) smallByteState).bytes
      (2 ^ 36 + 48 + 8) 4) = (OCI_OBJECT_ALLOCATED_ARRAY, OCI_OBJECT_ALLOCATED_ARRAY) ∧
    (loadBytes (Bytes.stateOf (Bytes.ArrayInitialize demoConfig
        (goodOracle 10 (2 ^ 33) (2 ^ 34) (2 ^ 36)) 10 0 smallByteState) smallByteState).bytes
      (2 ^ 36) 8,
     loadBytes (Bytes.stateOf (Bytes.ArrayInitialize demoConfig
        (goodOracle 10 (2 ^ 33) (2 ^ 34) (2 ^ 36)) 10 0 smallByteState) smallByteState).bytes
      (2 ^ 36 + 48) 8) = (1000, 1001) := by
  decide

/-! ## The state tag of array elements -/

/-- A write of the state tag that returns has stored the tag. -/
theorem writeHstate_tag (data : Ptr) (v : Nat) (st st' : State)
    (h : writeHstate data v st = .ok st') : (st'.objAt data).hstate = v := by
  unfold writeHstate at h
  split at h
  · simp at h
  · simp only [Except.ok.injEq] at h
    subst h
    simp

/-- An iteration of the loop of ArrayInitialize that returns has run the switch on the element
kind in a state in which the wrapper slot already carries the array-allocated tag. -/
theorem ArrayInitialize_body_tagged (cfg : Config) (o : Oracle) (typinf : Ptr) (r : OCI_Array)
    (i : Nat) (st st' : State) (h : ArrayInitialize.body cfg o typinf r i st = .ok st') :
    ∃ handle st3,
      (st3.objAt (ArrayInitialize.data r i)).hstate = OCI_OBJECT_ALLOCATED_ARRAY ∧
      ArrayInitialize.dispatch cfg o typinf r i (ArrayInitialize.data r i) handle st3 =
        .ok st' := by
  unfold ArrayInitialize.body at h
  dsimp only at h
  split at h
  · simp at h
  · split at h
    · simp at h
    · split at h
      · simp at h
      · rename_i _ handle st1 _ _ st2 _ _ st3 h3
        exact ⟨handle, st3, writeHstate_tag _ _ _ _ h3, h⟩

/-- C12: TimestampFree on a timestamp that passes the entry checks returns TRUE; it calls the
native descriptor free exactly when the tag is OCI_OBJECT_ALLOCATED and releases the wrapper
struct exactly when the tag is not OCI_OBJECT_ALLOCATED_ARRAY, and these are its only events;
for an array-allocated element the state is unchanged: nothing is released. -/
theorem C12_TimestampFree_by_tag (cfg : Config) (tmsp : Ptr) (st : State)
    (hc : TimestampFree.entryChecks tmsp st = true) :
    (TimestampFree cfg tmsp st).1 = true ∧
    (TimestampFree cfg tmsp st).2.log = st.log ++
      (if (st.objAt tmsp).hstate = OCI_OBJECT_ALLOCATED then
        [Event.descFree (st.objAt tmsp).handle
          (cfg.ExternalSubTypeToHandleType OCI_CDT_TIMESTAMP (st.objAt tmsp).type)]
       else []) ++
      (if (st.objAt tmsp).hstate ≠ OCI_OBJECT_ALLOCATED_ARRAY then [Event.free tmsp] else []) ∧
    (TimestampFree cfg tmsp st).2.live =
      (if (st.objAt tmsp).hstate ≠ OCI_OBJECT_ALLOCATED_ARRAY then st.live.erase tmsp
       else st.live) ∧
    ((st.objAt tmsp).hstate = OCI_OBJECT_ALLOCATED_ARRAY → (TimestampFree cfg tmsp st).2 = st) := by
  have hn : tmsp ≠ NULL := by
    intro h0
    simp [TimestampFree.entryChecks, h0] at hc
  unfold TimestampFree
  rw [if_pos hc]
  dsimp only
  by_cases h1 : (st.objAt tmsp).hstate = OCI_OBJECT_ALLOCATED
  · have e1 : OCI_OBJECT_ALLOCATED_ARRAY ≠ OCI_OBJECT_ALLOCATED := by decide
    simp [h1, e1, Ne.symm e1, MemoryFree, MemoryFreeDescriptor, hn, State.emit]
  · by_cases h2 : (st.objAt tmsp).hstate = OCI_OBJECT_ALLOCATED_ARRAY
    · simp [h2, OCI_OBJECT_ALLOCATED, OCI_OBJECT_ALLOCATED_ARRAY]
    · simp [h1, h2, Ne.symm h1, Ne.symm h2, MemoryFree, hn]

/-- C12, witness: a timestamp allocated on its own in a fresh library: the descriptor is
freed and the wrapper released. -/
theorem C12_witness :
    TimestampFree.entryChecks 7 loneTimestamp = true ∧
    (TimestampFree demoConfig 7 loneTimestamp).2.log =
      loneTimestamp.log ++
        (if (loneTimestamp.objAt 7).hstate = OCI_OBJECT_ALLOCATED then
          [Event.descFree (loneTimestamp.objAt 7).handle
            (demoConfig.ExternalSubTypeToHandleType OCI_CDT_TIMESTAMP
              (loneTimestamp.objAt 7).type)]
         else []) ++
        (if (loneTimestamp.objAt 7).hstate ≠ OCI_OBJECT_ALLOCATED_ARRAY then [Event.free 7]
         else []) :=
  ⟨by decide, (C12_TimestampFree_by_tag demoConfig 7 loneTimestamp (by decide)).2.1⟩

/-! ## ArrayFindAny -/

/-- C13, counterexample: for the timestamp array created in a fresh library (record at 10,
object index at 20, handle block at 30, wrapper block at 40), ArrayFindAny answers false for
the handle block mem_handle, and true for the object index and for the wrapper block, which
are not mem_handle. -/
theorem C13_counterexample :
    Option.map OCI_Array.mem_handle (demoState.arrayAt 10) = some 30 ∧
    ArrayFindAny demoState 10 30 = .ok false ∧
    ArrayFindAny demoState 10 20 = .ok true ∧
    ArrayFindAny demoState 10 40 = .ok true :=
  ⟨rfl, rfl, rfl, rfl⟩

/-- C13, amended: ArrayFindAny(arr, handles) returns true exactly when arr is not null and
handles is identical to the object index tab_obj of the record or to its wrapper block
mem_struct; it returns false for a null array. -/
theorem C13_ArrayFindAny_blocks (st : State) (arr handles : Ptr) (r : OCI_Array)
    (hr : arr ≠ NULL → st.arrayAt arr = some r) :
    ArrayFindAny st arr handles =
      .ok (decide (arr ≠ NULL ∧ (r.tab_obj = handles ∨ r.mem_struct = handles))) := by
  unfold ArrayFindAny
  by_cases hn : arr = NULL
  · simp [hn]
  · rw [if_neg hn, hr hn]
    by_cases a : r.tab_obj = handles <;> by_cases b : r.mem_struct = handles <;>
      simp [hn, a, b]

/-- C13, witness: the lookup of the wrapper block of the timestamp array created in a fresh
library. -/
theorem C13_witness :
    (10 ≠ NULL → demoState.arrayAt 10 =
      some (ArrayCreate.record emptyState 0 2 OCI_CDT_TIMESTAMP 1 8 48 68 20 30 40)) ∧
    ArrayFindAny demoState 10 40 =
      .ok (decide (10 ≠ NULL ∧
        ((ArrayCreate.record emptyState 0 2 OCI_CDT_TIMESTAMP 1 8 48 68 20 30 40).tab_obj = 40 ∨
         (ArrayCreate.record emptyState 0 2 OCI_CDT_TIMESTAMP 1 8 48 68 20 30 40).mem_struct
           = 40))) :=
  ⟨fun _ => rfl, C13_ArrayFindAny_blocks demoState 10 40
    (ArrayCreate.record emptyState 0 2 OCI_CDT_TIMESTAMP 1 8 48 68 20 30 40) (fun _ => rfl)⟩

/-! ## Element constructors: results are not checked, timestamps cannot fail -/

/-- When the descriptor allocation and initialisation step of ArrayCreate reports a bad
status, the status was already bad or the descriptor allocation was refused. -/
theorem ArrayCreate_finish_false (cfg : Config) (o : Oracle) (arr : Ptr) (K ht : Nat)
    (typinf : Ptr) (r : OCI_Array) (st st' : State) (b : Bool)
    (h : ArrayCreate.finish cfg o arr K ht typinf b r st = .ok (false, st')) :
    b = false ∨ (ht ≠ OCI_UNKNOWN ∧ o.descriptors = none) := by
  unfold ArrayCreate.finish at h
  dsimp only at h
  generalize hd : (if (b && ht != 0) = true then
      MemoryAllocDescriptorArray o.descriptors r.mem_handle ht K st else (b, st)) = d at h
  split at h
  · have := (ArrayInitialize_frame _ _ _ _ _ _ _ h).1
    simp at this
  · simp only [Except.ok.injEq, Prod.mk.injEq] at h
    obtain ⟨h1, -⟩ := h
    rw [← hd] at h1
    cases b with
    | false => exact Or.inl rfl
    | true =>
      right
      by_cases hht : ht = 0
      · simp [hht] at h1
      · refine ⟨hht, ?_⟩
        have hht' : (ht != 0) = true := by simpa using hht
        simp only [Bool.true_and, hht', if_true] at h1
        unfold MemoryAllocDescriptorArray at h1
        split at h1
        · assumption
        · simp at h1

/-- C19: ArrayInitialize does not check the result of any element construction: whenever it
returns, it returns TRUE, whatever the oracle makes the constructors return; and when
ArrayCreate returns null, an allocation was refused: the record by ListAppend, one of the
three buffers, or the native descriptors. -/
theorem C19_ArrayInitialize_unchecked (cfg : Config) (o : Oracle)
    (con K et es sz ss ht : Nat) (typinf : Ptr) (st st' : State) (p : Ptr)
    (h : ArrayCreate cfg o con K et es sz ss ht typinf st = .ok (p, st')) :
    (∀ (arr ti : Ptr) (s s' : State) (b : Bool),
      ArrayInitialize cfg o arr ti s = .ok (b, s') → b = true) ∧
    (p = NULL →
      (ListAppend o.arr st).1 = NULL ∨
      (ArrayCreate.buffers cfg o
        (ArrayCreate.record st con K et es sz ss ht NULL NULL NULL)
        (ListAppend o.arr st).2).1 = false ∨
      (ht ≠ OCI_UNKNOWN ∧ o.descriptors = none)) := by
  refine ⟨fun arr ti s s' b hi => (ArrayInitialize_frame cfg o arr ti s s' b hi).1, ?_⟩
  intro hp
  subst hp
  unfold ArrayCreate at h
  dsimp only at h
  rcases ListAppend_cases o.arr st with hL | ⟨q, stA, hL, hq0, hql, hA1, hA2, hA3, hA4, hA5, hA6, hA7⟩
  · left
    rw [hL]
  · right
    rw [hL] at h ⊢
    dsimp only at h ⊢
    have hq0' : (q != NULL) = true := by simpa using hq0
    rw [hq0', if_pos rfl] at h
    split at h
    · simp at h
    · rename_i STATUS st1 hfill
      cases STATUS with
      | true =>
        simp only [Bool.not_true, Bool.false_eq_true, if_false, Except.ok.injEq,
          Prod.mk.injEq] at h
        exact absurd h.1 hq0
      | false =>
        unfold ArrayCreate.fill at hfill
        have hz : stA.arrayAt q = some OCI_Array.zero := by rw [hA2]; simp
        rw [hz] at hfill
        dsimp only at hfill
        have hrec : ({ OCI_Array.zero with
              con := con
              err := if con ≠ NULL then stA.con_err con else stA.Env_err
              env := if con ≠ NULL then stA.con_env con else stA.Env_env
              elem_type := et
              elem_subtype := es
              elem_size := sz
              nb_elem := K
              struct_size := ss
              handle_type := ht } : OCI_Array) =
            ArrayCreate.record st con K et es sz ss ht NULL NULL NULL := by
          unfold ArrayCreate.record OCI_Array.zero
          rw [hA4, hA5, hA6, hA7]
          rfl
        rw [hrec] at hfill
        rcases ArrayCreate_finish_false _ _ _ _ _ _ _ _ _ _ hfill with hb | hd
        · exact Or.inl hb
        · exact Or.inr hd

/-- C19, witness: a creation in a fresh library that returns null because the handle block
was refused. -/
theorem C19_witness :
    ArrayCreate demoConfig { goodOracle 10 20 30 40 with mem_handle := none } 0 2
      OCI_CDT_TIMESTAMP 1 8 48 68 0 emptyState = .ok (NULL, failedState) ∧
    (NULL = NULL →
      (ListAppend ({ goodOracle 10 20 30 40 with mem_handle := none } : Oracle).arr
        emptyState).1 = NULL ∨
      (ArrayCreate.buffers demoConfig { goodOracle 10 20 30 40 with mem_handle := none }
        (ArrayCreate.record emptyState 0 2 OCI_CDT_TIMESTAMP 1 8 48 68 NULL NULL NULL)
        (ListAppend ({ goodOracle 10 20 30 40 with mem_handle := none } : Oracle).arr
          emptyState).2).1 = false ∨
      (68 ≠ OCI_UNKNOWN ∧
        ({ goodOracle 10 20 30 40 with mem_handle := none } : Oracle).descriptors = none)) :=
  ⟨rfl, (C19_ArrayInitialize_unchecked demoConfig
    { goodOracle 10 20 30 40 with mem_handle := none } 0 2 OCI_CDT_TIMESTAMP 1 8 48 68 0
    emptyState failedState NULL rfl).2⟩

/-- C20: for a timestamp array whose blocks are allocated, ArrayInitialize returns TRUE
without a null dereference, whatever the oracle; the reason is part of the statement:
TimestampInit called on a non-null wrapper tagged array-allocated returns that same wrapper,
allocates nothing (no event at all is logged, no block becomes allocated, so neither a
wrapper nor a descriptor), and changes nothing but the fields of that wrapper, so the handle
read of ARRAY_INIT is on the wrapper slot itself. -/
theorem C20_timestamp_init_never_null (cfg : Config) (o : Oracle) (arr typinf : Ptr)
    (st : State) (r : OCI_Array) (hn : arr ≠ NULL) (hr : st.arrayAt arr = some r)
    (hw : r.wired) (hk : r.elem_type = OCI_CDT_TIMESTAMP) :
    (∃ st', ArrayInitialize cfg o arr typinf st = .ok (true, st') ∧
      ∀ i, i < r.nb_elem → st'.slots r.tab_obj i = ArrayInitialize.data r i ∧
        st'.slots r.tab_obj i ≠ NULL) ∧
    (∀ (t : TimestampOracle) (c tmsp buffer : Ptr) (type : Nat) (s : State),
      tmsp ≠ NULL → (s.objAt tmsp).hstate = OCI_OBJECT_ALLOCATED_ARRAY →
      (TimestampInit cfg t c tmsp buffer type s).1 = tmsp ∧
      (TimestampInit cfg t c tmsp buffer type s).2.log = s.log ∧
      (TimestampInit cfg t c tmsp buffer type s).2.live = s.live ∧
      (TimestampInit cfg t c tmsp buffer type s).2.slots = s.slots ∧
      ∀ a, a ≠ tmsp → (TimestampInit cfg t c tmsp buffer type s).2.objAt a = s.objAt a) := by
  refine ⟨?_, ?_⟩
  · obtain ⟨st', hi, -, hrange⟩ := ArrayInitialize_ok cfg o arr typinf st r hn hr hw (Or.inl hk)
    refine ⟨st', hi, fun i hi' => ⟨(hrange i hi').1, ?_⟩⟩
    rw [(hrange i hi').1]
    exact ArrayInitialize_data_ne_null r i hw.2.2.1
  · intro t c tmsp buffer type s hn' hs
    rw [TimestampInit_array cfg t c tmsp buffer type s hn' hs]
    refine ⟨rfl, rfl, rfl, rfl, ?_⟩
    intro a ha
    simp [upd, ha]

/-- C20, witness: initialising once more the timestamp array created in a fresh library. -/
theorem C20_witness :
    demoState.arrayAt 10 =
      some (ArrayCreate.record emptyState 0 2 OCI_CDT_TIMESTAMP 1 8 48 68 20 30 40) ∧
    ∃ st', ArrayInitialize demoConfig (goodOracle 10 20 30 40) 10 0 demoState = .ok (true, st') ∧
      ∀ i, i < 2 → st'.slots 20 i = ArrayInitialize.data
          (ArrayCreate.record emptyState 0 2 OCI_CDT_TIMESTAMP 1 8 48 68 20 30 40) i ∧
        st'.slots 20 i ≠ NULL :=
  ⟨rfl, (C20_timestamp_init_never_null demoConfig (goodOracle 10 20 30 40) 10 0 demoState
    (ArrayCreate.record emptyState 0 2 OCI_CDT_TIMESTAMP 1 8 48 68 20 30 40)
    (by decide) rfl ⟨by decide, by decide, by decide, by decide⟩ rfl).1⟩

/-! ## ArrayDispose: the order of the teardown -/

/-- The events of TimestampFree: no call of FreeObjectFromType and no descriptor array call. -/
theorem TimestampFree_log (cfg : Config) (p : Ptr) (st : State) :
    ∃ evs, (TimestampFree cfg p st).2.log = st.log ++ evs ∧
      ∀ e ∈ evs, e.isElemFree = false ∧ e.isArrayDescCall = false := by
  refine ⟨(if TimestampFree.entryChecks p st = true then
      (if OCI_OBJECT_ALLOCATED = (st.objAt p).hstate then
        [Event.descFree (st.objAt p).handle
          (cfg.ExternalSubTypeToHandleType OCI_CDT_TIMESTAMP (st.objAt p).type)] else []) ++
      (if OCI_OBJECT_ALLOCATED_ARRAY ≠ (st.objAt p).hstate then
        (if p = NULL then [] else [Event.free p]) else [])
    else []), ?_, ?_⟩
  · unfold TimestampFree
    by_cases hc : TimestampFree.entryChecks p st = true
    · rw [if_pos hc, if_pos hc]
      dsimp only
      by_cases h1 : OCI_OBJECT_ALLOCATED = (st.objAt p).hstate <;>
        by_cases h2 : OCI_OBJECT_ALLOCATED_ARRAY = (st.objAt p).hstate <;>
        simp [h1, h2, MemoryFree_log, MemoryFreeDescriptor]
    · rw [if_neg hc, if_neg hc]
      simp
  · intro e he
    split_ifs at he <;> simp at he <;> (try rcases he with h | h) <;>
      simp_all [Event.isElemFree, Event.isArrayDescCall]

/-- The events of FreeObjectFromType: the call itself, then events of the element free that
are neither a call of FreeObjectFromType nor a descriptor array call. -/
theorem FreeObjectFromType_log (cfg : Config) (obj : Ptr) (t : Nat) (st : State) :
    ∃ evs, (FreeObjectFromType cfg obj t st).2.log = st.log ++ Event.elemFree obj t :: evs ∧
      ∀ e ∈ evs, e.isElemFree = false ∧ e.isArrayDescCall = false := by
  unfold FreeObjectFromType
  dsimp only
  split
  · obtain ⟨evs, h1, h2⟩ := TimestampFree_log cfg obj (st.emit (Event.elemFree obj t))
    exact ⟨evs, by rw [h1]; simp, h2⟩
  · exact ⟨[], by simp, by simp⟩

/-- The events of a returning loop of ArrayDispose over k elements, in any state: exactly k
calls of FreeObjectFromType and no descriptor array call. -/
theorem ArrayDispose_loop_log (cfg : Config) (r : OCI_Array) (k : Nat) :
    ∀ (i : Nat) (st st' : State), ArrayDispose.loop cfg r i k st = .ok st' →
      ∃ L, st'.log = st.log ++ L ∧ elemFreeCalls L = k ∧
        ∀ e ∈ L, e.isArrayDescCall = false := by
  induction k with
  | zero =>
    intro i st st' h
    simp [ArrayDispose.loop] at h
    subst h
    exact ⟨[], by simp, rfl, by simp⟩
  | succ k ih =>
    intro i st st' h
    unfold ArrayDispose.loop at h
    unfold readSlot at h
    split at h
    · simp at h
    · rename_i obj st1 heq
      split at heq
      · simp at heq
      · simp only [Except.ok.injEq, Prod.mk.injEq] at heq
        obtain ⟨rfl, rfl⟩ := heq
        obtain ⟨L, hL, hc, hd⟩ := ih _ _ _ h
        obtain ⟨evs, he1, he2⟩ := FreeObjectFromType_log cfg (st.slots r.tab_obj i) r.elem_type
          (st.emit (Event.read r.tab_obj i))
        refine ⟨Event.read r.tab_obj i ::
          Event.elemFree (st.slots r.tab_obj i) r.elem_type :: (evs ++ L), ?_, ?_, ?_⟩
        · rw [hL, he1]
          simp
        · have hz : List.countP Event.isElemFree evs = 0 := by
            rw [List.countP_eq_zero]
            intro e he
            simp [(he2 e he).1]
          simp only [elemFreeCalls] at hc ⊢
          simp [List.countP_cons, List.countP_append, Event.isElemFree, hz, hc]
        · intro e he
          simp only [List.mem_cons, List.mem_append] at he
          rcases he with rfl | rfl | he | he
          · rfl
          · rfl
          · exact (he2 e he).2
          · exact hd e he

/-- C14: a call of ArrayDispose on a non-null array that returns, returns TRUE after a
teardown in a fixed order.  Its events are: first those of the element loop, which contain
all the calls of FreeObjectFromType (one per element for a library object kind, none
otherwise) and no descriptor free; then the descriptor free (when the record has a handle
kind); then the releases of mem_handle, mem_struct and tab_obj, in this order.  No element of
a block is read or written once the descriptor free and the releases have begun, and when
the elements are of a kind whose free releases nothing (for timestamps: each entry is null or
a wrapper tagged array-allocated, as ArrayCreate leaves them) the loop consists of reads and
calls only: nothing has been released before either. -/
theorem C14_ArrayDispose_order (cfg : Config) (arr : Ptr) (st st' : State) (r : OCI_Array)
    (b : Bool) (hn : arr ≠ NULL) (hr : st.arrayAt arr = some r)
    (h : ArrayDispose cfg arr st = .ok (b, st')) :
    b = true ∧
    ∃ L, st'.log = st.log ++ L ++
        ((if OCI_UNKNOWN ≠ r.handle_type then
            [Event.descFreeArray r.mem_handle r.handle_type r.nb_elem] else []) ++
          (if r.mem_handle = NULL then [] else [Event.free r.mem_handle]) ++
          (if r.mem_struct = NULL then [] else [Event.free r.mem_struct]) ++
          (if r.tab_obj = NULL then [] else [Event.free r.tab_obj])) ∧
      elemFreeCalls L =
        (if cfg.IS_OCILIB_OBJECT r.elem_type r.elem_subtype = true then r.nb_elem else 0) ∧
      (∀ e ∈ L, e.isArrayDescCall = false) ∧
      ((∀ j, j < r.nb_elem → r.elem_type = OCI_CDT_TIMESTAMP →
          st.slots r.tab_obj j = NULL ∨
          (st.objAt (st.slots r.tab_obj j)).hstate = OCI_OBJECT_ALLOCATED_ARRAY) →
        L = (if cfg.IS_OCILIB_OBJECT r.elem_type r.elem_subtype = true then
              ArrayDispose.loopEvents r (st.slots r.tab_obj) 0 r.nb_elem else []) ∧
        freedBlocks L = []) := by
  have htail : ArrayDispose.tailEvents r =
      (if OCI_UNKNOWN ≠ r.handle_type then
          [Event.descFreeArray r.mem_handle r.handle_type r.nb_elem] else []) ++
        (if r.mem_handle = NULL then [] else [Event.free r.mem_handle]) ++
        (if r.mem_struct = NULL then [] else [Event.free r.mem_struct]) ++
        (if r.tab_obj = NULL then [] else [Event.free r.tab_obj]) := rfl
  rw [← htail]
  have h0 := h
  unfold ArrayDispose at h
  rw [if_neg hn, hr] at h
  dsimp only at h
  split at h
  · simp at h
  · rename_i st1 hloop
    simp only [Except.ok.injEq, Prod.mk.injEq] at h
    obtain ⟨hb, hst⟩ := h
    refine ⟨hb.symm, ?_⟩
    have hL : ∃ L, st1.log = st.log ++ L ∧
        elemFreeCalls L =
          (if cfg.IS_OCILIB_OBJECT r.elem_type r.elem_subtype = true then r.nb_elem else 0) ∧
        ∀ e ∈ L, e.isArrayDescCall = false := by
      split at hloop
      · rename_i hobj
        rw [if_pos hobj]
        exact ArrayDispose_loop_log cfg r _ _ _ _ hloop
      · rename_i hobj
        rw [if_neg hobj]
        simp only [Except.ok.injEq] at hloop
        subst hloop
        exact ⟨[], by simp, rfl, by simp⟩
    obtain ⟨L, hL1, hL2, hL3⟩ := hL
    have hlog : st'.log = st.log ++ L ++ ArrayDispose.tailEvents r := by
      rw [← hst]
      simp only [MemoryFree_log]
      unfold ArrayDispose.tailEvents MemoryFreeDescriptorArray
      split_ifs <;> simp [hL1]
    refine ⟨L, hlog, hL2, hL3, ?_⟩
    intro hq
    have hquiet := ArrayDispose_quiet cfg arr st r hn hr (by
      intro hobj
      refine ⟨?_, hq⟩
      by_cases hk : r.nb_elem = 0
      · exact Or.inl hk
      · right
        intro ht
        have := ArrayDispose_null_tab_obj cfg arr st r hn hr hobj (by omega) ht
        rw [this] at h0
        simp at h0)
    obtain ⟨st'', hd, hlog'⟩ := hquiet
    rw [hd] at h0
    simp only [Except.ok.injEq, Prod.mk.injEq] at h0
    obtain ⟨-, rfl⟩ := h0
    rw [hlog'] at hlog
    have hLeq := List.append_cancel_left (List.append_cancel_right hlog)
    rw [← hLeq]
    refine ⟨rfl, ?_⟩
    split_ifs
    · exact loopEvents_freedBlocks r _ _ 0
    · rfl

/-- C14, witness: the disposal of the timestamp array of two elements created in a fresh
library: two reads of the object index, each followed by the call of the element free, then
the descriptor free, then the releases of the blocks at 30, 40 and 20. -/
theorem C14_witness :
    newEvents demoState disposedState =
      [Event.read 20 0, Event.elemFree 40 9, Event.read 20 1, Event.elemFree 88 9,
       Event.descFreeArray 30 68 2, Event.free 30, Event.free 40, Event.free 20] ∧
    ∃ r, 10 ≠ NULL ∧ demoState.arrayAt 10 = some r ∧
      ArrayDispose demoConfig 10 demoState = .ok (true, disposedState) ∧
      (true = true ∧
      ∃ L, disposedState.log = demoState.log ++ L ++
          ((if OCI_UNKNOWN ≠ r.handle_type then
              [Event.descFreeArray r.mem_handle r.handle_type r.nb_elem] else []) ++
            (if r.mem_handle = NULL then [] else [Event.free r.mem_handle]) ++
            (if r.mem_struct = NULL then [] else [Event.free r.mem_struct]) ++
            (if r.tab_obj = NULL then [] else [Event.free r.tab_obj])) ∧
        elemFreeCalls L =
          (if demoConfig.IS_OCILIB_OBJECT r.elem_type r.elem_subtype = true then r.nb_elem
           else 0) ∧
        (∀ e ∈ L, e.isArrayDescCall = false) ∧
        ((∀ j, j < r.nb_elem → r.elem_type = OCI_CDT_TIMESTAMP →
            demoState.slots r.tab_obj j = NULL ∨
            (demoState.objAt (demoState.slots r.tab_obj j)).hstate =
              OCI_OBJECT_ALLOCATED_ARRAY) →
          L = (if demoConfig.IS_OCILIB_OBJECT r.elem_type r.elem_subtype = true then
                ArrayDispose.loopEvents r (demoState.slots r.tab_obj) 0 r.nb_elem else []) ∧
          freedBlocks L = [])) :=
  ⟨by decide, ArrayCreate.record emptyState 0 2 OCI_CDT_TIMESTAMP 1 8 48 68 20 30 40,
    by decide, rfl, rfl,
    C14_ArrayDispose_order demoConfig 10 demoState disposedState
      (ArrayCreate.record emptyState 0 2 OCI_CDT_TIMESTAMP 1 8 48 68 20 30 40) true
      (by decide) rfl rfl⟩

/-! ## Where the descriptor array calls are made -/

theorem NoArrayDescCall_refl (st : State) : NoArrayDescCall st st :=
  ⟨[], by simp, by simp⟩

theorem NoArrayDescCall_trans {a b c : State} (h1 : NoArrayDescCall a b)
    (h2 : NoArrayDescCall b c) : NoArrayDescCall a c := by
  obtain ⟨e1, l1, p1⟩ := h1
  obtain ⟨e2, l2, p2⟩ := h2
  refine ⟨e1 ++ e2, by rw [l2, l1, List.append_assoc], ?_⟩
  intro e he
  rcases List.mem_append.mp he with h | h
  · exact p1 e h
  · exact p2 e h

theorem filter_isArrayDescCall_nil (l : List Event)
    (h : ∀ e ∈ l, e.isArrayDescCall = false) : l.filter Event.isArrayDescCall = [] := by
  rw [List.filter_eq_nil_iff]
  intro e he
  simp [h e he]

theorem newEvents_append (st st' : State) (evs : List Event) (h : st'.log = st.log ++ evs) :
    newEvents st st' = evs := by
  unfold newEvents
  rw [h, List.drop_left]

theorem MemoryAlloc_noArrayDesc (c : Option Ptr) (st : State) :
    NoArrayDescCall st (MemoryAlloc c st).2 := by
  unfold MemoryAlloc
  split
  · exact NoArrayDescCall_refl st
  · split
    · exact ⟨[Event.alloc _], rfl, by simp [Event.isArrayDescCall]⟩
    · exact NoArrayDescCall_refl st

theorem ALLOC_BUFFER_noArrayDesc (c : Option Ptr) (s : Bool) (p : Ptr) (st : State) :
    NoArrayDescCall st (ALLOC_BUFFER c s p st).2.2 := by
  unfold ALLOC_BUFFER
  split
  · exact MemoryAlloc_noArrayDesc c st
  · exact NoArrayDescCall_refl st

theorem ListAppend_noArrayDesc (c : Option Ptr) (st : State) :
    NoArrayDescCall st (ListAppend c st).2 := by
  unfold ListAppend
  dsimp only
  split
  · exact NoArrayDescCall_refl st
  · obtain ⟨evs, h1, h2⟩ := MemoryAlloc_noArrayDesc c st
    exact ⟨evs, h1, h2⟩

theorem ArrayCreate_buffers_noArrayDesc (cfg : Config) (o : Oracle) (r0 : OCI_Array)
    (st : State) : NoArrayDescCall st (ArrayCreate.buffers cfg o r0 st).2.2 := by
  unfold ArrayCreate.buffers
  dsimp only
  refine NoArrayDescCall_trans (NoArrayDescCall_trans ?_ (ALLOC_BUFFER_noArrayDesc _ _ _ _))
    (ALLOC_BUFFER_noArrayDesc _ _ _ _)
  split
  · exact ALLOC_BUFFER_noArrayDesc _ _ _ _
  · exact NoArrayDescCall_refl st

theorem MemoryAllocDescriptor_noArrayDesc (c : Option Ptr) (t : Nat) (st : State) :
    NoArrayDescCall st (MemoryAllocDescriptor c t st).2.2 := by
  unfold MemoryAllocDescriptor
  split
  · exact ⟨[Event.descAlloc t false], rfl, by simp [Event.isArrayDescCall]⟩
  · exact ⟨[Event.descAlloc t true], rfl, by simp [Event.isArrayDescCall]⟩

theorem TimestampFree_noArrayDesc (cfg : Config) (p : Ptr) (st : State) :
    NoArrayDescCall st (TimestampFree cfg p st).2 := by
  obtain ⟨evs, h1, h2⟩ := TimestampFree_log cfg p st
  exact ⟨evs, h1, fun e he => (h2 e he).2⟩

theorem TimestampInit_fill_noArrayDesc (cfg : Config) (o : TimestampOracle)
    (con tmsp buffer : Ptr) (type : Nat) (st : State) :
    NoArrayDescCall st (TimestampInit.fill cfg o con tmsp buffer type st).2 := by
  unfold TimestampInit.fill
  dsimp only
  split_ifs
  all_goals first
    | (obtain ⟨evs, h1, h2⟩ := MemoryAllocDescriptor_noArrayDesc o.descriptor
        (cfg.ExternalSubTypeToHandleType OCI_CDT_TIMESTAMP type) st
       exact ⟨evs, h1, h2⟩)
    | exact ⟨[], by simp, by simp⟩

theorem TimestampInit_noArrayDesc (cfg : Config) (o : TimestampOracle) (con tmsp buffer : Ptr)
    (type : Nat) (st : State) :
    NoArrayDescCall st (TimestampInit cfg o con tmsp buffer type st).2 := by
  unfold TimestampInit
  dsimp only
  have ha := ALLOC_BUFFER_noArrayDesc o.wrapper true tmsp st
  generalize ALLOC_BUFFER o.wrapper true tmsp st = a at ha ⊢
  have hr : NoArrayDescCall st
      (if a.1 = true then TimestampInit.fill cfg o con a.2.1 buffer type a.2.2
        else (false, a.2.2)).2 := by
    split
    · exact NoArrayDescCall_trans ha (TimestampInit_fill_noArrayDesc _ _ _ _ _ _ _)
    · exact ha
  generalize (if a.1 = true then TimestampInit.fill cfg o con a.2.1 buffer type a.2.2
        else (false, a.2.2)) = r at hr ⊢
  split
  · exact NoArrayDescCall_trans hr (TimestampFree_noArrayDesc _ _ _)
  · exact hr

theorem ElemInitialize_noArrayDesc (ok : Bool) (t : Nat) (data handle : Ptr) (st : State) :
    NoArrayDescCall st (ElemInitialize ok t data handle st).2 := by
  unfold ElemInitialize
  dsimp only
  split
  · exact ⟨[Event.elemInit t data handle ok], rfl, by simp [Event.isArrayDescCall]⟩
  · exact ⟨[Event.elemInit t data handle ok], rfl, by simp [Event.isArrayDescCall]⟩

theorem writeSlot_noArrayDesc (b : Ptr) (i : Nat) (v : Ptr) (st st' : State)
    (h : writeSlot b i v st = .ok st') : NoArrayDescCall st st' := by
  unfold writeSlot at h
  split at h
  · simp at h
  · simp only [Except.ok.injEq] at h
    subst h
    exact ⟨[Event.write b i], rfl, by simp [Event.isArrayDescCall]⟩

theorem readSlot_noArrayDesc (b : Ptr) (i : Nat) (v : Ptr) (st st' : State)
    (h : readSlot b i st = .ok (v, st')) : NoArrayDescCall st st' := by
  unfold readSlot at h
  split at h
  · simp at h
  · simp only [Except.ok.injEq, Prod.mk.injEq] at h
    obtain ⟨-, rfl⟩ := h
    exact ⟨[Event.read b i], rfl, by simp [Event.isArrayDescCall]⟩

theorem writeHstate_noArrayDesc (d : Ptr) (v : Nat) (st st' : State)
    (h : writeHstate d v st = .ok st') : NoArrayDescCall st st' := by
  unfold writeHstate at h
  split at h
  · simp at h
  · simp only [Except.ok.injEq] at h
    subst h
    exact ⟨[Event.objWrite d], rfl, by simp [Event.isArrayDescCall]⟩

theorem readHandle_noArrayDesc (obj : Ptr) (v : Ptr) (st st' : State)
    (h : readHandle obj st = .ok (v, st')) : NoArrayDescCall st st' := by
  unfold readHandle at h
  split at h
  · simp at h
  · simp only [Except.ok.injEq, Prod.mk.injEq] at h
    obtain ⟨-, rfl⟩ := h
    exact ⟨[Event.objRead obj], rfl, by simp [Event.isArrayDescCall]⟩

theorem ARRAY_INIT_noArrayDesc (r : OCI_Array) (i : Nat) (func : Ptr × State) (st' : State)
    (h : ARRAY_INIT r i func = .ok st') : NoArrayDescCall func.2 st' := by
  unfold ARRAY_INIT at h
  split at h
  · simp at h
  · rename_i st1 h1
    split at h
    · simp at h
    · rename_i obj st2 h2
      split at h
      · simp at h
      · rename_i hd st3 h3
        exact NoArrayDescCall_trans (NoArrayDescCall_trans (NoArrayDescCall_trans
          (writeSlot_noArrayDesc _ _ _ _ _ h1) (readSlot_noArrayDesc _ _ _ _ _ h2))
          (readHandle_noArrayDesc _ _ _ _ h3)) (writeSlot_noArrayDesc _ _ _ _ _ h)

theorem ArrayInitialize_dispatch_noArrayDesc (cfg : Config) (o : Oracle) (typinf : Ptr)
    (r : OCI_Array) (i : Nat) (data handle : Ptr) (st st' : State)
    (h : ArrayInitialize.dispatch cfg o typinf r i data handle st = .ok st') :
    NoArrayDescCall st st' := by
  have hrefl : ∀ s : State, Except.ok (ε := Fault) st = .ok s → NoArrayDescCall st s := by
    intro s hs
    simp only [Except.ok.injEq] at hs
    subst hs
    exact NoArrayDescCall_refl st
  have hassign : ∀ (t : Nat) (s : State),
      writeSlot r.tab_obj i (ElemInitialize (o.ctor i) t data handle st).1
        (ElemInitialize (o.ctor i) t data handle st).2 = .ok s →
      NoArrayDescCall st s := by
    intro t s hs
    exact NoArrayDescCall_trans (ElemInitialize_noArrayDesc _ _ _ _ _)
      (writeSlot_noArrayDesc _ _ _ _ _ hs)
  have hinit : ∀ (t : Nat) (s : State),
      ARRAY_INIT r i (ElemInitialize (o.ctor i) t data handle st) = .ok s →
      NoArrayDescCall st s := by
    intro t s hs
    exact NoArrayDescCall_trans (ElemInitialize_noArrayDesc _ _ _ _ _)
      (ARRAY_INIT_noArrayDesc _ _ _ _ hs)
  unfold ArrayInitialize.dispatch at h
  split_ifs at h
  · exact hassign _ _ h
  · exact hrefl _ h
  · exact hassign _ _ h
  · exact hinit _ _ h
  · exact hinit _ _ h
  · exact NoArrayDescCall_trans (TimestampInit_noArrayDesc _ _ _ _ _ _ _)
      (ARRAY_INIT_noArrayDesc _ _ _ _ h)
  · exact hinit _ _ h
  · exact hinit _ _ h
  · exact hinit _ _ h
  · exact hinit _ _ h
  · exact hrefl _ h

theorem ArrayInitialize_handle_noArrayDesc (cfg : Config) (r : OCI_Array) (i : Nat) (v : Ptr)
    (st st' : State) (h : ArrayInitialize.handle cfg r i st = .ok (v, st')) :
    NoArrayDescCall st st' := by
  unfold ArrayInitialize.handle at h
  split_ifs at h
  · simp only [Except.ok.injEq, Prod.mk.injEq] at h
    obtain ⟨-, rfl⟩ := h
    exact NoArrayDescCall_refl st
  · simp only [Except.ok.injEq, Prod.mk.injEq] at h
    obtain ⟨-, rfl⟩ := h
    exact NoArrayDescCall_refl st
  · exact readSlot_noArrayDesc _ _ _ _ _ h

theorem ArrayInitialize_body_noArrayDesc (cfg : Config) (o : Oracle) (typinf : Ptr)
    (r : OCI_Array) (i : Nat) (st st' : State)
    (h : ArrayInitialize.body cfg o typinf r i st = .ok st') : NoArrayDescCall st st' := by
  unfold ArrayInitialize.body at h
  dsimp only at h
  split at h
  · simp at h
  · rename_i hd st1 h1
    split at h
    · simp at h
    · rename_i st2 h2
      split at h
      · simp at h
      · rename_i st3 h3
        exact NoArrayDescCall_trans (NoArrayDescCall_trans (NoArrayDescCall_trans
          (ArrayInitialize_handle_noArrayDesc _ _ _ _ _ _ h1)
          (writeSlot_noArrayDesc _ _ _ _ _ h2)) (writeHstate_noArrayDesc _ _ _ _ h3))
          (ArrayInitialize_dispatch_noArrayDesc _ _ _ _ _ _ _ _ _ h)

theorem ArrayInitialize_loop_noArrayDesc (cfg : Config) (o : Oracle) (typinf : Ptr)
    (r : OCI_Array) (k : Nat) :
    ∀ (i : Nat) (st st' : State), ArrayInitialize.loop cfg o typinf r i k st = .ok st' →
      NoArrayDescCall st st' := by
  induction k with
  | zero =>
    intro i st st' h
    simp only [ArrayInitialize.loop, Except.ok.injEq] at h
    subst h
    exact NoArrayDescCall_refl st
  | succ k ih =>
    intro i st st' h
    unfold ArrayInitialize.loop at h
    split at h
    · simp at h
    · rename_i st1 h1
      exact NoArrayDescCall_trans (ArrayInitialize_body_noArrayDesc _ _ _ _ _ _ _ h1)
        (ih _ _ _ h)

/-- ArrayInitialize makes no descriptor array call. -/
theorem ArrayInitialize_noArrayDesc (cfg : Config) (o : Oracle) (arr typinf : Ptr)
    (st st' : State) (b : Bool) (h : ArrayInitialize cfg o arr typinf st = .ok (b, st')) :
    NoArrayDescCall st st' := by
  unfold ArrayInitialize at h
  split at h
  · simp at h
  · split at h
    · simp at h
    · split at h
      · simp at h
      · rename_i st1 h1
        simp only [Except.ok.injEq, Prod.mk.injEq] at h
        obtain ⟨-, rfl⟩ := h
        exact ArrayInitialize_loop_noArrayDesc _ _ _ _ _ _ _ _ h1

/-- The events of the descriptor allocation and initialisation step of ArrayCreate when it
reports a good status: the successful descriptor allocation when there is a handle kind,
and after it no other descriptor array call. -/
theorem ArrayCreate_finish_log (cfg : Config) (o : Oracle) (arr : Ptr) (K ht : Nat)
    (typinf : Ptr) (r : OCI_Array) (st st' : State) (b : Bool)
    (h : ArrayCreate.finish cfg o arr K ht typinf b r st = .ok (true, st')) :
    ∃ evs, st'.log = st.log ++
        (if OCI_UNKNOWN ≠ ht then [Event.descAllocArray r.mem_handle ht K true] else []) ++ evs ∧
      ∀ e ∈ evs, e.isArrayDescCall = false := by
  unfold ArrayCreate.finish at h
  dsimp only at h
  generalize hd : (if (b && ht != 0) = true then
      MemoryAllocDescriptorArray o.descriptors r.mem_handle ht K st else (b, st)) = d at h
  have hres : ∃ evs, st'.log = d.2.log ++ evs ∧ ∀ e ∈ evs, e.isArrayDescCall = false ∧
      d.1 = true := by
    split at h
    · rename_i hc
      obtain ⟨evs, h1, h2⟩ := ArrayInitialize_noArrayDesc _ _ _ _ _ _ _ h
      have hd1 : d.1 = true := by
        simp only [Bool.and_eq_true] at hc
        exact hc.1.1
      exact ⟨evs, h1, fun e he => ⟨h2 e he, hd1⟩⟩
    · simp only [Except.ok.injEq, Prod.mk.injEq] at h
      obtain ⟨h1, rfl⟩ := h
      exact ⟨[], by simp, by simp⟩
  have hd1 : d.1 = true := by
    split at h
    · rename_i hc
      simp only [Bool.and_eq_true] at hc
      exact hc.1.1
    · simp only [Except.ok.injEq, Prod.mk.injEq] at h
      exact h.1
  obtain ⟨evs, h1, h2⟩ := hres
  refine ⟨evs, ?_, fun e he => (h2 e he).1⟩
  rw [h1]
  congr 1
  rw [← hd] at hd1 ⊢
  by_cases hht : ht = 0
  · simp [hht, OCI_UNKNOWN]
  · have hht' : (ht != 0) = true := by simpa using hht
    have hu : OCI_UNKNOWN ≠ ht := fun e => hht e.symm
    cases b with
    | false => simp at hd1
    | true =>
      simp only [Bool.true_and, hht', if_true, if_pos hu] at hd1 ⊢
      unfold MemoryAllocDescriptorArray at hd1 ⊢
      split
      · rename_i hn
        simp [hn] at hd1
      · rfl

/-- The events of a successful ArrayCreate: the only descriptor array call is the successful
descriptor allocation on the handle block of the new record, made exactly when there is a
handle kind. -/
theorem ArrayCreate_success_log (cfg : Config) (o : Oracle) (con K et es sz ss ht : Nat)
    (typinf : Ptr) (st st' : State) (p : Ptr)
    (h : ArrayCreate cfg o con K et es sz ss ht typinf st = .ok (p, st')) (hp : p ≠ NULL) :
    ∃ r, st'.arrayAt p = some r ∧ r.handle_type = ht ∧ r.nb_elem = K ∧
      (newEvents st st').filter Event.isArrayDescCall =
        (if OCI_UNKNOWN ≠ ht then [Event.descAllocArray r.mem_handle ht K true] else []) := by
  unfold ArrayCreate at h
  dsimp only at h
  have hLlog := ListAppend_noArrayDesc o.arr st
  rcases ListAppend_cases o.arr st with hL | ⟨q, stA, hL, hq0, hql, hA1, hA2, hA3, hA4, hA5, hA6, hA7⟩
  · rw [hL] at h
    simp [ArrayDispose_null_eq, FREE_arr] at h
    exact absurd h.1.symm hp
  · rw [hL] at h hLlog
    dsimp only at h hLlog
    have hq0' : (q != NULL) = true := by simpa using hq0
    rw [hq0', if_pos rfl] at h
    split at h
    · simp at h
    · rename_i STATUS st1 hfill
      cases STATUS with
      | false =>
        simp only [Bool.not_false, if_true] at h
        split at h
        · simp at h
        · simp only [Except.ok.injEq, Prod.mk.injEq] at h
          exact absurd h.1.symm hp
      | true =>
        simp only [Bool.not_true, Bool.false_eq_true, if_false, Except.ok.injEq,
          Prod.mk.injEq] at h
        obtain ⟨rfl, rfl⟩ := h
        unfold ArrayCreate.fill at hfill
        have hz : stA.arrayAt q = some OCI_Array.zero := by rw [hA2]; simp
        rw [hz] at hfill
        dsimp only at hfill
        generalize hr0 : ({ OCI_Array.zero with
              con := con
              err := if con ≠ NULL then stA.con_err con else stA.Env_err
              env := if con ≠ NULL then stA.con_env con else stA.Env_env
              elem_type := et
              elem_subtype := es
              elem_size := sz
              nb_elem := K
              struct_size := ss
              handle_type := ht } : OCI_Array) = r0 at hfill
        have eh : r0.handle_type = ht := by rw [← hr0]
        have ek : r0.nb_elem = K := by rw [← hr0]
        obtain ⟨-, -, f2, -⟩ := ArrayCreate_finish_success _ _ _ _ _ _ _ _ _ _ hq0
          (by simp) hfill
        obtain ⟨evs, hlog, hevs⟩ := ArrayCreate_finish_log _ _ _ _ _ _ _ _ _ _ hfill
        obtain ⟨e1, l1, p1⟩ := hLlog
        obtain ⟨e2, l2, p2⟩ := ArrayCreate_buffers_noArrayDesc cfg o r0 stA
        refine ⟨(ArrayCreate.buffers cfg o r0 stA).2.1, by rw [f2]; simp, eh, ek, ?_⟩
        dsimp only at hlog
        rw [l2, l1] at hlog
        rw [newEvents_append _ _ _ (by rw [hlog, List.append_assoc, List.append_assoc,
          List.append_assoc])]
        simp only [List.filter_append, filter_isArrayDescCall_nil _ p1,
          filter_isArrayDescCall_nil _ p2, filter_isArrayDescCall_nil _ hevs,
          List.nil_append, List.append_nil]
        split_ifs <;> simp [Event.isArrayDescCall]

/-- The events of a returning call of ArrayDispose on a non-null array, in any state: the
only descriptor array call is the descriptor free on the handle block, made exactly when the
record has a handle kind. -/
theorem ArrayDispose_desc_calls (cfg : Config) (arr : Ptr) (st st' : State) (r : OCI_Array)
    (b : Bool) (hn : arr ≠ NULL) (hr : st.arrayAt arr = some r)
    (h : ArrayDispose cfg arr st = .ok (b, st')) :
    (newEvents st st').filter Event.isArrayDescCall =
      (if OCI_UNKNOWN ≠ r.handle_type then
        [Event.descFreeArray r.mem_handle r.handle_type r.nb_elem] else []) := by
  unfold ArrayDispose at h
  rw [if_neg hn, hr] at h
  dsimp only at h
  split at h
  · simp at h
  · rename_i st1 hloop
    simp only [Except.ok.injEq, Prod.mk.injEq] at h
    obtain ⟨-, hst⟩ := h
    have hL : ∃ L, st1.log = st.log ++ L ∧ ∀ e ∈ L, e.isArrayDescCall = false := by
      split at hloop
      · obtain ⟨L, h1, -, h3⟩ := ArrayDispose_loop_log cfg r _ _ _ _ hloop
        exact ⟨L, h1, h3⟩
      · simp only [Except.ok.injEq] at hloop
        subst hloop
        exact ⟨[], by simp, by simp⟩
    obtain ⟨L, hL1, hL3⟩ := hL
    have hlog : st'.log = st.log ++ (L ++ ArrayDispose.tailEvents r) := by
      rw [← hst]
      simp only [MemoryFree_log]
      unfold ArrayDispose.tailEvents MemoryFreeDescriptorArray
      split_ifs <;> simp [hL1]
    rw [newEvents_append _ _ _ hlog, List.filter_append, filter_isArrayDescCall_nil _ hL3]
    unfold ArrayDispose.tailEvents
    split_ifs <;> simp [Event.isArrayDescCall]

/-- ArrayDispose returns TRUE on every array that ArrayCreate created successfully. -/
theorem ArrayCreate_then_dispose (cfg : Config) (o : Oracle) (con K et es sz ss ht : Nat)
    (typinf : Ptr) (st st' : State) (p : Ptr)
    (h : ArrayCreate cfg o con K et es sz ss ht typinf st = .ok (p, st')) (hp : p ≠ NULL) :
    ∃ st'', ArrayDispose cfg p st' = .ok (true, st'') := by
  obtain ⟨t, hd, s, r, hrdef, -, -, hat, -, -, -, -, -, -, -, hobj, -, hinit⟩ :=
    ArrayCreate_success cfg o con K et es sz ss ht typinf st st' p h hp
  have hr : st'.arrayAt p = some r := by rw [hat]; simp
  have e1 : r.nb_elem = K := by rw [hrdef]; rfl
  have e2 : r.elem_type = et := by rw [hrdef]; rfl
  have e3 : r.elem_subtype = es := by rw [hrdef]; rfl
  have e4 : r.tab_obj = t := by rw [hrdef]; rfl
  obtain ⟨st'', hdisp, -⟩ := ArrayDispose_quiet cfg p st' r hp hr (by
    rw [e2, e3]
    intro ho
    obtain ⟨ht0, -⟩ := hobj ho
    refine ⟨Or.inr (by rw [e4]; exact ht0), ?_⟩
    intro j hj hts
    right
    have := hinit ho (Or.inl (e2.trans hts)) j (by rw [← e1]; exact hj)
    rw [e4, this.1]
    exact this.2)
  exact ⟨st'', hdisp⟩

/-- C15, counterexample: two failure paths of ArrayCreate in a fresh library, for a timestamp
array of two elements.  When the handle block is refused, the descriptor allocator is never
called, and the cleanup call of ArrayDispose still calls the descriptor free (on the null
handle block).  When the descriptor allocation itself is refused, ArrayDispose calls the
descriptor free on the handle block all the same. -/
theorem C15_counterexample :
    (valueOf (ArrayCreate demoConfig { goodOracle 10 20 30 40 with mem_handle := none } 0 2
        OCI_CDT_TIMESTAMP 1 8 48 68 0 emptyState) = some NULL ∧
      (newEvents emptyState failedState).filter Event.isArrayDescCall =
        [Event.descFreeArray 0 68 2]) ∧
    (valueOf (ArrayCreate demoConfig { goodOracle 10 20 30 40 with descriptors := none } 0 2
        OCI_CDT_TIMESTAMP 1 8 48 68 0 emptyState) = some NULL ∧
      (newEvents emptyState
        (stateOf (ArrayCreate demoConfig { goodOracle 10 20 30 40 with descriptors := none } 0 2
          OCI_CDT_TIMESTAMP 1 8 48 68 0 emptyState) emptyState)).filter Event.isArrayDescCall =
        [Event.descAllocArray 30 68 2 false, Event.descFreeArray 30 68 2]) := by
  decide

/-- C15, amended: ArrayDispose decides by the handle kind alone: a returning call on a non-null
array calls the native descriptor free exactly when handle_type is not OCI_UNKNOWN, once, on
the handle block.  For an array that ArrayCreate created successfully this is exactly when
ArrayCreate called the descriptor allocator for that array and the allocation succeeded: the
only descriptor call of the creation is that successful allocation, made exactly when the
handle kind is not OCI_UNKNOWN, and the only descriptor call of the disposal, which returns
TRUE, is the free of the same block. -/
theorem C15_descriptor_free_by_handle_kind (cfg : Config) (o : Oracle)
    (con K et es sz ss ht : Nat) (typinf : Ptr) (st st' : State) (p : Ptr)
    (h : ArrayCreate cfg o con K et es sz ss ht typinf st = .ok (p, st')) (hp : p ≠ NULL) :
    (∀ (arr : Ptr) (s s' : State) (rr : OCI_Array) (b : Bool), arr ≠ NULL →
      s.arrayAt arr = some rr → ArrayDispose cfg arr s = .ok (b, s') →
      (newEvents s s').filter Event.isArrayDescCall =
        (if OCI_UNKNOWN ≠ rr.handle_type then
          [Event.descFreeArray rr.mem_handle rr.handle_type rr.nb_elem] else [])) ∧
    ∃ r st'', st'.arrayAt p = some r ∧ r.handle_type = ht ∧ r.nb_elem = K ∧
      (newEvents st st').filter Event.isArrayDescCall =
        (if OCI_UNKNOWN ≠ ht then [Event.descAllocArray r.mem_handle ht K true] else []) ∧
      ArrayDispose cfg p st' = .ok (true, st'') ∧
      (newEvents st' st'').filter Event.isArrayDescCall =
        (if OCI_UNKNOWN ≠ ht then [Event.descFreeArray r.mem_handle ht K] else []) := by
  refine ⟨fun arr s s' rr b hn hr hd => ArrayDispose_desc_calls cfg arr s s' rr b hn hr hd, ?_⟩
  obtain ⟨r, hr, e1, e2, hlog⟩ :=
    ArrayCreate_success_log cfg o con K et es sz ss ht typinf st st' p h hp
  obtain ⟨st'', hd⟩ := ArrayCreate_then_dispose cfg o con K et es sz ss ht typinf st st' p h hp
  refine ⟨r, st'', hr, e1, e2, hlog, hd, ?_⟩
  have := ArrayDispose_desc_calls cfg p st' st'' r true hp hr hd
  rw [e1, e2] at this
  exact this

/-- C15, witness: the timestamp array of two elements created in a fresh library and its
disposal: one successful descriptor allocation on the block at 30, one descriptor free on
it. -/
theorem C15_witness :
    ArrayCreate demoConfig (goodOracle 10 20 30 40) 0 2 OCI_CDT_TIMESTAMP 1 8 48 68 0 emptyState
      = .ok (10, demoState) ∧
    (newEvents emptyState demoState).filter Event.isArrayDescCall =
      [Event.descAllocArray 30 68 2 true] ∧
    (newEvents demoState disposedState).filter Event.isArrayDescCall =
      [Event.descFreeArray 30 68 2] ∧
    ∃ r st'', demoState.arrayAt 10 = some r ∧ r.handle_type = 68 ∧ r.nb_elem = 2 ∧
      (newEvents emptyState demoState).filter Event.isArrayDescCall =
        (if OCI_UNKNOWN ≠ 68 then [Event.descAllocArray r.mem_handle 68 2 true] else []) ∧
      ArrayDispose demoConfig 10 demoState = .ok (true, st'') ∧
      (newEvents demoState st'').filter Event.isArrayDescCall =
        (if OCI_UNKNOWN ≠ 68 then [Event.descFreeArray r.mem_handle 68 2] else []) :=
  ⟨rfl, by decide, by decide,
    (C15_descriptor_free_by_handle_kind demoConfig (goodOracle 10 20 30 40) 0 2
      OCI_CDT_TIMESTAMP 1 8 48 68 0 emptyState demoState 10 rfl (by decide)).2⟩

/-! ## Timestamp arrays: wrappers and native handles -/

/-- One iteration of the loop of ArrayInitialize on a timestamp array whose blocks are
allocated: it returns; the handle block has the contents it had; the wrapper slot i holds the
native handle read from entry i of the handle block; no other wrapper is touched. -/
theorem ArrayInitialize_body_timestamp (cfg : Config) (o : Oracle) (typinf : Ptr)
    (r : OCI_Array) (i : Nat) (st : State) (hw : r.wired)
    (hk : r.elem_type = OCI_CDT_TIMESTAMP) :
    ∃ st', ArrayInitialize.body cfg o typinf r i st = .ok st' ∧
      (∀ j, st'.slots r.mem_handle j = st.slots r.mem_handle j) ∧
      (st'.objAt (ArrayInitialize.data r i)).handle = st.slots r.mem_handle i ∧
      (∀ a, a ≠ ArrayInitialize.data r i → st'.objAt a = st.objAt a) := by
  have hd : ArrayInitialize.data r i ≠ NULL := ArrayInitialize_data_ne_null r i hw.2.2.1
  have hh : ArrayInitialize.handle cfg r i st =
      .ok (st.slots r.mem_handle i, st.emit (Event.read r.mem_handle i)) := by
    unfold ArrayInitialize.handle
    rw [if_neg (by rw [hk]; decide),
      if_neg (by rw [hk]; simp [IS_OCI_NUMBER, OCI_CDT_TIMESTAMP, OCI_CDT_NUMERIC]),
      readSlot_ok _ _ _ hw.2.1]
  have hdisp : ∀ (h : Ptr) (s : State),
      ArrayInitialize.dispatch cfg o typinf r i (ArrayInitialize.data r i) h s =
        ARRAY_INIT r i
          (TimestampInit cfg (o.tmsp i) r.con (ArrayInitialize.data r i) h r.elem_subtype s) := by
    intro h s
    unfold ArrayInitialize.dispatch
    rw [if_neg (by rw [hk]; decide), if_neg (by rw [hk]; decide), if_neg (by rw [hk]; decide),
      if_neg (by rw [hk]; decide), if_pos hk]
  unfold ArrayInitialize.body
  dsimp only
  rw [hh]
  dsimp only
  rw [writeSlot_ok _ _ _ _ hw.1]
  dsimp only
  rw [writeHstate_ok _ _ _ hd]
  dsimp only
  rw [hdisp, TimestampInit_array _ _ _ _ _ _ _ hd (by simp)]
  obtain ⟨st', hst', -, -, -, -, hobj, -, -, hmi, hmj⟩ := ARRAY_INIT_ok r i
    (ArrayInitialize.data r i,
      { ({ st.emit (Event.read r.mem_handle i) with
            slots := upd (st.emit (Event.read r.mem_handle i)).slots r.tab_obj
              (upd ((st.emit (Event.read r.mem_handle i)).slots r.tab_obj) i
                (ArrayInitialize.data r i))
            objAt := upd (st.emit (Event.read r.mem_handle i)).objAt (ArrayInitialize.data r i)
              { (st.emit (Event.read r.mem_handle i)).objAt (ArrayInitialize.data r i) with
                hstate := OCI_OBJECT_ALLOCATED_ARRAY }
            log := (st.emit (Event.read r.mem_handle i)).log ++ [Event.write r.tab_obj i] ++
              [Event.objWrite (ArrayInitialize.data r i)] } : State) with
        objAt := upd (upd (st.emit (Event.read r.mem_handle i)).objAt
            (ArrayInitialize.data r i)
            { (st.emit (Event.read r.mem_handle i)).objAt (ArrayInitialize.data r i) with
              hstate := OCI_OBJECT_ALLOCATED_ARRAY }) (ArrayInitialize.data r i)
          { (upd (st.emit (Event.read r.mem_handle i)).objAt (ArrayInitialize.data r i)
              { (st.emit (Event.read r.mem_handle i)).objAt (ArrayInitialize.data r i) with
                hstate := OCI_OBJECT_ALLOCATED_ARRAY }) (ArrayInitialize.data r i) with
            con := r.con
            handle := st.slots r.mem_handle i
            type := r.elem_subtype
            err := if r.con ≠ NULL then st.con_err r.con else st.Env_err
            env := if r.con ≠ NULL then st.con_env r.con else st.Env_env } }) hw hd
  refine ⟨st', hst', ?_, ?_, ?_⟩
  · intro j
    by_cases hji : j = i
    · subst hji
      rw [hmi]
      simp
    · rw [hmj j hji]
      simp [upd, Ne.symm hw.2.2.2]
  · rw [hobj]
    simp
  · intro a ha
    rw [hobj]
    simp [upd, ha]

/-- The loop of ArrayInitialize on a timestamp array whose blocks are allocated, from index i
for k iterations: it returns; the handle block has the contents it had; wrappers outside the
slots of the range are untouched; and the wrapper at slot j of the range holds the native
handle of entry j of the handle block, unless a later element of the range has the same slot
address. -/
theorem ArrayInitialize_loop_timestamp (cfg : Config) (o : Oracle) (typinf : Ptr)
    (r : OCI_Array) (hw : r.wired) (hk : r.elem_type = OCI_CDT_TIMESTAMP) (k : Nat) :
    ∀ (i : Nat) (st : State),
      ∃ st', ArrayInitialize.loop cfg o typinf r i k st = .ok st' ∧
        (∀ j, st'.slots r.mem_handle j = st.slots r.mem_handle j) ∧
        (∀ a, (∀ j, i ≤ j → j < i + k → a ≠ ArrayInitialize.data r j) →
          st'.objAt a = st.objAt a) ∧
        (∀ j, i ≤ j → j < i + k →
          (∀ j', j < j' → j' < i + k → ArrayInitialize.data r j' ≠ ArrayInitialize.data r j) →
          (st'.objAt (ArrayInitialize.data r j)).handle = st.slots r.mem_handle j) := by
  induction k with
  | zero =>
    intro i st
    refine ⟨st, rfl, fun _ => rfl, fun _ _ => rfl, ?_⟩
    intro j h1 h2
    omega
  | succ k ih =>
    intro i st
    obtain ⟨st1, hb, hm1, hh1, ho1⟩ := ArrayInitialize_body_timestamp cfg o typinf r i st hw hk
    obtain ⟨st', hl, hm, ho, hh⟩ := ih (i + 1) st1
    unfold ArrayInitialize.loop
    rw [hb]
    dsimp only
    refine ⟨st', hl, ?_, ?_, ?_⟩
    · intro j
      rw [hm j, hm1 j]
    · intro a ha
      rw [ho a (fun j h1 h2 => ha j (by omega) (by omega))]
      exact ho1 a (ha i (Nat.le_refl i) (by omega))
    · intro j h1 h2 hlast
      by_cases hji : j = i
      · subst hji
        rw [ho _ (fun j' h1' h2' => (hlast j' (by omega) (by omega)).symm)]
        exact hh1
      · rw [hh j (by omega) (by omega) (fun j' h1' h2' => hlast j' h1' (by omega))]
        exact hm1 j

theorem SmartHandles_holdersAt_absent (f : SmartHandles) (b : Nat) (h : b ∉ f.handles) :
    f.holdersAt b = [] := by
  induction f with
  | nil => rfl
  | cons h0 hs ch rest ihc ihr =>
    simp only [SmartHandles.handles, List.mem_cons, List.mem_append, not_or] at h
    simp [SmartHandles.holdersAt, Ne.symm h.1, ihc h.2.1, ihr h.2.2]

theorem SmartHandles_path_subset (f : SmartHandles) (a b : Nat) (h : a ∈ f.path b) :
    a ∈ f.handles ∧ b ∈ f.handles := by
  induction f with
  | nil => simp [SmartHandles.path] at h
  | cons h0 hs ch rest ihc ihr =>
    simp only [SmartHandles.path] at h
    simp only [SmartHandles.handles, List.mem_cons, List.mem_append]
    split_ifs at h with h1 h2
    · simp only [List.mem_singleton] at h
      subst h1
      exact ⟨Or.inl h, Or.inl rfl⟩
    · simp only [List.mem_cons] at h
      rcases h with h | h
      · exact ⟨Or.inl h, Or.inr (Or.inl h2)⟩
      · exact ⟨Or.inr (Or.inl (ihc h).1), Or.inr (Or.inl h2)⟩
    · exact ⟨Or.inr (Or.inr (ihr h).1), Or.inr (Or.inr (ihr h).2)⟩

theorem SmartHandles_path_self (f : SmartHandles) (b : Nat) (h : b ∈ f.handles) :
    b ∈ f.path b := by
  induction f with
  | nil => simp [SmartHandles.handles] at h
  | cons h0 hs ch rest ihc ihr =>
    simp only [SmartHandles.handles, List.mem_cons, List.mem_append] at h
    simp only [SmartHandles.path]
    split_ifs with h1 h2
    · simp [h1]
    · exact List.mem_cons_of_mem _ (ihc h2)
    · rcases h with h | h | h
      · exact absurd h.symm h1
      · exact absurd h h2
      · exact ihr h

theorem SmartHandle_Release_absent (f : SmartHandles) (b x : Nat) (h : b ∉ f.handles) :
    SmartHandle.Release f b x = (f, [], []) := by
  induction f with
  | nil => rfl
  | cons h0 hs ch rest ihc ihr =>
    simp only [SmartHandles.handles, List.mem_cons, List.mem_append, not_or] at h
    simp [SmartHandle.Release, Ne.symm h.1, ihc h.2.1, ihr h.2.2]

/-- Release neither loses nor duplicates a control block: the live handles afterwards
together with the handles passed to the free function are the live handles before. -/
theorem SmartHandle_Release_perm (f : SmartHandles) (b x : Nat) :
    ((SmartHandle.Release f b x).1.handles ++ (SmartHandle.Release f b x).2.1).Perm
      f.handles := by
  induction f with
  | nil => simp [SmartHandle.Release, SmartHandles.handles]
  | cons h0 hs ch rest ihc ihr =>
    simp only [SmartHandle.Release]
    split_ifs
    · simp only [SmartHandles.handles]
      rw [← List.cons_append]
      exact List.perm_append_comm
    · simp [SmartHandles.handles]
    · simp [SmartHandles.handles]
    · simp only [SmartHandles.handles, List.cons_append]
      refine List.Perm.cons _ ?_
      have := List.Perm.append ihc ihr
      refine List.Perm.trans ?_ this
      simp only [List.append_assoc]
      refine List.Perm.append_left _ ?_
      rw [← List.append_assoc, ← List.append_assoc]
      exact List.Perm.append_right _ List.perm_append_comm

theorem SmartHandle_Release_freed_subset (f : SmartHandles) (b x d : Nat)
    (h : d ∈ (SmartHandle.Release f b x).2.1) : d ∈ f.handles :=
  (SmartHandle_Release_perm f b x).subset (List.mem_append_right _ h)

theorem SmartHandle_Release_live_subset (f : SmartHandles) (b x c : Nat)
    (h : c ∈ (SmartHandle.Release f b x).1.handles) : c ∈ f.handles :=
  (SmartHandle_Release_perm f b x).subset (List.mem_append_left _ h)

theorem SmartHandles_nodup_cons (h0 : Nat) (hs : List Nat) (ch rest : SmartHandles)
    (hn : (SmartHandles.cons h0 hs ch rest).handles.Nodup) :
    h0 ∉ ch.handles ∧ h0 ∉ rest.handles ∧ ch.handles.Nodup ∧ rest.handles.Nodup ∧
      ∀ a, a ∈ ch.handles → a ∉ rest.handles := by
  simp only [SmartHandles.handles, List.nodup_cons, List.mem_append, not_or,
    List.nodup_append] at hn
  obtain ⟨⟨h1, h2⟩, h3, h4, h5⟩ := hn
  exact ⟨h1, h2, h3, h4, fun a ha hb => h5 ha hb⟩

theorem filter_ne_eq_nil_iff (hs : List Nat) (x : Nat) :
    hs.filter (fun y => y != x) = [] ↔ ∀ y ∈ hs, y = x := by
  rw [List.filter_eq_nil_iff]
  simp

/-- Which blocks a release destroys: the block d is passed to the free function exactly when
the releasing holder is registered with b, is the only holder registered with b, and b is d
itself or an ancestor of d. -/
theorem SmartHandle_Release_freed_iff (f : SmartHandles) (hn : f.handles.Nodup) (b x d : Nat) :
    d ∈ (SmartHandle.Release f b x).2.1 ↔
      b ∈ f.path d ∧ x ∈ f.holdersAt b ∧ ∀ y ∈ f.holdersAt b, y = x := by
  induction f with
  | nil => simp [SmartHandle.Release, SmartHandles.path]
  | cons h0 hs ch rest ihc ihr =>
    obtain ⟨n1, n2, n3, n4, n5⟩ := SmartHandles_nodup_cons h0 hs ch rest hn
    by_cases hb : h0 = b
    · subst hb
      have hp : h0 ∈ (SmartHandles.cons h0 hs ch rest).path d ↔ h0 = d ∨ d ∈ ch.handles := by
        simp only [SmartHandles.path]
        split_ifs with h1 h2
        · simp [h1]
        · simp [h2]
        · constructor
          · intro h
            exact absurd (SmartHandles_path_subset _ _ _ h).1 n2
          · rintro (h | h)
            · exact absurd h h1
            · exact absurd h h2
      rw [hp]
      simp only [SmartHandle.Release, SmartHandles.holdersAt, if_true]
      by_cases hx : x ∈ hs
      · rw [if_pos hx]
        by_cases hf : hs.filter (fun y => y != x) = []
        · rw [if_pos hf]
          have := (filter_ne_eq_nil_iff hs x).mp hf
          simp only [List.mem_cons]
          constructor
          · rintro (h | h)
            · exact ⟨Or.inl h.symm, hx, this⟩
            · exact ⟨Or.inr h, hx, this⟩
          · rintro ⟨h | h, -, -⟩
            · exact Or.inl h.symm
            · exact Or.inr h
        · rw [if_neg hf]
          have : ¬ ∀ y ∈ hs, y = x := fun h => hf ((filter_ne_eq_nil_iff hs x).mpr h)
          simp only [List.not_mem_nil, false_iff, not_and]
          intro _ _
          exact this
      · rw [if_neg hx]
        simp [hx]
    · have hb' : b ≠ h0 := fun e => hb e.symm
      simp only [SmartHandle.Release, if_neg hb, List.mem_append, SmartHandles.holdersAt]
      rw [ihc n3, ihr n4]
      simp only [SmartHandles.path]
      split_ifs with h1 h2
      · subst h1
        simp only [List.mem_singleton, hb', false_and, iff_false, not_or, not_and]
        refine ⟨fun h => absurd (SmartHandles_path_subset _ _ _ h).2 n1,
          fun h => absurd (SmartHandles_path_subset _ _ _ h).2 n2⟩
      · simp only [List.mem_cons, hb', false_or]
        constructor
        · rintro (⟨p1, p2, p3⟩ | ⟨p1, -, -⟩)
          · have hbr : rest.holdersAt b = [] :=
              SmartHandles_holdersAt_absent _ _ (n5 b (SmartHandles_path_subset _ _ _ p1).1)
            simp only [hbr, List.not_mem_nil, or_false]
            exact ⟨p1, p2, p3⟩
          · exact absurd (SmartHandles_path_subset _ _ _ p1).2 (n5 d h2)
        · rintro ⟨p1, p2, p3⟩
          have hbr : rest.holdersAt b = [] :=
            SmartHandles_holdersAt_absent _ _ (n5 b (SmartHandles_path_subset _ _ _ p1).1)
          simp only [hbr, List.not_mem_nil, or_false] at p2 p3
          exact Or.inl ⟨p1, p2, p3⟩
      · constructor
        · rintro (⟨p1, -, -⟩ | ⟨p1, p2, p3⟩)
          · exact absurd (SmartHandles_path_subset _ _ _ p1).2 h2
          · have hbc : ch.holdersAt b = [] :=
              SmartHandles_holdersAt_absent _ _
                (fun hc => n5 b hc (SmartHandles_path_subset _ _ _ p1).1)
            simp only [hbc, List.not_mem_nil, false_or]
            exact ⟨p1, p2, p3⟩
        · rintro ⟨p1, p2, p3⟩
          have hbc : ch.holdersAt b = [] :=
            SmartHandles_holdersAt_absent _ _
              (fun hc => n5 b hc (SmartHandles_path_subset _ _ _ p1).1)
          simp only [hbc, List.not_mem_nil, false_or] at p2 p3
          exact Or.inr ⟨p1, p2, p3⟩

theorem SmartHandles_holdersAt_subset (f : SmartHandles) (d y : Nat)
    (h : y ∈ f.holdersAt d) : y ∈ f.holders := by
  induction f with
  | nil => simp [SmartHandles.holdersAt] at h
  | cons h0 hs ch rest ihc ihr =>
    simp only [SmartHandles.holdersAt] at h
    simp only [SmartHandles.holders, List.mem_append]
    split_ifs at h
    · exact Or.inl h
    · rcases List.mem_append.mp h with h | h
      · exact Or.inr (Or.inl (ihc h))
      · exact Or.inr (Or.inr (ihr h))

theorem SmartHandles_holdersAt_live (f : SmartHandles) (d y : Nat)
    (h : y ∈ f.holdersAt d) : d ∈ f.handles := by
  by_contra hd
  rw [SmartHandles_holdersAt_absent f d hd] at h
  simp at h

theorem SmartHandles_holders_at (f : SmartHandles) (hn : f.handles.Nodup) (y : Nat)
    (h : y ∈ f.holders) : ∃ d, d ∈ f.handles ∧ y ∈ f.holdersAt d := by
  induction f with
  | nil => simp [SmartHandles.holders] at h
  | cons h0 hs ch rest ihc ihr =>
    obtain ⟨n1, n2, n3, n4, n5⟩ := SmartHandles_nodup_cons h0 hs ch rest hn
    simp only [SmartHandles.holders, List.mem_append] at h
    simp only [SmartHandles.handles, List.mem_cons, List.mem_append, SmartHandles.holdersAt]
    rcases h with h | h | h
    · exact ⟨h0, Or.inl rfl, by simpa using h⟩
    · obtain ⟨d, hd, hy⟩ := ihc n3 h
      have hne : h0 ≠ d := fun e => n1 (e ▸ hd)
      exact ⟨d, Or.inr (Or.inl hd), by rw [if_neg hne]; exact List.mem_append_left _ hy⟩
    · obtain ⟨d, hd, hy⟩ := ihr n4 h
      have hne : h0 ≠ d := fun e => n2 (e ▸ hd)
      exact ⟨d, Or.inr (Or.inr hd), by rw [if_neg hne]; exact List.mem_append_right _ hy⟩

theorem SmartHandles_holdersAt_children (h0 : Nat) (hs : List Nat) (ch rest : SmartHandles)
    (hn : (SmartHandles.cons h0 hs ch rest).handles.Nodup) (c : Nat) (hc : c ∈ ch.handles) :
    (SmartHandles.cons h0 hs ch rest).holdersAt c = ch.holdersAt c := by
  obtain ⟨n1, n2, n3, n4, n5⟩ := SmartHandles_nodup_cons h0 hs ch rest hn
  have hne : h0 ≠ c := fun e => n1 (e ▸ hc)
  simp [SmartHandles.holdersAt, hne, SmartHandles_holdersAt_absent rest c (n5 c hc)]

theorem SmartHandles_holdersAt_rest (h0 : Nat) (hs : List Nat) (ch rest : SmartHandles)
    (hn : (SmartHandles.cons h0 hs ch rest).handles.Nodup) (c : Nat) (hc : c ∈ rest.handles) :
    (SmartHandles.cons h0 hs ch rest).holdersAt c = rest.holdersAt c := by
  obtain ⟨n1, n2, n3, n4, n5⟩ := SmartHandles_nodup_cons h0 hs ch rest hn
  have hne : h0 ≠ c := fun e => n2 (e ▸ hc)
  simp [SmartHandles.holdersAt, hne,
    SmartHandles_holdersAt_absent ch c (fun h => n5 c h hc)]

/-- The holders that a release detaches from destroyed blocks were registered with a block
that the release destroys. -/
theorem SmartHandle_Release_detached (f : SmartHandles) (hn : f.handles.Nodup) (b x y : Nat)
    (h : y ∈ (SmartHandle.Release f b x).2.2) :
    ∃ d, d ∈ (SmartHandle.Release f b x).2.1 ∧ y ∈ f.holdersAt d := by
  induction f with
  | nil => simp [SmartHandle.Release] at h
  | cons h0 hs ch rest ihc ihr =>
    obtain ⟨n1, n2, n3, n4, n5⟩ := SmartHandles_nodup_cons h0 hs ch rest hn
    simp only [SmartHandle.Release] at h ⊢
    split_ifs at h ⊢
    · obtain ⟨d, hd, hy⟩ := SmartHandles_holders_at ch n3 y h
      exact ⟨d, List.mem_cons_of_mem _ hd,
        by rw [SmartHandles_holdersAt_children h0 hs ch rest hn d hd]; exact hy⟩
    · simp at h
    · simp at h
    · rcases List.mem_append.mp h with h | h
      · obtain ⟨d, hd, hy⟩ := ihc n3 h
        have hdc := SmartHandle_Release_freed_subset _ _ _ _ hd
        exact ⟨d, List.mem_append_left _ hd,
          by rw [SmartHandles_holdersAt_children h0 hs ch rest hn d hdc]; exact hy⟩
      · obtain ⟨d, hd, hy⟩ := ihr n4 h
        have hdc := SmartHandle_Release_freed_subset _ _ _ _ hd
        exact ⟨d, List.mem_append_right _ hd,
          by rw [SmartHandles_holdersAt_rest h0 hs ch rest hn d hdc]; exact hy⟩

/-- Every holder registered with a block that a release destroys is the releasing holder or
is detached by the release. -/
theorem SmartHandle_Release_detaches (f : SmartHandles) (hn : f.handles.Nodup) (b x d y : Nat)
    (hd : d ∈ (SmartHandle.Release f b x).2.1) (hy : y ∈ f.holdersAt d) :
    y = x ∨ y ∈ (SmartHandle.Release f b x).2.2 := by
  induction f with
  | nil => simp [SmartHandle.Release] at hd
  | cons h0 hs ch rest ihc ihr =>
    obtain ⟨n1, n2, n3, n4, n5⟩ := SmartHandles_nodup_cons h0 hs ch rest hn
    simp only [SmartHandle.Release] at hd ⊢
    split_ifs at hd ⊢ with h1 h2 h3
    · simp only [List.mem_cons] at hd
      rcases hd with hd | hd
      · subst hd
        simp only [SmartHandles.holdersAt, if_true] at hy
        exact Or.inl ((filter_ne_eq_nil_iff hs x).mp h3 y hy)
      · rw [SmartHandles_holdersAt_children h0 hs ch rest hn d hd] at hy
        exact Or.inr (SmartHandles_holdersAt_subset _ _ _ hy)
    · simp at hd
    · simp at hd
    · rcases List.mem_append.mp hd with hd | hd
      · have hdc := SmartHandle_Release_freed_subset _ _ _ _ hd
        rw [SmartHandles_holdersAt_children h0 hs ch rest hn d hdc] at hy
        rcases ihc n3 hd hy with h | h
        · exact Or.inl h
        · exact Or.inr (List.mem_append_left _ h)
      · have hdc := SmartHandle_Release_freed_subset _ _ _ _ hd
        rw [SmartHandles_holdersAt_rest h0 hs ch rest hn d hdc] at hy
        rcases ihr n4 hd hy with h | h
        · exact Or.inl h
        · exact Or.inr (List.mem_append_right _ h)

/-- The holders of a block that survives a release: those it had, minus the releasing holder
when the block is the one released on. -/
theorem SmartHandle_Release_holdersAt (f : SmartHandles) (hn : f.handles.Nodup) (b x c y : Nat)
    (hc : c ∈ (SmartHandle.Release f b x).1.handles) :
    y ∈ (SmartHandle.Release f b x).1.holdersAt c ↔ y ∈ f.holdersAt c ∧ ¬ (c = b ∧ y = x) := by
  induction f with
  | nil => simp [SmartHandle.Release, SmartHandles.handles] at hc
  | cons h0 hs ch rest ihc ihr =>
    obtain ⟨n1, n2, n3, n4, n5⟩ := SmartHandles_nodup_cons h0 hs ch rest hn
    simp only [SmartHandle.Release] at hc ⊢
    split_ifs at hc ⊢ with h1 h2 h3
    · rw [SmartHandles_holdersAt_rest h0 hs ch rest hn c hc]
      have hne : c ≠ b := fun e => n2 (h1 ▸ e ▸ hc)
      simp [hne]
    · subst h1
      simp only [SmartHandles.holdersAt]
      split_ifs with h4
      · simp [h4.symm]
      · have hne : c ≠ h0 := fun e => h4 e.symm
        simp [hne]
    · subst h1
      simp only [SmartHandles.holdersAt]
      split_ifs with h4
      · subst h4
        simp only [true_and, iff_self_and]
        intro hy e
        exact h2 (e ▸ hy)
      · have hne : c ≠ h0 := fun e => h4 e.symm
        simp [hne]
    · simp only [SmartHandles.handles, List.mem_cons, List.mem_append] at hc
      simp only [SmartHandles.holdersAt]
      split_ifs with h4
      · have hne : c ≠ b := fun e => h1 (h4.trans e)
        simp [hne]
      · rcases hc with hc | hc | hc
        · exact absurd hc.symm h4
        · have hcc := SmartHandle_Release_live_subset _ _ _ _ hc
          have e1 : (SmartHandle.Release rest b x).1.holdersAt c = [] :=
            SmartHandles_holdersAt_absent _ _
              (fun h => n5 c hcc (SmartHandle_Release_live_subset _ _ _ _ h))
          have e2 : rest.holdersAt c = [] := SmartHandles_holdersAt_absent _ _ (n5 c hcc)
          rw [e1, e2, List.append_nil, List.append_nil]
          exact ihc n3 hc
        · have hcc := SmartHandle_Release_live_subset _ _ _ _ hc
          have e1 : (SmartHandle.Release ch b x).1.holdersAt c = [] :=
            SmartHandles_holdersAt_absent _ _
              (fun h => n5 c (SmartHandle_Release_live_subset _ _ _ _ h) hcc)
          have e2 : ch.holdersAt c = [] :=
            SmartHandles_holdersAt_absent _ _ (fun h => n5 c h hcc)
          rw [e1, e2, List.nil_append, List.nil_append]
          exact ihr n4 hc

theorem SmartHandle_Acquire_handles (f : SmartHandles) (b x : Nat) :
    (SmartHandle.Acquire f b x).handles = f.handles := by
  induction f with
  | nil => rfl
  | cons h0 hs ch rest ihc ihr =>
    simp only [SmartHandle.Acquire]
    split_ifs
    · rfl
    · simp [SmartHandles.handles, ihc, ihr]

/-- The holders of a block after a registration: those it had, plus the new holder on the
block it is registered with. -/
theorem SmartHandle_Acquire_holdersAt (f : SmartHandles) (hn : f.handles.Nodup) (b x c y : Nat) :
    y ∈ (SmartHandle.Acquire f b x).holdersAt c ↔
      y ∈ f.holdersAt c ∨ (c = b ∧ b ∈ f.handles ∧ y = x) := by
  induction f with
  | nil => simp [SmartHandle.Acquire, SmartHandles.holdersAt, SmartHandles.handles]
  | cons h0 hs ch rest ihc ihr =>
    obtain ⟨n1, n2, n3, n4, n5⟩ := SmartHandles_nodup_cons h0 hs ch rest hn
    simp only [SmartHandle.Acquire]
    split_ifs with h1
    · subst h1
      simp only [SmartHandles.holdersAt, SmartHandles.handles, List.mem_cons, true_or, true_and]
      split_ifs with h2
      · subst h2
        simp
      · have hne : c ≠ h0 := fun e => h2 e.symm
        simp [hne]
    · simp only [SmartHandles.holdersAt, SmartHandles.handles, List.mem_cons, List.mem_append]
      split_ifs with h2
      · have hne : c ≠ b := fun e => h1 (h2.trans e)
        simp [hne]
      · rw [List.mem_append, List.mem_append, ihc n3, ihr n4]
        have hb : b ≠ h0 := fun e => h1 e.symm
        simp only [hb, false_or]
        tauto

theorem HandleHolder_Release_null (s : HandleGraph) (x : Nat) (h : s.smartHandle x = none) :
    HandleHolder.Release s x = s := by
  unfold HandleHolder.Release
  rw [h]

theorem HandleHolder_Release_some (s : HandleGraph) (x b : Nat) (h : s.smartHandle x = some b) :
    HandleHolder.Release s x =
      { blocks := (SmartHandle.Release s.blocks b x).1
        smartHandle := fun y =>
          if y = x ∨ y ∈ (SmartHandle.Release s.blocks b x).2.2 then none else s.smartHandle y
        freed := s.freed ++ (SmartHandle.Release s.blocks b x).2.1 } := by
  unfold HandleHolder.Release
  rw [h]

/-- After Release() the holder references no control block. -/
theorem HandleHolder_Release_self (s : HandleGraph) (x : Nat) :
    (HandleHolder.Release s x).smartHandle x = none := by
  cases h : s.smartHandle x with
  | none => rw [HandleHolder_Release_null s x h]; exact h
  | some b => rw [HandleHolder_Release_some s x b h]; simp

/-- Release() neither loses nor duplicates a control block. -/
theorem HandleHolder_Release_perm (s : HandleGraph) (x : Nat) :
    ((HandleHolder.Release s x).blocks.handles ++ (HandleHolder.Release s x).freed).Perm
      (s.blocks.handles ++ s.freed) := by
  cases h : s.smartHandle x with
  | none => rw [HandleHolder_Release_null s x h]
  | some b =>
    rw [HandleHolder_Release_some s x b h]
    dsimp only
    have := SmartHandle_Release_perm s.blocks b x
    rw [← List.append_assoc]
    refine List.Perm.trans ?_ (List.Perm.append_right s.freed this)
    rw [List.append_assoc, List.append_assoc]
    exact List.Perm.append_left _ List.perm_append_comm

/-- Release() keeps the invariants of the ownership graph. -/
theorem HandleHolder_Release_consistent (s : HandleGraph) (hc : s.Consistent) (x : Nat) :
    (HandleHolder.Release s x).Consistent := by
  cases h : s.smartHandle x with
  | none => rw [HandleHolder_Release_null s x h]; exact hc
  | some b =>
    have hperm := HandleHolder_Release_perm s x
    rw [HandleHolder_Release_some s x b h] at hperm ⊢
    obtain ⟨c1, c2, c3⟩ := hc
    have hn : s.blocks.handles.Nodup := (List.nodup_append.mp c1).1
    have hnd : ((SmartHandle.Release s.blocks b x).1.handles ++
        (s.freed ++ (SmartHandle.Release s.blocks b x).2.1)).Nodup :=
      (List.Perm.nodup_iff hperm).mpr c1
    have hdisj : ∀ c, c ∈ (SmartHandle.Release s.blocks b x).1.handles →
        c ∉ (SmartHandle.Release s.blocks b x).2.1 := by
      intro c h1 h2
      exact (List.nodup_append.mp hnd).2.2 h1 (List.mem_append_right _ h2)
    have hsplit : ∀ c, c ∈ s.blocks.handles →
        c ∈ (SmartHandle.Release s.blocks b x).1.handles ∨
        c ∈ (SmartHandle.Release s.blocks b x).2.1 := by
      intro c hc'
      exact List.mem_append.mp ((SmartHandle_Release_perm s.blocks b x).symm.subset hc')
    refine ⟨hnd, ?_, ?_⟩
    · intro y c
      dsimp only
      constructor
      · intro hy
        split_ifs at hy with h1
        simp only [not_or] at h1
        have hyc : y ∈ s.blocks.holdersAt c := (c2 y c).mp hy
        have hlive : c ∈ s.blocks.handles := SmartHandles_holdersAt_live _ _ _ hyc
        rcases hsplit c hlive with h3 | h3
        · exact (SmartHandle_Release_holdersAt s.blocks hn b x c y h3).mpr
            ⟨hyc, fun e => h1.1 e.2⟩
        · rcases SmartHandle_Release_detaches s.blocks hn b x c y h3 hyc with h4 | h4
          · exact absurd h4 h1.1
          · exact absurd h4 h1.2
      · intro hy
        have hlive := SmartHandles_holdersAt_live _ _ _ hy
        obtain ⟨hyc, hne⟩ := (SmartHandle_Release_holdersAt s.blocks hn b x c y hlive).mp hy
        have hyx : y ≠ x := by
          intro e
          subst e
          have := (c2 y c).mpr hyc
          rw [h] at this
          simp only [Option.some.injEq] at this
          exact hne ⟨this.symm, rfl⟩
        have hyd : y ∉ (SmartHandle.Release s.blocks b x).2.2 := by
          intro hd
          obtain ⟨d, hd1, hd2⟩ := SmartHandle_Release_detached s.blocks hn b x y hd
          have e1 := (c2 y d).mpr hd2
          have e2 := (c2 y c).mpr hyc
          rw [e1] at e2
          simp only [Option.some.injEq] at e2
          subst e2
          exact hdisj d hlive hd1
        rw [if_neg (by simp [hyx, hyd])]
        exact (c2 y c).mpr hyc
    · intro c hlive
      dsimp only at hlive ⊢
      have hcl : c ∈ s.blocks.handles := SmartHandle_Release_live_subset _ _ _ _ hlive
      have hne := c3 c hcl
      by_cases hall : c = b ∧ ∀ y ∈ s.blocks.holdersAt c, y = x
      · obtain ⟨rfl, hall⟩ := hall
        obtain ⟨y, hy⟩ := List.exists_mem_of_ne_nil _ hne
        have hx : x ∈ s.blocks.holdersAt c := by
          have := hall y hy
          rw [← this]
          exact hy
        have := (SmartHandle_Release_freed_iff s.blocks hn c x c).mpr
          ⟨SmartHandles_path_self _ _ hcl, hx, hall⟩
        exact absurd this (hdisj c hlive)
      · have : ∃ y, y ∈ s.blocks.holdersAt c ∧ ¬ (c = b ∧ y = x) := by
          by_cases hcb : c = b
          · have : ¬ ∀ y ∈ s.blocks.holdersAt c, y = x := fun h' => hall ⟨hcb, h'⟩
            push_neg at this
            obtain ⟨y, hy1, hy2⟩ := this
            exact ⟨y, hy1, fun e => hy2 e.2⟩
          · obtain ⟨y, hy⟩ := List.exists_mem_of_ne_nil _ hne
            exact ⟨y, hy, fun e => hcb e.1⟩
        obtain ⟨y, hy⟩ := this
        have := (SmartHandle_Release_holdersAt s.blocks hn b x c y hlive).mpr hy
        exact List.ne_nil_of_mem this

theorem HandleHolder_Acquire_cases (s : HandleGraph) (x other : Nat) :
    HandleHolder.Acquire s x other = s ∨
    HandleHolder.Acquire s x other = HandleHolder.Release s x ∨
    ∃ b, (HandleHolder.Release s x).smartHandle other = some b ∧
      HandleHolder.Acquire s x other =
        { HandleHolder.Release s x with
          blocks := SmartHandle.Acquire (HandleHolder.Release s x).blocks b x
          smartHandle := fun y =>
            if y = x then some b else (HandleHolder.Release s x).smartHandle y } := by
  unfold HandleHolder.Acquire
  split_ifs
  · exact Or.inl rfl
  · dsimp only
    cases h : (HandleHolder.Release s x).smartHandle other with
    | none => exact Or.inr (Or.inl rfl)
    | some b => exact Or.inr (Or.inr ⟨b, rfl, rfl⟩)

/-- Acquire(other) keeps the invariants of the ownership graph. -/
theorem HandleHolder_Acquire_consistent (s : HandleGraph) (hc : s.Consistent) (x other : Nat) :
    (HandleHolder.Acquire s x other).Consistent := by
  have h1 := HandleHolder_Release_consistent s hc x
  rcases HandleHolder_Acquire_cases s x other with h | h | ⟨b, hb, h⟩
  · rw [h]; exact hc
  · rw [h]; exact h1
  · rw [h]
    have hx := HandleHolder_Release_self s x
    generalize HandleHolder.Release s x = s1 at h1 hb hx
    obtain ⟨c1, c2, c3⟩ := h1
    have hn : s1.blocks.handles.Nodup := (List.nodup_append.mp c1).1
    have hbl : b ∈ s1.blocks.handles := SmartHandles_holdersAt_live _ _ _ ((c2 other b).mp hb)
    refine ⟨?_, ?_, ?_⟩
    · dsimp only
      rw [SmartHandle_Acquire_handles]
      exact c1
    · intro y c
      dsimp only
      rw [SmartHandle_Acquire_holdersAt _ hn]
      by_cases hy : y = x
      · subst hy
        rw [if_pos rfl]
        have hno : y ∉ s1.blocks.holdersAt c := by
          intro hm
          have := (c2 y c).mpr hm
          rw [hx] at this
          simp at this
        simp only [Option.some.injEq, hno, false_or, hbl, true_and, and_true]
        exact eq_comm
      · rw [if_neg hy]
        simp only [hy, and_false, or_false]
        exact c2 y c
    · intro c hcl
      dsimp only at hcl ⊢
      rw [SmartHandle_Acquire_handles] at hcl
      obtain ⟨y, hy⟩ := List.exists_mem_of_ne_nil _ (c3 c hcl)
      exact List.ne_nil_of_mem
        ((SmartHandle_Acquire_holdersAt _ hn b x c y).mpr (Or.inl hy))

theorem HandleGraph_step_consistent (s : HandleGraph) (hc : s.Consistent) (op : HolderOp) :
    (s.step op).Consistent := by
  cases op with
  | acquire x other => exact HandleHolder_Acquire_consistent s hc x other
  | release x => exact HandleHolder_Release_consistent s hc x

theorem HandleGraph_run_consistent (ops : List HolderOp) :
    ∀ s : HandleGraph, s.Consistent → (s.run ops).Consistent := by
  induction ops with
  | nil => intro s hc; exact hc
  | cons op ops ih =>
    intro s hc
    exact ih _ (HandleGraph_step_consistent s hc op)

theorem HandleGraph_step_perm (s : HandleGraph) (op : HolderOp) :
    ((s.step op).blocks.handles ++ (s.step op).freed).Perm (s.blocks.handles ++ s.freed) := by
  cases op with
  | release x => exact HandleHolder_Release_perm s x
  | acquire x other =>
    show ((HandleHolder.Acquire s x other).blocks.handles ++
      (HandleHolder.Acquire s x other).freed).Perm _
    rcases HandleHolder_Acquire_cases s x other with h | h | ⟨b, -, h⟩
    · rw [h]
    · rw [h]; exact HandleHolder_Release_perm s x
    · rw [h]
      dsimp only
      rw [SmartHandle_Acquire_handles]
      exact HandleHolder_Release_perm s x

theorem HandleGraph_run_perm (ops : List HolderOp) :
    ∀ s : HandleGraph,
      ((s.run ops).blocks.handles ++ (s.run ops).freed).Perm (s.blocks.handles ++ s.freed) := by
  induction ops with
  | nil => intro s; exact List.Perm.refl _
  | cons op ops ih =>
    intro s
    exact (ih (s.step op)).trans (HandleGraph_step_perm s op)

/-- A release destroys the live block b only if the releasing holder is the only holder of b
or of an ancestor of b. -/
theorem HandleHolder_Release_destroys (s : HandleGraph) (hc : s.Consistent) (x b : Nat)
    (hb : b ∈ s.blocks.handles) (hgone : b ∉ (HandleHolder.Release s x).blocks.handles) :
    ∃ a, s.smartHandle x = some a ∧ a ∈ s.blocks.path b ∧
      ∀ y ∈ s.blocks.holdersAt a, y = x := by
  cases h : s.smartHandle x with
  | none =>
    rw [HandleHolder_Release_null s x h] at hgone
    exact absurd hb hgone
  | some a =>
    rw [HandleHolder_Release_some s x a h] at hgone
    dsimp only at hgone
    have hn : s.blocks.handles.Nodup := (List.nodup_append.mp hc.1).1
    have : b ∈ (SmartHandle.Release s.blocks a x).2.1 := by
      rcases List.mem_append.mp ((SmartHandle_Release_perm s.blocks a x).symm.subset hb) with
        h1 | h1
      · exact absurd h1 hgone
      · exact h1
    obtain ⟨p1, -, p3⟩ := (SmartHandle_Release_freed_iff s.blocks hn a x b).mp this
    exact ⟨a, rfl, p1, p3⟩

theorem demoGraph_consistent : demoGraph.Consistent := by
  refine ⟨by decide, ?_, by decide⟩
  intro x b
  simp only [demoGraph, SmartHandles.holdersAt]
  constructor
  · intro h
    split_ifs at h with h1 h2 h3 h4
    · simp only [Option.some.injEq] at h
      subst h h1
      decide
    · simp only [Option.some.injEq] at h
      subst h
      rcases h2 with rfl | rfl <;> decide
    · simp only [Option.some.injEq] at h
      subst h h3
      decide
    · simp only [Option.some.injEq] at h
      subst h h4
      decide
  · intro h
    by_cases h7 : 7 = b
    · subst h7
      simp at h
      subst h
      rfl
    · by_cases h8 : 8 = b
      · subst h8
        simp at h
        rcases h with rfl | rfl <;> rfl
      · by_cases h9 : 9 = b
        · subst h9
          simp at h
          subst h
          rfl
        · by_cases h5 : 5 = b
          · subst h5
            simp at h
            subst h
            rfl
          · simp [h7, h8, h9, h5] at h

/-- The Release() of the only holder of a live block destroys the block: the block is no
longer live, and the free function, not invoked on its handle before, has been invoked on it
exactly once. -/
theorem HandleHolder_Release_last (s : HandleGraph) (hc : s.Consistent) (x b : Nat)
    (hx : s.smartHandle x = some b) (hlast : ∀ y ∈ s.blocks.holdersAt b, y = x) :
    b ∉ (HandleHolder.Release s x).blocks.handles ∧ s.freed.count b = 0 ∧
      (HandleHolder.Release s x).freed.count b = 1 := by
  have hc' := HandleHolder_Release_consistent s hc x
  have hnd' := List.nodup_append.mp hc'.1
  have hnd := List.nodup_append.mp hc.1
  have hxb : x ∈ s.blocks.holdersAt b := (hc.2.1 x b).mp hx
  have hbl : b ∈ s.blocks.handles := SmartHandles_holdersAt_live _ _ _ hxb
  have hfreed : b ∈ (HandleHolder.Release s x).freed := by
    rw [HandleHolder_Release_some s x b hx]
    dsimp only
    exact List.mem_append_right _
      ((SmartHandle_Release_freed_iff s.blocks hnd.1 b x b).mpr
        ⟨SmartHandles_path_self _ _ hbl, hxb, hlast⟩)
  exact ⟨fun h => hnd'.2.2 h hfreed, List.count_eq_zero_of_not_mem (fun h => hnd.2.2 hbl h),
    List.count_eq_one_of_mem hnd'.2.1 hfreed⟩

/-- The Release() of a holder of a live block that has another holder only detaches the
holder: the free function is not invoked, the block stays live, the other holders keep their
references, and the holders of the block are the previous ones without the released one. -/
theorem HandleHolder_Release_shared (s : HandleGraph) (hc : s.Consistent) (x b : Nat)
    (hx : s.smartHandle x = some b) (hmore : ∃ y ∈ s.blocks.holdersAt b, y ≠ x) :
    (HandleHolder.Release s x).freed = s.freed ∧
    (HandleHolder.Release s x).blocks.handles = s.blocks.handles ∧
    (∀ y, y ≠ x → (HandleHolder.Release s x).smartHandle y = s.smartHandle y) ∧
    (∀ y, y ∈ (HandleHolder.Release s x).blocks.holdersAt b ↔
      y ∈ s.blocks.holdersAt b ∧ y ≠ x) := by
  have hnd := List.nodup_append.mp hc.1
  have hnone : (SmartHandle.Release s.blocks b x).2.1 = [] := by
    apply List.eq_nil_iff_forall_not_mem.mpr
    intro d hd
    obtain ⟨-, -, h3⟩ := (SmartHandle_Release_freed_iff s.blocks hnd.1 b x d).mp hd
    obtain ⟨y, hy, hne⟩ := hmore
    exact hne (h3 y hy)
  have hdet : (SmartHandle.Release s.blocks b x).2.2 = [] := by
    apply List.eq_nil_iff_forall_not_mem.mpr
    intro y hy
    obtain ⟨d, hd, -⟩ := SmartHandle_Release_detached s.blocks hnd.1 b x y hy
    rw [hnone] at hd
    exact absurd hd (List.not_mem_nil d)
  have hperm := SmartHandle_Release_perm s.blocks b x
  rw [hnone, List.append_nil] at hperm
  have hbl : b ∈ s.blocks.handles :=
    SmartHandles_holdersAt_live _ _ _ ((hc.2.1 x b).mp hx)
  have hhandles : (SmartHandle.Release s.blocks b x).1.handles = s.blocks.handles := by
    have key : ∀ f : SmartHandles, (SmartHandle.Release f b x).2.1 = [] →
        (SmartHandle.Release f b x).1.handles = f.handles := by
      intro f
      induction f with
      | nil => intro _; rfl
      | cons h0 hs ch rest ihc ihr =>
        intro hnil
        unfold SmartHandle.Release at hnil ⊢
        by_cases h1 : h0 = b
        · rw [if_pos h1] at hnil ⊢
          by_cases h2 : x ∈ hs
          · rw [if_pos h2] at hnil ⊢
            by_cases h3 : hs.filter (fun y => y != x) = []
            · rw [if_pos h3] at hnil
              simp at hnil
            · rw [if_neg h3]
              rfl
          · rw [if_neg h2]
        · rw [if_neg h1] at hnil ⊢
          dsimp only at hnil ⊢
          have hn2 := List.append_eq_nil.mp hnil
          simp only [SmartHandles.handles, ihc hn2.1, ihr hn2.2]
    exact key s.blocks hnone
  rw [HandleHolder_Release_some s x b hx]
  dsimp only
  refine ⟨by rw [hnone, List.append_nil], hhandles, ?_, ?_⟩
  · intro y hy
    rw [hdet]
    simp [hy]
  · intro y
    rw [SmartHandle_Release_holdersAt s.blocks hnd.1 b x b y (by rw [hhandles]; exact hbl)]
    constructor
    · rintro ⟨h1, h2⟩
      exact ⟨h1, fun h => h2 ⟨rfl, h⟩⟩
    · rintro ⟨h1, h2⟩
      exact ⟨h1, fun h => h2 h.2⟩

/-- Acquire(other) of a holder without control block makes it share the block of the other
holder; nothing is freed and no block is created or destroyed. -/
theorem HandleHolder_Acquire_joins (s : HandleGraph) (x other b : Nat)
    (hx : s.smartHandle x = none) (ho : s.smartHandle other = some b) :
    (HandleHolder.Acquire s x other).smartHandle x = some b ∧
    (HandleHolder.Acquire s x other).freed = s.freed ∧
    (HandleHolder.Acquire s x other).blocks.handles = s.blocks.handles ∧
    (∀ y, y ≠ x → (HandleHolder.Acquire s x other).smartHandle y = s.smartHandle y) := by
  unfold HandleHolder.Acquire
  rw [if_neg (by rw [hx, ho]; simp), HandleHolder_Release_null s x hx]
  dsimp only
  rw [ho]
  dsimp only
  refine ⟨by simp, rfl, SmartHandle_Acquire_handles _ _ _, ?_⟩
  intro y hy
  simp [hy]

theorem HandleGraph_run_cons (s : HandleGraph) (op : HolderOp) (ops : List HolderOp) :
    s.run (op :: ops) = (s.step op).run ops := rfl

/-- When the holders that share the live block b release one after the other, in any order,
the free function is invoked on the handle of b by the Release of the last of them: exactly
once after all have released, not at all before the last one has. -/
theorem HandleGraph_release_all (b : Nat) (xs : List Nat) :
    ∀ t : HandleGraph, t.Consistent → xs.Nodup → xs ≠ [] →
      (∀ y, y ∈ t.blocks.holdersAt b ↔ y ∈ xs) →
      t.freed.count b = 0 ∧
      (t.run (xs.dropLast.map HolderOp.release)).freed.count b = 0 ∧
      b ∈ (t.run (xs.dropLast.map HolderOp.release)).blocks.handles ∧
      (t.run (xs.map HolderOp.release)).freed.count b = 1 ∧
      b ∉ (t.run (xs.map HolderOp.release)).blocks.handles := by
  induction xs with
  | nil => intro t _ _ h; exact absurd rfl h
  | cons x rest ih =>
    intro t hc hnd _ hh
    have hxb : x ∈ t.blocks.holdersAt b := (hh x).mpr (List.mem_cons_self x rest)
    have hx : t.smartHandle x = some b := (hc.2.1 x b).mpr hxb
    have hbl : b ∈ t.blocks.handles := SmartHandles_holdersAt_live _ _ _ hxb
    have hzero : t.freed.count b = 0 :=
      List.count_eq_zero_of_not_mem (fun h => (List.nodup_append.mp hc.1).2.2 hbl h)
    by_cases hr : rest = []
    · subst hr
      have hlast : ∀ y ∈ t.blocks.holdersAt b, y = x := by
        intro y hy
        simpa using (hh y).mp hy
      obtain ⟨l1, l2, l3⟩ := HandleHolder_Release_last t hc x b hx hlast
      exact ⟨hzero, hzero, hbl, l3, l1⟩
    · obtain ⟨y0, hy0⟩ := List.exists_mem_of_ne_nil rest hr
      have hne : y0 ≠ x := by
        rintro rfl
        exact (List.nodup_cons.mp hnd).1 hy0
      obtain ⟨s1, s2, s3, s4⟩ := HandleHolder_Release_shared t hc x b hx
        ⟨y0, (hh y0).mpr (List.mem_cons_of_mem x hy0), hne⟩
      have hc1 := HandleHolder_Release_consistent t hc x
      have hh1 : ∀ y, y ∈ (HandleHolder.Release t x).blocks.holdersAt b ↔ y ∈ rest := by
        intro y
        rw [s4 y, hh y]
        constructor
        · rintro ⟨h1, h2⟩
          rcases List.mem_cons.mp h1 with h | h
          · exact absurd h h2
          · exact h
        · intro h
          refine ⟨List.mem_cons_of_mem x h, ?_⟩
          rintro rfl
          exact (List.nodup_cons.mp hnd).1 h
      obtain ⟨-, i2, i3, i4, i5⟩ := ih (HandleHolder.Release t x) hc1
        (List.nodup_cons.mp hnd).2 hr hh1
      rw [List.dropLast_cons_of_ne_nil hr]
      exact ⟨hzero, i2, i3, i4, i5⟩

/-- C16: for every sequence of Acquire(other) and Release() calls of holders, started in a
consistent ownership graph in which the control block b is live: the native free function
has been invoked on the handle of b exactly once if b is no longer live and not at all if it
still is, never twice; b is live exactly as long as some holder references it; and any single
operation after which b is no longer live is called on a holder that was the only holder of
b or the only holder of an ancestor of b (the last holder's release, or the release of a
parent).  The operations do what their names say: a Release() leaves its holder without
control block; the Release() of the only holder of b destroys b and invokes the free function
on its handle, which had not been invoked before, exactly once; the Release() of a holder of
b that shares it with another one invokes nothing and leaves b live with its other holders;
Acquire(other) of a holder without control block makes it a holder of the block of other.
Hence, when the holders that share b release one after the other in any order, the free
function is invoked on the handle of b exactly once, by the last Release() and not before. -/
theorem C16_native_free_exactly_once (s : HandleGraph) (hc : s.Consistent)
    (ops : List HolderOp) (b : Nat) (hb : b ∈ s.blocks.handles) :
    (s.run ops).Consistent ∧
    (s.run ops).freed.count b = (if b ∈ (s.run ops).blocks.handles then 0 else 1) ∧
    (b ∈ (s.run ops).blocks.handles ↔ ∃ x, (s.run ops).smartHandle x = some b) ∧
    (∀ (t : HandleGraph) (op : HolderOp), t.Consistent → b ∈ t.blocks.handles →
      b ∉ (t.step op).blocks.handles →
      ∃ a, t.smartHandle op.holder = some a ∧ a ∈ t.blocks.path b ∧
        ∀ y ∈ t.blocks.holdersAt a, y = op.holder) ∧
    (∀ (t : HandleGraph) (x : Nat), (t.step (.release x)).smartHandle x = none) ∧
    (∀ (t : HandleGraph) (x : Nat), t.Consistent → t.smartHandle x = some b →
      (∀ y ∈ t.blocks.holdersAt b, y = x) →
      b ∉ (t.step (.release x)).blocks.handles ∧ t.freed.count b = 0 ∧
        (t.step (.release x)).freed.count b = 1) ∧
    (∀ (t : HandleGraph) (x : Nat), t.Consistent → t.smartHandle x = some b →
      (∃ y ∈ t.blocks.holdersAt b, y ≠ x) →
      (t.step (.release x)).freed = t.freed ∧ b ∈ (t.step (.release x)).blocks.handles ∧
        ∀ y, y ≠ x → (t.step (.release x)).smartHandle y = t.smartHandle y) ∧
    (∀ (t : HandleGraph) (x other : Nat), t.smartHandle x = none →
      t.smartHandle other = some b →
      (t.step (.acquire x other)).smartHandle x = some b ∧
        (t.step (.acquire x other)).freed = t.freed) ∧
    (∀ (t : HandleGraph) (xs : List Nat), t.Consistent → xs.Nodup → xs ≠ [] →
      (∀ y, y ∈ t.blocks.holdersAt b ↔ y ∈ xs) →
      t.freed.count b = 0 ∧
      (t.run (xs.dropLast.map HolderOp.release)).freed.count b = 0 ∧
      b ∈ (t.run (xs.dropLast.map HolderOp.release)).blocks.handles ∧
      (t.run (xs.map HolderOp.release)).freed.count b = 1 ∧
      b ∉ (t.run (xs.map HolderOp.release)).blocks.handles) := by
  have hc' := HandleGraph_run_consistent ops s hc
  have hperm := HandleGraph_run_perm ops s
  refine ⟨hc', ?_, ?_, ?_, ?_, ?_, ?_, ?_, ?_⟩
  · have hmem : b ∈ (s.run ops).blocks.handles ++ (s.run ops).freed :=
      hperm.symm.subset (List.mem_append_left _ hb)
    have hnd := List.nodup_append.mp hc'.1
    split_ifs with h1
    · exact List.count_eq_zero_of_not_mem (fun h2 => hnd.2.2 h1 h2)
    · rcases List.mem_append.mp hmem with h2 | h2
      · exact absurd h2 h1
      · exact List.count_eq_one_of_mem hnd.2.1 h2
  · constructor
    · intro h1
      obtain ⟨y, hy⟩ := List.exists_mem_of_ne_nil _ (hc'.2.2 b h1)
      exact ⟨y, (hc'.2.1 y b).mpr hy⟩
    · rintro ⟨x, hx⟩
      exact SmartHandles_holdersAt_live _ _ _ ((hc'.2.1 x b).mp hx)
  · intro t op ht hlive hgone
    cases op with
    | release x => exact HandleHolder_Release_destroys t ht x b hlive hgone
    | acquire x other =>
      have hgone' : b ∉ (HandleHolder.Acquire t x other).blocks.handles := hgone
      apply HandleHolder_Release_destroys t ht x b hlive
      rcases HandleHolder_Acquire_cases t x other with h | h | ⟨a, -, h⟩
      · rw [h] at hgone'
        exact absurd hlive hgone'
      · rw [h] at hgone'
        exact hgone'
      · rw [h] at hgone'
        dsimp only at hgone'
        rw [SmartHandle_Acquire_handles] at hgone'
        exact hgone'
  · intro t x
    exact HandleHolder_Release_self t x
  · intro t x ht hx hlast
    exact HandleHolder_Release_last t ht x b hx hlast
  · intro t x ht hx hmore
    obtain ⟨s1, s2, s3, -⟩ := HandleHolder_Release_shared t ht x b hx hmore
    refine ⟨s1, ?_, s3⟩
    show b ∈ (HandleHolder.Release t x).blocks.handles
    rw [s2]
    exact SmartHandles_holdersAt_live _ _ _ ((ht.2.1 x b).mp hx)
  · intro t x other hx ho
    obtain ⟨a1, a2, -, -⟩ := HandleHolder_Acquire_joins t x other b hx ho
    exact ⟨a1, a2⟩
  · intro t xs ht hnd hne hh
    exact HandleGraph_release_all b xs t ht hnd hne hh

/-- C16, witness: in the demo graph the block 8 is shared by the holders 2 and 3.  Holder 2
releases, holder 4 leaves its own block 9 to share block 8 as well (which releases 9), then
holders 3 and 4 release: the free function is invoked on 9 and then, once, on 8.  And when
the two holders 3 and 2 of block 8 release in this order, nothing is freed by the first
Release() and the handle 8 is freed, once, by the second. -/
theorem C16_witness :
    (demoGraph.run [.release 2, .acquire 4 3, .release 3, .release 4]).freed = [9, 8] ∧
    (demoGraph.run [.release 2, .acquire 4 3, .release 3]).freed = [9] ∧
    demoGraph.Consistent ∧ 8 ∈ demoGraph.blocks.handles ∧
    (demoGraph.run [.release 2, .acquire 4 3, .release 3, .release 4]).freed.count 8 =
      (if 8 ∈ (demoGraph.run [.release 2, .acquire 4 3, .release 3, .release 4]).blocks.handles
        then 0 else 1) ∧
    demoGraph.blocks.holdersAt 8 = [2, 3] ∧
    (demoGraph.run [.release 3]).freed = [] ∧
    (demoGraph.run [.release 3, .release 2]).freed = [8, 9] ∧
    (demoGraph.freed.count 8 = 0 ∧
      (demoGraph.run (([3, 2] : List Nat).dropLast.map HolderOp.release)).freed.count 8 = 0 ∧
      8 ∈ (demoGraph.run (([3, 2] : List Nat).dropLast.map HolderOp.release)).blocks.handles ∧
      (demoGraph.run (([3, 2] : List Nat).map HolderOp.release)).freed.count 8 = 1 ∧
      8 ∉ (demoGraph.run (([3, 2] : List Nat).map HolderOp.release)).blocks.handles) :=
  ⟨by decide, by decide, demoGraph_consistent, by decide,
    (C16_native_free_exactly_once demoGraph demoGraph_consistent
      [.release 2, .acquire 4 3, .release 3, .release 4] 8 (by decide)).2.1,
    by decide, by decide, by decide,
    (C16_native_free_exactly_once demoGraph demoGraph_consistent [] 8 (by decide)).2.2.2.2.2.2.2.2
      demoGraph [3, 2] demoGraph_consistent (by decide) (by decide)
      (fun y => by
        have h : demoGraph.blocks.holdersAt 8 = [2, 3] := by decide
        rw [h]
        simp [or_comm])⟩

/-- C17: in a consistent ownership graph, when the only holder x of a block a releases (a is
the root of the tree of its descendants), every block d of that tree, a included, is torn
down exactly once: it is no longer live, the free function had not been invoked on its native
handle before and has been invoked on it exactly once now, and no holder references it any
more; every reference that remains is to a live block; the graph is still consistent.  A
further Release() of the holder x changes nothing, and a release request on a control block
that is not live changes nothing. -/
theorem C17_release_root_cascade (s : HandleGraph) (hc : s.Consistent) (x a : Nat)
    (hx : s.smartHandle x = some a) (hlast : ∀ y ∈ s.blocks.holdersAt a, y = x) :
    (∀ d, a ∈ s.blocks.path d →
      d ∉ (HandleHolder.Release s x).blocks.handles ∧
      s.freed.count d = 0 ∧ (HandleHolder.Release s x).freed.count d = 1 ∧
      ∀ y, (HandleHolder.Release s x).smartHandle y ≠ some d) ∧
    (∀ y d, (HandleHolder.Release s x).smartHandle y = some d →
      d ∈ (HandleHolder.Release s x).blocks.handles) ∧
    (HandleHolder.Release s x).Consistent ∧
    HandleHolder.Release (HandleHolder.Release s x) x = HandleHolder.Release s x ∧
    (∀ y d, d ∉ (HandleHolder.Release s x).blocks.handles →
      SmartHandle.Release (HandleHolder.Release s x).blocks d y =
        ((HandleHolder.Release s x).blocks, [], [])) := by
  have hc' := HandleHolder_Release_consistent s hc x
  have hnd' := List.nodup_append.mp hc'.1
  have hnd := List.nodup_append.mp hc.1
  have hlive : ∀ y d, (HandleHolder.Release s x).smartHandle y = some d →
      d ∈ (HandleHolder.Release s x).blocks.handles :=
    fun y d hy => SmartHandles_holdersAt_live _ _ _ ((hc'.2.1 y d).mp hy)
  refine ⟨?_, hlive, hc', HandleHolder_Release_null _ _ (HandleHolder_Release_self s x),
    fun y d hd => SmartHandle_Release_absent _ _ _ hd⟩
  intro d hd
  have hdl : d ∈ s.blocks.handles := (SmartHandles_path_subset _ _ _ hd).2
  have hfreed : d ∈ (HandleHolder.Release s x).freed := by
    rw [HandleHolder_Release_some s x a hx]
    dsimp only
    exact List.mem_append_right _
      ((SmartHandle_Release_freed_iff s.blocks hnd.1 a x d).mpr
        ⟨hd, (hc.2.1 x a).mp hx, hlast⟩)
  have hgone : d ∉ (HandleHolder.Release s x).blocks.handles :=
    fun h => hnd'.2.2 h hfreed
  refine ⟨hgone, List.count_eq_zero_of_not_mem (fun h => hnd.2.2 hdl h),
    List.count_eq_one_of_mem hnd'.2.1 hfreed, ?_⟩
  intro y hy
  exact hgone (hlive y d hy)

/-- C17, witness: in the demo graph holder 1 is the only holder of the root block 7, whose
descendants are 8 and 9; its release invokes the free function on 7, 8 and 9, once each, and
leaves the other root 5 (holder 6) alone; the holders 2, 3 and 4 reference nothing
afterwards. -/
theorem C17_witness :
    (HandleHolder.Release demoGraph 1).freed = [7, 8, 9] ∧
    (HandleHolder.Release demoGraph 1).blocks = .cons 5 [6] .nil .nil ∧
    ((HandleHolder.Release demoGraph 1).smartHandle 2,
      (HandleHolder.Release demoGraph 1).smartHandle 3,
      (HandleHolder.Release demoGraph 1).smartHandle 4,
      (HandleHolder.Release demoGraph 1).smartHandle 6) = (none, none, none, some 5) ∧
    demoGraph.Consistent ∧ demoGraph.smartHandle 1 = some 7 ∧
    (∀ y ∈ demoGraph.blocks.holdersAt 7, y = 1) ∧
    (∀ d, 7 ∈ demoGraph.blocks.path d →
      d ∉ (HandleHolder.Release demoGraph 1).blocks.handles ∧
      demoGraph.freed.count d = 0 ∧ (HandleHolder.Release demoGraph 1).freed.count d = 1 ∧
      ∀ y, (HandleHolder.Release demoGraph 1).smartHandle y ≠ some d) :=
  ⟨by decide, by decide, by decide, demoGraph_consistent, rfl, by decide,
    (C17_release_root_cascade demoGraph demoGraph_consistent 1 7 rfl (by decide)).1⟩

/-! ## The cleanup of ArrayCreate and the object index -/

/-- C21, evaluation at the failing input: in a fresh library, creating an array of three
large objects while the allocation of the object index is refused ends in the cleanup call of
ArrayDispose on the record at 10, whose object index is null: the call reads element 0 of
the null object index, a null dereference, and so does ArrayCreate.  For contrast, with no
element the same refusal makes ArrayCreate return null without any element access. -/
theorem C21_ArrayDispose_reads_null_tab_obj :
    demoConfig.IS_OCILIB_OBJECT OCI_CDT_LOB 0 = true ∧
    ArrayCreate demoConfig { goodOracle 10 20 30 40 with tab_obj := none } 0 3
        OCI_CDT_LOB 0 8 48 50 0 emptyState = .error Fault.nullDeref ∧
    ArrayDispose demoConfig 10
        { emptyState with
          arrayAt := upd emptyState.arrayAt 10
            (some { OCI_Array.zero with elem_type := OCI_CDT_LOB, nb_elem := 3 }) }
      = .error Fault.nullDeref ∧
    readSlot NULL 0 emptyState = .error Fault.nullDeref ∧
    valueOf (ArrayCreate demoConfig { goodOracle 10 20 30 40 with tab_obj := none } 0 0
        OCI_CDT_LOB 0 8 48 50 0 emptyState) = some NULL ∧
    (stateOf (ArrayCreate demoConfig { goodOracle 10 20 30 40 with tab_obj := none } 0 0
        OCI_CDT_LOB 0 8 48 50 0 emptyState) emptyState).log.filter Event.isAccess = [] :=
  ⟨rfl, rfl, rfl, rfl, by decide, by decide⟩

/-! ## TimestampInit: the state tag follows the buffer -/

/-- C22: in TimestampInit, once the wrapper w is available and is not tagged as an element of
an array, the buffer decides.  With a null buffer the native descriptor allocator is called,
once, and the tag becomes OCI_OBJECT_ALLOCATED; when it delivers the descriptor h, the call
returns w with the handle h.  With a buffer that is not null no allocator is called, the call
returns w, the handle is the buffer and the tag is OCI_OBJECT_FETCHED_CLEAN. -/
theorem C22_TimestampInit_by_buffer (cfg : Config) (o : TimestampOracle)
    (con tmsp buffer : Ptr) (type : Nat) (st : State) (w : Ptr) (sa : State)
    (ha : ALLOC_BUFFER o.wrapper true tmsp st = (true, w, sa))
    (hs : (sa.objAt w).hstate ≠ OCI_OBJECT_ALLOCATED_ARRAY) :
    (buffer = NULL →
      (TimestampInit.fill cfg o con w buffer type sa).2.log
        = sa.log ++ [Event.descAlloc (cfg.ExternalSubTypeToHandleType OCI_CDT_TIMESTAMP type)
            o.descriptor.isSome] ∧
      ((TimestampInit.fill cfg o con w buffer type sa).2.objAt w).hstate
        = OCI_OBJECT_ALLOCATED ∧
      (∀ h, o.descriptor = some h →
        TimestampInit cfg o con tmsp buffer type st
          = (w, (TimestampInit.fill cfg o con w buffer type sa).2) ∧
        ((TimestampInit cfg o con tmsp buffer type st).2.objAt w).handle = h ∧
        ((TimestampInit cfg o con tmsp buffer type st).2.objAt w).hstate
          = OCI_OBJECT_ALLOCATED)) ∧
    (buffer ≠ NULL →
      TimestampInit cfg o con tmsp buffer type st
        = (w, (TimestampInit.fill cfg o con w buffer type sa).2) ∧
      (TimestampInit cfg o con tmsp buffer type st).2.log = sa.log ∧
      ((TimestampInit cfg o con tmsp buffer type st).2.objAt w).handle = buffer ∧
      ((TimestampInit cfg o con tmsp buffer type st).2.objAt w).hstate
        = OCI_OBJECT_FETCHED_CLEAN) := by
  have hs2 : ¬ OCI_OBJECT_ALLOCATED_ARRAY = (sa.objAt w).hstate := fun h => hs h.symm
  refine ⟨?_, ?_⟩
  · intro hb
    subst hb
    have hfill : ∀ d, o.descriptor = d →
        (TimestampInit.fill cfg o con w NULL type sa).2.log
          = sa.log ++ [Event.descAlloc
              (cfg.ExternalSubTypeToHandleType OCI_CDT_TIMESTAMP type) d.isSome] ∧
        ((TimestampInit.fill cfg o con w NULL type sa).2.objAt w).hstate
          = OCI_OBJECT_ALLOCATED ∧
        (TimestampInit.fill cfg o con w NULL type sa).1 = d.isSome ∧
        (∀ h, d = some h →
          ((TimestampInit.fill cfg o con w NULL type sa).2.objAt w).handle = h) := by
      intro d hd
      by_cases hc : con = 0 <;> cases d <;>
        simp [TimestampInit.fill, MemoryAllocDescriptor, State.emit, hd, hc, hs, hs2, NULL,
          upd_same]
    obtain ⟨f1, f2, f3, f4⟩ := hfill o.descriptor rfl
    refine ⟨f1, f2, ?_⟩
    intro h hd
    have hT : TimestampInit cfg o con tmsp NULL type st
        = (w, (TimestampInit.fill cfg o con w NULL type sa).2) := by
      unfold TimestampInit
      rw [ha]
      dsimp only
      rw [if_pos rfl, f3, hd]
      rfl
    rw [hT]
    exact ⟨rfl, f4 h hd, f2⟩
  · intro hb
    have hb0 : ¬ buffer = 0 := hb
    have hfill : (TimestampInit.fill cfg o con w buffer type sa).1 = true ∧
        (TimestampInit.fill cfg o con w buffer type sa).2.log = sa.log ∧
        ((TimestampInit.fill cfg o con w buffer type sa).2.objAt w).handle = buffer ∧
        ((TimestampInit.fill cfg o con w buffer type sa).2.objAt w).hstate
          = OCI_OBJECT_FETCHED_CLEAN := by
      by_cases hc : con = 0 <;>
        simp [TimestampInit.fill, hc, hs, hs2, hb0, NULL, upd_same]
    obtain ⟨f1, f2, f3, f4⟩ := hfill
    have hT : TimestampInit cfg o con tmsp buffer type st
        = (w, (TimestampInit.fill cfg o con w buffer type sa).2) := by
      unfold TimestampInit
      rw [ha]
      dsimp only
      rw [if_pos rfl, f1]
      rfl
    rw [hT]
    exact ⟨rfl, f2, f3, f4⟩

/-- C22 in a fresh library with the wrapper allocated at 7: without buffer the descriptor 9
is allocated and the wrapper is tagged OCI_OBJECT_ALLOCATED; with the buffer 9 of the caller
no descriptor is allocated and the wrapper is tagged OCI_OBJECT_FETCHED_CLEAN. -/
theorem C22_witness :
    ALLOC_BUFFER (some 7) true NULL emptyState = (true, 7, (MemoryAlloc (some 7) emptyState).2) ∧
    (((MemoryAlloc (some 7) emptyState).2).objAt 7).hstate ≠ OCI_OBJECT_ALLOCATED_ARRAY ∧
    ((TimestampInit demoConfig { wrapper := some 7, descriptor := some 9 } 0 NULL NULL 1
        emptyState).2.objAt 7).handle = 9 ∧
    ((TimestampInit demoConfig { wrapper := some 7, descriptor := some 9 } 0 NULL NULL 1
        emptyState).2.objAt 7).hstate = OCI_OBJECT_ALLOCATED ∧
    (TimestampInit demoConfig { wrapper := some 7, descriptor := some 9 } 0 NULL NULL 1
        emptyState).2.log = [Event.alloc 7, Event.descAlloc 68 true] ∧
    (TimestampInit demoConfig { wrapper := some 7, descriptor := some 9 } 0 NULL 9 1
        emptyState).2.log = [Event.alloc 7] ∧
    ((TimestampInit demoConfig { wrapper := some 7, descriptor := some 9 } 0 NULL 9 1
        emptyState).2.objAt 7).hstate = OCI_OBJECT_FETCHED_CLEAN :=
  ⟨rfl, by decide,
    (((C22_TimestampInit_by_buffer demoConfig { wrapper := some 7, descriptor := some 9 } 0
      NULL NULL 1 emptyState 7 (MemoryAlloc (some 7) emptyState).2 rfl (by decide)).1 rfl).2.2
      9 rfl).2.1,
    by decide, by decide, by decide, by decide⟩

/-! ## callback.c: CallbackInBind -/

theorem upd_self {α : Type} (f : Nat → α) (a : Nat) : upd f a (f a) = f := by
  funext x
  by_cases h : x = a <;> simp [upd, h]

/-- The loop of CallbackInBind on an indicator array that is not null: it returns, and it
has stored -1 in the elements i to i + k - 1 and nothing else. -/
theorem CallbackInBind_loop_ok (inds : Ptr) (h : inds ≠ NULL) (k : Nat) :
    ∀ (i : Nat) (st : BindState),
      CallbackInBind.loop inds i k st =
        .ok { st with
              inds := upd st.inds inds
                        (fun j => if i ≤ j ∧ j < i + k then -1 else st.inds inds j) } := by
  induction k with
  | zero =>
    intro i st
    have : (fun j => if i ≤ j ∧ j < i + 0 then (-1 : Int) else st.inds inds j) = st.inds inds := by
      funext j
      rw [if_neg (by omega)]
    simp only [CallbackInBind.loop, this, upd_self]
  | succ k ih =>
    intro i st
    unfold CallbackInBind.loop
    rw [if_neg h, ih]
    have hFG : (fun j => if i + 1 ≤ j ∧ j < i + 1 + k then (-1 : Int)
          else upd (st.inds inds) i (-1) j) =
        (fun j => if i ≤ j ∧ j < i + (k + 1) then (-1 : Int) else st.inds inds j) := by
      funext j
      by_cases h1 : i + 1 ≤ j ∧ j < i + 1 + k
      · rw [if_pos h1, if_pos (by omega)]
      · rw [if_neg h1]
        by_cases h2 : j = i
        · subst h2
          rw [if_pos (by omega)]
          simp
        · rw [if_neg (by omega)]
          simp [upd, h2]
    simp only [upd_upd, upd_same, hFG]

/-- A call of CallbackInBind that passes the entry checks, on a bind whose indicator array
is allocated (and whose statement is, at iteration 0): it returns OCI_CONTINUE, and the
state differs from the one before by the indicators, the output variables and, at
iteration 0, the position of the bind and the counter of the statement. -/
theorem CallbackInBind_continue (cfg : CallbackConfig) (ictxp : Ptr) (iter index : Nat)
    (st : BindState) (h1 : ictxp ≠ NULL) (h2 : iter < (st.binds ictxp).buffer_count)
    (h3 : (st.binds ictxp).buffer_inds ≠ NULL)
    (h4 : iter = 0 → (st.binds ictxp).stmt ≠ NULL) :
    ∃ st', CallbackInBind cfg ictxp iter index st = .ok (.OCI_CONTINUE, st') ∧
      st'.inds = upd st.inds (st.binds ictxp).buffer_inds
        (fun j => if j < (st.binds ictxp).buffer_count then -1
                  else st.inds (st.binds ictxp).buffer_inds j) ∧
      st'.out = { st.out with bufpp := 0, alenp := 0, indp := (st.binds ictxp).buffer_inds,
                              piecep := cfg.OCI_ONE_PIECE } ∧
      st'.binds = (if iter = 0 then
          upd st.binds ictxp
            { st.binds ictxp with dynpos := (st.stmts (st.binds ictxp).stmt).dynidx }
        else st.binds) ∧
      st'.stmts = (if iter = 0 then
          upd st.stmts (st.binds ictxp).stmt
            { st.stmts (st.binds ictxp).stmt with
              dynidx := ((st.stmts (st.binds ictxp).stmt).dynidx + 1) % 2 ^ cfg.dynidx_bits }
        else st.stmts) ∧
      st'.rstsLen = st.rstsLen ∧ st'.rstsAt = st.rstsAt ∧ st'.rsAt = st.rsAt ∧
      st'.defAt = st.defAt ∧ st'.dataAt = st.dataAt := by
  have hf : (fun j => if 0 ≤ j ∧ j < 0 + (st.binds ictxp).buffer_count then (-1 : Int)
        else st.inds (st.binds ictxp).buffer_inds j) =
      (fun j => if j < (st.binds ictxp).buffer_count then (-1 : Int)
        else st.inds (st.binds ictxp).buffer_inds j) := by
    funext j
    simp
  unfold CallbackInBind
  rw [if_neg h1]
  dsimp only
  rw [if_neg (by omega), CallbackInBind_loop_ok _ h3, hf]
  dsimp only
  by_cases h0 : iter = 0
  · subst h0
    rw [if_pos rfl]
    unfold CallbackInBind.setup
    dsimp only
    rw [if_neg (h4 rfl)]
    dsimp only
    exact ⟨_, rfl, rfl, rfl, by simp, by simp, rfl, rfl, rfl, rfl, rfl⟩
  · rw [if_neg (fun e => h0 e.symm)]
    dsimp only
    exact ⟨_, rfl, rfl, rfl, by simp [h0], by simp [h0], rfl, rfl, rfl, rfl, rfl⟩

/-- C23: CallbackInBind checks its object and bounds before touching anything: with a null
bind context, or with iter not below the buffer count of the bind, it returns OCI_ERROR and
the state (indicators, output variables, binds, statements) is unchanged.  Otherwise, on a
bind whose indicator array is allocated (and whose statement is, when iter is 0), it returns
OCI_CONTINUE after setting each of the buffer.count indicators to -1, the buffer pointer to
null, the length to 0, the indicator pointer to the indicator array and the piece to
OCI_ONE_PIECE; the indicators beyond buffer.count and the return code variable are
untouched. -/
theorem C23_CallbackInBind_checks_first (cfg : CallbackConfig) (ictxp : Ptr) (iter index : Nat)
    (st : BindState) :
    ((ictxp = NULL ∨ (st.binds ictxp).buffer_count ≤ iter) →
      CallbackInBind cfg ictxp iter index st = .ok (.OCI_ERROR, st)) ∧
    (ictxp ≠ NULL → iter < (st.binds ictxp).buffer_count →
      (st.binds ictxp).buffer_inds ≠ NULL → (iter = 0 → (st.binds ictxp).stmt ≠ NULL) →
      ∃ st', CallbackInBind cfg ictxp iter index st = .ok (.OCI_CONTINUE, st') ∧
        (∀ i, i < (st.binds ictxp).buffer_count →
          st'.inds (st.binds ictxp).buffer_inds i = -1) ∧
        (∀ i, (st.binds ictxp).buffer_count ≤ i →
          st'.inds (st.binds ictxp).buffer_inds i = st.inds (st.binds ictxp).buffer_inds i) ∧
        st'.out.bufpp = NULL ∧ st'.out.alenp = 0 ∧
        st'.out.indp = (st.binds ictxp).buffer_inds ∧
        st'.out.piecep = cfg.OCI_ONE_PIECE ∧ st'.out.rcodep = st.out.rcodep) := by
  refine ⟨?_, ?_⟩
  · intro h
    unfold CallbackInBind
    by_cases h0 : ictxp = NULL
    · rw [if_pos h0]
    · rw [if_neg h0]
      dsimp only
      rcases h with h | h
      · exact absurd h h0
      · rw [if_pos h]
  · intro h1 h2 h3 h4
    obtain ⟨st', hr, hi, ho, -⟩ := CallbackInBind_continue cfg ictxp iter index st h1 h2 h3 h4
    refine ⟨st', hr, ?_, ?_, ?_, ?_, ?_, ?_, ?_⟩
    · intro i hi'
      rw [hi]
      simp [hi']
    · intro i hi'
      rw [hi]
      simp [Nat.not_lt.mpr hi']
    all_goals rw [ho]
    · rfl

/-- C23, witness: in the demo state, a call for the bind at 5 at iteration 1 returns
OCI_CONTINUE with the three indicators at -1, and a call at iteration 3 returns OCI_ERROR
and changes nothing. -/
theorem C23_witness :
    ((5 : Ptr) ≠ NULL ∧ 1 < (demoBinds.binds 5).buffer_count ∧
      (demoBinds.binds 5).buffer_inds ≠ NULL ∧ (demoBinds.binds 5).buffer_count ≤ 3) ∧
    CallbackInBind demoCallbackConfig 5 3 0 demoBinds = .ok (.OCI_ERROR, demoBinds) ∧
    ∃ st', CallbackInBind demoCallbackConfig 5 1 0 demoBinds = .ok (.OCI_CONTINUE, st') ∧
      (∀ i, i < (demoBinds.binds 5).buffer_count →
        st'.inds (demoBinds.binds 5).buffer_inds i = -1) ∧
      (∀ i, (demoBinds.binds 5).buffer_count ≤ i →
        st'.inds (demoBinds.binds 5).buffer_inds i =
          demoBinds.inds (demoBinds.binds 5).buffer_inds i) ∧
      st'.out.bufpp = NULL ∧ st'.out.alenp = 0 ∧
      st'.out.indp = (demoBinds.binds 5).buffer_inds ∧
      st'.out.piecep = demoCallbackConfig.OCI_ONE_PIECE ∧
      st'.out.rcodep = demoBinds.out.rcodep :=
  ⟨by decide,
    (C23_CallbackInBind_checks_first demoCallbackConfig 5 3 0 demoBinds).1
      (Or.inr (by decide)),
    (C23_CallbackInBind_checks_first demoCallbackConfig 5 1 0 demoBinds).2 (by decide)
      (by decide) (by decide) (by decide)⟩

/-- The calls of CallbackInBind at iteration 0 for pairwise distinct binds of one statement:
they all return; the counter of the statement has advanced by the number of binds, modulo
its range; the bind called in place j holds the position that is the old counter plus j,
modulo the range; the other binds are untouched. -/
theorem CallbackInBind_each_positions (cfg : CallbackConfig) (s : Ptr) :
    ∀ (bs : List Ptr) (st : BindState), bs.Nodup →
      (st.stmts s).dynidx < 2 ^ cfg.dynidx_bits →
      (∀ b ∈ bs, b ≠ NULL ∧ (st.binds b).stmt = s ∧ s ≠ NULL ∧ 0 < (st.binds b).buffer_count ∧
        (st.binds b).buffer_inds ≠ NULL) →
      ∃ st', CallbackInBind.each cfg bs st = .ok st' ∧
        (st'.stmts s).dynidx = ((st.stmts s).dynidx + bs.length) % 2 ^ cfg.dynidx_bits ∧
        (∀ j b, bs[j]? = some b →
          (st'.binds b).dynpos = ((st.stmts s).dynidx + j) % 2 ^ cfg.dynidx_bits) ∧
        (∀ b, b ∉ bs → st'.binds b = st.binds b) := by
  intro bs
  induction bs with
  | nil =>
    intro st _ hd _
    refine ⟨st, rfl, ?_, ?_, fun _ _ => rfl⟩
    · simp [Nat.mod_eq_of_lt hd]
    · intro j b hj
      simp at hj
  | cons b bs ih =>
    intro st hnd hd hb
    obtain ⟨hb0, hbs, hs, hbc, hbi⟩ := hb b (List.mem_cons_self _ _)
    obtain ⟨hbn, hnd'⟩ := List.nodup_cons.mp hnd
    obtain ⟨st1, hr, -, -, hbinds, hstmts, -⟩ :=
      CallbackInBind_continue cfg b 0 0 st hb0 hbc hbi (fun _ => by rw [hbs]; exact hs)
    rw [if_pos rfl] at hbinds hstmts
    rw [hbs] at hbinds hstmts
    have hR : 0 < 2 ^ cfg.dynidx_bits := Nat.pow_pos (by decide)
    have hd1 : (st1.stmts s).dynidx = ((st.stmts s).dynidx + 1) % 2 ^ cfg.dynidx_bits := by
      rw [hstmts]
      simp
    have hother : ∀ b', b' ≠ b → st1.binds b' = st.binds b' := by
      intro b' hne
      rw [hbinds]
      simp [upd, hne]
    obtain ⟨st', he, hidx, hpos, hframe⟩ := ih st1 hnd'
      (by rw [hd1]; exact Nat.mod_lt _ hR)
      (by
        intro b' hb'
        have hne : b' ≠ b := fun e => hbn (e ▸ hb')
        rw [hother b' hne]
        exact hb b' (List.mem_cons_of_mem _ hb'))
    refine ⟨st', ?_, ?_, ?_, ?_⟩
    · unfold CallbackInBind.each
      rw [hr]
      exact he
    · rw [hidx, hd1, Nat.mod_add_mod, List.length_cons]
      congr 1
      omega
    · intro j b' hj
      cases j with
      | zero =>
        simp only [List.getElem?_cons_zero, Option.some.injEq] at hj
        subst hj
        rw [hframe b hbn, hbinds]
        simp [Nat.mod_eq_of_lt hd]
      | succ j =>
        simp only [List.getElem?_cons_succ] at hj
        rw [hpos j b' hj, hd1, Nat.mod_add_mod]
        congr 1
        omega
    · intro b' hb'
      simp only [List.mem_cons, not_or] at hb'
      rw [hframe b' hb'.2, hother b' hb'.1]

/-- C24, counterexample: with a 16-bit counter at its largest value 65535, a call of
CallbackInBind at iteration 0 returns OCI_CONTINUE and leaves the counter at 0: it has not
increased by one; and two binds called in turn from the counter value 65535 receive the
positions 65535 and 0, which are not consecutive. -/
theorem C24_counterexample :
    (lastIndexBinds.stmts 6).dynidx = 65535 ∧
    bindCodeOf (CallbackInBind demoCallbackConfig 5 0 0 lastIndexBinds) = some .OCI_CONTINUE ∧
    ((bindStateOf (CallbackInBind demoCallbackConfig 5 0 0 lastIndexBinds)
      lastIndexBinds).stmts 6).dynidx = 0 ∧
    ((bindStateOf (CallbackInBind demoCallbackConfig 5 0 0 lastIndexBinds)
      lastIndexBinds).binds 5).dynpos = 65535 ∧
    ((bindStateOf (CallbackInBind demoCallbackConfig 8 0 0
      (bindStateOf (CallbackInBind demoCallbackConfig 5 0 0 lastIndexBinds) lastIndexBinds))
      lastIndexBinds).binds 8).dynpos = 0 := by
  decide

/-- C24, amended: CallbackInBind sets up the bind index from the statement counter only on
iteration 0: when iter = 0 the position dynpos of the bind becomes the previous value of
the counter dynidx of its statement and the counter increases by one modulo the range of
its unsigned type, that is by exactly one unless it held the largest value; when
0 < iter < buffer.count both are unchanged.  Hence k pairwise distinct binds of one
statement called at iteration 0 receive, in call order, the positions counter + j modulo
the range, which are consecutive and pairwise distinct when counter + k does not exceed the
range. -/
theorem C24_dynpos_by_iteration (cfg : CallbackConfig) (s : Ptr) (bs : List Ptr)
    (st : BindState) (hnd : bs.Nodup) (hd : (st.stmts s).dynidx < 2 ^ cfg.dynidx_bits)
    (hb : ∀ b ∈ bs, b ≠ NULL ∧ (st.binds b).stmt = s ∧ s ≠ NULL ∧
      0 < (st.binds b).buffer_count ∧ (st.binds b).buffer_inds ≠ NULL) :
    (∀ b ∈ bs, ∀ iter index, iter < (st.binds b).buffer_count →
      ∃ st', CallbackInBind cfg b iter index st = .ok (.OCI_CONTINUE, st') ∧
        (iter = 0 →
          (st'.binds b).dynpos = (st.stmts s).dynidx ∧
          (st'.stmts s).dynidx = ((st.stmts s).dynidx + 1) % 2 ^ cfg.dynidx_bits ∧
          ((st.stmts s).dynidx + 1 < 2 ^ cfg.dynidx_bits →
            (st'.stmts s).dynidx = (st.stmts s).dynidx + 1)) ∧
        (0 < iter → st'.binds = st.binds ∧ st'.stmts = st.stmts)) ∧
    ∃ st', CallbackInBind.each cfg bs st = .ok st' ∧
      (st'.stmts s).dynidx = ((st.stmts s).dynidx + bs.length) % 2 ^ cfg.dynidx_bits ∧
      (∀ j b, bs[j]? = some b →
        (st'.binds b).dynpos = ((st.stmts s).dynidx + j) % 2 ^ cfg.dynidx_bits) ∧
      ((st.stmts s).dynidx + bs.length ≤ 2 ^ cfg.dynidx_bits →
        (∀ j b, bs[j]? = some b → (st'.binds b).dynpos = (st.stmts s).dynidx + j) ∧
        ∀ (i j : Nat) (b c : Ptr), bs[i]? = some b → bs[j]? = some c → i ≠ j →
          (st'.binds b).dynpos ≠ (st'.binds c).dynpos) := by
  refine ⟨?_, ?_⟩
  · intro b hbm iter index hit
    obtain ⟨hb0, hbs, hs, -, hbi⟩ := hb b hbm
    obtain ⟨st', hr, -, -, hbinds, hstmts, -⟩ :=
      CallbackInBind_continue cfg b iter index st hb0 hit hbi (fun _ => by rw [hbs]; exact hs)
    rw [hbs] at hbinds hstmts
    refine ⟨st', hr, ?_, ?_⟩
    · intro h0
      rw [if_pos h0] at hbinds hstmts
      rw [hbinds, hstmts]
      refine ⟨by simp, by simp, ?_⟩
      intro hlt
      simp [Nat.mod_eq_of_lt hlt]
    · intro h0
      rw [if_neg (by omega)] at hbinds hstmts
      exact ⟨hbinds, hstmts⟩
  · obtain ⟨st', he, hidx, hpos, -⟩ := CallbackInBind_each_positions cfg s bs st hnd hd hb
    refine ⟨st', he, hidx, hpos, ?_⟩
    intro hle
    have hexact : ∀ j b, bs[j]? = some b →
        (st'.binds b).dynpos = (st.stmts s).dynidx + j := by
      intro j b hj
      have hjl : j < bs.length := by
        by_contra hge
        rw [List.getElem?_eq_none (by omega)] at hj
        simp at hj
      rw [hpos j b hj, Nat.mod_eq_of_lt (by omega)]
    refine ⟨hexact, ?_⟩
    intro i j b c hi hj hij
    rw [hexact i b hi, hexact j c hj]
    omega

/-- C24, witness: in the demo state the binds at 5 and at 8 of the statement at 6, called in
this order at iteration 0 from the counter value 0, receive the positions 0 and 1 and leave
the counter at 2. -/
theorem C24_witness :
    ((bindStateAfter (CallbackInBind.each demoCallbackConfig [5, 8] demoBinds)
        demoBinds).binds 5).dynpos = 0 ∧
    ((bindStateAfter (CallbackInBind.each demoCallbackConfig [5, 8] demoBinds)
        demoBinds).binds 8).dynpos = 1 ∧
    ∃ st', CallbackInBind.each demoCallbackConfig [5, 8] demoBinds = .ok st' ∧
      (st'.stmts 6).dynidx =
        ((demoBinds.stmts 6).dynidx + [5, 8].length) % 2 ^ demoCallbackConfig.dynidx_bits ∧
      (∀ j b, [5, 8][j]? = some b →
        (st'.binds b).dynpos =
          ((demoBinds.stmts 6).dynidx + j) % 2 ^ demoCallbackConfig.dynidx_bits) ∧
      ((demoBinds.stmts 6).dynidx + [5, 8].length ≤ 2 ^ demoCallbackConfig.dynidx_bits →
        (∀ j b, [5, 8][j]? = some b → (st'.binds b).dynpos = (demoBinds.stmts 6).dynidx + j) ∧
        ∀ (i j : Nat) (b c : Ptr), [5, 8][i]? = some b → [5, 8][j]? = some c → i ≠ j →
          (st'.binds b).dynpos ≠ (st'.binds c).dynpos) :=
  ⟨by decide, by decide,
    (C24_dynpos_by_iteration demoCallbackConfig 6 [5, 8] demoBinds (by decide) (by decide)
      (by decide)).2⟩

/-! ## callback.c: CallbackOutBind -/

theorem readRsts_ok (a : Ptr) (i : Nat) (st : BindState) (ha : a ≠ NULL)
    (hi : i < st.rstsLen a) : readRsts a i st = .ok (st.rstsAt a i) := by
  unfold readRsts
  rw [if_neg ha, if_neg (by omega)]

theorem writeRsts_ok (a : Ptr) (i : Nat) (v : Ptr) (st : BindState) (ha : a ≠ NULL)
    (hi : i < st.rstsLen a) :
    writeRsts a i v st = .ok { st with rstsAt := upd st.rstsAt a (upd (st.rstsAt a) i v) } := by
  unfold writeRsts
  rw [if_neg ha, if_neg (by omega)]

/-- The statements of CallbackOutBind for the first row of an iteration, when iter is below
nb_iters and the resultset array, if there is one, has at least nb_iters entries: they
return, and afterwards the resultset array, if there is one, has more than iter entries. -/
theorem CallbackOutBind_create_ok (o : OutBindOracle) (s : Ptr) (iter : Nat) (st : BindState)
    (h1 : iter < (st.stmts s).nb_iters)
    (h2 : (st.stmts s).rsts ≠ NULL → (st.stmts s).nb_iters ≤ st.rstsLen (st.stmts s).rsts) :
    ∃ b st2, CallbackOutBind.create o s iter st = .ok (b, st2) ∧
      ((st2.stmts s).rsts ≠ NULL → iter < st2.rstsLen (st2.stmts s).rsts) ∧
      (st2.stmts s).nb_rs = (st.stmts s).nb_iters ∧
      ((st.stmts s).rsts = NULL → (st2.stmts s).rsts ≠ NULL →
        st2.rstsLen (st2.stmts s).rsts = (st.stmts s).nb_iters) ∧
      st2.binds = st.binds := by
  unfold CallbackOutBind.create
  dsimp only
  by_cases hr : (st.stmts s).rsts = NULL
  · rw [if_pos hr]
    cases ho : o.rsts with
    | none =>
      dsimp only
      exact ⟨_, _, rfl, by simp [hr], by simp, by simp [hr], rfl⟩
    | some p =>
      dsimp only
      by_cases hp : p = NULL
      · rw [if_pos hp]
        dsimp only
        exact ⟨_, _, rfl, by simp [hr], by simp, by simp [hr], rfl⟩
      · rw [if_neg hp]
        dsimp only
        simp only [upd_same, if_true]
        rw [readRsts_ok _ _ _ hp (by simpa using h1)]
        dsimp only
        simp only [upd_same, if_true]
        cases hrows : o.rows with
        | none =>
          dsimp only
          exact ⟨_, _, rfl, by intro _; simpa using h1, by simp, by simp, rfl⟩
        | some rows =>
          dsimp only
          rw [writeRsts_ok _ _ _ _ hp (by simpa using h1)]
          dsimp only
          split
          · exact ⟨_, _, rfl, by intro _; simpa using h1, by simp, by simp, rfl⟩
          · exact ⟨_, _, rfl, by intro _; simpa using h1, by simp, by simp, rfl⟩
  · rw [if_neg hr]
    dsimp only
    have hlen : iter < st.rstsLen (st.stmts s).rsts := by
      have := h2 hr
      omega
    simp only [upd_same, if_true]
    rw [readRsts_ok _ _ _ hr (by simpa using hlen)]
    dsimp only
    split
    · cases hrows : o.rows with
      | none =>
        dsimp only
        exact ⟨_, _, rfl, by intro _; simpa using hlen, by simp,
          fun h => absurd h hr, rfl⟩
      | some rows =>
        dsimp only
        rw [writeRsts_ok _ _ _ _ hr (by simpa using hlen)]
        dsimp only
        split
        · exact ⟨_, _, rfl, by intro _; simpa using hlen, by simp,
            fun h => absurd h hr, rfl⟩
        · exact ⟨_, _, rfl, by intro _; simpa using hlen, by simp,
            fun h => absurd h hr, rfl⟩
    · exact ⟨_, _, rfl, by intro _; simpa using hlen, by simp,
        fun h => absurd h hr, rfl⟩

/-- The last statements of CallbackOutBind return when the resultset array, if there is
one, has more than iter entries. -/
theorem CallbackOutBind_finish_ok (cfg : CallbackConfig) (octxp : Ptr) (iter index : Nat)
    (b : Bool) (st : BindState)
    (h : (st.stmts (st.binds octxp).stmt).rsts ≠ NULL →
      iter < st.rstsLen (st.stmts (st.binds octxp).stmt).rsts) :
    ∃ c st', CallbackOutBind.finish cfg octxp iter index b st = .ok (c, st') ∧
      st'.stmts = st.stmts ∧ st'.rstsLen = st.rstsLen ∧ st'.binds = st.binds := by
  unfold CallbackOutBind.finish
  dsimp only
  split
  · exact ⟨_, _, rfl, rfl, rfl, rfl⟩
  · rename_i hr
    rw [readRsts_ok _ _ _ hr (h hr)]
    dsimp only
    split
    · exact ⟨_, _, rfl, rfl, rfl, rfl⟩
    · split
      · exact ⟨_, _, rfl, rfl, rfl, rfl⟩
      · exact ⟨_, _, rfl, rfl, rfl, rfl⟩

/-- C25, counterexample: a bind with three buffer entries of a statement prepared for one
iteration, without resultset array.  The call for iter = 2 and the first row passes the
entry checks, allocates a resultset array of nb_rs = nb_iters = 1 entry and then reads
entry 2 of it. -/
theorem C25_counterexample :
    (shortBinds.binds 5).buffer_count = 3 ∧ (shortBinds.stmts 6).nb_iters = 1 ∧
    (shortBinds.stmts 6).rsts = NULL ∧
    CallbackOutBind demoCallbackConfig { rsts := some 50, rows := some 4, resultset := 60 }
      5 2 0 shortBinds = .error .outOfBounds :=
  ⟨rfl, rfl, rfl, rfl⟩

/-- C25, amended: in CallbackOutBind, for every call that passes the entry checks (bind
non-null and iter < buffer.count) on a bind whose buffer.count does not exceed the nb_iters
of its statement, the resultset array being null or of at least nb_iters entries, the index
iter used to read and write the resultset array is within the entries of that array: no
access is out of bounds, the call returns when the statement is not null, and after a call
for the first row nb_rs = nb_iters, which is the number of entries of an array that the call
allocated. -/
theorem C25_CallbackOutBind_in_bounds (cfg : CallbackConfig) (o : OutBindOracle)
    (octxp : Ptr) (iter index : Nat) (st : BindState) (h0 : octxp ≠ NULL)
    (h1 : iter < (st.binds octxp).buffer_count)
    (h2 : (st.binds octxp).buffer_count ≤ (st.stmts (st.binds octxp).stmt).nb_iters)
    (h3 : (st.stmts (st.binds octxp).stmt).rsts ≠ NULL →
      (st.stmts (st.binds octxp).stmt).nb_iters ≤
        st.rstsLen (st.stmts (st.binds octxp).stmt).rsts) :
    CallbackOutBind cfg o octxp iter index st ≠ .error .outOfBounds ∧
    ((st.binds octxp).stmt ≠ NULL →
      ∃ c st', CallbackOutBind cfg o octxp iter index st = .ok (c, st') ∧
        ((st'.stmts (st.binds octxp).stmt).rsts ≠ NULL →
          iter < st'.rstsLen (st'.stmts (st.binds octxp).stmt).rsts) ∧
        (index = 0 →
          (st'.stmts (st.binds octxp).stmt).nb_rs =
            (st.stmts (st.binds octxp).stmt).nb_iters ∧
          ((st.stmts (st.binds octxp).stmt).rsts = NULL →
            (st'.stmts (st.binds octxp).stmt).rsts ≠ NULL →
            st'.rstsLen (st'.stmts (st.binds octxp).stmt).rsts =
              (st.stmts (st.binds octxp).stmt).nb_iters))) := by
  have key : (st.binds octxp).stmt ≠ NULL →
      ∃ c st', CallbackOutBind cfg o octxp iter index st = .ok (c, st') ∧
        ((st'.stmts (st.binds octxp).stmt).rsts ≠ NULL →
          iter < st'.rstsLen (st'.stmts (st.binds octxp).stmt).rsts) ∧
        (index = 0 →
          (st'.stmts (st.binds octxp).stmt).nb_rs =
            (st.stmts (st.binds octxp).stmt).nb_iters ∧
          ((st.stmts (st.binds octxp).stmt).rsts = NULL →
            (st'.stmts (st.binds octxp).stmt).rsts ≠ NULL →
            st'.rstsLen (st'.stmts (st.binds octxp).stmt).rsts =
              (st.stmts (st.binds octxp).stmt).nb_iters)) := by
    intro hs
    unfold CallbackOutBind
    rw [if_neg h0]
    dsimp only
    rw [if_neg (by omega), if_neg hs]
    by_cases hi : 0 = index
    · rw [if_pos hi]
      obtain ⟨b, st2, hc, hlen, hnb, hnew, hbinds⟩ := CallbackOutBind_create_ok o
        (st.binds octxp).stmt iter
        (CallbackOutBind.executed cfg (st.binds octxp).stmt st)
        (by simp only [CallbackOutBind.executed, upd_same]; omega)
        (by simpa [CallbackOutBind.executed] using h3)
      rw [hc]
      dsimp only
      have hb : (st2.binds octxp).stmt = (st.binds octxp).stmt := by rw [hbinds]; rfl
      obtain ⟨c, st', hf, f1, f2, f3⟩ := CallbackOutBind_finish_ok cfg octxp iter index b st2
        (by rw [hb]; exact hlen)
      refine ⟨c, st', hf, ?_, ?_⟩
      · rw [f1, f2]
        exact hlen
      · intro _
        rw [f1, f2]
        simp only [CallbackOutBind.executed, upd_same] at hnb hnew
        exact ⟨hnb, hnew⟩
    · rw [if_neg hi]
      dsimp only
      obtain ⟨c, st', hf, f1, f2, f3⟩ := CallbackOutBind_finish_ok cfg octxp iter index true
        (CallbackOutBind.executed cfg (st.binds octxp).stmt st)
        (by
          simp only [CallbackOutBind.executed, upd_same]
          intro hr
          have := h3 hr
          omega)
      refine ⟨c, st', hf, ?_, ?_⟩
      · rw [f1, f2]
        simp only [CallbackOutBind.executed, upd_same]
        intro hr
        have := h3 hr
        omega
      · intro h
        exact absurd h.symm hi
  refine ⟨?_, key⟩
  by_cases hs : (st.binds octxp).stmt = NULL
  · unfold CallbackOutBind
    rw [if_neg h0]
    dsimp only
    rw [if_neg (by omega), if_pos hs]
    intro h
    cases h
  · obtain ⟨c, st', hr, -⟩ := key hs
    rw [hr]
    intro h
    cases h

/-- C25, witness: in the demo state (bind at 5 with three buffer entries, statement prepared
for three iterations, no resultset array yet) the call for iter = 2 and the first row
allocates an array of three entries and returns OCI_CONTINUE. -/
theorem C25_witness :
    bindCodeOf (CallbackOutBind demoCallbackConfig
      { rsts := some 50, rows := some 4, resultset := 60 } 5 2 0 demoBinds) =
        some .OCI_CONTINUE ∧
    (5 ≠ NULL ∧ 2 < (demoBinds.binds 5).buffer_count ∧
      (demoBinds.binds 5).buffer_count ≤ (demoBinds.stmts (demoBinds.binds 5).stmt).nb_iters) ∧
    CallbackOutBind demoCallbackConfig { rsts := some 50, rows := some 4, resultset := 60 }
      5 2 0 demoBinds ≠ .error .outOfBounds :=
  ⟨by decide, by decide,
    (C25_CallbackOutBind_in_bounds demoCallbackConfig
      { rsts := some 50, rows := some 4, resultset := 60 } 5 2 0 demoBinds (by decide)
      (by decide) (by decide) (by decide)).1⟩

/-! ## Change notifications -/

theorem NotifyState.setEvent_type (st : NotifyState) (sub : Ptr) (e : OCI_Event) :
    ((st.setEvent sub e).subs sub).type = (st.subs sub).type := by
  simp [NotifyState.setEvent, upd_same]

theorem NotifyState.setEvent_event (st : NotifyState) (sub : Ptr) (e : OCI_Event) :
    ((st.setEvent sub e).subs sub).event = e := by
  simp [NotifyState.setEvent, upd_same]

/-- The loop over the row changes calls the handler once per row, with the subscription and
the notification kind that it found, and keeps both. -/
theorem CallbackNotifyChanges_rows_calls (sub : Ptr) (rs : List RowChange) :
    ∀ st : NotifyState, ∃ new : List (Ptr × OCI_Event),
      (CallbackNotifyChanges.rows sub rs st).calls = st.calls ++ new ∧
      new.length = rs.length ∧
      ((CallbackNotifyChanges.rows sub rs st).subs sub).type = (st.subs sub).type ∧
      ((CallbackNotifyChanges.rows sub rs st).subs sub).event.type
        = (st.subs sub).event.type ∧
      ∀ c ∈ new, c.1 = sub ∧ c.2.type = (st.subs sub).event.type := by
  induction rs with
  | nil => intro st; exact ⟨[], by simp [CallbackNotifyChanges.rows], rfl, rfl, rfl, by simp⟩
  | cons r rs ih =>
    intro st
    obtain ⟨new, h1, h2, h3, h4, h5⟩ := ih ((st.setEvent sub
      (CallbackNotifyChanges.rowEvent r (st.subs sub).event)).handler sub)
    have ht : ∀ e : OCI_Event, (((st.setEvent sub e).handler sub).subs sub).type
        = (st.subs sub).type := fun e => NotifyState.setEvent_type st sub e
    have he : ∀ e : OCI_Event, (((st.setEvent sub e).handler sub).subs sub).event = e :=
      fun e => NotifyState.setEvent_event st sub e
    have hty : (CallbackNotifyChanges.rowEvent r (st.subs sub).event).type
        = (st.subs sub).event.type := rfl
    rw [ht] at h3
    rw [he, hty] at h4 h5
    refine ⟨(sub, CallbackNotifyChanges.rowEvent r (st.subs sub).event) :: new,
      ?_, ?_, h3, h4, ?_⟩
    · show (CallbackNotifyChanges.rows sub rs _).calls = _
      rw [h1]
      simp [NotifyState.handler, NotifyState.setEvent, upd_same]
    · simp [h2]
    · intro c hc
      rcases List.mem_cons.mp hc with hc | hc
      · subst hc; exact ⟨rfl, rfl⟩
      · exact h5 c hc

/-- One iteration of the loop over the tables calls the handler once per reported row and
once when no row is reported. -/
theorem CallbackNotifyChanges_table_calls (sub : Ptr) (t : TableChange) (st : NotifyState) :
    ∃ new : List (Ptr × OCI_Event),
      (CallbackNotifyChanges.table sub t st).calls = st.calls ++ new ∧
      new.length = max 1 (reportedRows (st.subs sub).type t) ∧
      ((CallbackNotifyChanges.table sub t st).subs sub).type = (st.subs sub).type ∧
      ((CallbackNotifyChanges.table sub t st).subs sub).event.type
        = (st.subs sub).event.type ∧
      ∀ c ∈ new, c.1 = sub ∧ c.2.type = (st.subs sub).event.type := by
  unfold CallbackNotifyChanges.table reportedRows
  dsimp only
  generalize he2 : CallbackNotifyChanges.tableEvent t (st.subs sub).event = e2
  have het : e2.type = (st.subs sub).event.type := by rw [← he2]; rfl
  rw [NotifyState.setEvent_type]
  have hone : ∃ new : List (Ptr × OCI_Event),
      ((st.setEvent sub e2).handler sub).calls = st.calls ++ new ∧ new.length = 1 ∧
      (((st.setEvent sub e2).handler sub).subs sub).type = (st.subs sub).type ∧
      (((st.setEvent sub e2).handler sub).subs sub).event.type = (st.subs sub).event.type ∧
      ∀ c ∈ new, c.1 = sub ∧ c.2.type = (st.subs sub).event.type := by
    refine ⟨[(sub, e2)], ?_, rfl, NotifyState.setEvent_type st sub e2, ?_, ?_⟩
    · simp [NotifyState.handler, NotifyState.setEvent, upd_same]
    · show ((st.setEvent sub e2).subs sub).event.type = _
      rw [NotifyState.setEvent_event, het]
    · intro c hc
      rw [List.mem_singleton] at hc
      subst hc
      exact ⟨rfl, het⟩
  by_cases hf : Nat.land (st.subs sub).type OCI_CNT_ROWS ≠ 0
  · rw [if_pos hf, if_pos hf]
    cases hr : t.rows with
    | none => simpa using hone
    | some rs =>
      dsimp only
      obtain ⟨new, h1, h2, h3, h4, h5⟩ := CallbackNotifyChanges_rows_calls sub rs
        (st.setEvent sub e2)
      rw [NotifyState.setEvent_type] at h3
      rw [NotifyState.setEvent_event, het] at h4 h5
      cases rs with
      | nil => simpa [CallbackNotifyChanges.rows] using hone
      | cons r rs =>
        rw [if_neg (by simp)]
        refine ⟨new, ?_, ?_, h3, h4, h5⟩
        · rw [h1]; rfl
        · rw [h2]; simp
  · rw [if_neg hf, if_neg hf]
    simpa using hone

/-- The loop over the tables calls the handler, per table, once per reported row and once
when no row is reported. -/
theorem CallbackNotifyChanges_tables_calls (sub : Ptr) (ts : List TableChange) :
    ∀ st : NotifyState, ∃ new : List (Ptr × OCI_Event),
      (CallbackNotifyChanges.tables sub ts st).calls = st.calls ++ new ∧
      new.length = (ts.map (fun t => max 1 (reportedRows (st.subs sub).type t))).sum ∧
      ∀ c ∈ new, c.1 = sub ∧ c.2.type = (st.subs sub).event.type := by
  induction ts with
  | nil => intro st; exact ⟨[], by simp [CallbackNotifyChanges.tables], rfl, by simp⟩
  | cons t ts ih =>
    intro st
    obtain ⟨n1, a1, a2, a3, a4, a5⟩ := CallbackNotifyChanges_table_calls sub t st
    obtain ⟨n2, b1, b2, b3⟩ := ih (CallbackNotifyChanges.table sub t st)
    rw [a3] at b2
    rw [a4] at b3
    refine ⟨n1 ++ n2, ?_, ?_, ?_⟩
    · show (CallbackNotifyChanges.tables sub ts _).calls = _
      rw [b1, a1, List.append_assoc]
    · rw [List.length_append, a2, b2]; simp
    · intro c hc
      rcases List.mem_append.mp hc with hc | hc
      · exact a5 c hc
      · exact b3 c hc

theorem newCalls_append (st st2 : NotifyState) (new : List (Ptr × OCI_Event))
    (h : st2.calls = st.calls ++ new) : newCalls st st2 = new := by
  simp [newCalls, h]

/-- The kind of the event after the switch on the notification kind. -/
theorem CallbackNotifyChanges_accept_type (subType type : Nat) (e : OCI_Event) :
    (CallbackNotifyChanges.accept subType type e).type
      = if ((type = OCI_EVENT_STARTUP ∨ type = OCI_EVENT_SHUTDOWN
              ∨ type = OCI_EVENT_SHUTDOWN_ANY) ∧ Nat.land subType OCI_CNT_DATABASES ≠ 0)
            ∨ type = OCI_EVENT_DEREG
            ∨ (type = OCI_EVENT_OBJCHANGE ∧ Nat.land subType OCI_CNT_OBJECTS ≠ 0)
        then type else e.type := by
  unfold CallbackNotifyChanges.accept
  by_cases h1 : type = OCI_EVENT_STARTUP ∨ type = OCI_EVENT_SHUTDOWN
      ∨ type = OCI_EVENT_SHUTDOWN_ANY
  · have h2 : type ≠ OCI_EVENT_DEREG := by
      rcases h1 with h | h | h <;> rw [h] <;> decide
    have h3 : type ≠ OCI_EVENT_OBJCHANGE := by
      rcases h1 with h | h | h <;> rw [h] <;> decide
    rw [if_pos h1]
    by_cases hf : Nat.land subType OCI_CNT_DATABASES ≠ 0
    · rw [if_pos hf, if_pos (Or.inl ⟨h1, hf⟩)]
    · rw [if_neg hf, if_neg]
      rintro (⟨_, h⟩ | h | ⟨h, _⟩)
      · exact hf h
      · exact h2 h
      · exact h3 h
  · rw [if_neg h1]
    by_cases h2 : type = OCI_EVENT_DEREG
    · rw [if_pos h2, if_pos (Or.inr (Or.inl h2))]
    · rw [if_neg h2]
      by_cases h3 : type = OCI_EVENT_OBJCHANGE
      · rw [if_pos h3]
        by_cases hf : Nat.land subType OCI_CNT_OBJECTS ≠ 0
        · rw [if_pos hf, if_pos (Or.inr (Or.inr ⟨h3, hf⟩))]
        · rw [if_neg hf, if_neg]
          rintro (⟨h, _⟩ | h | ⟨_, h⟩)
          · exact h1 h
          · exact h2 h
          · exact hf h
      · rw [if_neg h3, if_neg]
        rintro (⟨h, _⟩ | h | ⟨h, _⟩)
        · exact h1 h
        · exact h2 h
        · exact h3 h

/-- What CallbackNotifyChanges adds to the calls of handlers, for a subscription that is not
null: the calls of the loop over the tables when the event received the kind object change,
one call when it received another kind, none when it received no kind. -/
theorem CallbackNotifyChanges_calls (oci_ctx : Ptr) (desc : ChangeDescriptor)
    (st : NotifyState) (h0 : oci_ctx ≠ NULL) :
    (CallbackNotifyChanges oci_ctx desc st).1 = OCI_Code.OCI_SUCCESS ∧
    ∃ new : List (Ptr × OCI_Event),
      (CallbackNotifyChanges oci_ctx desc st).2.calls = st.calls ++ new ∧
      (∀ c ∈ new, c.1 = oci_ctx ∧ c.2.type
          = (CallbackNotifyChanges.accept (st.subs oci_ctx).type desc.nfytype
              { EventReset (st.subs oci_ctx).event with dbname := some desc.dbname }).type) ∧
      new.length
        = if OCI_EVENT_OBJCHANGE
              = (CallbackNotifyChanges.accept (st.subs oci_ctx).type desc.nfytype
                  { EventReset (st.subs oci_ctx).event with dbname := some desc.dbname }).type
          then ((desc.tables.getD []).map
                  (fun t => max 1 (reportedRows (st.subs oci_ctx).type t))).sum
          else if (CallbackNotifyChanges.accept (st.subs oci_ctx).type desc.nfytype
                  { EventReset (st.subs oci_ctx).event with dbname := some desc.dbname }).type
                > 0
          then 1 else 0 := by
  unfold CallbackNotifyChanges
  rw [if_neg h0]
  dsimp only
  generalize CallbackNotifyChanges.accept (st.subs oci_ctx).type desc.nfytype
    { EventReset (st.subs oci_ctx).event with dbname := some desc.dbname } = e2
  by_cases h1 : OCI_EVENT_OBJCHANGE = e2.type
  · rw [if_pos h1, if_pos h1]
    cases ht : desc.tables with
    | none => exact ⟨rfl, [], by simp [NotifyState.setEvent], by simp, by simp⟩
    | some ts =>
      obtain ⟨new, a1, a2, a3⟩ := CallbackNotifyChanges_tables_calls oci_ctx ts
        (st.setEvent oci_ctx e2)
      rw [NotifyState.setEvent_type] at a2
      rw [NotifyState.setEvent_event] at a3
      exact ⟨rfl, new, a1, a3, by simpa using a2⟩
  · rw [if_neg h1, if_neg h1]
    by_cases h2 : e2.type > 0
    · rw [if_pos h2, if_pos h2]
      refine ⟨rfl, [(oci_ctx, e2)], ?_, ?_, rfl⟩
      · simp [NotifyState.handler, NotifyState.setEvent, upd_same]
      · intro c hc
        rw [List.mem_singleton] at hc
        subst hc
        exact ⟨rfl, rfl⟩
    · rw [if_neg h2, if_neg h2]
      exact ⟨rfl, [], by simp [NotifyState.setEvent], by simp, rfl⟩

/-- The kind of the event after EventReset and the switch on the notification kind: the kind
of the notification when the subscription registered for it, else none. -/
theorem CallbackNotifyChanges_accept_reset (subType type : Nat) (e : OCI_Event)
    (db : OText) :
    (CallbackNotifyChanges.accept subType type
        { EventReset e with dbname := some db }).type
      = if ((type = OCI_EVENT_STARTUP ∨ type = OCI_EVENT_SHUTDOWN
              ∨ type = OCI_EVENT_SHUTDOWN_ANY) ∧ Nat.land subType OCI_CNT_DATABASES ≠ 0)
            ∨ type = OCI_EVENT_DEREG
            ∨ (type = OCI_EVENT_OBJCHANGE ∧ Nat.land subType OCI_CNT_OBJECTS ≠ 0)
        then type else 0 := by
  rw [CallbackNotifyChanges_accept_type]
  rfl

/-- C26: CallbackNotifyChanges returns OCI_SUCCESS in every case; with a null subscription it
changes nothing and calls no handler; else it calls the handler of this subscription only,
with the kind of the notification, and only for a kind that the subscription registered for:
a startup, shutdown or shutdown-any notification gives one call when the subscription type
has the flag OCI_CNT_DATABASES and none otherwise, a deregistration gives one call, an object
change gives none when the flag OCI_CNT_OBJECTS is missing, and every other kind gives
none. -/
theorem C26_CallbackNotifyChanges_dispatch (oci_ctx : Ptr) (desc : ChangeDescriptor)
    (st : NotifyState) :
    (CallbackNotifyChanges oci_ctx desc st).1 = OCI_Code.OCI_SUCCESS ∧
    (oci_ctx = NULL →
      CallbackNotifyChanges oci_ctx desc st = (OCI_Code.OCI_SUCCESS, st) ∧
      newCalls st (CallbackNotifyChanges oci_ctx desc st).2 = []) ∧
    (oci_ctx ≠ NULL →
      (CallbackNotifyChanges oci_ctx desc st).2.calls
        = st.calls ++ newCalls st (CallbackNotifyChanges oci_ctx desc st).2 ∧
      (desc.nfytype = OCI_EVENT_STARTUP ∨ desc.nfytype = OCI_EVENT_SHUTDOWN
          ∨ desc.nfytype = OCI_EVENT_SHUTDOWN_ANY →
        (newCalls st (CallbackNotifyChanges oci_ctx desc st).2).length
          = if Nat.land (st.subs oci_ctx).type OCI_CNT_DATABASES ≠ 0 then 1 else 0) ∧
      (desc.nfytype = OCI_EVENT_DEREG →
        (newCalls st (CallbackNotifyChanges oci_ctx desc st).2).length = 1) ∧
      (desc.nfytype = OCI_EVENT_OBJCHANGE →
        Nat.land (st.subs oci_ctx).type OCI_CNT_OBJECTS = 0 →
        newCalls st (CallbackNotifyChanges oci_ctx desc st).2 = []) ∧
      (desc.nfytype ≠ OCI_EVENT_STARTUP → desc.nfytype ≠ OCI_EVENT_SHUTDOWN →
        desc.nfytype ≠ OCI_EVENT_SHUTDOWN_ANY → desc.nfytype ≠ OCI_EVENT_DEREG →
        desc.nfytype ≠ OCI_EVENT_OBJCHANGE →
        newCalls st (CallbackNotifyChanges oci_ctx desc st).2 = []) ∧
      (∀ c ∈ newCalls st (CallbackNotifyChanges oci_ctx desc st).2,
        c.1 = oci_ctx ∧ c.2.type = desc.nfytype ∧
        (((desc.nfytype = OCI_EVENT_STARTUP ∨ desc.nfytype = OCI_EVENT_SHUTDOWN
              ∨ desc.nfytype = OCI_EVENT_SHUTDOWN_ANY)
            ∧ Nat.land (st.subs oci_ctx).type OCI_CNT_DATABASES ≠ 0)
          ∨ desc.nfytype = OCI_EVENT_DEREG
          ∨ (desc.nfytype = OCI_EVENT_OBJCHANGE
            ∧ Nat.land (st.subs oci_ctx).type OCI_CNT_OBJECTS ≠ 0)))) := by
  refine ⟨?_, ?_, ?_⟩
  · unfold CallbackNotifyChanges
    dsimp only
    split
    · rfl
    · split
      · split <;> rfl
      · split <;> rfl
  · intro h
    have h1 : CallbackNotifyChanges oci_ctx desc st = (OCI_Code.OCI_SUCCESS, st) := by
      unfold CallbackNotifyChanges
      rw [if_pos h]
    rw [h1]
    exact ⟨rfl, by simp [newCalls]⟩
  · intro h0
    obtain ⟨_, new, a1, a2, a3⟩ := CallbackNotifyChanges_calls oci_ctx desc st h0
    rw [newCalls_append st _ new a1]
    rw [CallbackNotifyChanges_accept_reset] at a2 a3
    refine ⟨a1, ?_, ?_, ?_, ?_, ?_⟩
    · intro hk
      have h6 : OCI_EVENT_OBJCHANGE ≠ desc.nfytype := by
        rcases hk with h | h | h <;> rw [h] <;> decide
      have hp : desc.nfytype > 0 := by
        rcases hk with h | h | h <;> rw [h] <;> decide
      have h5 : desc.nfytype ≠ OCI_EVENT_DEREG := by
        rcases hk with h | h | h <;> rw [h] <;> decide
      rw [a3]
      by_cases hf : Nat.land (st.subs oci_ctx).type OCI_CNT_DATABASES ≠ 0
      · rw [if_pos (Or.inl ⟨hk, hf⟩), if_neg h6, if_pos hp, if_pos hf]
      · have hn : ¬ (((desc.nfytype = OCI_EVENT_STARTUP ∨ desc.nfytype = OCI_EVENT_SHUTDOWN
              ∨ desc.nfytype = OCI_EVENT_SHUTDOWN_ANY)
              ∧ Nat.land (st.subs oci_ctx).type OCI_CNT_DATABASES ≠ 0)
            ∨ desc.nfytype = OCI_EVENT_DEREG
            ∨ (desc.nfytype = OCI_EVENT_OBJCHANGE
              ∧ Nat.land (st.subs oci_ctx).type OCI_CNT_OBJECTS ≠ 0)) := by
          rintro (⟨_, h⟩ | h | ⟨h, _⟩)
          · exact hf h
          · exact h5 h
          · exact h6 h.symm
        rw [if_neg hn, if_neg (by decide), if_neg (by decide), if_neg hf]
    · intro hk
      rw [a3, if_pos (Or.inr (Or.inl hk)), hk]
      rfl
    · intro hk hf
      have hn : ¬ (((desc.nfytype = OCI_EVENT_STARTUP ∨ desc.nfytype = OCI_EVENT_SHUTDOWN
            ∨ desc.nfytype = OCI_EVENT_SHUTDOWN_ANY)
            ∧ Nat.land (st.subs oci_ctx).type OCI_CNT_DATABASES ≠ 0)
          ∨ desc.nfytype = OCI_EVENT_DEREG
          ∨ (desc.nfytype = OCI_EVENT_OBJCHANGE
            ∧ Nat.land (st.subs oci_ctx).type OCI_CNT_OBJECTS ≠ 0)) := by
        rw [hk]
        rintro (⟨h, _⟩ | h | ⟨_, h⟩)
        · revert h; decide
        · revert h; decide
        · exact h hf
      rw [if_neg hn, if_neg (by decide), if_neg (by decide)] at a3
      exact List.length_eq_zero.mp a3
    · intro k1 k2 k3 k5 k6
      have hn : ¬ (((desc.nfytype = OCI_EVENT_STARTUP ∨ desc.nfytype = OCI_EVENT_SHUTDOWN
            ∨ desc.nfytype = OCI_EVENT_SHUTDOWN_ANY)
            ∧ Nat.land (st.subs oci_ctx).type OCI_CNT_DATABASES ≠ 0)
          ∨ desc.nfytype = OCI_EVENT_DEREG
          ∨ (desc.nfytype = OCI_EVENT_OBJCHANGE
            ∧ Nat.land (st.subs oci_ctx).type OCI_CNT_OBJECTS ≠ 0)) := by
        rintro (⟨h | h | h, _⟩ | h | ⟨h, _⟩)
        · exact k1 h
        · exact k2 h
        · exact k3 h
        · exact k5 h
        · exact k6 h
      rw [if_neg hn, if_neg (by decide), if_neg (by decide)] at a3
      exact List.length_eq_zero.mp a3
    · intro c hc
      by_cases hr : (((desc.nfytype = OCI_EVENT_STARTUP ∨ desc.nfytype = OCI_EVENT_SHUTDOWN
            ∨ desc.nfytype = OCI_EVENT_SHUTDOWN_ANY)
            ∧ Nat.land (st.subs oci_ctx).type OCI_CNT_DATABASES ≠ 0)
          ∨ desc.nfytype = OCI_EVENT_DEREG
          ∨ (desc.nfytype = OCI_EVENT_OBJCHANGE
            ∧ Nat.land (st.subs oci_ctx).type OCI_CNT_OBJECTS ≠ 0))
      · have hc2 := a2 c hc
        rw [if_pos hr] at hc2
        exact ⟨hc2.1, hc2.2, hr⟩
      · rw [if_neg hr, if_neg (by decide), if_neg (by decide)] at a3
        rw [List.length_eq_zero.mp a3] at hc
        exact absurd hc (List.not_mem_nil c)

/-- C26 at a subscription without the flag OCI_CNT_DATABASES that receives a deregistration:
the handler is called once. -/
theorem C26_witness :
    (9 : Ptr) ≠ NULL ∧ demoDereg.nfytype = OCI_EVENT_DEREG ∧
    (newCalls demoNotify (CallbackNotifyChanges 9 demoDereg demoNotify).2).length = 1 :=
  ⟨by decide, rfl,
    ((C26_CallbackNotifyChanges_dispatch 9 demoDereg demoNotify).2.2 (by decide)).2.2.1 rfl⟩

/-- C27: for an object change notification that the subscription registered for, the handler
is called, per reported table, once per reported row and once when no row is reported: with
r the number of reported rows of a table (0 when the subscription did not request row details
or the table has no row collection), the number of calls is the sum of max 1 r over the
tables, and no table collection gives no call. -/
theorem C27_handler_calls_per_table (oci_ctx : Ptr) (desc : ChangeDescriptor)
    (st : NotifyState) (h0 : oci_ctx ≠ NULL) (h1 : desc.nfytype = OCI_EVENT_OBJCHANGE)
    (h2 : Nat.land (st.subs oci_ctx).type OCI_CNT_OBJECTS ≠ 0) :
    (CallbackNotifyChanges oci_ctx desc st).2.calls
      = st.calls ++ newCalls st (CallbackNotifyChanges oci_ctx desc st).2 ∧
    (newCalls st (CallbackNotifyChanges oci_ctx desc st).2).length
      = ((desc.tables.getD []).map
          (fun t => max 1 (reportedRows (st.subs oci_ctx).type t))).sum := by
  obtain ⟨_, new, a1, _, a3⟩ := CallbackNotifyChanges_calls oci_ctx desc st h0
  rw [newCalls_append st _ new a1]
  rw [CallbackNotifyChanges_accept_reset, if_pos (Or.inr (Or.inr ⟨h1, h2⟩)),
    if_pos h1.symm] at a3
  exact ⟨a1, a3⟩

/-- C27 at a notification with three tables, of two rows, without row collection and with an
empty row collection: four calls. -/
theorem C27_witness :
    (9 : Ptr) ≠ NULL ∧ demoChange.nfytype = OCI_EVENT_OBJCHANGE ∧
    Nat.land (demoNotify.subs 9).type OCI_CNT_OBJECTS ≠ 0 ∧
    (newCalls demoNotify (CallbackNotifyChanges 9 demoChange demoNotify).2).length
      = ((demoChange.tables.getD []).map
          (fun t => max 1 (reportedRows (demoNotify.subs 9).type t))).sum ∧
    ((demoChange.tables.getD []).map
        (fun t => max 1 (reportedRows (demoNotify.subs 9).type t))).sum = 4 :=
  ⟨by decide, rfl, by decide,
    (C27_handler_calls_per_table 9 demoChange demoNotify (by decide) rfl (by decide)).2,
    by decide⟩

/-! ## High availability events -/

/-- TimestampInit on no wrapper and a buffer that is not null: when the wrapper cannot be
allocated nothing changes; else the wrapper is a new block that holds the buffer as a
library-fetched handle, and nothing but the allocation is logged. -/
theorem TimestampInit_fetched (cfg : Config) (o : TimestampOracle) (con buffer : Ptr)
    (type : Nat) (st : State) (hb : buffer ≠ NULL) :
    (TimestampInit cfg o con NULL buffer type st = (NULL, st)) ∨
    (∃ w, o.wrapper = some w ∧ w ≠ NULL ∧ w ∉ st.live ∧
      (TimestampInit cfg o con NULL buffer type st).1 = w ∧
      (TimestampInit cfg o con NULL buffer type st).2.live = w :: st.live ∧
      (TimestampInit cfg o con NULL buffer type st).2.log = st.log ++ [Event.alloc w] ∧
      (TimestampInit cfg o con NULL buffer type st).2.timestamp_enabled
        = st.timestamp_enabled ∧
      ((TimestampInit cfg o con NULL buffer type st).2.objAt w).handle = buffer ∧
      ((TimestampInit cfg o con NULL buffer type st).2.objAt w).hstate
        = OCI_OBJECT_FETCHED_CLEAN) := by
  cases ho : o.wrapper with
  | none =>
    left
    simp [TimestampInit, ALLOC_BUFFER, MemoryAlloc, ho, NULL]
  | some w =>
    by_cases hw : w ≠ NULL ∧ w ∉ st.live
    · right
      have hw0 : w ≠ 0 := hw.1
      have hb0 : buffer ≠ 0 := hb
      refine ⟨w, rfl, hw.1, hw.2, ?_⟩
      by_cases hc : con = 0 <;>
        simp [TimestampInit, TimestampInit.fill, ALLOC_BUFFER, MemoryAlloc, ho, NULL, hw0,
          hw.2, hc, hb0, upd_same, OCI_Timestamp.zero, OCI_OBJECT_ALLOCATED_ARRAY,
          OCI_OBJECT_FETCHED_CLEAN]
    · left
      have hw2 : ¬ (¬ w = 0 ∧ w ∉ st.live) := hw
      simp [TimestampInit, ALLOC_BUFFER, MemoryAlloc, ho, NULL, hw2]

/-- C28: ProcHAEventInvoke calls the handler exactly once, with the connection, the source and
the status of the event, when the connection is not null and its server handle is the one of
the event, and not at all otherwise (then nothing changes).  When the event carries a
timestamp descriptor, no native descriptor is released; and when timestamps are supported
(the caller CallbackHAEvent requires a runtime client that supports them) and the wrapper is
allocated at w, the handler receives w while w is live and holds the descriptor of the event
as a library-fetched handle, and afterwards the only further event is the release of w. -/
theorem C28_ProcHAEventInvoke_once (cfg : Config) (o : TimestampOracle) (con_svr : Ptr → Ptr)
    (con : Ptr) (ha_params : HAEventParams) (st : State) :
    (con ≠ NULL ∧ con_svr con = ha_params.srvhp →
      ∃ t s1, (ProcHAEventInvoke cfg o con_svr con ha_params st).1
        = [({ con := con, source := ha_params.source, event := ha_params.event, tmsp := t },
            s1)]) ∧
    (¬ (con ≠ NULL ∧ con_svr con = ha_params.srvhp) →
      ProcHAEventInvoke cfg o con_svr con ha_params st = ([], st)) ∧
    (ha_params.dthp ≠ NULL →
      (∀ e ∈ newEvents st (ProcHAEventInvoke cfg o con_svr con ha_params st).2,
        ∀ h type, e ≠ Event.descFree h type) ∧
      (con ≠ NULL → con_svr con = ha_params.srvhp → st.timestamp_enabled = true →
        ∀ w, o.wrapper = some w → w ≠ NULL → w ∉ st.live →
          ∃ s1, (ProcHAEventInvoke cfg o con_svr con ha_params st).1
              = [({ con := con, source := ha_params.source, event := ha_params.event,
                    tmsp := w }, s1)] ∧
            s1.live = w :: st.live ∧ s1.log = st.log ++ [Event.alloc w] ∧
            (s1.objAt w).handle = ha_params.dthp ∧
            (s1.objAt w).hstate = OCI_OBJECT_FETCHED_CLEAN ∧
            (ProcHAEventInvoke cfg o con_svr con ha_params st).2.log
              = st.log ++ [Event.alloc w, Event.free w] ∧
            (ProcHAEventInvoke cfg o con_svr con ha_params st).2.live = st.live)) := by
  refine ⟨?_, ?_, ?_⟩
  · intro h
    unfold ProcHAEventInvoke
    dsimp only
    rw [if_pos h]
    dsimp only
    split <;> exact ⟨_, _, rfl⟩
  · intro h
    unfold ProcHAEventInvoke
    dsimp only
    rw [if_neg h]
    rfl
  · intro hd
    by_cases h : con ≠ NULL ∧ con_svr con = ha_params.srvhp
    · rcases TimestampInit_fetched cfg o NULL ha_params.dthp OCI_TIMESTAMP st hd with
        ht | ⟨w, ho, hw, hl, t1, t2, t3, t4, t5, t6⟩
      · have hr : (ProcHAEventInvoke cfg o con_svr con ha_params st).2 = st := by
          unfold ProcHAEventInvoke
          dsimp only
          rw [if_pos h, ht]
          rfl
        rw [hr]
        refine ⟨by simp [newEvents], ?_⟩
        intro _ _ _ w ho hw hl
        exfalso
        have h1 : (TimestampInit cfg o NULL NULL ha_params.dthp OCI_TIMESTAMP st).1 = w := by
          have hw0 : w ≠ 0 := hw
          have hd0 : ha_params.dthp ≠ 0 := hd
          simp [TimestampInit, TimestampInit.fill, ALLOC_BUFFER, MemoryAlloc, ho, NULL, hw0,
            hl, hd0, upd_same, OCI_Timestamp.zero, OCI_OBJECT_ALLOCATED_ARRAY]
        rw [ht] at h1
        exact hw h1.symm
      · generalize hT : TimestampInit cfg o NULL NULL ha_params.dthp OCI_TIMESTAMP st = T
          at t1 t2 t3 t4 t5 t6
        have hw0 : ¬ w = 0 := hw
        have hlog : (ProcHAEventInvoke cfg o con_svr con ha_params st).2.log
            = if st.timestamp_enabled then st.log ++ [Event.alloc w, Event.free w]
              else st.log ++ [Event.alloc w] := by
          unfold ProcHAEventInvoke
          dsimp only
          rw [if_pos h, hT]
          dsimp only
          rw [t1, if_pos hw]
          cases he : st.timestamp_enabled <;>
            simp [TimestampFree, TimestampFree.entryChecks, MemoryFree, NULL, hw0, upd_same,
              t3, t4, he, OCI_OBJECT_FETCHED_DIRTY, OCI_OBJECT_FETCHED_CLEAN,
              OCI_OBJECT_ALLOCATED, OCI_OBJECT_ALLOCATED_ARRAY]
        have hlive : st.timestamp_enabled = true →
            (ProcHAEventInvoke cfg o con_svr con ha_params st).2.live = st.live := by
          intro he
          unfold ProcHAEventInvoke
          dsimp only
          rw [if_pos h, hT]
          dsimp only
          rw [t1, if_pos hw]
          simp [TimestampFree, TimestampFree.entryChecks, MemoryFree, NULL, hw0, upd_same,
            t2, t4, he, OCI_OBJECT_FETCHED_DIRTY, OCI_OBJECT_FETCHED_CLEAN,
            OCI_OBJECT_ALLOCATED, OCI_OBJECT_ALLOCATED_ARRAY]
        have hcalls : (ProcHAEventInvoke cfg o con_svr con ha_params st).1
            = [({ con := con, source := ha_params.source, event := ha_params.event,
                  tmsp := w }, T.2)] := by
          unfold ProcHAEventInvoke
          dsimp only
          rw [if_pos h, hT]
          dsimp only
          rw [t1, if_pos hw]
        refine ⟨?_, ?_⟩
        · intro e he h0 type
          unfold newEvents at he
          rw [hlog] at he
          cases hen : st.timestamp_enabled <;> rw [hen] at he <;> simp at he
          · rw [he]; simp
          · rcases he with he | he <;> rw [he] <;> simp
        · intro _ _ hen w2 ho2 _ _
          have hww : w2 = w := by
            rw [ho] at ho2
            exact (Option.some.inj ho2).symm
          subst hww
          refine ⟨T.2, hcalls, t2, t3, t5, t6, ?_, hlive hen⟩
          rw [hlog, hen]
          rfl
    · have hr : ProcHAEventInvoke cfg o con_svr con ha_params st = ([], st) := by
        unfold ProcHAEventInvoke
        dsimp only
        rw [if_neg h]
        rfl
      rw [hr]
      refine ⟨by simp [newEvents], ?_⟩
      intro h1 h2
      exact absurd ⟨h1, h2⟩ h

/-- C28 at the connection 3 of the server 5 in a fresh library, with the wrapper at 7: one
call of the handler, with the wrapper 7; the log is the allocation and the release of 7. -/
theorem C28_witness :
    (3 : Ptr) ≠ NULL ∧ (fun _ : Ptr => (5 : Ptr)) 3 = demoHAEvent.srvhp ∧
    demoHAEvent.dthp ≠ NULL ∧ emptyState.timestamp_enabled = true ∧
    (∃ s1, (ProcHAEventInvoke demoConfig { wrapper := some 7, descriptor := none }
          (fun _ => 5) 3 demoHAEvent emptyState).1
        = [({ con := 3, source := demoHAEvent.source, event := demoHAEvent.event,
              tmsp := 7 }, s1)] ∧
      s1.live = 7 :: emptyState.live ∧ s1.log = emptyState.log ++ [Event.alloc 7] ∧
      (s1.objAt 7).handle = demoHAEvent.dthp ∧
      (s1.objAt 7).hstate = OCI_OBJECT_FETCHED_CLEAN ∧
      (ProcHAEventInvoke demoConfig { wrapper := some 7, descriptor := none }
          (fun _ => 5) 3 demoHAEvent emptyState).2.log
        = emptyState.log ++ [Event.alloc 7, Event.free 7] ∧
      (ProcHAEventInvoke demoConfig { wrapper := some 7, descriptor := none }
          (fun _ => 5) 3 demoHAEvent emptyState).2.live = emptyState.live) :=
  ⟨by decide, rfl, by decide, rfl,
    ((C28_ProcHAEventInvoke_once demoConfig { wrapper := some 7, descriptor := none }
        (fun _ => 5) 3 demoHAEvent emptyState).2.2 (by decide)).2 (by decide) rfl rfl 7 rfl
      (by decide) (by decide)⟩

end Ocilib
